import Mathlib

/-!
# NDT mapping benchmark kernels: shallow embedding and verified properties

The scalar type `K` stands for the exact-arithmetic reading of the C++ `float` /
`double` values (any linearly ordered field; `ℚ` is used for evaluation, `ℝ` with
`Real.cos` / `Real.sin` where the source calls `cos` / `sin`).
Machine `int` values are modelled as `ℤ`.  Fixed-size C arrays are functions from
`Fin n`.  By-reference output parameters become returned values; in `solve` and
`invertMatrix` a division whose divisor is zero makes the embedded function return
`none`.

Where a property depends on rounding, on infinities or on NaN, the functions concerned
have a second embedding: the definitions named `..._float` round every single-precision
operation by a function `fl` (`roundFloat` is the rounding to the nearest IEEE 754
binary32 value; with `fl = id` they are the exact definitions), and the definitions named
`..._nan` compute on values of type `Fp K`, a number, an infinity or NaN.  The scan of the
OpenMP-offload variant is embedded with the semantics of its `reduction` clauses.

Sources embedded:
* `src/OpenCl/ndt_mapping/kernel.cpp`            (variant "OpenCl")
* `src/OpenCl-atomic/ndt_mapping/ndt_mapping.cpp` (variant "OpenCl-atomic")
* `src/OpenMP-offload/ndt_mapping/kernel.cpp`     (variant "OpenMP-offload")
* `src/base/ndt_mapping/common/datatypes_base.h`
-/

set_option autoImplicit false

namespace ndt_mapping

/-! ## Data types (`datatypes_base.h`) -/

/-- `typedef struct Mat66 { double data[6][6]; } Mat66;` -/
structure Mat66 (K : Type) where
  data : Fin 6 → Fin 6 → K

/-- `typedef double Vec6[6];` -/
abbrev Vec6 (K : Type) := Fin 6 → K

/-- `typedef struct Mat33 { double data[3][3]; } Mat33;` -/
structure Mat33 (K : Type) where
  data : Fin 3 → Fin 3 → K

/-- `typedef struct Matrix4f { float data[4][4]; } Matrix4f;` -/
structure Matrix4f (K : Type) where
  data : Fin 4 → Fin 4 → K

/-- `typedef struct PointXYZI { float data[4]; } PointXYZI;` -/
structure PointXYZI (K : Type) where
  data : Fin 4 → K

section Constants

variable {K : Type} [Field K]

/-- `#define MAX_EPS 2.0` of `OpenCl/ndt_mapping/kernel.cpp:28` (documented there as the
comparator tolerance for rotation-matrix entries). -/
def MAX_EPS_OpenCl : K := 2

/-- `#define MAX_EPS 0.001` of `OpenMP-offload/ndt_mapping/kernel.cpp:15`. -/
def MAX_EPS_OpenMP_offload : K := 1 / 1000

/-- Modelled from the spec: the macro `MAX_TRANSLATION_EPS` used by
`OpenCl-atomic/ndt_mapping/ndt_mapping.cpp:154` lives in a header that is not part of the
sources; the spec fixes it as `MAX_TRANSLATION_EPS = 0.001` (the same value as
`#define MAX_TRANSLATION_EPS 0.001` in `OpenMP-offload/ndt_mapping/kernel.cpp:41`). -/
def MAX_TRANSLATION_EPS : K := 1 / 1000

end Constants

/-! ## `solve` : 6×6 Gaussian elimination -/

section Assignments

variable {K : Type}

/-- The assignment `A.data[r][c] = v`. -/
def Mat66.set (A : Mat66 K) (r c : Fin 6) (v : K) : Mat66 K :=
  ⟨fun i k => if i = r ∧ k = c then v else A.data i k⟩

/-- The assignment `b[r] = v`. -/
def Vec6.set (b : Vec6 K) (r : Fin 6) (v : K) : Vec6 K :=
  fun i => if i = r then v else b i

/-- The assignment `matrix.data[r][c] = v` on a 4×4 matrix. -/
def Matrix4f.set (m : Matrix4f K) (r c : Fin 4) (v : K) : Matrix4f K :=
  ⟨fun i k => if i = r ∧ k = c then v else m.data i k⟩

/-- The assignment `p.data[elem] = v` on a point. -/
def PointXYZI.set (p : PointXYZI K) (elem : Fin 4) (v : K) : PointXYZI K :=
  ⟨fun i => if i = elem then v else p.data i⟩

/-- The index range of `for (int i = j + 1; i < 6; i++)`. -/
def rowsBelow (j : Fin 6) : List (Fin 6) :=
  (List.finRange 6).filter (fun i => j < i)

/-- The body of the swap loop run over the columns in `l`:
```
double temp = A.data[mi][i];
A.data[mi][i] = A.data[j][i];
A.data[j][i] = temp;
``` -/
def swapLinesOn (mi j : Fin 6) (l : List (Fin 6)) (A : Mat66 K) : Mat66 K :=
  l.foldl (fun A i =>
    let temp := A.data mi i
    (A.set mi i (A.data j i)).set j i temp) A

/-- The loop `for (int i = 0; i < 6; i++) { swap A[mi][i], A[j][i] }`. -/
def swapLines (A : Mat66 K) (mi j : Fin 6) : Mat66 K :=
  swapLinesOn mi j (List.finRange 6) A

end Assignments

section Solve

variable {K : Type} [LinearOrderedField K]

/-- The pivot search of `solve`:
```
double max = fabs(A.data[j][j]);
int mi = j;
for (int i = j + 1; i < 6; i++)
    if (fabs(A.data[i][j]) > max) { mi = i; max = fabs(A.data[i][j]); }
```
returning `(mi, max)`. -/
def pivotSearch (A : Mat66 K) (j : Fin 6) : Fin 6 × K :=
  (rowsBelow j).foldl
    (fun s i => if |A.data i j| > s.2 then (i, |A.data i j|) else s)
    (j, |A.data j j|)

/-- The first half of one iteration of the outer loop of `solve`: pivot search, the
guarded row swap `if (mi != j) ...` (rows of `A` only: the source does not touch `b`
here) and the singular-matrix substitution `if (max == 0.0) A.data[j][j] = eps;`. -/
def pivotColumn (eps : K) (A : Mat66 K) (j : Fin 6) : Mat66 K :=
  let p := pivotSearch A j
  let A1 := if p.1 ≠ j then swapLines A p.1 j else A
  if p.2 = 0 then A1.set j j eps else A1

/-- The loop `for (k = 0; k < 6; k++) A.data[i][k] = A.data[i][k] - pivot * A.data[j][k];`
run over the columns in `l`. -/
def subtractLineOn (pivot : K) (i j : Fin 6) (l : List (Fin 6)) (A : Mat66 K) : Mat66 K :=
  l.foldl (fun A k => A.set i k (A.data i k - pivot * A.data j k)) A

/-- One iteration of `for (int i = j+1; i < 6; i++)` in the elimination:
```
pivot = A.data[i][j] / A.data[j][j];
for (k ...) A.data[i][k] = A.data[i][k] - pivot * A.data[j][k];
b[i] = b[i] - pivot * b[j];
```
The result is `none` when the divisor `A.data[j][j]` is zero. -/
def eliminateRow (j : Fin 6) (s : Mat66 K × Vec6 K) (i : Fin 6) : Option (Mat66 K × Vec6 K) :=
  if s.1.data j j = 0 then none
  else
    let pivot := s.1.data i j / s.1.data j j
    some (subtractLineOn pivot i j (List.finRange 6) s.1,
          Vec6.set s.2 i (s.2 i - pivot * s.2 j))

/-- One iteration of the outer loop `for (int j = 0; j < 6; j++)` of `solve`. -/
def eliminateColumn (eps : K) (s : Mat66 K × Vec6 K) (j : Fin 6) : Option (Mat66 K × Vec6 K) :=
  (rowsBelow j).foldlM (eliminateRow j) (pivotColumn eps s.1 j, s.2)

/-- The whole "bring to upper diagonal" phase of `solve`. -/
def eliminate (eps : K) (A : Mat66 K) (b : Vec6 K) : Option (Mat66 K × Vec6 K) :=
  (List.finRange 6).foldlM (eliminateColumn eps) (A, b)

/-- One iteration of the backward substitution loop:
```
double sum = 0.0;
for (int j = i+1; j < 6; j++) sum = sum + A.data[i][j] * result[j];
result[i] = (b[i] - sum) / A.data[i][i];
```
The result is `none` when the divisor `A.data[i][i]` is zero. -/
def backSubstRow (A : Mat66 K) (b : Vec6 K) (result : Vec6 K) (i : Fin 6) : Option (Vec6 K) :=
  let sum := (rowsBelow i).foldl (fun sum j => sum + A.data i j * result j) 0
  if A.data i i = 0 then none
  else some (Vec6.set result i ((b i - sum) / A.data i i))

/-- The backward substitution of `solve`:
`result[5] = b[5] / A.data[5][5];` followed by `for (int i = 4; i >= 0; i--) ...`. -/
def backSubstitute (result : Vec6 K) (A : Mat66 K) (b : Vec6 K) : Option (Vec6 K) :=
  if A.data 5 5 = 0 then none
  else [4, 3, 2, 1, 0].foldlM (backSubstRow A b) (Vec6.set result 5 (b 5 / A.data 5 5))

/-- `void solve(Vec6& result, Mat66 A, Vec6& b)`; `eps` is the constant substituted for a
zero pivot (`MAX_TRANSLATION_EPS` resp. `MAX_EPS`, depending on the variant), `result`
is the prior content of the output vector.  The returned value is the final `result`. -/
def solve (eps : K) (result : Vec6 K) (A : Mat66 K) (b : Vec6 K) : Option (Vec6 K) :=
  (eliminate eps A b).bind (fun s => backSubstitute result s.1 s.2)

/-- `solve` as compiled in `OpenCl-atomic/ndt_mapping/ndt_mapping.cpp`. -/
def solve_OpenCl_atomic (result : Vec6 K) (A : Mat66 K) (b : Vec6 K) : Option (Vec6 K) :=
  solve MAX_TRANSLATION_EPS result A b

/-- `solve` as compiled in `OpenCl/ndt_mapping/kernel.cpp`. -/
def solve_OpenCl (result : Vec6 K) (A : Mat66 K) (b : Vec6 K) : Option (Vec6 K) :=
  solve MAX_EPS_OpenCl result A b

/-- `solve` as compiled in `OpenMP-offload/ndt_mapping/kernel.cpp`. -/
def solve_OpenMP_offload (result : Vec6 K) (A : Mat66 K) (b : Vec6 K) : Option (Vec6 K) :=
  solve MAX_EPS_OpenMP_offload result A b

/-- The matrix-vector product `A * x`. -/
def Mat66.mulVec (A : Mat66 K) (x : Vec6 K) : Vec6 K :=
  fun i => ((List.finRange 6).map (fun k => A.data i k * x k)).sum

end Solve


/-! ## `invertMatrix` : 3×3 inverse -/

section Invert

variable {K : Type} [Field K] [DecidableEq K]

/-- The determinant computed at the head of `invertMatrix`. -/
def invertMatrix_det (m : Mat33 K) : K :=
  m.data 0 0 * (m.data 2 2 * m.data 1 1 - m.data 2 1 * m.data 1 2) -
  m.data 1 0 * (m.data 2 2 * m.data 0 1 - m.data 2 1 * m.data 0 2) +
  m.data 2 0 * (m.data 1 2 * m.data 0 1 - m.data 1 1 * m.data 0 2)

/-- The matrix `temp` filled in by `invertMatrix` ("adjungated matrix of minors"). -/
def invertMatrix_temp (m : Mat33 K) : Mat33 K :=
  ⟨![![m.data 2 2 * m.data 1 1 - m.data 2 1 * m.data 1 2,
       -(m.data 2 2 * m.data 0 1 - m.data 2 1 * m.data 0 2),
       m.data 1 2 * m.data 0 1 - m.data 1 1 * m.data 0 2],
     ![-(m.data 2 2 * m.data 0 1 - m.data 2 0 * m.data 1 2),
       m.data 2 2 * m.data 0 0 - m.data 2 1 * m.data 0 2,
       -(m.data 1 2 * m.data 0 0 - m.data 1 0 * m.data 0 2)],
     ![m.data 2 1 * m.data 1 0 - m.data 2 0 * m.data 1 1,
       -(m.data 2 1 * m.data 0 0 - m.data 2 0 * m.data 0 1),
       m.data 1 1 * m.data 0 0 - m.data 1 0 * m.data 0 1]]⟩

/-- `void invertMatrix(Mat33 &m)` (identical text in the three variants); the returned
matrix is the content written back to `m`, `none` when `det` is zero (`1.0 / det`). -/
def invertMatrix (m : Mat33 K) : Option (Mat33 K) :=
  let det := invertMatrix_det m
  if det = 0 then none
  else
    let invDet := 1 / det
    let temp := invertMatrix_temp m
    some ⟨fun row col => temp.data row col * invDet⟩

/-- The 3×3 matrix product. -/
def Mat33.mul (a b : Mat33 K) : Mat33 K :=
  ⟨fun i k => a.data i 0 * b.data 0 k + a.data i 1 * b.data 1 k + a.data i 2 * b.data 2 k⟩

/-- The 3×3 identity matrix. -/
def Mat33.one : Mat33 K :=
  ⟨fun i k => if i = k then 1 else 0⟩

end Invert

/-! ## `buildTransformationMatrix` : pose to 4×4 matrix -/

section BuildTransformation

variable {K : Type} [Field K]

/-- The first half of `buildTransformationMatrix`: the three axis quaternions and their
composition, returning the 4-tuple `(r2_x, r2_y, r2_z, r2_w)` of the source (comments
"quaternion 1 * quaternion 2" and "q1*q2 * quaternion 3").  `cos` and `sin` are the
library functions. -/
def composeQuaternions (cos sin : K → K) (transform : Vec6 K) : K × K × K × K :=
  let q_ha := (1 / 2) * transform 3
  let q_w := cos q_ha
  let q_x := sin q_ha
  let q_y : K := 0
  let q_z : K := 0
  let q_ha2 := (1 / 2) * transform 4
  let q_w2 := cos q_ha2
  let q_x2 : K := 0
  let q_y2 := sin q_ha2
  let q_z2 : K := 0
  let q_ha3 := (1 / 2) * transform 5
  let q_w3 := cos q_ha3
  let q_x3 : K := 0
  let q_y3 : K := 0
  let q_z3 := sin q_ha3
  -- quaternion 1 * quaternion 2
  let r_x := q_w * q_w2 - q_x * q_x2 - q_y * q_y2 - q_z * q_z2
  let r_y := q_w * q_x2 + q_x * q_w2 + q_y * q_z2 - q_z * q_y2
  let r_z := q_w * q_y2 + q_y * q_w2 + q_z * q_x2 - q_x * q_z2
  let r_w := q_w * q_z2 + q_z * q_w2 + q_x * q_y2 - q_y * q_x2
  -- q1*q2 * quaternion 3
  let r2_x := r_w * q_w3 - r_x * q_x3 - r_y * q_y3 - r_z * q_z3
  let r2_y := r_w * q_x3 + r_x * q_w3 + r_y * q_z3 - r_z * q_y3
  let r2_z := r_w * q_y3 + r_y * q_w3 + r_z * q_x3 - r_x * q_z3
  let r2_w := r_w * q_z3 + r_z * q_w3 + r_x * q_y3 - r_y * q_x3
  (r2_x, r2_y, r2_z, r2_w)

/-- The second half of `buildTransformationMatrix`: the intermediate products
`tx ... tzz` and the assignments to `matrix`, kept in source order; `q` is the 4-tuple
`(r2_x, r2_y, r2_z, r2_w)`, `matrix` the prior content of the output parameter. -/
def writeTransformation (matrix : Matrix4f K) (transform : Vec6 K) (q : K × K × K × K) :
    Matrix4f K :=
  let r2_x := q.1
  let r2_y := q.2.1
  let r2_z := q.2.2.1
  let r2_w := q.2.2.2
  let tx := 2 * r2_x
  let ty := 2 * r2_y
  let tz := 2 * r2_z
  let twx := tx * r2_w
  let twy := ty * r2_w
  let twz := tz * r2_w
  let txx := tx * r2_x
  let txy := ty * r2_x
  let txz := tz * r2_x
  let tyy := ty * r2_y
  let tyz := tz * r2_y
  let tzz := tz * r2_z
  let m := matrix.set 3 0 0
  let m := m.set 3 1 0
  let m := m.set 3 2 0
  let m := m.set 3 3 1
  let m := m.set 0 0 (transform 0)
  let m := m.set 0 1 (transform 1)
  let m := m.set 0 2 (transform 2)
  let m := m.set 0 0 (1 - (tyy + tzz))
  let m := m.set 0 1 (txy - twz)
  let m := m.set 0 2 (txz + twy)
  let m := m.set 1 0 (txy + twz)
  let m := m.set 1 1 (1 - (txx + tzz))
  let m := m.set 1 2 (tyz - twx)
  let m := m.set 2 0 (txz - twy)
  let m := m.set 2 1 (tyz + twx)
  m.set 2 2 (1 - (txx + tyy))

/-- `void ndt_mapping::buildTransformationMatrix(Matrix4f &matrix, Vec6 transform)`
(identical text in the three variants).  `matrix` is the prior content of the output
parameter; the returned value is its final content. -/
def buildTransformationMatrix (cos sin : K → K) (matrix : Matrix4f K) (transform : Vec6 K) :
    Matrix4f K :=
  writeTransformation matrix transform (composeQuaternions cos sin transform)

end BuildTransformation

/-! ## Voxel grid addressing and sizing -/

section Grid

/-- `inline int ndt_mapping::linearizeAddr(const int x, const int y, const int z)`;
`voxelDimension` is the class member read by the function. -/
def linearizeAddr (voxelDimension : Fin 3 → ℤ) (x y z : ℤ) : ℤ :=
  x + voxelDimension 0 * (y + voxelDimension 1 * z)

variable {K : Type} [LinearOrderedField K] [FloorRing K]

/-- The conversion of a floating-point value to `int` (truncation toward zero). -/
def toInt (x : K) : ℤ :=
  if 0 ≤ x then ⌊x⌋ else ⌈x⌉

/-- `inline int ndt_mapping::linearizeCoord(const float x, const float y, const float z)`;
`minVoxel`, `resolution_` and `voxelDimension` are the class members it reads.  The
subtraction and the division are exact here; `linearizeCoord_float` rounds them. -/
def linearizeCoord (minVoxel : PointXYZI K) (resolution_ : K) (voxelDimension : Fin 3 → ℤ)
    (x y z : K) : ℤ :=
  let idx_x := toInt ((x - minVoxel.data 0) / resolution_)
  let idx_y := toInt ((y - minVoxel.data 1) / resolution_)
  let idx_z := toInt ((z - minVoxel.data 2) / resolution_)
  linearizeAddr voxelDimension idx_x idx_y idx_z

/-- The class members written by the grid-sizing part of `initCompute`. -/
structure GridBounds (K : Type) where
  minVoxel : PointXYZI K
  maxVoxel : PointXYZI K
  voxelDimension : Fin 3 → ℤ

/-- The body of the min/max scan for one point and one coordinate:
```
if ( (*target_)[i].data[elem] > maxVoxel.data[elem] ) maxVoxel.data[elem] = (*target_)[i].data[elem];
if ( (*target_)[i].data[elem] < minVoxel.data[elem] ) minVoxel.data[elem] = (*target_)[i].data[elem];
```
The state is the pair `(minVoxel, maxVoxel)`. -/
def scanElem (p : PointXYZI K) (s : PointXYZI K × PointXYZI K) (elem : Fin 4) :
    PointXYZI K × PointXYZI K :=
  let maxVoxel := if p.data elem > s.2.data elem then s.2.set elem (p.data elem) else s.2
  let minVoxel := if p.data elem < s.1.data elem then s.1.set elem (p.data elem) else s.1
  (minVoxel, maxVoxel)

/-- The inner loop `for (int elem = 0; elem < 3; elem++)` of the scan, for one point. -/
def scanPoint (s : PointXYZI K × PointXYZI K) (p : PointXYZI K) : PointXYZI K × PointXYZI K :=
  [0, 1, 2].foldl (scanElem p) s

/-- The min/max scan at the head of `initCompute`:
```
minVoxel = (*target_)[0];
maxVoxel = (*target_)[0];
for (int i = 1; i < target_->size(); i++) for (int elem = 0; elem < 3; elem++) ...
```
returning `(minVoxel, maxVoxel)`; `none` for the empty cloud, where `(*target_)[0]` does
not exist. -/
def minMaxScan (target : List (PointXYZI K)) : Option (PointXYZI K × PointXYZI K) :=
  match target with
  | [] => none
  | p0 :: rest => some (rest.foldl scanPoint (p0, p0))

/-- The assignment
`voxelDimension[i] = (maxVoxel.data[i] - minVoxel.data[i]) / resolution_ + 1;`
for `i = 0, 1, 2` (a floating-point value converted to `int`), in exact arithmetic;
`computeVoxelDimension_float` rounds the three operations. -/
def computeVoxelDimension (resolution_ : K) (minVoxel maxVoxel : PointXYZI K) : Fin 3 → ℤ :=
  fun i => toInt ((maxVoxel.data i.castSucc - minVoxel.data i.castSucc) / resolution_ + 1)

/-- The grid-sizing part of `ndt_mapping::initCompute` in `OpenCl/ndt_mapping/kernel.cpp`
(lines 1809-1830): the scan, then the dimensions from the scanned corners. -/
def initCompute_grid_OpenCl (resolution_ : K) (target : List (PointXYZI K)) :
    Option (GridBounds K) :=
  (minMaxScan target).map (fun s =>
    ⟨s.1, s.2, computeVoxelDimension resolution_ s.1 s.2⟩)

/-- The constructor value `transformation_epsilon_ = 0.1` (all variants). -/
def transformation_epsilon_ : K := 1 / 10

/-- The constructor value `resolution_ = 1.0` (all variants). -/
def resolution_ : K := 1

end Grid

/-! ## The min/max scan of the OpenMP-offload variant -/

section GridOpenMP

variable {K : Type} [LinearOrderedField K] [FloorRing K]

end GridOpenMP

/-! ## Spec-side predicates and loop invariants -/

section SpecSide

variable {K : Type} [LinearOrderedField K]

/-- The invariant of the outer elimination loop of `solve`: the first `n` diagonal
entries are nonzero. -/
def DiagNonzero (n : ℕ) (A : Mat66 K) : Prop :=
  ∀ i : Fin 6, i.val < n → A.data i i ≠ 0

/-- Spec-side reading of "componentwise min of the target cloud" on coordinate `k`:
`v` is attained by some point and is below every point. -/
def IsComponentwiseMin (target : List (PointXYZI K)) (k : Fin 4) (v : K) : Prop :=
  (∃ p ∈ target, p.data k = v) ∧ ∀ p ∈ target, v ≤ p.data k

/-- Spec-side reading of "componentwise max of the target cloud" on coordinate `k`:
`v` is attained by some point and is above every point. -/
def IsComponentwiseMax (target : List (PointXYZI K)) (k : Fin 4) (v : K) : Prop :=
  (∃ p ∈ target, p.data k = v) ∧ ∀ p ∈ target, p.data k ≤ v

end SpecSide

/-! ## Concrete inputs used for evaluation -/

/-- A symmetric, nonsingular 6×6 matrix whose first pivot search selects row 1. -/
def swapA : Mat66 ℚ :=
  ⟨![![0, 1, 0, 0, 0, 0],
     ![1, 0, 0, 0, 0, 0],
     ![0, 0, 1, 0, 0, 0],
     ![0, 0, 0, 1, 0, 0],
     ![0, 0, 0, 0, 1, 0],
     ![0, 0, 0, 0, 0, 1]]⟩

/-- A right-hand side for `swapA`. -/
def swapB : Vec6 ℚ := ![1, 2, 0, 0, 0, 0]

/-- The 6×6 zero matrix. -/
def zeroA : Mat66 ℚ := ⟨fun _ _ => 0⟩

/-- The all-ones right-hand side. -/
def onesB : Vec6 ℚ := fun _ => 1

/-- The zero vector (used as prior content of `result`). -/
def zeroVec6 : Vec6 ℚ := fun _ => 0

/-- A symmetric positive definite 3×3 matrix (eigenvalues 1, 2, 3). -/
def symM : Mat33 ℚ := ⟨![![2, 0, 1], ![0, 2, 0], ![1, 0, 2]]⟩

/-- The pose `(tx,ty,tz,rx,ry,rz) = (0,0,0,0,0,0)`. -/
def zeroPose : Vec6 ℝ := fun _ => 0

/-- The pose `(tx,ty,tz,rx,ry,rz) = (1,2,3,0,0,0)`. -/
def shiftPose : Vec6 ℝ := ![1, 2, 3, 0, 0, 0]

/-- The 4×4 zero matrix (a prior content of the output parameter). -/
def zeroMatrix4f : Matrix4f ℝ := ⟨fun _ _ => 0⟩

/-- A two-point target cloud. -/
def cloud2 : List (PointXYZI ℚ) := [⟨![1, 2, 3, 0]⟩, ⟨![4, 0, 5, 0]⟩]

/-! ## Lemmas on `solve` -/

/-! ## Score derivatives (`updateDerivatives`) -/

/-- `typedef double Vec3[3];` -/
abbrev Vec3 (K : Type) := Fin 3 → K

/-- `typedef struct Mat36 { double data[3][6]; } Mat36;` -/
structure Mat36 (K : Type) where
  data : Fin 3 → Fin 6 → K

/-- `typedef struct Mat186 { double data[18][6]; } Mat186;` -/
structure Mat186 (K : Type) where
  data : Fin 18 → Fin 6 → K

section Derivatives

variable {K : Type} [LinearOrderedField K]

/-- `double dot_product(Vec3 &a, Vec3 &b)`. -/
def dot_product (a b : Vec3 K) : K :=
  a 0 * b 0 + a 1 * b 1 + a 2 * b 2

/-- `double dot_product6(Vec6 &a, Vec6 &b)`. -/
def dot_product6 (a b : Vec6 K) : K :=
  a 0 * b 0 + a 1 * b 1 + a 2 * b 2 + a 3 * b 3 + a 4 * b 4 + a 5 * b 5

/-- The accumulation loops
```
for (int row = 0; row < 3; row++) {
    out[row] = 0;
    for (int col = 0; col < 3; col++) out[row] += c_inv.data[row][col] * v[col];
}
```
used for `cov_dxd_pi` and `matProd`. -/
def matVec3 (c_inv : Mat33 K) (v : Vec3 K) : Vec3 K :=
  fun row => (List.finRange 3).foldl (fun acc col => acc + c_inv.data row col * v col) 0

/-- The row index `3*i + r` of `point_hessian_`. -/
def hessianRow (i : Fin 6) (r : Fin 3) : Fin 18 :=
  ⟨3 * i.val + r.val, by omega⟩

/-- The value `xCx` computed at the head of `updateDerivatives` and `updateHessian`. -/
def xCx (x_trans : Vec3 K) (c_inv : Mat33 K) : K :=
  c_inv.data 0 0 * x_trans 0 * x_trans 0 +
  c_inv.data 1 1 * x_trans 1 * x_trans 1 +
  c_inv.data 2 2 * x_trans 2 * x_trans 2 +
  (c_inv.data 0 1 + c_inv.data 1 0) * x_trans 0 * x_trans 1 +
  (c_inv.data 0 2 + c_inv.data 2 0) * x_trans 0 * x_trans 2 +
  (c_inv.data 1 2 + c_inv.data 2 1) * x_trans 1 * x_trans 2

/-- The body of the inner loop `for (int j = 0; j < 6; j++)` of `updateDerivatives`
(the Hessian update of row `i`); `e_x_cov_x` is the value after `e_x_cov_x *= gauss_d1_`. -/
def updateHessianEntry (gauss_d2_ : K) (point_gradient_ : Mat36 K) (point_hessian_ : Mat186 K)
    (x_trans : Vec3 K) (c_inv : Mat33 K) (e_x_cov_x : K) (cov_dxd_pi : Vec3 K) (i : Fin 6)
    (hessian : Mat66 K) (j : Fin 6) : Mat66 K :=
  let colVec : Vec3 K := fun r => point_gradient_.data r j
  let colVecHess : Vec3 K := fun r => colVec r + point_hessian_.data (hessianRow i r) j
  let matProd := matVec3 c_inv colVecHess
  hessian.set i j (hessian.data i j +
    e_x_cov_x * (-gauss_d2_ * dot_product x_trans cov_dxd_pi * dot_product x_trans matProd +
      dot_product colVec cov_dxd_pi))

/-- The body of the outer loop `for (int i = 0; i < 6; i++)` of `updateDerivatives`; the
state is `(score_gradient, hessian)`. -/
def updateDerivativesRow (gauss_d2_ : K) (point_gradient_ : Mat36 K) (point_hessian_ : Mat186 K)
    (x_trans : Vec3 K) (c_inv : Mat33 K) (compute_hessian : Bool) (e_x_cov_x : K)
    (s : Vec6 K × Mat66 K) (i : Fin 6) : Vec6 K × Mat66 K :=
  let cov_dxd_pi := matVec3 c_inv (fun col => point_gradient_.data col i)
  let score_gradient := Vec6.set s.1 i (s.1 i + dot_product x_trans cov_dxd_pi * e_x_cov_x)
  let hessian :=
    if compute_hessian then
      (List.finRange 6).foldl
        (updateHessianEntry gauss_d2_ point_gradient_ point_hessian_ x_trans c_inv e_x_cov_x
          cov_dxd_pi i) s.2
    else s.2
  (score_gradient, hessian)

/-- `double ndt_mapping::updateDerivatives (Vec6 &score_gradient, Mat66 &hessian,
Vec3 &x_trans, Mat33 &c_inv, bool compute_hessian)`.  `exp` is the library function;
`gauss_d1_`, `gauss_d2_`, `point_gradient_`, `point_hessian_` are the class members read.
The result is the returned score increment with the final `score_gradient` and `hessian`.
The test `e_x_cov_x != e_x_cov_x` of the source is kept as written. -/
def updateDerivatives (exp : K → K) (gauss_d1_ gauss_d2_ : K) (point_gradient_ : Mat36 K)
    (point_hessian_ : Mat186 K) (score_gradient : Vec6 K) (hessian : Mat66 K)
    (x_trans : Vec3 K) (c_inv : Mat33 K) (compute_hessian : Bool) : K × Vec6 K × Mat66 K :=
  let e_x_cov_x := exp (-gauss_d2_ * xCx x_trans c_inv / 2)
  let score_inc := -gauss_d1_ * e_x_cov_x
  let e_x_cov_x := gauss_d2_ * e_x_cov_x
  if e_x_cov_x > 1 ∨ e_x_cov_x < 0 ∨ e_x_cov_x ≠ e_x_cov_x then (0, score_gradient, hessian)
  else
    let e_x_cov_x := e_x_cov_x * gauss_d1_
    let s := (List.finRange 6).foldl
      (updateDerivativesRow gauss_d2_ point_gradient_ point_hessian_ x_trans c_inv
        compute_hessian e_x_cov_x) (score_gradient, hessian)
    (score_inc, s.1, s.2)

end Derivatives

/-! ## More-Thuente line search -/

/-- The six by-reference endpoint values `a_l, f_l, g_l, a_u, f_u, g_u` of
`updateIntervalMT`. -/
structure IntervalMT (K : Type) where
  a_l : K
  f_l : K
  g_l : K
  a_u : K
  f_u : K
  g_u : K

section LineSearch

variable {K : Type} [LinearOrderedField K]

/-- `inline double auxilaryFunction_dPsiMT (double g_a, double g_0, double mu = 1.e-4)`. -/
def auxilaryFunction_dPsiMT (g_a g_0 mu : K) : K :=
  g_a - mu * g_0

/-- `inline double auxilaryFunction_PsiMT (double a, double f_a, double f_0, double g_0,
double mu = 1.e-4)`. -/
def auxilaryFunction_PsiMT (a f_a f_0 g_0 mu : K) : K :=
  f_a - f_0 - mu * g_0 * a

/-- `bool ndt_mapping::updateIntervalMT (a_l, f_l, g_l, a_u, f_u, g_u, a_t, f_t, g_t)`:
the returned flag and the final values of the six by-reference parameters. -/
def updateIntervalMT (I : IntervalMT K) (a_t f_t g_t : K) : Bool × IntervalMT K :=
  if f_t > I.f_l then
    (false, { I with a_u := a_t, f_u := f_t, g_u := g_t })
  else if g_t * (I.a_l - a_t) > 0 then
    (false, { I with a_l := a_t, f_l := f_t, g_l := g_t })
  else if g_t * (I.a_l - a_t) < 0 then
    (false, { a_u := I.a_l, f_u := I.f_l, g_u := I.g_l, a_l := a_t, f_l := f_t, g_l := g_t })
  else
    (true, I)

/-- The end of case 3 of `trialValueSelectionMT`, from the two candidates `a_c`, `a_s`:
```
if (fabs (a_c - a_t) < fabs (a_s - a_t)) a_t_next = a_c; else a_t_next = a_s;
if (a_t > a_l) return (std::min (a_t + 0.66 * (a_u - a_t), a_t_next));
else           return (std::max (a_t + 0.66 * (a_u - a_t), a_t_next));
``` -/
def trialValueCase3 (a_l a_u a_t a_c a_s : K) : K :=
  let a_t_next := if |a_c - a_t| < |a_s - a_t| then a_c else a_s
  if a_t > a_l then min (a_t + 66 / 100 * (a_u - a_t)) a_t_next
  else max (a_t + 66 / 100 * (a_u - a_t)) a_t_next

/-- `double ndt_mapping::trialValueSelectionMT (a_l, f_l, g_l, a_u, f_u, g_u, a_t, f_t,
g_t)`; `sqrt` is the library function.  Divisions are the field's. -/
def trialValueSelectionMT (sqrt : K → K) (a_l f_l g_l a_u f_u g_u a_t f_t g_t : K) : K :=
  if f_t > f_l then
    let z := 3 * (f_t - f_l) / (a_t - a_l) - g_t - g_l
    let w := sqrt (z * z - g_t * g_l)
    let a_c := a_l + (a_t - a_l) * (w - g_l - z) / (g_t - g_l + 2 * w)
    let a_q := a_l - 1 / 2 * (a_l - a_t) * g_l / (g_l - (f_l - f_t) / (a_l - a_t))
    if |a_c - a_l| < |a_q - a_l| then a_c else 1 / 2 * (a_q + a_c)
  else if g_t * g_l < 0 then
    let z := 3 * (f_t - f_l) / (a_t - a_l) - g_t - g_l
    let w := sqrt (z * z - g_t * g_l)
    let a_c := a_l + (a_t - a_l) * (w - g_l - z) / (g_t - g_l + 2 * w)
    let a_s := a_l - (a_l - a_t) / (g_l - g_t) * g_l
    if |a_c - a_t| ≥ |a_s - a_t| then a_c else a_s
  else if |g_t| ≤ |g_l| then
    let z := 3 * (f_t - f_l) / (a_t - a_l) - g_t - g_l
    let w := sqrt (z * z - g_t * g_l)
    let a_c := a_l + (a_t - a_l) * (w - g_l - z) / (g_t - g_l + 2 * w)
    let a_s := a_l - (a_l - a_t) / (g_l - g_t) * g_l
    trialValueCase3 a_l a_u a_t a_c a_s
  else
    let z := 3 * (f_t - f_u) / (a_t - a_u) - g_t - g_u
    let w := sqrt (z * z - g_t * g_u)
    a_u + (a_t - a_u) * (w - g_u - z) / (g_t - g_u + 2 * w)

end LineSearch

/-- The objects `computeStepLengthMT` writes: its by-reference parameters `step_dir`,
`score`, `score_gradient`, `hessian`, `trans_cloud`, the class member
`final_transformation_`, and `members`, the remaining class members written by the
callees `computeDerivatives` and `computeHessian` (`point_gradient_`, `point_hessian_`,
the angular derivative vectors). -/
structure LineSearchState (K : Type) (σ : Type) where
  step_dir : Vec6 K
  score : K
  score_gradient : Vec6 K
  hessian : Mat66 K
  trans_cloud : List (PointXYZI K)
  final_transformation_ : Matrix4f K
  members : σ

/-- What `computeStepLengthMT` calls or reads without writing: the library functions, the
callees `computeDerivatives` and `computeHessian` (taken as arbitrary functions of their
arguments and of the class members), the source cloud `*input_`, and `uninit`, the value
of the never assigned fourth component of the local `PointXYZI transformed` in
`transformPointCloud`. -/
structure LineSearchEnv (K : Type) (σ : Type) where
  cos : K → K
  sin : K → K
  sqrt : K → K
  computeDerivatives :
    Vec6 K → Mat66 K → List (PointXYZI K) → Vec6 K → Bool → σ → K × Vec6 K × Mat66 K × σ
  computeHessian : Mat66 K → List (PointXYZI K) → Vec6 K → σ → Mat66 K × σ
  input_ : List (PointXYZI K)
  uninit : K

/-- The local variables of the search loop of `computeStepLengthMT`. -/
structure StepLoop (K : Type) where
  x_t : Vec6 K
  I : IntervalMT K
  a_t : K
  phi_t : K
  d_phi_t : K
  psi_t : K
  d_psi_t : K
  open_interval : Bool
  interval_converged : Bool
  step_iterations : ℕ

section StepLength

variable {K : Type} [LinearOrderedField K] {σ : Type}

/-- `void transformPointCloud(const PointCloud& input, PointCloud &output, Matrix4f
transform)`: the content written to `output`. -/
def transformPointCloud (uninit : K) (input : List (PointXYZI K)) (transform : Matrix4f K) :
    List (PointXYZI K) :=
  input.map (fun p =>
    ⟨fun row =>
      if row = 3 then uninit
      else transform.data row 0 * p.data 0 + transform.data row 1 * p.data 1 +
        transform.data row 2 * p.data 2 + transform.data row 3⟩)

/-- The loop `for (int i = 0; i < 6; i++) x_t[i] = x[i] + step_dir[i] * a_t;`. -/
def trialPose (x step_dir : Vec6 K) (a_t : K) : Vec6 K :=
  fun i => x i + step_dir i * a_t

/-- The block
```
buildTransformationMatrix(final_transformation_, x_t);
transformPointCloud (*input_, trans_cloud, final_transformation_);
score = computeDerivatives (score_gradient, hessian, trans_cloud, x_t, compute_hessian);
```
executed for every trial pose `x_t`. -/
def evaluateTrial (env : LineSearchEnv K σ) (x_t : Vec6 K) (compute_hessian : Bool)
    (s : LineSearchState K σ) : LineSearchState K σ :=
  let final_transformation_ :=
    buildTransformationMatrix env.cos env.sin s.final_transformation_ x_t
  let trans_cloud := transformPointCloud env.uninit env.input_ final_transformation_
  let r := env.computeDerivatives s.score_gradient s.hessian trans_cloud x_t compute_hessian
    s.members
  { s with
    final_transformation_ := final_transformation_
    trans_cloud := trans_cloud
    score := r.1
    score_gradient := r.2.1
    hessian := r.2.2.1
    members := r.2.2.2 }

/-- The body of the `while` loop of `computeStepLengthMT`. -/
def stepLoopBody (env : LineSearchEnv K σ) (x : Vec6 K) (phi_0 d_phi_0 mu step_max step_min : K)
    (l : StepLoop K) (s : LineSearchState K σ) : StepLoop K × LineSearchState K σ :=
  let a_t :=
    if l.open_interval then
      trialValueSelectionMT env.sqrt l.I.a_l l.I.f_l l.I.g_l l.I.a_u l.I.f_u l.I.g_u
        l.a_t l.psi_t l.d_psi_t
    else
      trialValueSelectionMT env.sqrt l.I.a_l l.I.f_l l.I.g_l l.I.a_u l.I.f_u l.I.g_u
        l.a_t l.phi_t l.d_phi_t
  let a_t := min a_t step_max
  let a_t := max a_t step_min
  let x_t := trialPose x s.step_dir a_t
  let s := evaluateTrial env x_t false s
  let phi_t := -s.score
  let d_phi_t := -(dot_product6 s.score_gradient s.step_dir)
  let psi_t := auxilaryFunction_PsiMT a_t phi_t phi_0 d_phi_0 mu
  let d_psi_t := auxilaryFunction_dPsiMT d_phi_t d_phi_0 mu
  let closes : Bool := l.open_interval && decide (psi_t ≤ 0 ∧ d_psi_t ≥ 0)
  let open_interval : Bool := if closes then false else l.open_interval
  let I : IntervalMT K :=
    if closes then
      { a_l := l.I.a_l
        f_l := l.I.f_l + phi_0 - mu * d_phi_0 * l.I.a_l
        g_l := l.I.g_l + mu * d_phi_0
        a_u := l.I.a_u
        f_u := l.I.f_u + phi_0 - mu * d_phi_0 * l.I.a_u
        g_u := l.I.g_u + mu * d_phi_0 }
    else l.I
  let u :=
    if open_interval then updateIntervalMT I a_t psi_t d_psi_t
    else updateIntervalMT I a_t phi_t d_phi_t
  ({ x_t := x_t, I := u.2, a_t := a_t, phi_t := phi_t, d_phi_t := d_phi_t, psi_t := psi_t,
     d_psi_t := d_psi_t, open_interval := open_interval, interval_converged := u.1,
     step_iterations := l.step_iterations + 1 }, s)

/-- The loop
```
while (!interval_converged && step_iterations < max_step_iterations &&
       !(psi_t <= 0 && d_phi_t <= -nu * d_phi_0)) { ... }
```
where `n` is `max_step_iterations - step_iterations`, the number of iterations still
allowed by the second conjunct. -/
def stepLoop (env : LineSearchEnv K σ) (x : Vec6 K) (phi_0 d_phi_0 mu nu step_max step_min : K) :
    ℕ → StepLoop K → LineSearchState K σ → StepLoop K × LineSearchState K σ
  | 0, l, s => (l, s)
  | n + 1, l, s =>
    if !l.interval_converged && !decide (l.psi_t ≤ 0 ∧ l.d_phi_t ≤ -nu * d_phi_0) then
      let r := stepLoopBody env x phi_0 d_phi_0 mu step_max step_min l s
      stepLoop env x phi_0 d_phi_0 mu nu step_max step_min n r.1 r.2
    else (l, s)

/-- The part of `computeStepLengthMT` after the direction test (from the comment
"The Search Algorithm for T(mu)" to `return (a_t)`); `d_phi_0` and `s.step_dir` are the
values left by the direction test.  Every trial pose is formed here. -/
def searchStepLength (env : LineSearchEnv K σ) (x : Vec6 K) (step_init step_max step_min : K)
    (phi_0 d_phi_0 : K) (s : LineSearchState K σ) : K × LineSearchState K σ :=
  let max_step_iterations : ℕ := 10
  let mu : K := 1 / 10000
  let nu : K := 9 / 10
  let a_l : K := 0
  let a_u : K := 0
  let f_l := auxilaryFunction_PsiMT a_l phi_0 phi_0 d_phi_0 mu
  let g_l := auxilaryFunction_dPsiMT d_phi_0 d_phi_0 mu
  let f_u := auxilaryFunction_PsiMT a_u phi_0 phi_0 d_phi_0 mu
  let g_u := auxilaryFunction_dPsiMT d_phi_0 d_phi_0 mu
  let interval_converged : Bool := decide (step_max - step_min > 0)
  let a_t := step_init
  let a_t := min a_t step_max
  let a_t := max a_t step_min
  let x_t := trialPose x s.step_dir a_t
  let s := evaluateTrial env x_t true s
  let phi_t := -s.score
  let d_phi_t := -(dot_product6 s.score_gradient s.step_dir)
  let psi_t := auxilaryFunction_PsiMT a_t phi_t phi_0 d_phi_0 mu
  let d_psi_t := auxilaryFunction_dPsiMT d_phi_t d_phi_0 mu
  let r := stepLoop env x phi_0 d_phi_0 mu nu step_max step_min max_step_iterations
    { x_t := x_t, I := { a_l := a_l, f_l := f_l, g_l := g_l, a_u := a_u, f_u := f_u, g_u := g_u },
      a_t := a_t, phi_t := phi_t, d_phi_t := d_phi_t, psi_t := psi_t, d_psi_t := d_psi_t,
      open_interval := true, interval_converged := interval_converged, step_iterations := 0 } s
  let s :=
    if r.1.step_iterations ≠ 0 then
      let h := env.computeHessian r.2.hessian r.2.trans_cloud r.1.x_t r.2.members
      { r.2 with hessian := h.1, members := h.2 }
    else r.2
  (r.1.a_t, s)

/-- `double ndt_mapping::computeStepLengthMT (const Vec6 &x, Vec6 &step_dir, double
step_init, double step_max, double step_min, double &score, Vec6 &score_gradient,
Mat66 &hessian, PointCloudSource &trans_cloud)`: the returned step length and the final
content of the objects it writes. -/
def computeStepLengthMT (env : LineSearchEnv K σ) (x : Vec6 K)
    (step_init step_max step_min : K) (s : LineSearchState K σ) : K × LineSearchState K σ :=
  let phi_0 := -s.score
  let d_phi_0 := -(dot_product6 s.score_gradient s.step_dir)
  if d_phi_0 ≥ 0 then
    if d_phi_0 = 0 then (0, s)
    else
      searchStepLength env x step_init step_max step_min phi_0 (d_phi_0 * -1)
        { s with step_dir := fun i => s.step_dir i * -1 }
  else
    searchStepLength env x step_init step_max step_min phi_0 d_phi_0 s

end StepLength

/-! ## Voxel grid build (`initCompute`, serial path) and radius search -/

/-- `typedef struct Voxel { Mat33 invCovariance; Vec3 mean; int numberPoints; } Voxel;` -/
structure Voxel (K : Type) where
  invCovariance : Mat33 K
  mean : Vec3 K
  numberPoints : ℤ

/-- A cell of `target_cells_` after the second pass of `initCompute`.  A field is `none`
when its computation divided by zero: the floating-point code then holds NaN or an
infinity there, exact arithmetic has no value for it. -/
structure BuiltVoxel (K : Type) where
  invCovariance : Option (Mat33 K)
  mean : Option (Vec3 K)
  numberPoints : ℤ

/-- The state left by `initCompute`: the corners and dimensions, the number of cells
`target_cells_.size()` and the cells, indexed by `int`. -/
structure BuiltGrid (K : Type) where
  bounds : GridBounds K
  size : ℤ
  cells : ℤ → BuiltVoxel K

/-- The two outputs of `voxelRadiusSearch` that reach the caller: the returned count
`result` and the cells pushed to `indices`, each recorded by the index `idx` it was read
from (`indices.push_back(grid[idx])`).  The vector `distances` is passed by value and is
lost. -/
structure RadiusSearchResult where
  result : ℤ
  indices : List ℤ

section GridBuild

variable {K : Type} [LinearOrderedField K] [FloorRing K]

/-- The assignment `m.data[r][c] = v` on a 3×3 matrix. -/
def Mat33.set (m : Mat33 K) (r c : Fin 3) (v : K) : Mat33 K :=
  ⟨fun i k => if i = r ∧ k = c then v else m.data i k⟩

/-- The content given to every cell by the initialisation loop of `initCompute`:
```
target_cells_[i].numberPoints = 0;
target_cells_[i].mean[0] = 0; target_cells_[i].mean[1] = 0; target_cells_[i].mean[2] = 0;
memset(target_cells_[i].invCovariance.data, 0, sizeof(double) * 3 * 3);
target_cells_[i].invCovariance.data[2][0] = 1.0;
target_cells_[i].invCovariance.data[1][1] = 1.0;
target_cells_[i].invCovariance.data[0][2] = 1.0;
``` -/
def initialCell : Voxel K :=
  { numberPoints := 0
    mean := fun _ => 0
    invCovariance := (((⟨fun _ _ => 0⟩ : Mat33 K).set 2 0 1).set 1 1 1).set 0 2 1 }

/-- The body of the first pass of `initCompute` for one target point:
```
int voxelIndex = linearizeCoord(p.data[0], p.data[1], p.data[2]);
target_cells_[voxelIndex].mean[0] += p.data[0]; (also [1], [2])
target_cells_[voxelIndex].numberPoints++;
for (row) for (col) target_cells_[voxelIndex].invCovariance.data[row][col] += p.data[row] * p.data[col];
```
The result is `none` when `voxelIndex` is not an index of `target_cells_`. -/
def firstPassPoint (minVoxel : PointXYZI K) (resolution_ : K) (voxelDimension : Fin 3 → ℤ)
    (size : ℤ) (cells : ℤ → Voxel K) (p : PointXYZI K) : Option (ℤ → Voxel K) :=
  let voxelIndex := linearizeCoord minVoxel resolution_ voxelDimension
    (p.data 0) (p.data 1) (p.data 2)
  if 0 ≤ voxelIndex ∧ voxelIndex < size then
    let c := cells voxelIndex
    let c' : Voxel K :=
      { mean := fun k => c.mean k + p.data k.castSucc
        numberPoints := c.numberPoints + 1
        invCovariance :=
          ⟨fun row col => c.invCovariance.data row col + p.data row.castSucc * p.data col.castSucc⟩ }
    some (fun i => if i = voxelIndex then c' else cells i)
  else none

/-- The statements `target_cells_[i].mean[k] /= target_cells_[i].numberPoints;` of the
second pass: `none` when `numberPoints` is zero. -/
def finalMean (c : Voxel K) : Option (Vec3 K) :=
  if c.numberPoints = 0 then none
  else some (fun k => c.mean k / (c.numberPoints : K))

/-- The matrix that the second pass hands to `invertMatrix`:
```
Vec3 pointSum = {mean[0], mean[1], mean[2]};            // before the division
invCovariance.data[row][col] = (invCovariance.data[row][col] -
    2 * (pointSum[row] * mean[col])) / target_cells_.size() + mean[row]*mean[col];
invCovariance.data[row][col] *= (target_cells_.size() - 1.0) / numberPoints;
```
where `c` is the cell as left by the first pass and `size` is `target_cells_.size()`. -/
def covarianceBeforeInversion (size : ℤ) (c : Voxel K) : Option (Mat33 K) :=
  (finalMean c).map (fun mean =>
    ⟨fun row col =>
      ((c.invCovariance.data row col - 2 * (c.mean row * mean col)) / (size : K) +
        mean row * mean col) * (((size : K) - 1) / (c.numberPoints : K))⟩)

/-- The body of the second pass of `initCompute` for one cell (the loop has no test on
`numberPoints`). -/
def secondPassCell (size : ℤ) (c : Voxel K) : BuiltVoxel K :=
  { numberPoints := c.numberPoints
    mean := finalMean c
    invCovariance := (covarianceBeforeInversion size c).bind invertMatrix }

/-- The state of `initCompute` (`OpenCl/ndt_mapping/kernel.cpp`, serial path) after the
first pass: corners and dimensions, `target_cells_.size()`, and the accumulating cells. -/
def initCompute_firstPass_OpenCl (resolution_ : K) (target : List (PointXYZI K)) :
    Option (GridBounds K × ℤ × (ℤ → Voxel K)) :=
  (initCompute_grid_OpenCl resolution_ target).bind (fun g =>
    let size := g.voxelDimension 0 * g.voxelDimension 1 * g.voxelDimension 2
    (target.foldlM (firstPassPoint g.minVoxel resolution_ g.voxelDimension size)
      (fun _ => initialCell)).map (fun cells => (g, size, cells)))

/-- `void ndt_mapping::initCompute()` of `OpenCl/ndt_mapping/kernel.cpp`, serial path: grid
sizing, cell initialisation, first pass, second pass. -/
def initCompute_OpenCl (resolution_ : K) (target : List (PointXYZI K)) : Option (BuiltGrid K) :=
  (initCompute_firstPass_OpenCl resolution_ target).map (fun s =>
    { bounds := s.1, size := s.2.1, cells := fun i => secondPassCell s.2.1 (s.2.2 i) })

/-- The points of the cloud that the first pass puts into cell `i`. -/
def assignedPoints (minVoxel : PointXYZI K) (resolution_ : K) (voxelDimension : Fin 3 → ℤ)
    (target : List (PointXYZI K)) (i : ℤ) : List (PointXYZI K) :=
  target.filter (fun p =>
    linearizeCoord minVoxel resolution_ voxelDimension (p.data 0) (p.data 1) (p.data 2) = i)

/-- The values taken by the loop variable of `for (float x = lo; x <= hi; x += step)`,
`none` when the loop has not ended after `fuel` iterations.  The addition `x += step` is
exact here; `forValues_float` rounds it. -/
def forValues : ℕ → K → K → K → Option (List K)
  | 0, x, hi, _ => if x ≤ hi then none else some []
  | fuel + 1, x, hi, step =>
    if x ≤ hi then (forValues fuel (x + step) hi step).map (fun l => x :: l) else some []

/-- The test `dist < radius` of `voxelRadiusSearch`, where
`dist = sqrt(dx * dx + dy * dy + dz * dz)` and `c` is the mean of the cell read: written
without the square root (`sqrt s < r` iff `0 < r` and `s < r * r`, for `s ≥ 0`), and false
when the mean has no value. -/
def withinRadius (mean : Option (Vec3 K)) (point : PointXYZI K) (radius : K) : Prop :=
  match mean with
  | none => False
  | some c =>
    0 < radius ∧
    (c 0 - point.data 0) * (c 0 - point.data 0) + (c 1 - point.data 1) * (c 1 - point.data 1) +
      (c 2 - point.data 2) * (c 2 - point.data 2) < radius * radius

instance withinRadius.instDecidable (mean : Option (Vec3 K)) (point : PointXYZI K) (radius : K) :
    Decidable (withinRadius mean point radius) := by
  unfold withinRadius
  cases mean <;> infer_instance

/-- The test that makes `voxelRadiusSearch` skip a candidate position (`continue`). -/
def outsideGrid (g : GridBounds K) (c : K × K × K) : Prop :=
  c.1 < g.minVoxel.data 0 ∨ c.1 > g.maxVoxel.data 0 ∨
  c.2.1 < g.minVoxel.data 1 ∨ c.2.1 > g.maxVoxel.data 1 ∨
  c.2.2 < g.minVoxel.data 2 ∨ c.2.2 > g.maxVoxel.data 2

instance outsideGrid.instDecidable (g : GridBounds K) (c : K × K × K) :
    Decidable (outsideGrid g c) := by
  unfold outsideGrid
  infer_instance

/-- The body of the innermost loop of `voxelRadiusSearch` at the candidate position
`c = (x, y, z)`; the state is `(result, indices)`.  The result is `none` when `idx` is not
an index of `grid`. -/
def radiusSearchStep (resolution_ : K) (g : GridBounds K) (size : ℤ) (grid : ℤ → BuiltVoxel K)
    (point : PointXYZI K) (radius : K) (st : RadiusSearchResult) (c : K × K × K) :
    Option RadiusSearchResult :=
  if outsideGrid g c then some st
  else
    let idx := linearizeCoord g.minVoxel resolution_ g.voxelDimension c.1 c.2.1 c.2.2
    if 0 ≤ idx ∧ idx < size then
      if withinRadius (grid idx).mean point radius then
        some { result := st.result + 1, indices := st.indices ++ [idx] }
      else some st
    else none

/-- The candidate positions visited by the three nested loops of `voxelRadiusSearch`, in
visiting order (`x` outermost); `none` when a loop has not ended after `fuel` iterations. -/
def radiusSearchCandidates (fuel : ℕ) (resolution_ : K) (point : PointXYZI K) (radius : K) :
    Option (List (K × K × K)) :=
  (forValues fuel (point.data 0 - radius) (point.data 0 + radius) resolution_).bind (fun xs =>
  (forValues fuel (point.data 1 - radius) (point.data 1 + radius) resolution_).bind (fun ys =>
  (forValues fuel (point.data 2 - radius) (point.data 2 + radius) resolution_).map (fun zs =>
    List.product xs (List.product ys zs))))

/-- `int ndt_mapping::voxelRadiusSearch(VoxelGrid &grid, const PointXYZI& point, double
radius, std::vector<TargetGridLeafConstPtr> & indices, std::vector<float> distances)`;
`resolution_`, `g` (corners and dimensions) are the class members read, `size` is
`grid.size()`.  The result is `none` when a loop needs more than `fuel` iterations or a
cell index read is not within `[0, size)`. -/
def voxelRadiusSearch (fuel : ℕ) (resolution_ : K) (g : GridBounds K) (size : ℤ)
    (grid : ℤ → BuiltVoxel K) (point : PointXYZI K) (radius : K) : Option RadiusSearchResult :=
  (radiusSearchCandidates fuel resolution_ point radius).bind (fun cs =>
    cs.foldlM (radiusSearchStep resolution_ g size grid point radius)
      { result := 0, indices := [] })

end GridBuild

/-- A target cloud on the x axis: `(0,0,0)` and `(3/2,0,0)`. -/
def cloudX : List (PointXYZI ℚ) := [⟨![0, 0, 0, 0]⟩, ⟨![3 / 2, 0, 0, 0]⟩]

section SpecSideGrid

variable {K : Type} [LinearOrderedField K]

/-- Spec-side reading of the entry `[r][c]` claimed for the matrix handed to
`invertMatrix`: `((S[r][c] - 2*sum[r]*mean[c]) / N_total + mean[r]*mean[c]) * (N_total - 1)
/ numberPoints`, with `S` the sum of the outer products, `sum` the coordinate sum and
`mean` the arithmetic mean of the points `pts` assigned to the cell. -/
def specCovarianceEntry (N_total : ℤ) (pts : List (PointXYZI K)) (r c : Fin 3) : K :=
  let S := (pts.map (fun p => p.data r.castSucc * p.data c.castSucc)).sum
  let sum_r := (pts.map (fun p => p.data r.castSucc)).sum
  let mean_r := (pts.map (fun p => p.data r.castSucc)).sum / (pts.length : K)
  let mean_c := (pts.map (fun p => p.data c.castSucc)).sum / (pts.length : K)
  ((S - 2 * sum_r * mean_c) / (N_total : K) + mean_r * mean_c) * ((N_total : K) - 1) /
    (pts.length : K)

end SpecSideGrid

/-- A cell array in which no cell has a mean. -/
def undefinedGrid : ℤ → BuiltVoxel ℚ :=
  fun _ => { invCovariance := none, mean := none, numberPoints := 0 }

instance PointXYZI.instDecidableEq {K : Type} [DecidableEq K] : DecidableEq (PointXYZI K) :=
  fun a b => decidable_of_iff (List.ofFn a.data = List.ofFn b.data)
    ⟨fun h => by
      cases a
      cases b
      exact congrArg _ (List.ofFn_injective h), fun h => by rw [h]⟩

instance GridBounds.instDecidableEq {K : Type} [DecidableEq K] : DecidableEq (GridBounds K) :=
  fun a b => decidable_of_iff
    (a.minVoxel = b.minVoxel ∧ a.maxVoxel = b.maxVoxel ∧
      List.ofFn a.voxelDimension = List.ofFn b.voxelDimension)
    ⟨fun h => by
      cases a
      cases b
      obtain ⟨h1, h2, h3⟩ := h
      simp only at h1 h2 h3
      rw [h1, h2, List.ofFn_injective h3], fun h => by
      rw [h]
      exact ⟨rfl, rfl, rfl⟩⟩

/-- A target cloud with the points `(0,0,0)`, `(2,2,2)` and `(6/5,1,1)`. -/
def cloud3 : List (PointXYZI ℚ) := [⟨![0, 0, 0, 0]⟩, ⟨![2, 2, 2, 0]⟩, ⟨![6 / 5, 1, 1, 0]⟩]

/-- The query point `(1, 1, 1)`. -/
def query3 : PointXYZI ℚ := ⟨![1, 1, 1, 0]⟩

/-- The grid corners and dimensions that `initCompute` computes for `cloud3` with
`resolution_ = 1`. -/
def boundsCloud3 : GridBounds ℚ :=
  { minVoxel := ⟨![0, 0, 0, 0]⟩
    maxVoxel := ⟨![2, 2, 2, 0]⟩
    voxelDimension := ![3, 3, 3] }

/-! ## Driver constants, Euler angles and pose seed -/

section DriverConstants

variable {K : Type} [Field K]

/-- `double outlier_ratio_ = 0.55;` (`OpenCl/ndt_mapping/kernel.cpp:53`, the same value in
the constructor of the OpenCl-atomic variant). -/
def outlier_ratio_ : K := 55 / 100

/-- `double step_size_ = 0.1;  // Step size` (`OpenCl/ndt_mapping/kernel.cpp:56`). -/
def step_size_ : K := 1 / 10

/-- `#define PI 3.1415926535897932384626433832795` of `datatypes_base.h`, read as the
decimal fraction written there. -/
def PI : K := 31415926535897932384626433832795 / 10000000000000000000000000000000

/-- The constant `Matrix4f_Identity` assigned in `ndt_align`; its header is not among the
sources, the OpenCl-atomic variant writes the literal
`{{1,0,0,0},{0,1,0,0},{0,0,1,0},{0,0,0,1}}` at the same place. -/
def Matrix4f_Identity : Matrix4f K :=
  ⟨fun i k => if i = k then 1 else 0⟩

end DriverConstants

/-- `max_iterations_(30)` of the constructor in
`OpenCl-atomic/ndt_mapping/ndt_mapping.cpp:40`. -/
def max_iterations_OpenCl_atomic : ℤ := 30

section PoseSeed

variable {K : Type} [LinearOrderedField K]

/-- The element of `float data[4][4]` at flat row-major offset `k`, that is
`data[k / 4][k % 4]`. -/
def Matrix4f.flat (m : Matrix4f K) (k : Fin 16) : K :=
  m.data ⟨k.val / 4, by omega⟩ ⟨k.val % 4, by omega⟩

/-- The read `m.data[r][4]` for `r = 0, 1, 2`: the column index 4 lies one past the row of
four elements, so the address is that of flat offset `4 * r + 4`. -/
def Matrix4f.pastRowEnd (m : Matrix4f K) (r : Fin 3) : K :=
  m.flat ⟨4 * r.val + 4, by omega⟩

/-- `void ndt_mapping::eulerAngles(Matrix4f trans, Vec3 &result)` with `i = 0`, `j = 1`,
`k = 2`; `atan2`, `sqrt`, `sin`, `cos` are the library functions.  The nested test
`if (res[0] > 0.0)` inside `if (res[0] > 0.0)` is kept as written. -/
def eulerAngles (atan2 : K → K → K) (sqrt sin cos : K → K) (trans : Matrix4f K) : Vec3 K :=
  let res0 := atan2 (trans.data 1 2) (trans.data 2 2)
  let n1 := trans.data 0 0
  let n2 := trans.data 0 1
  let c2 := sqrt (n1 * n1 + n2 * n2)
  let res01 : K × K :=
    if res0 > 0 then
      let res0 := if res0 > 0 then res0 - PI else res0 + PI
      (res0, atan2 (-trans.data 0 2) (-c2))
    else (res0, atan2 (-trans.data 0 2) c2)
  let s1 := sin res01.1
  let c1 := cos res01.1
  let res2 := atan2 (s1 * trans.data 2 0 - c1 * trans.data 1 0)
    (c1 * trans.data 1 1 - s1 * trans.data 2 1)
  ![-res01.1, -res01.2, -res2]

/-- The block of `computeTransformation` headed "Convert initial guess matrix to 6 element
transformation vector":
```
p[0] = final_transformation_.data[0][4];
p[1] = final_transformation_.data[1][4];
p[2] = final_transformation_.data[2][4];
Vec3 ea;
eulerAngles(final_transformation_, ea);
p[3] = ea[0]; p[4] = ea[1]; p[5] = ea[2];
``` -/
def initialPose (atan2 : K → K → K) (sqrt sin cos : K → K) (final_transformation_ : Matrix4f K) :
    Vec6 K :=
  let ea := eulerAngles atan2 sqrt sin cos final_transformation_
  ![final_transformation_.pastRowEnd 0, final_transformation_.pastRowEnd 1,
    final_transformation_.pastRowEnd 2, ea 0, ea 1, ea 2]

end PoseSeed

/-! ## Remaining parts of the score derivatives -/

section Derivatives2

variable {K : Type} [LinearOrderedField K]

/-- `void ndt_mapping::updateHessian (Mat66 &hessian, Vec3 &x_trans, Mat33 &c_inv)`; the
statement updating `hessian.data[i][j]` has the text of the one in `updateDerivatives`. -/
def updateHessian (exp : K → K) (gauss_d1_ gauss_d2_ : K) (point_gradient_ : Mat36 K)
    (point_hessian_ : Mat186 K) (hessian : Mat66 K) (x_trans : Vec3 K) (c_inv : Mat33 K) :
    Mat66 K :=
  let e_x_cov_x := gauss_d2_ * exp (-gauss_d2_ * xCx x_trans c_inv / 2)
  if e_x_cov_x > 1 ∨ e_x_cov_x < 0 ∨ e_x_cov_x ≠ e_x_cov_x then hessian
  else
    let e_x_cov_x := e_x_cov_x * gauss_d1_
    (List.finRange 6).foldl (fun hessian i =>
      let cov_dxd_pi := matVec3 c_inv (fun col => point_gradient_.data col i)
      (List.finRange 6).foldl
        (updateHessianEntry gauss_d2_ point_gradient_ point_hessian_ x_trans c_inv e_x_cov_x
          cov_dxd_pi i) hessian) hessian

/-- Modelled from the spec: the value that Equation 6.13 adds to `hessian[i][j]`,
`e * (-d2 * (x^T C g_i) * (x^T C g_j) + x^T C h_ij + g_j^T C g_i)` with
`e = d1 * d2 * exp(-d2 / 2 * x^T C x)`, `g_k` column `k` of `point_gradient_` and `h_ij`
the block of `point_hessian_` at rows `3i .. 3i+2`, column `j`. -/
def specHessianIncrement (exp : K → K) (gauss_d1_ gauss_d2_ : K) (point_gradient_ : Mat36 K)
    (point_hessian_ : Mat186 K) (x_trans : Vec3 K) (c_inv : Mat33 K) (i j : Fin 6) : K :=
  let e := gauss_d1_ * gauss_d2_ * exp (-gauss_d2_ / 2 * dot_product x_trans (matVec3 c_inv x_trans))
  let g_i : Vec3 K := fun r => point_gradient_.data r i
  let g_j : Vec3 K := fun r => point_gradient_.data r j
  let h_ij : Vec3 K := fun r => point_hessian_.data (hessianRow i r) j
  e * (-gauss_d2_ * dot_product x_trans (matVec3 c_inv g_i) *
        dot_product x_trans (matVec3 c_inv g_j) +
      dot_product x_trans (matVec3 c_inv h_ij) + dot_product g_j (matVec3 c_inv g_i))

/-- A `point_gradient_` as `computeTransformation` initialises it (ones at `[0][0]`,
`[1][1]`, `[2][2]`) with the entry `[1][3]` set to 1. -/
def gradientExample : Mat36 K :=
  ⟨fun r c => if r.val = c.val ∨ (r = 1 ∧ c = 3) then 1 else 0⟩

/-- A `point_hessian_` that is zero except for the entry `[10][3]`, which is 1. -/
def hessianExample : Mat186 K :=
  ⟨fun r c => if r = 10 ∧ c = 3 then 1 else 0⟩

end Derivatives2

/-! ## More-Thuente line search: conversion block -/

section LineSearch2

variable {K : Type} [LinearOrderedField K]

/-- The block of `computeStepLengthMT` run when the interval closes:
```
// Converts f_l and g_l from psi to phi
f_l = f_l + phi_0 - mu * d_phi_0 * a_l;
g_l = g_l + mu * d_phi_0;
// Converts f_u and g_u from psi to phi
f_u = f_u + phi_0 - mu * d_phi_0 * a_u;
g_u = g_u + mu * d_phi_0;
``` -/
def convertPsiToPhi (I : IntervalMT K) (phi_0 d_phi_0 mu : K) : IntervalMT K :=
  { a_l := I.a_l
    f_l := I.f_l + phi_0 - mu * d_phi_0 * I.a_l
    g_l := I.g_l + mu * d_phi_0
    a_u := I.a_u
    f_u := I.f_u + phi_0 - mu * d_phi_0 * I.a_u
    g_u := I.g_u + mu * d_phi_0 }

end LineSearch2

/-! ## Output comparison (`check_next_outputs`, `check_output`) -/

/-- `typedef struct CallbackResult { bool converged; std::vector<Matrix4f>
intermediate_transformations; Matrix4f final_transformation; double fitness_score; }`.
A field that the code has not assigned is `none`. -/
structure CallbackResult (K : Type) where
  converged : Bool
  intermediate_transformations : Option (List (Matrix4f K))
  final_transformation : Matrix4f K
  fitness_score : Option K

/-- The members `max_delta` and `error_so_far` of the benchmark object. -/
structure CheckState (K : Type) where
  max_delta : K
  error_so_far : Bool

section Comparator

variable {K : Type} [LinearOrderedField K]

/-- The index pairs `(h, w)` of `for (int h = 0; h < 4; h++) for (int w = 0; w < 4; w++)`
in visiting order. -/
def entries4 : List (Fin 4 × Fin 4) :=
  List.product (List.finRange 4) (List.finRange 4)

/-- The body of the two inner loops of `check_next_outputs`
(`OpenCl/ndt_mapping/kernel.cpp`):
```
if (fabs(reference.final_transformation.data[h][w] - results[i].final_transformation.data[h][w]) > max_delta)
    max_delta = fabs(reference.final_transformation.data[h][w] - results[i].final_transformation.data[h][w]);
``` -/
def checkEntry (reference result : Matrix4f K) (max_delta : K) (hw : Fin 4 × Fin 4) : K :=
  if |reference.data hw.1 hw.2 - result.data hw.1 hw.2| > max_delta then
    |reference.data hw.1 hw.2 - result.data hw.1 hw.2|
  else max_delta

/-- The body of the loop `for (int i = 0; i < count; i++)` of `check_next_outputs`
(`OpenCl/ndt_mapping/kernel.cpp`) for one test case; the pair holds the reference read by
`parseResult` and `results[i]`. -/
def checkCase (s : CheckState K) (c : CallbackResult K × CallbackResult K) : CheckState K :=
  let error_so_far := if c.2.converged ≠ c.1.converged then true else s.error_so_far
  { error_so_far := error_so_far
    max_delta := entries4.foldl (checkEntry c.1.final_transformation c.2.final_transformation)
      s.max_delta }

/-- The state set by `init()`: `error_so_far = false; max_delta = 0.0;`. -/
def checkInit : CheckState K :=
  { max_delta := 0, error_so_far := false }

/-- `void ndt_mapping::check_next_outputs(int count)` of `OpenCl/ndt_mapping/kernel.cpp`,
applied to the `count` pairs of reference and result of one batch. -/
def check_next_outputs (s : CheckState K) (cases : List (CallbackResult K × CallbackResult K)) :
    CheckState K :=
  cases.foldl checkCase s

/-- `bool ndt_mapping::check_output()` of `OpenCl/ndt_mapping/kernel.cpp`:
`if ((max_delta > MAX_EPS) || error_so_far) return false; return true;`. -/
def check_output (s : CheckState K) : Bool :=
  if s.max_delta > MAX_EPS_OpenCl ∨ s.error_so_far = true then false else true

/-- The absolute differences `|reference - result|` of the 16 entries of all cases. -/
def allDeltas (cases : List (CallbackResult K × CallbackResult K)) : List K :=
  cases.flatMap (fun c => entries4.map (fun hw =>
    |c.1.final_transformation.data hw.1 hw.2 - c.2.final_transformation.data hw.1 hw.2|))

end Comparator

/-! ## Angular and point derivatives, `computeDerivatives`, `computeHessian` -/

/-- The class members `j_ang_a_ ... j_ang_h_` and `h_ang_a2_ ... h_ang_f3_`. -/
structure AngularDerivatives (K : Type) where
  j_ang_a_ : Vec3 K
  j_ang_b_ : Vec3 K
  j_ang_c_ : Vec3 K
  j_ang_d_ : Vec3 K
  j_ang_e_ : Vec3 K
  j_ang_f_ : Vec3 K
  j_ang_g_ : Vec3 K
  j_ang_h_ : Vec3 K
  h_ang_a2_ : Vec3 K
  h_ang_a3_ : Vec3 K
  h_ang_b2_ : Vec3 K
  h_ang_b3_ : Vec3 K
  h_ang_c2_ : Vec3 K
  h_ang_c3_ : Vec3 K
  h_ang_d1_ : Vec3 K
  h_ang_d2_ : Vec3 K
  h_ang_d3_ : Vec3 K
  h_ang_e1_ : Vec3 K
  h_ang_e2_ : Vec3 K
  h_ang_e3_ : Vec3 K
  h_ang_f1_ : Vec3 K
  h_ang_f2_ : Vec3 K
  h_ang_f3_ : Vec3 K

/-- The class members read or written by `computeDerivatives` and `computeHessian`:
`gauss_d1_`, `gauss_d2_`, `point_gradient_`, `point_hessian_`, the angular derivative
vectors, and the grid (`target_cells_`, `minVoxel`, `maxVoxel`, `voxelDimension`).
`undefinedRead` does not exist in the source: it records that the run has read a value
that exact arithmetic does not define (a cell field left by a division by zero, or a cell
outside `target_cells_`); the values computed after that are not those of the code. -/
structure Members (K : Type) where
  gauss_d1_ : K
  gauss_d2_ : K
  point_gradient_ : Mat36 K
  point_hessian_ : Mat186 K
  ang : AngularDerivatives K
  grid : BuiltGrid K
  undefinedRead : Bool

section PointDerivatives

variable {K : Type} [LinearOrderedField K]

/-- The assignment `m.data[r][c] = v` on a 3×6 matrix. -/
def Mat36.set (m : Mat36 K) (r : Fin 3) (c : Fin 6) (v : K) : Mat36 K :=
  ⟨fun i k => if i = r ∧ k = c then v else m.data i k⟩

/-- The assignment `m.data[r][c] = v` on an 18×6 matrix. -/
def Mat186.set (m : Mat186 K) (r : Fin 18) (c : Fin 6) (v : K) : Mat186 K :=
  ⟨fun i k => if i = r ∧ k = c then v else m.data i k⟩

/-- `void ndt_mapping::computeAngleDerivatives (Vec6 &p, bool compute_hessian)`; `cos`
and `sin` are the library functions, `a` is the prior content of the members written.
`10e-5` is `1/10000`. -/
def computeAngleDerivatives (cos sin : K → K) (p : Vec6 K) (compute_hessian : Bool)
    (a : AngularDerivatives K) : AngularDerivatives K :=
  let cx : K := if |p 3| < 1 / 10000 then 1 else cos (p 3)
  let sx : K := if |p 3| < 1 / 10000 then 0 else sin (p 3)
  let cy : K := if |p 4| < 1 / 10000 then 1 else cos (p 4)
  let sy : K := if |p 4| < 1 / 10000 then 0 else sin (p 4)
  let cz : K := if |p 5| < 1 / 10000 then 1 else cos (p 5)
  let sz : K := if |p 5| < 1 / 10000 then 0 else sin (p 5)
  let a : AngularDerivatives K :=
    { a with
      j_ang_a_ := ![-sx * sz + cx * sy * cz, -sx * cz - cx * sy * sz, -cx * cy]
      j_ang_b_ := ![cx * sz + sx * sy * cz, cx * cz - sx * sy * sz, -sx * cy]
      j_ang_c_ := ![-sy * cz, sy * sz, cy]
      j_ang_d_ := ![sx * cy * cz, -sx * cy * sz, sx * sy]
      j_ang_e_ := ![-cx * cy * cz, cx * cy * sz, -cx * sy]
      j_ang_f_ := ![-cy * sz, -cy * cz, 0]
      j_ang_g_ := ![cx * cz - sx * sy * sz, -cx * sz - sx * sy * cz, 0]
      j_ang_h_ := ![sx * cz + cx * sy * sz, cx * sy * cz - sx * sz, 0] }
  if compute_hessian then
    { a with
      h_ang_a2_ := ![-cx * sz - sx * sy * cz, -cx * cz + sx * sy * sz, sx * cy]
      h_ang_a3_ := ![-sx * sz + cx * sy * cz, -cx * sy * sz - sx * cz, -cx * cy]
      h_ang_b2_ := ![cx * cy * cz, -cx * cy * sz, cx * sy]
      h_ang_b3_ := ![sx * cy * cz, -sx * cy * sz, sx * sy]
      h_ang_c2_ := ![-sx * cz - cx * sy * sz, sx * sz - cx * sy * cz, 0]
      h_ang_c3_ := ![cx * cz - sx * sy * sz, -sx * sy * cz - cx * sz, 0]
      h_ang_d1_ := ![-cy * cz, cy * sz, sy]
      h_ang_d2_ := ![-sx * sy * cz, sx * sy * sz, sx * cy]
      h_ang_d3_ := ![cx * sy * cz, -cx * sy * sz, -cx * cy]
      h_ang_e1_ := ![sy * sz, sy * cz, 0]
      h_ang_e2_ := ![-sx * cy * sz, -sx * cy * cz, 0]
      h_ang_e3_ := ![cx * cy * sz, cx * cy * cz, 0]
      h_ang_f1_ := ![-cy * cz, cy * sz, 0]
      h_ang_f2_ := ![-cx * sz - sx * sy * cz, -cx * cz + sx * sy * sz, 0]
      h_ang_f3_ := ![-sx * sz + cx * sy * cz, -cx * sy * sz - sx * cz, 0] }
  else a

/-- `void ndt_mapping::computePointDerivatives (Vec3 &x, bool compute_hessian)`: the final
content of `point_gradient_` and `point_hessian_`; `a` holds the angular derivative
members read. -/
def computePointDerivatives (x : Vec3 K) (compute_hessian : Bool) (a : AngularDerivatives K)
    (point_gradient_ : Mat36 K) (point_hessian_ : Mat186 K) : Mat36 K × Mat186 K :=
  let g := point_gradient_.set 1 3 (dot_product x a.j_ang_a_)
  let g := g.set 2 3 (dot_product x a.j_ang_b_)
  let g := g.set 0 4 (dot_product x a.j_ang_c_)
  let g := g.set 1 4 (dot_product x a.j_ang_d_)
  let g := g.set 2 4 (dot_product x a.j_ang_e_)
  let g := g.set 0 5 (dot_product x a.j_ang_f_)
  let g := g.set 1 5 (dot_product x a.j_ang_g_)
  let g := g.set 2 5 (dot_product x a.j_ang_h_)
  if compute_hessian then
    let va : Vec3 K := ![0, dot_product x a.h_ang_a2_, dot_product x a.h_ang_a3_]
    let vb : Vec3 K := ![0, dot_product x a.h_ang_b2_, dot_product x a.h_ang_b3_]
    let vc : Vec3 K := ![0, dot_product x a.h_ang_c2_, dot_product x a.h_ang_c3_]
    let vd : Vec3 K :=
      ![dot_product x a.h_ang_d1_, dot_product x a.h_ang_d2_, dot_product x a.h_ang_d3_]
    let ve : Vec3 K :=
      ![dot_product x a.h_ang_e1_, dot_product x a.h_ang_e2_, dot_product x a.h_ang_e3_]
    let vf : Vec3 K :=
      ![dot_product x a.h_ang_f1_, dot_product x a.h_ang_f2_, dot_product x a.h_ang_f3_]
    let h := point_hessian_.set 9 3 (va 0)
    let h := h.set 10 3 (va 1)
    let h := h.set 11 3 (va 2)
    let h := h.set 12 3 (vb 0)
    let h := h.set 13 3 (vb 1)
    let h := h.set 14 3 (vb 2)
    let h := h.set 15 3 (vc 0)
    let h := h.set 16 3 (vc 1)
    let h := h.set 17 3 (vc 2)
    let h := h.set 9 4 (vb 0)
    let h := h.set 10 4 (vb 1)
    let h := h.set 11 4 (vb 2)
    let h := h.set 12 4 (vd 0)
    let h := h.set 13 4 (vd 1)
    let h := h.set 14 4 (vd 2)
    let h := h.set 15 4 (ve 0)
    let h := h.set 16 4 (ve 1)
    let h := h.set 17 4 (ve 2)
    let h := h.set 9 5 (vc 0)
    let h := h.set 10 5 (vc 1)
    let h := h.set 11 5 (vc 2)
    let h := h.set 12 5 (ve 0)
    let h := h.set 13 5 (ve 1)
    let h := h.set 14 5 (ve 2)
    let h := h.set 15 5 (vf 0)
    let h := h.set 16 5 (vf 1)
    let h := h.set 17 5 (vf 2)
    (g, h)
  else (g, point_hessian_)

end PointDerivatives

section ScoreDerivatives

variable {K : Type} [LinearOrderedField K] [FloorRing K]

/-- The body of the loop over `neighborhood` in `computeDerivatives` for the cell read
from index `idx`; `x_pt` is `(*input_)[idx]`, `x_trans_pt` is `trans_cloud[idx]`, the
state is `(score, score_gradient, hessian, members)`:
```
cell = *neighborhood_it;
x = x_pt.data[0..2];  x_trans = x_trans_pt.data[0..2] - cell.mean;
c_inv = cell.invCovariance;
computePointDerivatives (x);
score += updateDerivatives (score_gradient, hessian, x_trans, c_inv, compute_hessian);
```
A cell whose mean or inverse covariance has no value sets `undefinedRead`. -/
def derivativesNeighbour (exp : K → K) (compute_hessian : Bool) (x_pt x_trans_pt : PointXYZI K)
    (acc : K × Vec6 K × Mat66 K × Members K) (idx : ℤ) : K × Vec6 K × Mat66 K × Members K :=
  let m := acc.2.2.2
  let cell := m.grid.cells idx
  match cell.mean, cell.invCovariance with
  | some mean, some c_inv =>
    let x : Vec3 K := ![x_pt.data 0, x_pt.data 1, x_pt.data 2]
    let x_trans : Vec3 K :=
      ![x_trans_pt.data 0 - mean 0, x_trans_pt.data 1 - mean 1, x_trans_pt.data 2 - mean 2]
    let d := computePointDerivatives x true m.ang m.point_gradient_ m.point_hessian_
    let r := updateDerivatives exp m.gauss_d1_ m.gauss_d2_ d.1 d.2 acc.2.1 acc.2.2.1 x_trans
      c_inv compute_hessian
    (acc.1 + r.1, r.2.1, r.2.2, { m with point_gradient_ := d.1, point_hessian_ := d.2 })
  | _, _ => (acc.1, acc.2.1, acc.2.2.1, { m with undefinedRead := true })

/-- The body of the loop `for (size_t idx = 0; idx < input_->size (); idx++)` of
`computeDerivatives` for one pair `((*input_)[idx], trans_cloud[idx])`: the radius search
with `radius = resolution_`, then the loop over the cells found.  A search that does not
return (loop fuel, cell index outside `target_cells_`) sets `undefinedRead`. -/
def derivativesPoint (exp : K → K) (fuel : ℕ) (compute_hessian : Bool)
    (acc : K × Vec6 K × Mat66 K × Members K) (pt : PointXYZI K × PointXYZI K) :
    K × Vec6 K × Mat66 K × Members K :=
  let m := acc.2.2.2
  match voxelRadiusSearch fuel resolution_ m.grid.bounds m.grid.size m.grid.cells pt.2
      resolution_ with
  | some r => r.indices.foldl (derivativesNeighbour exp compute_hessian pt.1 pt.2) acc
  | none => (acc.1, acc.2.1, acc.2.2.1, { m with undefinedRead := true })

/-- `double ndt_mapping::computeDerivatives (Vec6 &score_gradient, Mat66 &hessian,
PointCloudSource &trans_cloud, Vec6 &p, bool compute_hessian)`: the returned score, the
final `score_gradient` and `hessian`, and the members after the call.  `input_` is
`*input_`; at every call `trans_cloud` has the size of `*input_`.  The prior contents of
`score_gradient` and `hessian` are overwritten by the two `memset` calls. -/
def computeDerivatives (cos sin exp : K → K) (fuel : ℕ) (input_ : List (PointXYZI K))
    (_score_gradient : Vec6 K) (_hessian : Mat66 K) (trans_cloud : List (PointXYZI K))
    (p : Vec6 K) (compute_hessian : Bool) (m : Members K) :
    K × Vec6 K × Mat66 K × Members K :=
  let score_gradient : Vec6 K := fun _ => 0
  let hessian : Mat66 K := ⟨fun _ _ => 0⟩
  let score : K := 0
  let m := { m with ang := computeAngleDerivatives cos sin p true m.ang }
  (List.zip input_ trans_cloud).foldl (derivativesPoint exp fuel compute_hessian)
    (score, score_gradient, hessian, m)

/-- The body of the loop over `neighborhood` in `computeHessian`; the state is
`(hessian, members)`. -/
def hessianNeighbour (exp : K → K) (x_pt x_trans_pt : PointXYZI K)
    (acc : Mat66 K × Members K) (idx : ℤ) : Mat66 K × Members K :=
  let m := acc.2
  let cell := m.grid.cells idx
  match cell.mean, cell.invCovariance with
  | some mean, some c_inv =>
    let x : Vec3 K := ![x_pt.data 0, x_pt.data 1, x_pt.data 2]
    let x_trans : Vec3 K :=
      ![x_trans_pt.data 0 - mean 0, x_trans_pt.data 1 - mean 1, x_trans_pt.data 2 - mean 2]
    let d := computePointDerivatives x true m.ang m.point_gradient_ m.point_hessian_
    (updateHessian exp m.gauss_d1_ m.gauss_d2_ d.1 d.2 acc.1 x_trans c_inv,
      { m with point_gradient_ := d.1, point_hessian_ := d.2 })
  | _, _ => (acc.1, { m with undefinedRead := true })

/-- The body of the loop over the points in `computeHessian`. -/
def hessianPoint (exp : K → K) (fuel : ℕ) (acc : Mat66 K × Members K)
    (pt : PointXYZI K × PointXYZI K) : Mat66 K × Members K :=
  match voxelRadiusSearch fuel resolution_ acc.2.grid.bounds acc.2.grid.size acc.2.grid.cells
      pt.2 resolution_ with
  | some r => r.indices.foldl (hessianNeighbour exp pt.1 pt.2) acc
  | none => (acc.1, { acc.2 with undefinedRead := true })

/-- `void ndt_mapping::computeHessian (Mat66 &hessian, PointCloud &trans_cloud, Vec6 &)`. -/
def computeHessian (exp : K → K) (fuel : ℕ) (input_ : List (PointXYZI K))
    (_hessian : Mat66 K) (trans_cloud : List (PointXYZI K)) (_p : Vec6 K) (m : Members K) :
    Mat66 K × Members K :=
  (List.zip input_ trans_cloud).foldl (hessianPoint exp fuel) (⟨fun _ _ => 0⟩, m)

end ScoreDerivatives

/-! ## The registration driver (`computeTransformation`, `ndt_align`,
`partial_points_callback`) -/

/-- The library functions called by `computeTransformation` in addition to `cos`, `sin`
and `sqrt`. -/
structure DriverLib (K : Type) where
  atan2 : K → K → K
  exp : K → K
  log : K → K
  pow : K → K → K

/-- The objects written by the loop of `computeTransformation`: the locals `p`, `delta_p`
(held in `s.step_dir`), `score`, `score_gradient`, `hessian`, the cloud `output` (held in
`s.trans_cloud`), and the members `final_transformation_`, `transformation_`,
`previous_transformation_`, `converged_`, `nr_iterations_` and those of `s.members`.
`intermediate_transformations_` exists in the OpenCl-atomic variant only. -/
structure TransformationLoop (K : Type) (σ : Type) where
  p : Vec6 K
  s : LineSearchState K σ
  transformation_ : Matrix4f K
  previous_transformation_ : Matrix4f K
  converged_ : Bool
  nr_iterations_ : ℤ
  intermediate_transformations_ : List (Matrix4f K)

/-- The members of the class `ndt_mapping` (`OpenCl/ndt_mapping/kernel.cpp`) that
`partial_points_callback` reads or writes; `input_` and `target_` hold the clouds pointed
to. -/
structure NdtState (K : Type) where
  final_transformation_ : Matrix4f K
  transformation_ : Matrix4f K
  previous_transformation_ : Matrix4f K
  converged_ : Bool
  nr_iterations_ : ℤ
  trans_probability_ : Option K
  max_iterations_ : ℤ
  input_ : List (PointXYZI K)
  target_ : List (PointXYZI K)
  members : Members K

section Driver

variable {K : Type} [LinearOrderedField K] [FloorRing K]

/-- The quotient `score / static_cast<double> (input_->size ())`; it has no value for an
empty cloud. -/
def scoreOverSize (score : K) (input_ : List (PointXYZI K)) : Option K :=
  if input_.length = 0 then none else some (score / (input_.length : K))

/-- The test at the end of the loop body of `computeTransformation`,
```
nr_iterations_ > max_iterations_ ||
    (nr_iterations_ && (fabs (delta_p_norm) < transformation_epsilon_))
``` -/
def convergenceTest (nr_iterations_ max_iterations_ : ℤ) (delta_p_norm : K) : Bool :=
  decide (nr_iterations_ > max_iterations_ ∨
    (nr_iterations_ ≠ 0 ∧ |delta_p_norm| < transformation_epsilon_))

/-- The body of the loop `while (!converged_)` of `computeTransformation`.  `solve` is the
variant's `solve`, `lineSearch` its `computeStepLengthMT` (arguments `x`, `step_init`,
`step_max`, `step_min` and the objects passed by reference), `recordIntermediate` is true
for the OpenCl-atomic variant, whose body has the additional statement
`intermediate_transformations_.push_back(transformation_);`.  The second component of
the result is true when the body has executed `return`; the assignment to
`trans_probability_` that precedes that `return` is the one made after the loop, and is
placed in `computeTransformation`.  The result is `none` when `solve` divides by zero. -/
def computeTransformation_iteration {σ : Type} (sqrt cos sin : K → K)
    (solve : Vec6 K → Mat66 K → Vec6 K → Option (Vec6 K))
    (lineSearch : Vec6 K → K → K → K → LineSearchState K σ → K × LineSearchState K σ)
    (recordIntermediate : Bool) (max_iterations_ : ℤ)
    (st : TransformationLoop K σ) : Option (TransformationLoop K σ × Bool) :=
  let previous_transformation_ := st.transformation_
  let neg_grad : Vec6 K := fun i => -st.s.score_gradient i
  (solve st.s.step_dir st.s.hessian neg_grad).map (fun delta_p =>
    let delta_p_norm := sqrt (delta_p 0 * delta_p 0 + delta_p 1 * delta_p 1 +
      delta_p 2 * delta_p 2 + delta_p 3 * delta_p 3 + delta_p 4 * delta_p 4 +
      delta_p 5 * delta_p 5)
    let delta_p_norm : K := (fun _ => 1) delta_p_norm
    if delta_p_norm = 0 ∨ delta_p_norm ≠ delta_p_norm then
      ({ st with
         previous_transformation_ := previous_transformation_
         s := { st.s with step_dir := delta_p }
         converged_ := decide (delta_p_norm = delta_p_norm) }, true)
    else
      let delta_p : Vec6 K := fun i => delta_p i / delta_p_norm
      let r := lineSearch st.p delta_p_norm step_size_ (transformation_epsilon_ / 2)
        { st.s with step_dir := delta_p }
      let delta_p_norm := r.1
      let delta_p : Vec6 K := fun i => r.2.step_dir i * delta_p_norm
      let transformation_ := buildTransformationMatrix cos sin st.transformation_ delta_p
      ({ p := fun i => st.p i + delta_p i
         s := { r.2 with step_dir := delta_p }
         transformation_ := transformation_
         previous_transformation_ := previous_transformation_
         converged_ :=
           if convergenceTest st.nr_iterations_ max_iterations_ delta_p_norm then true
           else st.converged_
         nr_iterations_ := st.nr_iterations_ + 1
         intermediate_transformations_ :=
           if recordIntermediate then st.intermediate_transformations_ ++ [transformation_]
           else st.intermediate_transformations_ }, false))

/-- The loop `while (!converged_) { ... }` of `computeTransformation`.  The result is
`none` when the loop has not ended after `fuel` iterations. -/
def computeTransformation_loop {σ : Type} (sqrt cos sin : K → K)
    (solve : Vec6 K → Mat66 K → Vec6 K → Option (Vec6 K))
    (lineSearch : Vec6 K → K → K → K → LineSearchState K σ → K × LineSearchState K σ)
    (recordIntermediate : Bool) (max_iterations_ : ℤ) :
    ℕ → TransformationLoop K σ → Option (TransformationLoop K σ)
  | 0, st => if st.converged_ then some st else none
  | fuel + 1, st =>
    if st.converged_ then some st
    else
      (computeTransformation_iteration sqrt cos sin solve lineSearch recordIntermediate
        max_iterations_ st).bind (fun r =>
          if r.2 then some r.1
          else computeTransformation_loop sqrt cos sin solve lineSearch recordIntermediate
            max_iterations_ fuel r.1)

/-- The part of `computeTransformation` (`OpenCl/ndt_mapping/kernel.cpp`) before the
loop: the state with which the loop is entered.  `output` is the cloud passed by
reference, `m` the members on entry.  The locals `delta_p`, `score_gradient` and
`hessian` are not initialised; they are given the value `env.uninit`. -/
def computeTransformation_init (lib : DriverLib K) (env : LineSearchEnv K (Members K))
    (output : List (PointXYZI K)) (guess : Matrix4f K) (st : NdtState K) :
    TransformationLoop K (Members K) :=
  let nr_iterations_ : ℤ := 0
  let converged_ : Bool := false
  let gauss_c1 : K := 10 * (1 - outlier_ratio_)
  let gauss_c2 : K := outlier_ratio_ / lib.pow resolution_ 3
  let gauss_d3 := -lib.log gauss_c2
  let gauss_d1_ := -lib.log (gauss_c1 + gauss_c2) - gauss_d3
  let gauss_d2_ :=
    -2 * lib.log ((-lib.log (gauss_c1 * lib.exp (-(1 / 2)) + gauss_c2) - gauss_d3) / gauss_d1_)
  let final_transformation_ := guess
  let output := transformPointCloud env.uninit output guess
  let point_gradient_ : Mat36 K := (((⟨fun _ _ => 0⟩ : Mat36 K).set 0 0 1).set 1 1 1).set 2 2 1
  let point_hessian_ : Mat186 K := ⟨fun _ _ => 0⟩
  let p := initialPose lib.atan2 env.sqrt env.sin env.cos final_transformation_
  let m : Members K :=
    { st.members with
      gauss_d1_ := gauss_d1_
      gauss_d2_ := gauss_d2_
      point_gradient_ := point_gradient_
      point_hessian_ := point_hessian_ }
  let r := env.computeDerivatives (fun _ => env.uninit) ⟨fun _ _ => env.uninit⟩ output p true m
  { p := p
    s :=
      { step_dir := fun _ => env.uninit
        score := r.1
        score_gradient := r.2.1
        hessian := r.2.2.1
        trans_cloud := output
        final_transformation_ := final_transformation_
        members := r.2.2.2 }
    transformation_ := st.transformation_
    previous_transformation_ := st.previous_transformation_
    converged_ := converged_
    nr_iterations_ := nr_iterations_
    intermediate_transformations_ := [] }

/-- `void ndt_mapping::computeTransformation(PointCloud &output, const Matrix4f &guess)` of
`OpenCl/ndt_mapping/kernel.cpp`: the members after the call.  `env` holds `cos`, `sin`,
`sqrt`, the callees `computeDerivatives` and `computeHessian`, and `*input_`.  Both ways
out of the function (the `return` in the loop body and the end of the loop) are preceded
by `trans_probability_ = score / static_cast<double> (input_->size ());`. -/
def computeTransformation (lib : DriverLib K) (env : LineSearchEnv K (Members K)) (fuel : ℕ)
    (output : List (PointXYZI K)) (guess : Matrix4f K) (st : NdtState K) : Option (NdtState K) :=
  (computeTransformation_loop env.sqrt env.cos env.sin solve_OpenCl (computeStepLengthMT env)
    false st.max_iterations_ fuel
    (computeTransformation_init lib env output guess st)).map (fun l =>
      { st with
        final_transformation_ := l.s.final_transformation_
        transformation_ := l.transformation_
        previous_transformation_ := l.previous_transformation_
        converged_ := l.converged_
        nr_iterations_ := l.nr_iterations_
        trans_probability_ := scoreOverSize l.s.score env.input_
        members := l.s.members })

/-- The cloud `output` of `ndt_align` when `computeTransformation` is called: the copy of
`*input_` (`output[i] = (*input_)[i];`) with `output[i].data[3] = 1.0;`. -/
def copyForAlign (input_ : List (PointXYZI K)) : List (PointXYZI K) :=
  input_.map (fun pt => pt.set 3 1)

/-- The members when `ndt_align` calls `computeTransformation`: the grid `g` built by
`initCompute`, then
```
converged_ = false;
final_transformation_ = transformation_ = previous_transformation_ = Matrix4f_Identity;
``` -/
def resetForAlign (st : NdtState K) (g : BuiltGrid K) : NdtState K :=
  { st with
    members := { st.members with grid := g }
    converged_ := false
    final_transformation_ := Matrix4f_Identity
    transformation_ := Matrix4f_Identity
    previous_transformation_ := Matrix4f_Identity }

/-- The members when `partial_points_callback` calls `ndt_align`:
`input_ = &input_cloud; target_ = &target_cloud;` (and `undefinedRead` cleared). -/
def enterCallback (st : NdtState K) (input_cloud target_cloud : List (PointXYZI K)) :
    NdtState K :=
  { st with
    input_ := input_cloud
    target_ := target_cloud
    members := { st.members with undefinedRead := false } }

/-- `void ndt_mapping::ndt_align (const Matrix4f& guess)` of
`OpenCl/ndt_mapping/kernel.cpp` (serial build): `initCompute`, the copy of `*input_` to
`output` with `data[3] = 1.0`, the resets, `computeTransformation`.  The result is `none`
when `initCompute` or `computeTransformation` has none. -/
def ndt_align (lib : DriverLib K) (env : LineSearchEnv K (Members K)) (fuel : ℕ)
    (guess : Matrix4f K) (st : NdtState K) : Option (NdtState K) :=
  (initCompute_OpenCl resolution_ st.target_).bind (fun g =>
    computeTransformation lib env fuel (copyForAlign st.input_) guess (resetForAlign st g))

/-- `CallbackResult ndt_mapping::partial_points_callback(PointCloud &input_cloud, Matrix4f
&init_guess, PointCloud& target_cloud)` of `OpenCl/ndt_mapping/kernel.cpp`: the returned
result and the members after the call.  `mkEnv` gives, for the source cloud, the library
functions and the callees `computeDerivatives` and `computeHessian` that read it.
`undefinedRead` is cleared on entry; a run that sets it has no result. -/
def partial_points_callback (lib : DriverLib K)
    (mkEnv : List (PointXYZI K) → LineSearchEnv K (Members K)) (fuel : ℕ) (st : NdtState K)
    (input_cloud : List (PointXYZI K)) (init_guess : Matrix4f K)
    (target_cloud : List (PointXYZI K)) : Option (CallbackResult K × NdtState K) :=
  (ndt_align lib { mkEnv input_cloud with input_ := input_cloud } fuel init_guess
    (enterCallback st input_cloud target_cloud)).bind
    (fun st =>
      if st.members.undefinedRead then none
      else
        some ({ final_transformation := st.final_transformation_
                converged := st.converged_
                intermediate_transformations := none
                fitness_score := none }, st))

/-- The callees of the line search as compiled in `OpenCl/ndt_mapping/kernel.cpp`, for the
source cloud `input_`; `uninit` is the value of the locals that the code does not
initialise, `fuel` bounds the loops of the radius search. -/
def ndtEnv (cos sin sqrt exp : K → K) (fuel : ℕ) (uninit : K) (input_ : List (PointXYZI K)) :
    LineSearchEnv K (Members K) :=
  { cos := cos
    sin := sin
    sqrt := sqrt
    computeDerivatives := computeDerivatives cos sin exp fuel input_
    computeHessian := computeHessian exp fuel input_
    input_ := input_
    uninit := uninit }

/-- One test case of `run`: the value of the uninitialised locals, the source cloud, the
initial guess and the target cloud. -/
structure TestCase (K : Type) where
  uninit : K
  input_cloud : List (PointXYZI K)
  init_guess : Matrix4f K
  target_cloud : List (PointXYZI K)

/-- The members after the calls `results[i] = partial_points_callback(...)` of `run` for
the test cases in `cases`, in order; `none` when one of the calls has none. -/
def runCases (lib : DriverLib K) (cos sin sqrt : K → K) (fuel : ℕ) (st : NdtState K)
    (cases : List (TestCase K)) : Option (NdtState K) :=
  cases.foldlM (fun st c =>
    (partial_points_callback lib (ndtEnv cos sin sqrt lib.exp fuel c.uninit) fuel st
      c.input_cloud c.init_guess c.target_cloud).map (fun r => r.2)) st

end Driver

/-! ## Inputs for evaluating the line search and the driver -/

section ExampleObjective

variable {K : Type} [LinearOrderedField K]

/-- An objective with the signature of `computeDerivatives`, for evaluating the line
search: the score `p0 - p0^2 / 20 - 2 * p0^4` of the pose `p`, with its gradient and (when
`compute_hessian`) its Hessian; the clouds and the members are not used. -/
def quarticObjective : Vec6 K → Mat66 K → List (PointXYZI K) → Vec6 K → Bool → Unit →
    K × Vec6 K × Mat66 K × Unit :=
  fun _ hessian _ p compute_hessian m =>
    (p 0 - p 0 * p 0 / 20 - 2 * (p 0 * p 0 * p 0 * p 0),
      fun i => if i = 0 then 1 - p 0 / 10 - 8 * (p 0 * p 0 * p 0) else 0,
      if compute_hessian then
        ⟨fun i j => if i = 0 ∧ j = 0 then -(1 / 10) - 24 * (p 0 * p 0) else 0⟩
      else hessian,
      m)

/-- The environment of the line search for `quarticObjective`, with an empty source
cloud. -/
def quarticEnv (cos sin sqrt : K → K) : LineSearchEnv K Unit :=
  { cos := cos
    sin := sin
    sqrt := sqrt
    computeDerivatives := quarticObjective
    computeHessian := fun _ _ p m =>
      (⟨fun i j => if i = 0 ∧ j = 0 then -(1 / 10) - 24 * (p 0 * p 0) else 0⟩, m)
    input_ := []
    uninit := 0 }

/-- The state of the loop of `computeTransformation` at the pose `p = 0` for
`quarticObjective`: score 0, gradient `(1,0,0,0,0,0)`, Hessian with the single non-zero
entry `[0][0] = -1/10`. -/
def quarticStart : TransformationLoop K Unit :=
  { p := fun _ => 0
    s :=
      { step_dir := fun _ => 0
        score := 0
        score_gradient := fun i => if i = 0 then 1 else 0
        hessian := ⟨fun i j => if i = 0 ∧ j = 0 then -(1 / 10) else 0⟩
        trans_cloud := []
        final_transformation_ := Matrix4f_Identity
        members := () }
    transformation_ := Matrix4f_Identity
    previous_transformation_ := Matrix4f_Identity
    converged_ := false
    nr_iterations_ := 0
    intermediate_transformations_ := [] }

end ExampleObjective

section StaticObject

variable {K : Type} [LinearOrderedField K]

/-- The angular derivative vectors of an object in zero-initialised storage. -/
def AngularDerivatives.zero : AngularDerivatives K :=
  { j_ang_a_ := fun _ => 0
    j_ang_b_ := fun _ => 0
    j_ang_c_ := fun _ => 0
    j_ang_d_ := fun _ => 0
    j_ang_e_ := fun _ => 0
    j_ang_f_ := fun _ => 0
    j_ang_g_ := fun _ => 0
    j_ang_h_ := fun _ => 0
    h_ang_a2_ := fun _ => 0
    h_ang_a3_ := fun _ => 0
    h_ang_b2_ := fun _ => 0
    h_ang_b3_ := fun _ => 0
    h_ang_c2_ := fun _ => 0
    h_ang_c3_ := fun _ => 0
    h_ang_d1_ := fun _ => 0
    h_ang_d2_ := fun _ => 0
    h_ang_d3_ := fun _ => 0
    h_ang_e1_ := fun _ => 0
    h_ang_e2_ := fun _ => 0
    h_ang_e3_ := fun _ => 0
    h_ang_f1_ := fun _ => 0
    h_ang_f2_ := fun _ => 0
    h_ang_f3_ := fun _ => 0 }

/-- The object `a` of `ndt_mapping a = ndt_mapping();` in `OpenCl/ndt_mapping/kernel.cpp`
before the first test case, for the members of the model: the members without an
initialiser (`max_iterations_` is one of them: it is read by `computeTransformation` and
assigned nowhere in this variant) hold the zeros of static storage, `target_cells_` is
empty. -/
def staticObject : NdtState K :=
  { final_transformation_ := ⟨fun _ _ => 0⟩
    transformation_ := ⟨fun _ _ => 0⟩
    previous_transformation_ := ⟨fun _ _ => 0⟩
    converged_ := false
    nr_iterations_ := 0
    trans_probability_ := some 0
    max_iterations_ := 0
    input_ := []
    target_ := []
    members :=
      { gauss_d1_ := 0
        gauss_d2_ := 0
        point_gradient_ := ⟨fun _ _ => 0⟩
        point_hessian_ := ⟨fun _ _ => 0⟩
        ang := AngularDerivatives.zero
        grid :=
          { bounds :=
              { minVoxel := ⟨fun _ => 0⟩
                maxVoxel := ⟨fun _ => 0⟩
                voxelDimension := fun _ => 0 }
            size := 0
            cells := fun _ => { invCovariance := none, mean := none, numberPoints := 0 } }
        undefinedRead := false } }

end StaticObject

/-! ## `SyclTools::findComputeDevice` (SYCL points2image) -/

/-- The device selectors named in `findComputeDevice`. -/
inductive DeviceSelector where
  | host_selector
  | gpu_selector
  deriving DecidableEq

/-- `int std::string::compare(const char*)`: negative, zero or positive as the string is
less than, equal to or greater than the argument; zero exactly for equal strings. -/
def stringCompare (a b : String) : ℤ :=
  if a = b then 0 else if a < b then -1 else 1

/-- `cl::sycl::device SyclTools::findComputeDevice(const std::string& deviceType)` of
`SYCL/points2image/sycl/sycl_tools.cpp`: the selector whose `select_device()` gives the
result.  A condition `if (n)` on an `int` holds when `n` is not zero. -/
def findComputeDevice (deviceType : String) : DeviceSelector :=
  if stringCompare deviceType "CPU" ≠ 0 then DeviceSelector.host_selector
  else if stringCompare deviceType "GPU" ≠ 0 then DeviceSelector.gpu_selector
  else if stringCompare deviceType "HOST" ≠ 0 then DeviceSelector.host_selector
  else DeviceSelector.host_selector

/-! ## Inputs and helpers for the claims on `invertMatrix` and `buildTransformationMatrix` -/

/-- A symmetric positive definite matrix (leading minors 2, 3, 4), of the shape of a
covariance matrix. -/
def covM : Mat33 ℚ := ⟨![![2, 1, 1], ![1, 2, 0], ![1, 0, 2]]⟩

/-- The upper-left 3×3 block of a 4×4 matrix. -/
def Matrix4f.rotationBlock {K : Type} (m : Matrix4f K) : Matrix (Fin 3) (Fin 3) K :=
  Matrix.of (fun i j => m.data i.castSucc j.castSucc)

/-! ## Inputs for the claims on the registration result -/

/-- The identity rotation with the translation column `(10, 0, 0)`. -/
def shiftGuess {K : Type} [LinearOrderedField K] : Matrix4f K :=
  (Matrix4f_Identity : Matrix4f K).set 0 3 10

/-! ## Output comparison of the OpenCl-atomic variant (`framework.cpp`) -/

section ComparatorAtomic

variable {K : Type} [LinearOrderedField K]

/-- Modelled from the spec: the macro `MAX_EPS` used by
`OpenCl-atomic/ndt_mapping/framework.cpp:196` lives in a header that is not part of the
sources; the spec fixes the tolerance of the transformed test point as `MAX_EPS = 2.0`
(the value of `#define MAX_EPS 2.0` in `OpenCl/ndt_mapping/kernel.cpp:28`). -/
def MAX_EPS_OpenCl_atomic : K := 2

/-- `std::isnan` on a value of exact arithmetic, which is never a NaN. -/
def isnan (_ : K) : Bool := false

/-- The body of the loop `for (int h = 0; h < 4; h++)` headed "compare the matrices" in
`check_next_outputs` of `OpenCl-atomic/ndt_mapping/framework.cpp`: the NaN test of the
row, then
```
float delta = std::fabs(results[i].final_transformation.data[h][3] -
    reference.final_transformation.data[h][3]);
if (delta > max_delta) {
    max_delta = delta;
    if (delta > MAX_TRANSLATION_EPS) { error_so_far = true; }
}
``` -/
def compareTranslation (maxTranslationEps : K) (reference result : Matrix4f K)
    (s : CheckState K) (h : Fin 4) : CheckState K :=
  let s := (List.finRange 4).foldl (fun (s : CheckState K) w =>
    if isnan (result.data h w) ≠ isnan (reference.data h w) then
      { s with error_so_far := true }
    else s) s
  let delta := |result.data h 3 - reference.data h 3|
  if delta > s.max_delta then
    let s := { s with max_delta := delta }
    if delta > maxTranslationEps then { s with error_so_far := true } else s
  else s

/-- The point `origin = { 0.724f, 0.447f, 0.525f, 1.0f }` of `framework.cpp`. -/
def framework_origin : PointXYZI K := ⟨![724 / 1000, 447 / 1000, 525 / 1000, 1]⟩

/-- The accumulation
`point.data[h] += final_transformation.data[h][w]*origin.data[w]` over `w`, for each `h`,
starting from `{ 0.0f, 0.0f, 0.0f, 0.0f }`. -/
def transformOrigin (origin : PointXYZI K) (m : Matrix4f K) : PointXYZI K :=
  ⟨fun h => (List.finRange 4).foldl (fun acc w => acc + m.data h w * origin.data w) 0⟩

/-- The body of the loop `for (int w = 0; w < 4; w++)` that compares the transformed
points in `framework.cpp`:
```
float delta = std::fabs(resPoint.data[w] - refPoint.data[w]);
if (delta > max_delta) {
    max_delta = delta;
    if (delta > MAX_EPS) { error_so_far = true; }
}
``` -/
def comparePoint (maxEps : K) (refPoint resPoint : PointXYZI K) (s : CheckState K)
    (w : Fin 4) : CheckState K :=
  let delta := |resPoint.data w - refPoint.data w|
  if delta > s.max_delta then
    let s := { s with max_delta := delta }
    if delta > maxEps then { s with error_so_far := true } else s
  else s

/-- The body of the loop `for (int i = 0; i < count; i++)` of `check_next_outputs` in
`OpenCl-atomic/ndt_mapping/framework.cpp` for one test case; the pair holds the reference
read by `parseResult` and `results[i]`; the two thresholds are the macros
`MAX_TRANSLATION_EPS` and `MAX_EPS`. -/
def checkCase_framework (maxTranslationEps maxEps : K) (s : CheckState K)
    (c : CallbackResult K × CallbackResult K) : CheckState K :=
  let s : CheckState K :=
    if c.2.converged ≠ c.1.converged then { s with error_so_far := true } else s
  let s := (List.finRange 4).foldl
    (compareTranslation maxTranslationEps c.1.final_transformation c.2.final_transformation) s
  let resPoint := transformOrigin framework_origin c.2.final_transformation
  let refPoint := transformOrigin framework_origin c.1.final_transformation
  (List.finRange 4).foldl (comparePoint maxEps refPoint resPoint) s

/-- `void ndt_mapping::check_next_outputs(int count)` of
`OpenCl-atomic/ndt_mapping/framework.cpp`, applied to the pairs of reference and result of
one batch. -/
def check_next_outputs_framework (maxTranslationEps maxEps : K) (s : CheckState K)
    (cases : List (CallbackResult K × CallbackResult K)) : CheckState K :=
  cases.foldl (checkCase_framework maxTranslationEps maxEps) s

/-- `bool ndt_mapping::check_output()` of `framework.cpp`: `return !error_so_far;`. -/
def check_output_framework (s : CheckState K) : Bool :=
  !s.error_so_far

/-- The body of the loop over the test cases of `check_next_outputs` in
`OpenCl-atomic/ndt_mapping/ndt_mapping.cpp`: the test point `{ 1, 1, 1, 1 }` is
transformed by both matrices, and for `h = 0, 1, 2`
```
float delta = std::fabs(refPoint.data[h] - resPoint.data[h]);
if (delta > max_delta) { max_delta = delta; }
if (delta > MAX_TRANSLATION_EPS) { error_so_far = true; }
``` -/
def checkCase_ndt_mapping (maxTranslationEps : K) (s : CheckState K)
    (c : CallbackResult K × CallbackResult K) : CheckState K :=
  let s : CheckState K :=
    if c.2.converged ≠ c.1.converged then { s with error_so_far := true } else s
  let refPoint := transformOrigin ⟨![1, 1, 1, 1]⟩ c.1.final_transformation
  let resPoint := transformOrigin ⟨![1, 1, 1, 1]⟩ c.2.final_transformation
  (List.finRange 3).foldl (fun (s : CheckState K) h =>
    let delta := |refPoint.data h.castSucc - resPoint.data h.castSucc|
    let s := if delta > s.max_delta then { s with max_delta := delta } else s
    if delta > maxTranslationEps then { s with error_so_far := true } else s) s

/-- A result record that holds the matrix `m` and `converged = true`. -/
def convergedResult (m : Matrix4f K) : CallbackResult K :=
  { converged := true
    intermediate_transformations := none
    final_transformation := m
    fitness_score := none }

end ComparatorAtomic

/-- Two test cases whose references are the identity: the first result differs in entry
`[0][0]` (2 instead of 1), the second in the translation entry `[0][3]` (1/2 instead of
0). -/
def maskingCases : List (CallbackResult ℚ × CallbackResult ℚ) :=
  [(convergedResult Matrix4f_Identity,
      convergedResult ((Matrix4f_Identity : Matrix4f ℚ).set 0 0 2)),
    (convergedResult Matrix4f_Identity,
      convergedResult ((Matrix4f_Identity : Matrix4f ℚ).set 0 3 (1 / 2)))]

/-! ## `pack_minmaxf`, `unpack_minmaxf`, `fcomppack`, `fcompunpack` (OpenCl-atomic)

A value of type `int` or `float` is held as its 32-bit pattern, a natural number below
`2^32`; `int` arithmetic wraps around modulo `2^32`. -/

/-- `-a` on `int`, modulo `2^32`. -/
def neg32 (a : ℕ) : ℕ := (2 ^ 32 - a % 2 ^ 32) % 2 ^ 32

/-- `a * b` on `int`, modulo `2^32`. -/
def mul32 (a b : ℕ) : ℕ := (a * b) % 2 ^ 32

/-- `a + b` on `int`, modulo `2^32`. -/
def add32 (a b : ℕ) : ℕ := (a + b) % 2 ^ 32

/-- `~a` on `int`. -/
def not32 (a : ℕ) : ℕ := (2 ^ 32 - 1) ^^^ (a % 2 ^ 32)

/-- `a >> 31` on `int` (arithmetic shift): the sign bit in every position. -/
def sar31 (a : ℕ) : ℕ := if a % 2 ^ 32 < 2 ^ 31 then 0 else 2 ^ 32 - 1

/-- The value of a 32-bit pattern read as a two's complement `int`. -/
def toInt32 (a : ℕ) : ℤ := if a % 2 ^ 32 < 2 ^ 31 then (a % 2 ^ 32 : ℕ) else (a % 2 ^ 32 : ℕ) - 2 ^ 32

/-- `inline int fcomppack(float val)` of `OpenCl-atomic/ndt_mapping/ndt_mapping.cpp`;
`val` is the bit pattern of the argument. -/
def fcomppack (val : ℕ) : ℕ :=
  let ival := val
  if sar31 ival ≠ 0 then neg32 (ival &&& not32 (1 <<< 31))
  else ival

/-- `inline float fcompunpack(int val)`: the bit pattern of the returned `float`. -/
def fcompunpack (val : ℕ) : ℕ :=
  if sar31 val ≠ 0 then neg32 val ||| (1 <<< 31)
  else val

/-- `int ndt_mapping::pack_minmaxf(float val)`:
`return (-(ival & ~(0x1<<31)))*(ival>>31) + (ival*((ival>>31) ^ 0x1));` where `ival` is
the bit pattern of `val`. -/
def pack_minmaxf (val : ℕ) : ℕ :=
  let ival := val
  add32 (mul32 (neg32 (ival &&& not32 (1 <<< 31))) (sar31 ival))
    (mul32 ival (sar31 ival ^^^ 1))

/-- `float ndt_mapping::unpack_minmaxf(int val)`:
`int ival = (-val | (0x1<<31))*(val>>31) + (val*((val>>31) ^ 0x1));`, returned as the bit
pattern of a `float`. -/
def unpack_minmaxf (val : ℕ) : ℕ :=
  add32 (mul32 (neg32 val ||| (1 <<< 31)) (sar31 val)) (mul32 val (sar31 val ^^^ 1))

/-- The numerator over `2^149` of the magnitude of the IEEE 754 binary32 number whose low
31 bits are `m` (exponent field `m / 2^23`, fraction field `m % 2^23`): `f` for a
subnormal, `(2^23 + f) * 2^(e - 1)` otherwise. -/
def floatMagnitude (m : ℕ) : ℕ :=
  if m / 2 ^ 23 = 0 then m % 2 ^ 23 else (2 ^ 23 + m % 2 ^ 23) * 2 ^ (m / 2 ^ 23 - 1)

/-- The value of the IEEE 754 binary32 number with bit pattern `v`, for a finite number
(exponent field below 255): the magnitude with the sign of bit 31.  The same formula is
applied to the other patterns. -/
def floatValue (v : ℕ) : ℚ :=
  if v % 2 ^ 32 < 2 ^ 31 then (floatMagnitude (v % 2 ^ 31) : ℚ) / 2 ^ 149
  else -((floatMagnitude (v % 2 ^ 31) : ℚ) / 2 ^ 149)

/-! ## `points2image::cloud2Image` (OpenCl-atomic): merge of the arriving pixels -/

/-- An element of `pixelStorage`, with the fields that `cloud2Image` reads:
`position[0]` (column), `position[1]` (row), `depth`, `intensity`. -/
structure PixelData (K : Type) where
  position : Fin 2 → ℤ
  depth : K
  intensity : K

/-- The `PointsImage result` of `cloud2Image`: the four pixel arrays (indexed by `int`),
`max_y`, `min_y`, and the image height and width. -/
structure PointsImage (K : Type) where
  intensity : ℤ → K
  distance : ℤ → K
  min_height : ℤ → K
  max_height : ℤ → K
  max_y : ℤ
  min_y : ℤ
  image_height : ℤ
  image_width : ℤ

section Points2Image

variable {K : Type} [LinearOrderedField K]

/-- The `result` of `cloud2Image` after its initialisation: the four arrays cleared by
`memset`, `max_y = -1`, `min_y = imageSize.height`. -/
def initialImage (height width : ℤ) : PointsImage K :=
  { intensity := fun _ => 0
    distance := fun _ => 0
    min_height := fun _ => 0
    max_height := fun _ => 0
    max_y := -1
    min_y := height
    image_height := height
    image_width := width }

/-- The index `position[1]*imageSize.width + position[0]` of a pixel. -/
def pixelIndex (width : ℤ) (px : PixelData K) : ℤ :=
  px.position 1 * width + px.position 0

/-- The body of the loop `for (int j = 0; j < arrivingPixelNo; j++)` headed "process
arriving pixels" in `cloud2Image`, for the element `px = pixelStorage[j]`. -/
def processArrivingPixel (width : ℤ) (result : PointsImage K) (px : PixelData K) :
    PointsImage K :=
  if px.position 0 > -1 then
    let iPixel := px.position 1 * width + px.position 0
    let currentDepth := result.distance iPixel
    let nextDepth := px.depth * 100
    if currentDepth = 0 ∨ nextDepth ≤ currentDepth then
      let currentIntensity := result.intensity iPixel
      let nextIntensity := px.intensity
      { result with
        intensity :=
          if (currentDepth = nextDepth ∧ nextIntensity > currentIntensity) ∨
              nextDepth < currentDepth ∨ currentDepth = 0 then
            Function.update result.intensity iPixel nextIntensity
          else result.intensity
        distance := Function.update result.distance iPixel nextDepth
        min_height := Function.update result.min_height iPixel (-(5 / 4))
        max_height := Function.update result.max_height iPixel 0
        max_y := if px.position 1 > result.max_y then px.position 1 else result.max_y
        min_y := if px.position 1 < result.min_y then px.position 1 else result.min_y }
    else result
  else result

/-- The loop "process arriving pixels" of `cloud2Image` over `pixelStorage`. -/
def processArrivingPixels (width : ℤ) (result : PointsImage K)
    (pixelStorage : List (PixelData K)) : PointsImage K :=
  pixelStorage.foldl (processArrivingPixel width) result

/-- The arriving pixel has a position inside the image and a strictly positive depth. -/
def ValidPixel (height width : ℤ) (px : PixelData K) : Prop :=
  0 ≤ px.position 0 ∧ px.position 0 < width ∧ 0 ≤ px.position 1 ∧ px.position 1 < height ∧
    0 < px.depth

/-- Spec-side summary of a list `S` of arrivals in an image `R`: an index without arrival
holds zeros; an index with arrivals holds the least `100*depth` among them, the greatest
intensity among those attaining it, `min_height = -1.25` and `max_height = 0`; `max_y`
and `min_y` bound the rows of the arrivals and are attained (or hold `-1` and `height`
when there is no arrival). -/
def MergeSummary (height width : ℤ) (R : PointsImage K) (S : List (PixelData K)) : Prop :=
  (∀ i, (∀ a ∈ S, pixelIndex width a ≠ i) →
    R.distance i = 0 ∧ R.intensity i = 0 ∧ R.min_height i = 0 ∧ R.max_height i = 0) ∧
  (∀ i, (∃ a ∈ S, pixelIndex width a = i) →
    (∃ a ∈ S, pixelIndex width a = i ∧ a.depth * 100 = R.distance i ∧
      a.intensity = R.intensity i) ∧
    (∀ a ∈ S, pixelIndex width a = i →
      R.distance i ≤ a.depth * 100 ∧
        (a.depth * 100 = R.distance i → a.intensity ≤ R.intensity i)) ∧
    R.min_height i = -(5 / 4) ∧ R.max_height i = 0) ∧
  (∀ a ∈ S, a.position 1 ≤ R.max_y ∧ R.min_y ≤ a.position 1) ∧
  (S ≠ [] → (∃ a ∈ S, R.max_y = a.position 1) ∧ (∃ a ∈ S, R.min_y = a.position 1)) ∧
  (S = [] → R.max_y = -1 ∧ R.min_y = height) ∧
  R.image_height = height ∧ R.image_width = width

end Points2Image

/-- Three arrivals in an image of height 2 and width 2: two at the pixel of column 1, row
0 (depths 2 and 1, intensities 5 and 7) and one at the pixel of column 0, row 1. -/
def exampleArrivals : List (PixelData ℚ) :=
  [⟨![1, 0], 2, 5⟩, ⟨![0, 1], 3, 4⟩, ⟨![1, 0], 1, 7⟩]

section FloatGrid

variable {K : Type} [LinearOrderedField K] [FloorRing K]

/-- The power `2^e` for an integer exponent. -/
def pow2 (e : ℤ) : K :=
  if 0 ≤ e then 2 ^ e.toNat else 1 / 2 ^ (-e).toNat

/-- Rounding to the nearest integer, ties to the even one. -/
def roundEven (x : K) : ℤ :=
  if x - (⌊x⌋ : K) < 1 / 2 then ⌊x⌋
  else if 1 / 2 < x - (⌊x⌋ : K) then ⌊x⌋ + 1
  else if ⌊x⌋ % 2 = 0 then ⌊x⌋ else ⌊x⌋ + 1

/-- The exponent of the `float` binade of `x`: the least `e ≥ e0` with `|x| < 2^(e+1)`, at
most `e0 + fuel`. -/
def floatExponent : ℕ → ℤ → K → ℤ
  | 0, e, _ => e
  | fuel + 1, e, x => if |x| < pow2 (e + 1) then e else floatExponent fuel (e + 1) x

/-- The value of type `float` (IEEE 754 binary32: 24 significant bits, exponents `-126` to
`127`, subnormal numbers) nearest to `x`, ties to even: the result of one single-precision
operation whose exact result is `x`.  Overflow to infinity is left out: a value beyond
the largest `float` is rounded with the spacing of the last binade. -/
def roundFloat (x : K) : K :=
  (roundEven (x / pow2 (floatExponent 253 (-126) x - 23)) : K) *
    pow2 (floatExponent 253 (-126) x - 23)

/-- The assignment
`voxelDimension[i] = (maxVoxel.data[i] - minVoxel.data[i]) / resolution_ + 1;`
for `i = 0, 1, 2` with its three operations on `float` operands, each rounded by `fl`,
and the conversion of the result to `int`. -/
def computeVoxelDimension_float (fl : K → K) (resolution_ : K) (minVoxel maxVoxel : PointXYZI K) :
    Fin 3 → ℤ :=
  fun i => toInt (fl (fl (fl (maxVoxel.data i.castSucc - minVoxel.data i.castSucc) /
    resolution_) + 1))

/-- `inline int ndt_mapping::linearizeCoord(const float x, const float y, const float z)`
with the two operations of `(x - minVoxel.data[0]) / resolution_` on `float` operands, each
rounded by `fl`. -/
def linearizeCoord_float (fl : K → K) (minVoxel : PointXYZI K) (resolution_ : K)
    (voxelDimension : Fin 3 → ℤ) (x y z : K) : ℤ :=
  let idx_x := toInt (fl (fl (x - minVoxel.data 0) / resolution_))
  let idx_y := toInt (fl (fl (y - minVoxel.data 1) / resolution_))
  let idx_z := toInt (fl (fl (z - minVoxel.data 2) / resolution_))
  linearizeAddr voxelDimension idx_x idx_y idx_z

/-- The grid-sizing part of `ndt_mapping::initCompute` in `OpenCl/ndt_mapping/kernel.cpp`
(lines 1809-1830) in single precision: the scan (comparisons and copies only), then the
dimensions computed with rounded operations. -/
def initCompute_grid_OpenCl_float (fl : K → K) (resolution_ : K) (target : List (PointXYZI K)) :
    Option (GridBounds K) :=
  (minMaxScan target).map (fun s =>
    ⟨s.1, s.2, computeVoxelDimension_float fl resolution_ s.1 s.2⟩)

/-- The cell indices `voxelIndex = linearizeCoord(p.data[0], p.data[1], p.data[2])` at
which the first pass of `initCompute` accesses `target_cells_`, one per target point, in
single precision. -/
def firstPassIndices_float (fl : K → K) (resolution_ : K) (g : GridBounds K)
    (target : List (PointXYZI K)) : List ℤ :=
  target.map (fun p => linearizeCoord_float fl g.minVoxel resolution_ g.voxelDimension
    (p.data 0) (p.data 1) (p.data 2))

/-- The values taken by the loop variable of `for (float x = lo; x <= hi; x += step)`
when the addition `x += step` is rounded by `fl`; `none` when the loop has not ended after
`fuel` iterations. -/
def forValues_float (fl : K → K) : ℕ → K → K → K → Option (List K)
  | 0, x, hi, _ => if x ≤ hi then none else some []
  | fuel + 1, x, hi, step =>
    if x ≤ hi then (forValues_float fl fuel (fl (x + step)) hi step).map (fun l => x :: l)
    else some []

/-- The candidate positions visited by the three nested loops of `voxelRadiusSearch`, in
visiting order (`x` outermost), in single precision: the start `point.data[k] - radius`,
the bound `point.data[k] + radius` and the step `x += resolution_` are rounded by `fl`;
`none` when a loop has not ended after `fuel` iterations. -/
def radiusSearchCandidates_float (fl : K → K) (fuel : ℕ) (resolution_ : K) (point : PointXYZI K)
    (radius : K) : Option (List (K × K × K)) :=
  (forValues_float fl fuel (fl (point.data 0 - radius)) (fl (point.data 0 + radius))
    resolution_).bind (fun xs =>
  (forValues_float fl fuel (fl (point.data 1 - radius)) (fl (point.data 1 + radius))
    resolution_).bind (fun ys =>
  (forValues_float fl fuel (fl (point.data 2 - radius)) (fl (point.data 2 + radius))
    resolution_).map (fun zs =>
    List.product xs (List.product ys zs))))

/-- The cell indices `idx = linearizeCoord(x, y, z)` at which `voxelRadiusSearch` reads
`grid[idx]`, in reading order, in single precision: one for every candidate position that
passes the bounds test; `none` when a loop has not ended after `fuel` iterations. -/
def radiusSearchReads_float (fl : K → K) (fuel : ℕ) (resolution_ : K) (g : GridBounds K)
    (point : PointXYZI K) (radius : K) : Option (List ℤ) :=
  (radiusSearchCandidates_float fl fuel resolution_ point radius).map (fun cs =>
    (cs.filter (fun c => decide (¬ outsideGrid g c))).map (fun c =>
      linearizeCoord_float fl g.minVoxel resolution_ g.voxelDimension c.1 c.2.1 c.2.2))

end FloatGrid

/-- A target cloud of extent `2^24` along x: `(0,0,0)` and `(16777216,0,0)`. -/
def cloudWide : List (PointXYZI ℚ) := [⟨![0, 0, 0, 0]⟩, ⟨![16777216, 0, 0, 0]⟩]

/-- A target cloud of extent `2^24` along x and 1 along y: `(-8388608,0,0)`,
`(8388608,0,0)` and `(0,1,0)`. -/
def cloudCentred : List (PointXYZI ℚ) :=
  [⟨![-8388608, 0, 0, 0]⟩, ⟨![8388608, 0, 0, 0]⟩, ⟨![0, 1, 0, 0]⟩]

/-- The corners of `cloudCentred` with the dimensions `2^24 × 2 × 1` that `initCompute`
computes for them in single precision with `resolution_ = 1`. -/
def boundsCentred : GridBounds ℚ :=
  { minVoxel := ⟨![-8388608, 0, 0, 0]⟩
    maxVoxel := ⟨![8388608, 1, 0, 0]⟩
    voxelDimension := ![16777216, 2, 1] }

/-- The query point `(8388608, 1, 0)`, the max corner of `cloudCentred`. -/
def queryCorner : PointXYZI ℚ := ⟨![8388608, 1, 0, 0]⟩

/-- The query point `(16777216, 0, 0)`. -/
def queryFar : PointXYZI ℚ := ⟨![16777216, 0, 0, 0]⟩

/-- The `float` nearest to `0.22842853`. -/
def queryNear : PointXYZI ℚ := ⟨![15329579 / 67108864, 0, 0, 0]⟩

/-- The grid that `initCompute` builds for `cloud3` with `resolution_ = 1`. -/
def builtCloud3 : BuiltGrid ℚ :=
  (initCompute_OpenCl (1 : ℚ) cloud3).getD ⟨boundsCloud3, 0, undefinedGrid⟩

/-- The rotation by a half turn about the x axis, `diag(1, -1, -1, 1)`. -/
def halfTurnX {K : Type} [LinearOrderedField K] : Matrix4f K :=
  ⟨fun i k => if i = k then (if i = 1 ∨ i = 2 then -1 else 1) else 0⟩

/-- Stand-ins over the rationals for the library functions `atan2`, `exp`, `log`, `pow`,
used to evaluate a registration run: `atan2 = 0`, `exp x = 1 + x`, `log x = x - 1`,
`pow x y = x`. -/
def rationalLib : DriverLib ℚ := ⟨fun _ _ => 0, fun x => 1 + x, fun x => x - 1, fun x _ => x⟩

/-- A stand-in over the rationals for `cos`: `1 - x^2 / 2`. -/
def rationalCos : ℚ → ℚ := fun x => 1 - x * x / 2

/-- A stand-in over the rationals for `sin` and for `sqrt`: the identity. -/
def rationalId : ℚ → ℚ := fun x => x

/-- A target cloud with four points in the cell of the origin and one point at `(1,1,1)`:
with `resolution_ = 1` the grid has `2 × 2 × 2` cells. -/
def cloudCluster : List (PointXYZI ℚ) :=
  [⟨![0, 0, 0, 0]⟩, ⟨![1 / 2, 0, 0, 0]⟩, ⟨![0, 1 / 2, 0, 0]⟩, ⟨![0, 0, 1 / 2, 0]⟩,
    ⟨![1, 1, 1, 0]⟩]

/-- A source cloud of one point, `(11/40, 1/8, 3/8)`. -/
def cloudSource : List (PointXYZI ℚ) := [⟨![11 / 40, 1 / 8, 3 / 8, 0]⟩]

/-- The identity rotation with the translation column `(1/10, 0, 0)`. -/
def smallShiftGuess : Matrix4f ℚ := (Matrix4f_Identity : Matrix4f ℚ).set 0 3 (1 / 10)

/-! ## `updateDerivatives` on floating-point values that may be infinite or NaN -/

/-- A floating-point value: a number, `+infinity`, `-infinity` or NaN.  Numbers are
exact, and zero has no sign. -/
inductive Fp (K : Type) where
  | num : K → Fp K
  | pinf : Fp K
  | ninf : Fp K
  | nan : Fp K

section FpArithmetic

variable {K : Type} [LinearOrderedField K]

/-- The sign of a value that is not NaN: `1`, `0` or `-1`. -/
def Fp.sign : Fp K → ℤ
  | Fp.num x => if 0 < x then 1 else if x < 0 then -1 else 0
  | Fp.pinf => 1
  | Fp.ninf => -1
  | Fp.nan => 0

/-- The infinity of the given sign; NaN for the sign 0. -/
def Fp.infinity (s : ℤ) : Fp K :=
  if 0 < s then Fp.pinf else if s < 0 then Fp.ninf else Fp.nan

/-- The unary minus. -/
def Fp.neg : Fp K → Fp K
  | Fp.num x => Fp.num (-x)
  | Fp.pinf => Fp.ninf
  | Fp.ninf => Fp.pinf
  | Fp.nan => Fp.nan

/-- The sum: NaN on a NaN operand and for `infinity - infinity`. -/
def Fp.add : Fp K → Fp K → Fp K
  | Fp.num x, Fp.num y => Fp.num (x + y)
  | Fp.nan, _ => Fp.nan
  | _, Fp.nan => Fp.nan
  | Fp.pinf, Fp.ninf => Fp.nan
  | Fp.ninf, Fp.pinf => Fp.nan
  | Fp.pinf, _ => Fp.pinf
  | _, Fp.pinf => Fp.pinf
  | Fp.ninf, _ => Fp.ninf
  | _, Fp.ninf => Fp.ninf

/-- The product: NaN on a NaN operand and for `0 * infinity`; otherwise an infinite
operand gives the infinity whose sign is the product of the signs. -/
def Fp.mul : Fp K → Fp K → Fp K
  | Fp.num x, Fp.num y => Fp.num (x * y)
  | Fp.nan, _ => Fp.nan
  | _, Fp.nan => Fp.nan
  | a, b => Fp.infinity (a.sign * b.sign)

/-- The quotient: NaN on a NaN operand, for `0 / 0` and for `infinity / infinity`; a
number divided by an infinity is 0; a division of a non-zero number by 0, or of an
infinity by a number, gives an infinity (the divisor 0 counts as positive). -/
def Fp.div : Fp K → Fp K → Fp K
  | Fp.num x, Fp.num y =>
    if y = 0 then Fp.infinity (Fp.sign (Fp.num x)) else Fp.num (x / y)
  | Fp.nan, _ => Fp.nan
  | _, Fp.nan => Fp.nan
  | Fp.num _, _ => Fp.num 0
  | a, Fp.num y => Fp.infinity (a.sign * (if y < 0 then -1 else 1))
  | _, _ => Fp.nan

instance Fp.instAdd : Add (Fp K) := ⟨Fp.add⟩

instance Fp.instMul : Mul (Fp K) := ⟨Fp.mul⟩

instance Fp.instDiv : Div (Fp K) := ⟨Fp.div⟩

instance Fp.instNeg : Neg (Fp K) := ⟨Fp.neg⟩

/-- A function of numbers taken as a function of floating-point values: NaN outside the
numbers. -/
def Fp.apply (f : K → K) : Fp K → Fp K
  | Fp.num x => Fp.num (f x)
  | _ => Fp.nan

/-- The comparison `a < b`: false when an operand is NaN. -/
def Fp.lt : Fp K → Fp K → Bool
  | Fp.num x, Fp.num y => decide (x < y)
  | Fp.nan, _ => false
  | _, Fp.nan => false
  | Fp.ninf, Fp.ninf => false
  | Fp.ninf, _ => true
  | Fp.pinf, _ => false
  | _, Fp.pinf => true
  | _, Fp.ninf => false

/-- The comparison `a > b`: false when an operand is NaN. -/
def Fp.gt (a b : Fp K) : Bool :=
  Fp.lt b a

/-- The comparison `a != b`: true when an operand is NaN. -/
def Fp.ne : Fp K → Fp K → Bool
  | Fp.num x, Fp.num y => decide (x ≠ y)
  | Fp.pinf, Fp.pinf => false
  | Fp.ninf, Fp.ninf => false
  | _, _ => true

/-- `double dot_product(Vec3 &a, Vec3 &b)` on floating-point values. -/
def dot_product_nan (a b : Vec3 (Fp K)) : Fp K :=
  a 0 * b 0 + a 1 * b 1 + a 2 * b 2

/-- The accumulation loops for `cov_dxd_pi` and `matProd` (see `matVec3`) on
floating-point values. -/
def matVec3_nan (c_inv : Mat33 (Fp K)) (v : Vec3 (Fp K)) : Vec3 (Fp K) :=
  fun row => (List.finRange 3).foldl (fun acc col => acc + c_inv.data row col * v col)
    (Fp.num 0)

/-- The value `xCx` computed at the head of `updateDerivatives`, on floating-point
values. -/
def xCx_nan (x_trans : Vec3 (Fp K)) (c_inv : Mat33 (Fp K)) : Fp K :=
  c_inv.data 0 0 * x_trans 0 * x_trans 0 +
  c_inv.data 1 1 * x_trans 1 * x_trans 1 +
  c_inv.data 2 2 * x_trans 2 * x_trans 2 +
  (c_inv.data 0 1 + c_inv.data 1 0) * x_trans 0 * x_trans 1 +
  (c_inv.data 0 2 + c_inv.data 2 0) * x_trans 0 * x_trans 2 +
  (c_inv.data 1 2 + c_inv.data 2 1) * x_trans 1 * x_trans 2

/-- The body of the inner loop `for (int j = 0; j < 6; j++)` of `updateDerivatives` on
floating-point values. -/
def updateHessianEntry_nan (gauss_d2_ : Fp K) (point_gradient_ : Mat36 (Fp K))
    (point_hessian_ : Mat186 (Fp K)) (x_trans : Vec3 (Fp K)) (c_inv : Mat33 (Fp K))
    (e_x_cov_x : Fp K) (cov_dxd_pi : Vec3 (Fp K)) (i : Fin 6) (hessian : Mat66 (Fp K))
    (j : Fin 6) : Mat66 (Fp K) :=
  let colVec : Vec3 (Fp K) := fun r => point_gradient_.data r j
  let colVecHess : Vec3 (Fp K) := fun r => colVec r + point_hessian_.data (hessianRow i r) j
  let matProd := matVec3_nan c_inv colVecHess
  hessian.set i j (hessian.data i j +
    e_x_cov_x * (-gauss_d2_ * dot_product_nan x_trans cov_dxd_pi *
        dot_product_nan x_trans matProd +
      dot_product_nan colVec cov_dxd_pi))

/-- The body of the outer loop `for (int i = 0; i < 6; i++)` of `updateDerivatives` on
floating-point values. -/
def updateDerivativesRow_nan (gauss_d2_ : Fp K) (point_gradient_ : Mat36 (Fp K))
    (point_hessian_ : Mat186 (Fp K)) (x_trans : Vec3 (Fp K)) (c_inv : Mat33 (Fp K))
    (compute_hessian : Bool) (e_x_cov_x : Fp K) (s : Vec6 (Fp K) × Mat66 (Fp K)) (i : Fin 6) :
    Vec6 (Fp K) × Mat66 (Fp K) :=
  let cov_dxd_pi := matVec3_nan c_inv (fun col => point_gradient_.data col i)
  let score_gradient :=
    Vec6.set s.1 i (s.1 i + dot_product_nan x_trans cov_dxd_pi * e_x_cov_x)
  let hessian :=
    if compute_hessian then
      (List.finRange 6).foldl
        (updateHessianEntry_nan gauss_d2_ point_gradient_ point_hessian_ x_trans c_inv
          e_x_cov_x cov_dxd_pi i) s.2
    else s.2
  (score_gradient, hessian)

/-- `double ndt_mapping::updateDerivatives (Vec6 &score_gradient, Mat66 &hessian,
Vec3 &x_trans, Mat33 &c_inv, bool compute_hessian)` on floating-point values that may be
infinite or NaN.  `exp` is the library function on such values (it may overflow to
`+infinity`); the arithmetic gives NaN on a NaN operand, the comparisons `>` and `<` are
false and `!=` is true on a NaN operand, so that the third test of
```
if (e_x_cov_x > 1 || e_x_cov_x < 0 || e_x_cov_x != e_x_cov_x)
    return (0);
```
holds exactly when `e_x_cov_x` is NaN.  On numbers the arithmetic is exact. -/
def updateDerivatives_nan (exp : Fp K → Fp K) (gauss_d1_ gauss_d2_ : Fp K)
    (point_gradient_ : Mat36 (Fp K)) (point_hessian_ : Mat186 (Fp K))
    (score_gradient : Vec6 (Fp K)) (hessian : Mat66 (Fp K)) (x_trans : Vec3 (Fp K))
    (c_inv : Mat33 (Fp K)) (compute_hessian : Bool) : Fp K × Vec6 (Fp K) × Mat66 (Fp K) :=
  let e_x_cov_x := exp (-gauss_d2_ * xCx_nan x_trans c_inv / Fp.num 2)
  let score_inc := -gauss_d1_ * e_x_cov_x
  let e_x_cov_x := gauss_d2_ * e_x_cov_x
  if Fp.gt e_x_cov_x (Fp.num 1) || Fp.lt e_x_cov_x (Fp.num 0) || Fp.ne e_x_cov_x e_x_cov_x then
    (Fp.num 0, score_gradient, hessian)
  else
    let e_x_cov_x := e_x_cov_x * gauss_d1_
    let s := (List.finRange 6).foldl
      (updateDerivativesRow_nan gauss_d2_ point_gradient_ point_hessian_ x_trans c_inv
        compute_hessian e_x_cov_x) (score_gradient, hessian)
    (score_inc, s.1, s.2)

end FpArithmetic

section SwapLemmas

variable {K : Type}

theorem swapLinesOn_data (mi j : Fin 6) (l : List (Fin 6)) (hl : l.Nodup) (A : Mat66 K)
    (r c : Fin 6) :
    (swapLinesOn mi j l A).data r c =
      if c ∈ l then (if r = j then A.data mi c else if r = mi then A.data j c else A.data r c)
      else A.data r c := by
  induction l generalizing A with
  | nil => simp [swapLinesOn]
  | cons i l ih =>
    have hi : i ∉ l := (List.nodup_cons.1 hl).1
    have hl2 : l.Nodup := (List.nodup_cons.1 hl).2
    have h := ih hl2 ((A.set mi i (A.data j i)).set j i (A.data mi i))
    simp only [swapLinesOn, List.foldl_cons] at h ⊢
    rw [h]
    by_cases hc : c ∈ l
    · have hci : c ≠ i := fun e => hi (e ▸ hc)
      simp [hc, Mat66.set, hci]
    · by_cases hci : c = i
      · subst hci
        simp [hc, Mat66.set]
      · simp [hc, hci, Mat66.set]

theorem swapLines_data (A : Mat66 K) (mi j r c : Fin 6) :
    (swapLines A mi j).data r c =
      if r = j then A.data mi c else if r = mi then A.data j c else A.data r c := by
  rw [swapLines, swapLinesOn_data mi j _ (List.nodup_finRange 6)]
  simp

end SwapLemmas

section SolveLemmas
variable {K : Type} [LinearOrderedField K]

theorem finRange6 : List.finRange 6 = [0, 1, 2, 3, 4, 5] := by decide

theorem mem_rowsBelow (j i : Fin 6) : i ∈ rowsBelow j ↔ j < i := by
  simp [rowsBelow]

theorem pivotSearch_fold_spec (A : Mat66 K) (j : Fin 6) (l : List (Fin 6)) (s : Fin 6 × K)
    (hs : s.2 = |A.data s.1 j|) (hj : j ≤ s.1) (hl : ∀ i ∈ l, j ≤ i) :
    let r := l.foldl (fun s i => if |A.data i j| > s.2 then (i, |A.data i j|) else s) s
    r.2 = |A.data r.1 j| ∧ j ≤ r.1 := by
  induction l generalizing s with
  | nil => exact ⟨hs, hj⟩
  | cons i l ih =>
    simp only [List.foldl_cons]
    apply ih
    · split_ifs <;> simp [hs]
    · split_ifs
      · exact hl i (List.mem_cons_self _ _)
      · exact hj
    · intro k hk
      exact hl k (List.mem_cons_of_mem _ hk)

theorem pivotSearch_spec (A : Mat66 K) (j : Fin 6) :
    (pivotSearch A j).2 = |A.data (pivotSearch A j).1 j| ∧ j ≤ (pivotSearch A j).1 := by
  apply pivotSearch_fold_spec A j (rowsBelow j) (j, |A.data j j|) rfl le_rfl
  intro i hi
  exact le_of_lt ((mem_rowsBelow j i).1 hi)

theorem pivotSearch_fold_max (A : Mat66 K) (j : Fin 6) (l : List (Fin 6)) (s : Fin 6 × K) :
    s.2 ≤ (l.foldl (fun s i => if |A.data i j| > s.2 then (i, |A.data i j|) else s) s).2 ∧
    ∀ i ∈ l, |A.data i j| ≤
      (l.foldl (fun s i => if |A.data i j| > s.2 then (i, |A.data i j|) else s) s).2 := by
  induction l generalizing s with
  | nil => simp
  | cons k l ih =>
    obtain ⟨h1, h2⟩ := ih (if |A.data k j| > s.2 then (k, |A.data k j|) else s)
    have hs : s.2 ≤ (if |A.data k j| > s.2 then (k, |A.data k j|) else s).2 := by
      split_ifs with h
      · exact le_of_lt h
      · exact le_rfl
    have hk : |A.data k j| ≤ (if |A.data k j| > s.2 then (k, |A.data k j|) else s).2 := by
      split_ifs with h
      · exact le_rfl
      · exact not_lt.1 h
    simp only [List.foldl_cons]
    refine ⟨le_trans hs h1, ?_⟩
    intro i hi
    rcases List.mem_cons.1 hi with e | hmem
    · rw [e]
      exact le_trans hk h1
    · exact h2 i hmem

/-- The value `max` found by the pivot search is the largest absolute value in the pivot
column `A[j..5][j]`. -/
theorem pivotSearch_max (A : Mat66 K) (j i : Fin 6) (h : j ≤ i) :
    |A.data i j| ≤ (pivotSearch A j).2 := by
  obtain ⟨h1, h2⟩ := pivotSearch_fold_max A j (rowsBelow j) (j, |A.data j j|)
  rcases lt_or_eq_of_le h with hlt | heq
  · exact h2 i ((mem_rowsBelow j i).2 hlt)
  · rw [← heq]
    exact h1

/-- When the pivot search finds `max = 0`, the diagonal entry is replaced by `eps`. -/
theorem pivotColumn_substitute (eps : K) (A : Mat66 K) (j : Fin 6)
    (h : (pivotSearch A j).2 = 0) : (pivotColumn eps A j).data j j = eps := by
  simp [pivotColumn, h, Mat66.set]

theorem subtractLineOn_data (pivot : K) (i j : Fin 6) (l : List (Fin 6)) (hl : l.Nodup)
    (A : Mat66 K) (r c : Fin 6) :
    (subtractLineOn pivot i j l A).data r c =
      if r = i ∧ c ∈ l then A.data i c - pivot * A.data j c else A.data r c := by
  induction l generalizing A with
  | nil => simp [subtractLineOn]
  | cons k l ih =>
    have hk : k ∉ l := (List.nodup_cons.1 hl).1
    have hl2 : l.Nodup := (List.nodup_cons.1 hl).2
    have h := ih hl2 (A.set i k (A.data i k - pivot * A.data j k))
    simp only [subtractLineOn, List.foldl_cons] at h ⊢
    rw [h]
    by_cases hc : c ∈ l
    · have hck : c ≠ k := fun e => hk (e ▸ hc)
      simp [hc, Mat66.set, hck]
    · by_cases hck : c = k
      · subst hck
        simp [hc, Mat66.set]
      · simp [hc, hck, Mat66.set]


theorem eliminateRow_some (j : Fin 6) (s : Mat66 K × Vec6 K) (i : Fin 6)
    (h : s.1.data j j ≠ 0) :
    eliminateRow j s i =
      some (subtractLineOn (s.1.data i j / s.1.data j j) i j (List.finRange 6) s.1,
            Vec6.set s.2 i (s.2 i - s.1.data i j / s.1.data j j * s.2 j)) := by
  simp [eliminateRow, h]

theorem eliminateRows_spec (j : Fin 6) (l : List (Fin 6)) (hl : ∀ i ∈ l, j < i)
    (s : Mat66 K × Vec6 K) (h : s.1.data j j ≠ 0) :
    ∃ s', l.foldlM (eliminateRow j) s = some s' ∧
      (∀ r, r ≤ j → ∀ c, s'.1.data r c = s.1.data r c) ∧
      (∀ r, r ≤ j → s'.2 r = s.2 r) := by
  induction l generalizing s with
  | nil => exact ⟨s, rfl, fun _ _ _ => rfl, fun _ _ => rfl⟩
  | cons i l ih =>
    have hji : j < i := hl i (List.mem_cons_self _ _)
    have hrow : ∀ r, r ≤ j → r ≠ i := fun r hr e => absurd (e ▸ hr) (not_le.2 hji)
    obtain ⟨s', hs', hA, hb⟩ := ih (fun k hk => hl k (List.mem_cons_of_mem _ hk))
      (subtractLineOn (s.1.data i j / s.1.data j j) i j (List.finRange 6) s.1,
        Vec6.set s.2 i (s.2 i - s.1.data i j / s.1.data j j * s.2 j))
      (by
        rw [subtractLineOn_data _ _ _ _ (List.nodup_finRange 6)]
        simp [hrow j le_rfl, h])
    refine ⟨s', ?_, ?_, ?_⟩
    · rw [List.foldlM_cons, eliminateRow_some j s i h]
      exact hs'
    · intro r hr c
      rw [hA r hr c, subtractLineOn_data _ _ _ _ (List.nodup_finRange 6)]
      simp [hrow r hr]
    · intro r hr
      rw [hb r hr]
      simp [Vec6.set, hrow r hr]

theorem pivotColumn_diag (eps : K) (heps : eps ≠ 0) (A : Mat66 K) (j : Fin 6) :
    (pivotColumn eps A j).data j j ≠ 0 := by
  obtain ⟨hp, _⟩ := pivotSearch_spec A j
  unfold pivotColumn
  simp only
  by_cases h0 : (pivotSearch A j).2 = 0
  · simp [h0, Mat66.set, heps]
  · rw [if_neg h0]
    have hne : A.data (pivotSearch A j).1 j ≠ 0 := by
      intro e
      apply h0
      rw [hp, e, abs_zero]
    by_cases hm : (pivotSearch A j).1 = j
    · simp only [hm, ne_eq, not_true_eq_false, if_false]
      rw [hm] at hne
      exact hne
    · rw [if_pos hm, swapLines_data]
      simpa using hne

theorem pivotColumn_above (eps : K) (A : Mat66 K) (j r c : Fin 6) (hr : r < j) :
    (pivotColumn eps A j).data r c = A.data r c := by
  obtain ⟨_, hj⟩ := pivotSearch_spec A j
  have h1 : r ≠ j := ne_of_lt hr
  have h2 : r ≠ (pivotSearch A j).1 := ne_of_lt (lt_of_lt_of_le hr hj)
  unfold pivotColumn
  simp only
  split_ifs <;> simp [Mat66.set, swapLines_data, h1, h2]

theorem eliminateColumn_spec (eps : K) (heps : eps ≠ 0) (s : Mat66 K × Vec6 K) (j : Fin 6) :
    ∃ s', eliminateColumn eps s j = some s' ∧ s'.1.data j j ≠ 0 ∧
      ∀ r, r < j → ∀ c, s'.1.data r c = s.1.data r c := by
  obtain ⟨s', hs', hA, _⟩ := eliminateRows_spec j (rowsBelow j)
    (fun i hi => (mem_rowsBelow j i).1 hi) (pivotColumn eps s.1 j, s.2)
    (pivotColumn_diag eps heps s.1 j)
  refine ⟨s', hs', ?_, ?_⟩
  · rw [hA j le_rfl j]
    exact pivotColumn_diag eps heps s.1 j
  · intro r hr c
    rw [hA r (le_of_lt hr) c]
    exact pivotColumn_above eps s.1 j r c hr


theorem eliminateColumn_inv (eps : K) (heps : eps ≠ 0) (s : Mat66 K × Vec6 K) (j : Fin 6)
    (h : DiagNonzero j.val s.1) :
    ∃ s', eliminateColumn eps s j = some s' ∧ DiagNonzero (j.val + 1) s'.1 := by
  obtain ⟨s', hs', hd, hA⟩ := eliminateColumn_spec eps heps s j
  refine ⟨s', hs', ?_⟩
  intro i hi
  rcases Nat.lt_succ_iff_lt_or_eq.1 hi with hlt | heq
  · rw [hA i (Fin.lt_def.2 hlt) i]
    exact h i hlt
  · have : i = j := Fin.ext heq
    rw [this]
    exact hd

theorem eliminate_spec (eps : K) (heps : eps ≠ 0) (A : Mat66 K) (b : Vec6 K) :
    ∃ s, eliminate eps A b = some s ∧ ∀ i : Fin 6, s.1.data i i ≠ 0 := by
  obtain ⟨s0, e0, h0⟩ := eliminateColumn_inv eps heps (A, b) 0 (fun i hi => absurd hi (by simp))
  obtain ⟨s1, e1, h1⟩ := eliminateColumn_inv eps heps s0 1 h0
  obtain ⟨s2, e2, h2⟩ := eliminateColumn_inv eps heps s1 2 h1
  obtain ⟨s3, e3, h3⟩ := eliminateColumn_inv eps heps s2 3 h2
  obtain ⟨s4, e4, h4⟩ := eliminateColumn_inv eps heps s3 4 h3
  obtain ⟨s5, e5, h5⟩ := eliminateColumn_inv eps heps s4 5 h4
  refine ⟨s5, ?_, fun i => h5 i i.isLt⟩
  simp [eliminate, finRange6, List.foldlM_cons, e0, e1, e2, e3, e4, e5]

theorem backSubstitute_spec (result : Vec6 K) (A : Mat66 K) (b : Vec6 K)
    (h : ∀ i : Fin 6, A.data i i ≠ 0) :
    ∃ x, backSubstitute result A b = some x := by
  simp [backSubstitute, backSubstRow, h, List.foldlM_cons]

theorem solve_returns_of_ne_zero (eps : K) (heps : eps ≠ 0) (result : Vec6 K) (A : Mat66 K) (b : Vec6 K) :
    ∃ x, solve eps result A b = some x := by
  obtain ⟨s, hs, hd⟩ := eliminate_spec eps heps A b
  obtain ⟨x, hx⟩ := backSubstitute_spec result s.1 s.2 hd
  exact ⟨x, by simp [solve, hs, hx]⟩

end SolveLemmas

/-! ## Lemmas on the voxel grid -/

section GridLemmas

theorem linearizeAddr_nonneg (dim : Fin 3 → ℤ) (x y z : ℤ)
    (hx : 0 ≤ x ∧ x < dim 0) (hy : 0 ≤ y ∧ y < dim 1) (hz : 0 ≤ z ∧ z < dim 2) :
    0 ≤ linearizeAddr dim x y z := by
  unfold linearizeAddr
  have h0 : 0 ≤ dim 0 := le_trans hx.1 (le_of_lt hx.2)
  have h1 : 0 ≤ dim 1 := le_trans hy.1 (le_of_lt hy.2)
  have h2 : 0 ≤ dim 1 * z := mul_nonneg h1 hz.1
  have h3 : 0 ≤ dim 0 * (y + dim 1 * z) := mul_nonneg h0 (add_nonneg hy.1 h2)
  linarith [hx.1]

theorem linearizeAddr_lt (dim : Fin 3 → ℤ) (x y z : ℤ)
    (hx : 0 ≤ x ∧ x < dim 0) (hy : 0 ≤ y ∧ y < dim 1) (hz : 0 ≤ z ∧ z < dim 2) :
    linearizeAddr dim x y z < dim 0 * dim 1 * dim 2 := by
  unfold linearizeAddr
  have h0 : 0 ≤ dim 0 := le_trans hx.1 (le_of_lt hx.2)
  have h1 : 0 ≤ dim 1 := le_trans hy.1 (le_of_lt hy.2)
  have hz' : z + 1 ≤ dim 2 := hz.2
  have hy' : y + 1 ≤ dim 1 := hy.2
  have a : dim 1 * (z + 1) ≤ dim 1 * dim 2 := mul_le_mul_of_nonneg_left hz' h1
  have b : y + dim 1 * z + 1 ≤ dim 1 * dim 2 := by linarith
  have c : dim 0 * (y + dim 1 * z + 1) ≤ dim 0 * (dim 1 * dim 2) :=
    mul_le_mul_of_nonneg_left b h0
  have d : dim 0 * (y + dim 1 * z + 1) = dim 0 * (y + dim 1 * z) + dim 0 := by ring
  have e : dim 0 * (dim 1 * dim 2) = dim 0 * dim 1 * dim 2 := by ring
  linarith [hx.2]

theorem mixed_radix_inj (n a b a' b' : ℤ) (ha : 0 ≤ a ∧ a < n) (ha' : 0 ≤ a' ∧ a' < n)
    (h : a + n * b = a' + n * b') : a = a' ∧ b = b' := by
  have hn : 0 < n := lt_of_le_of_lt ha.1 ha.2
  have e1 : (a + n * b) % n = a := by
    rw [Int.add_mul_emod_self_left]
    exact Int.emod_eq_of_lt ha.1 ha.2
  have e2 : (a' + n * b') % n = a' := by
    rw [Int.add_mul_emod_self_left]
    exact Int.emod_eq_of_lt ha'.1 ha'.2
  have haa : a = a' := by rw [← e1, ← e2, h]
  refine ⟨haa, ?_⟩
  subst haa
  have h2 : n * b = n * b' := by linarith
  exact (mul_right_inj' (ne_of_gt hn)).1 h2

theorem linearizeAddr_inj (dim : Fin 3 → ℤ) (x y z x' y' z' : ℤ)
    (hx : 0 ≤ x ∧ x < dim 0) (hy : 0 ≤ y ∧ y < dim 1)
    (hx' : 0 ≤ x' ∧ x' < dim 0) (hy' : 0 ≤ y' ∧ y' < dim 1)
    (h : linearizeAddr dim x y z = linearizeAddr dim x' y' z') :
    x = x' ∧ y = y' ∧ z = z' := by
  unfold linearizeAddr at h
  obtain ⟨e1, e2⟩ := mixed_radix_inj (dim 0) x _ x' _ hx hx' h
  obtain ⟨e3, e4⟩ := mixed_radix_inj (dim 1) y z y' z' hy hy' e2
  exact ⟨e1, e3, e4⟩

variable {K : Type} [LinearOrderedField K]

theorem scanElem_min (p : PointXYZI K) (s : PointXYZI K × PointXYZI K) (elem k : Fin 4) :
    (scanElem p s elem).1.data k =
      if k = elem then min (s.1.data k) (p.data k) else s.1.data k := by
  unfold scanElem
  by_cases hk : k = elem
  · subst hk
    by_cases h : p.data k < s.1.data k
    · simp [h, PointXYZI.set, min_eq_right (le_of_lt h)]
    · simp [h, min_eq_left (not_lt.1 h)]
  · by_cases h : p.data elem < s.1.data elem
    · simp [h, hk, PointXYZI.set]
    · simp [h, hk]

theorem scanElem_max (p : PointXYZI K) (s : PointXYZI K × PointXYZI K) (elem k : Fin 4) :
    (scanElem p s elem).2.data k =
      if k = elem then max (s.2.data k) (p.data k) else s.2.data k := by
  unfold scanElem
  by_cases hk : k = elem
  · subst hk
    by_cases h : p.data k > s.2.data k
    · simp [h, PointXYZI.set, max_eq_right (le_of_lt h)]
    · simp [h, max_eq_left (not_lt.1 h)]
  · by_cases h : p.data elem > s.2.data elem
    · simp [h, hk, PointXYZI.set]
    · simp [h, hk]

theorem scanPoint_min (s : PointXYZI K × PointXYZI K) (p : PointXYZI K) (k : Fin 4) :
    (scanPoint s p).1.data k =
      if k.val < 3 then min (s.1.data k) (p.data k) else s.1.data k := by
  simp only [scanPoint, List.foldl_cons, List.foldl_nil, scanElem_min]
  fin_cases k <;> simp

theorem scanPoint_max (s : PointXYZI K × PointXYZI K) (p : PointXYZI K) (k : Fin 4) :
    (scanPoint s p).2.data k =
      if k.val < 3 then max (s.2.data k) (p.data k) else s.2.data k := by
  simp only [scanPoint, List.foldl_cons, List.foldl_nil, scanElem_max]
  fin_cases k <;> simp


theorem scanFold_min (rest : List (PointXYZI K)) (s : PointXYZI K × PointXYZI K) (k : Fin 4)
    (hk : k.val < 3) :
    (rest.foldl scanPoint s).1.data k ≤ s.1.data k ∧
    (∀ p ∈ rest, (rest.foldl scanPoint s).1.data k ≤ p.data k) ∧
    ((rest.foldl scanPoint s).1.data k = s.1.data k ∨
      ∃ p ∈ rest, p.data k = (rest.foldl scanPoint s).1.data k) := by
  induction rest generalizing s with
  | nil => simp
  | cons q rest ih =>
    obtain ⟨h1, h2, h3⟩ := ih (scanPoint s q)
    have hq : (scanPoint s q).1.data k = min (s.1.data k) (q.data k) := by
      rw [scanPoint_min, if_pos hk]
    simp only [List.foldl_cons]
    refine ⟨?_, ?_, ?_⟩
    · exact le_trans h1 (hq ▸ min_le_left _ _)
    · intro p hp
      rcases List.mem_cons.1 hp with e | hmem
      · rw [e]
        exact le_trans h1 (hq ▸ min_le_right _ _)
      · exact h2 p hmem
    · rcases h3 with e | ⟨p, hp, e⟩
      · rw [e, hq]
        rcases min_choice (s.1.data k) (q.data k) with m | m
        · exact Or.inl m
        · exact Or.inr ⟨q, List.mem_cons_self _ _, m.symm⟩
      · exact Or.inr ⟨p, List.mem_cons_of_mem _ hp, e⟩

theorem scanFold_max (rest : List (PointXYZI K)) (s : PointXYZI K × PointXYZI K) (k : Fin 4)
    (hk : k.val < 3) :
    s.2.data k ≤ (rest.foldl scanPoint s).2.data k ∧
    (∀ p ∈ rest, p.data k ≤ (rest.foldl scanPoint s).2.data k) ∧
    ((rest.foldl scanPoint s).2.data k = s.2.data k ∨
      ∃ p ∈ rest, p.data k = (rest.foldl scanPoint s).2.data k) := by
  induction rest generalizing s with
  | nil => simp
  | cons q rest ih =>
    obtain ⟨h1, h2, h3⟩ := ih (scanPoint s q)
    have hq : (scanPoint s q).2.data k = max (s.2.data k) (q.data k) := by
      rw [scanPoint_max, if_pos hk]
    simp only [List.foldl_cons]
    refine ⟨?_, ?_, ?_⟩
    · exact le_trans (hq ▸ le_max_left _ _) h1
    · intro p hp
      rcases List.mem_cons.1 hp with e | hmem
      · rw [e]
        exact le_trans (hq ▸ le_max_right _ _) h1
      · exact h2 p hmem
    · rcases h3 with e | ⟨p, hp, e⟩
      · rw [e, hq]
        rcases max_choice (s.2.data k) (q.data k) with m | m
        · exact Or.inl m
        · exact Or.inr ⟨q, List.mem_cons_self _ _, m.symm⟩
      · exact Or.inr ⟨p, List.mem_cons_of_mem _ hp, e⟩

theorem minMaxScan_spec (target : List (PointXYZI K)) (h : target ≠ []) :
    ∃ s, minMaxScan target = some s ∧
      ∀ k : Fin 4, k.val < 3 →
        IsComponentwiseMin target k (s.1.data k) ∧ IsComponentwiseMax target k (s.2.data k) := by
  cases target with
  | nil => exact absurd rfl h
  | cons p0 rest =>
    refine ⟨rest.foldl scanPoint (p0, p0), rfl, ?_⟩
    intro k hk
    obtain ⟨a1, a2, a3⟩ := scanFold_min rest (p0, p0) k hk
    obtain ⟨b1, b2, b3⟩ := scanFold_max rest (p0, p0) k hk
    refine ⟨⟨?_, ?_⟩, ⟨?_, ?_⟩⟩
    · rcases a3 with e | ⟨p, hp, e⟩
      · exact ⟨p0, List.mem_cons_self _ _, e.symm⟩
      · exact ⟨p, List.mem_cons_of_mem _ hp, e⟩
    · intro p hp
      rcases List.mem_cons.1 hp with e | hmem
      · rw [e]; exact a1
      · exact a2 p hmem
    · rcases b3 with e | ⟨p, hp, e⟩
      · exact ⟨p0, List.mem_cons_self _ _, e.symm⟩
      · exact ⟨p, List.mem_cons_of_mem _ hp, e⟩
    · intro p hp
      rcases List.mem_cons.1 hp with e | hmem
      · rw [e]; exact b1
      · exact b2 p hmem

end GridLemmas

section FloorLemmas

variable {K : Type} [LinearOrderedField K] [FloorRing K]

theorem toInt_of_nonneg (x : K) (h : 0 ≤ x) : toInt x = ⌊x⌋ := by
  simp [toInt, h]

theorem computeVoxelDimension_eq (res : K) (hres : 0 < res) (mn mx : PointXYZI K) (i : Fin 3)
    (h : mn.data i.castSucc ≤ mx.data i.castSucc) :
    computeVoxelDimension res mn mx i = ⌊(mx.data i.castSucc - mn.data i.castSucc) / res⌋ + 1 := by
  have h0 : 0 ≤ (mx.data i.castSucc - mn.data i.castSucc) / res :=
    div_nonneg (sub_nonneg.2 h) (le_of_lt hres)
  unfold computeVoxelDimension
  rw [toInt_of_nonneg _ (add_nonneg h0 zero_le_one), Int.floor_add_one]

theorem axisIndex_range (res : K) (hres : 0 < res) (mn mx x : K) (h1 : mn ≤ x) (h2 : x ≤ mx) :
    0 ≤ toInt ((x - mn) / res) ∧ toInt ((x - mn) / res) < ⌊(mx - mn) / res⌋ + 1 := by
  have h0 : 0 ≤ (x - mn) / res := div_nonneg (sub_nonneg.2 h1) (le_of_lt hres)
  rw [toInt_of_nonneg _ h0]
  refine ⟨Int.floor_nonneg.2 h0, Int.lt_add_one_iff.2 (Int.floor_le_floor ?_)⟩
  exact div_le_div_of_nonneg_right (by linarith) (le_of_lt hres)

theorem linearizeCoord_range (res : K) (hres : 0 < res) (mn mx p : PointXYZI K)
    (h : ∀ k : Fin 4, k.val < 3 → mn.data k ≤ p.data k ∧ p.data k ≤ mx.data k) :
    0 ≤ linearizeCoord mn res (computeVoxelDimension res mn mx) (p.data 0) (p.data 1) (p.data 2) ∧
    linearizeCoord mn res (computeVoxelDimension res mn mx) (p.data 0) (p.data 1) (p.data 2) <
      computeVoxelDimension res mn mx 0 * computeVoxelDimension res mn mx 1 *
        computeVoxelDimension res mn mx 2 := by
  have d0 := computeVoxelDimension_eq res hres mn mx 0 (le_trans (h 0 (by decide)).1 (h 0 (by decide)).2)
  have d1 := computeVoxelDimension_eq res hres mn mx 1 (le_trans (h 1 (by decide)).1 (h 1 (by decide)).2)
  have d2 := computeVoxelDimension_eq res hres mn mx 2 (le_trans (h 2 (by decide)).1 (h 2 (by decide)).2)
  have r0 := axisIndex_range res hres _ _ _ (h 0 (by decide)).1 (h 0 (by decide)).2
  have r1 := axisIndex_range res hres _ _ _ (h 1 (by decide)).1 (h 1 (by decide)).2
  have r2 := axisIndex_range res hres _ _ _ (h 2 (by decide)).1 (h 2 (by decide)).2
  simp only [Fin.castSucc_zero, Fin.castSucc_one] at d0 d1
  have c2 : (2 : Fin 3).castSucc = (2 : Fin 4) := rfl
  rw [c2] at d2
  rw [← d0] at r0
  rw [← d1] at r1
  rw [← d2] at r2
  unfold linearizeCoord
  exact ⟨linearizeAddr_nonneg _ _ _ _ r0 r1 r2, linearizeAddr_lt _ _ _ _ r0 r1 r2⟩

end FloorLemmas

/-! ## Claims on `solve` -/

/-- C1 (the code departs from its documented contract "Solves Ax = b for x"): `swapA` is
nonsingular (it is its own inverse) and no pivot column is zero, yet on `(swapA, swapB)`
the OpenCl-atomic `solve` returns `x = (1,2,0,0,0,0)`, for which `swapA * x =
(2,1,0,0,0,0)` differs from `b = (1,2,0,0,0,0)`: the pivoting swaps the rows of `A` but
not the entries of `b`.  The two other variants return the same `x`.  The solution of the
system is `(2,1,0,0,0,0)`. -/
theorem solve_row_swap_leaves_b_unswapped :
    (∀ i k : Fin 6, ((List.finRange 6).map (fun m => swapA.data i m * swapA.data m k)).sum =
      if i = k then 1 else 0) ∧
    (pivotSearch swapA 0).1 = 1 ∧
    (solve_OpenCl_atomic zeroVec6 swapA swapB).map (fun x => List.ofFn x) =
      some [1, 2, 0, 0, 0, 0] ∧
    (solve_OpenCl_atomic zeroVec6 swapA swapB).map (fun x => List.ofFn (swapA.mulVec x)) =
      some [2, 1, 0, 0, 0, 0] ∧
    (solve_OpenCl zeroVec6 swapA swapB).map (fun x => List.ofFn x) =
      some [1, 2, 0, 0, 0, 0] ∧
    (solve_OpenMP_offload zeroVec6 swapA swapB).map (fun x => List.ofFn x) =
      some [1, 2, 0, 0, 0, 0] ∧
    List.ofFn swapB = [1, 2, 0, 0, 0, 0] ∧
    List.ofFn (swapA.mulVec ![2, 1, 0, 0, 0, 0]) = List.ofFn swapB := by
  decide!

/-- C2 (the OpenCl variant substitutes a different constant): on the zero matrix the pivot
column 0 has largest absolute value 0, and `solve` of `OpenCl/ndt_mapping/kernel.cpp`
replaces `A[0][0]` by `MAX_EPS = 2`, not by `MAX_TRANSLATION_EPS = 0.001`; the two other
variants substitute `0.001`.  The difference is visible in the result: for the zero matrix
and `b = (1,...,1)` the OpenCl variant returns `1/2` in every component, the other two
return `1000`. -/
theorem solve_OpenCl_substitutes_MAX_EPS :
    (pivotSearch zeroA 0).2 = 0 ∧
    (pivotColumn (MAX_EPS_OpenCl : ℚ) zeroA 0).data 0 0 = 2 ∧
    (pivotColumn (MAX_TRANSLATION_EPS : ℚ) zeroA 0).data 0 0 = 1 / 1000 ∧
    (pivotColumn (MAX_EPS_OpenMP_offload : ℚ) zeroA 0).data 0 0 = 1 / 1000 ∧
    (solve_OpenCl zeroVec6 zeroA onesB).map (fun x => List.ofFn x) =
      some [1 / 2, 1 / 2, 1 / 2, 1 / 2, 1 / 2, 1 / 2] ∧
    (solve_OpenCl_atomic zeroVec6 zeroA onesB).map (fun x => List.ofFn x) =
      some [1000, 1000, 1000, 1000, 1000, 1000] ∧
    (solve_OpenMP_offload zeroVec6 zeroA onesB).map (fun x => List.ofFn x) =
      some [1000, 1000, 1000, 1000, 1000, 1000] := by
  decide!

/-- C3: in each of the three variants, for every matrix `A`, every right-hand side `b` and
every prior content of `result`, no division of `solve` meets a zero divisor (the
embedding returns `none` exactly when the elimination divisor `A[j][j]` or a
back-substitution divisor `A[i][i]` is zero), so `solve` always returns a result. -/
theorem solve_total {K : Type} [LinearOrderedField K] (result : Vec6 K) (A : Mat66 K)
    (b : Vec6 K) :
    (∃ x, solve_OpenCl_atomic result A b = some x) ∧
    (∃ x, solve_OpenCl result A b = some x) ∧
    (∃ x, solve_OpenMP_offload result A b = some x) := by
  refine ⟨solve_returns_of_ne_zero _ ?_ result A b, solve_returns_of_ne_zero _ ?_ result A b,
    solve_returns_of_ne_zero _ ?_ result A b⟩
  · simp [MAX_TRANSLATION_EPS]
  · simp [MAX_EPS_OpenCl]
  · simp [MAX_EPS_OpenMP_offload]

/-! ## Claims on `invertMatrix` and `buildTransformationMatrix` -/

/-- C4 (the code is not the adjugate/determinant inverse): `symM` is symmetric with
determinant 6, and for the matrix `r` written back by `invertMatrix` both products
`r * symM` and `symM * r` have entry `[1][1]` equal to `4/3`, not `1`; the entries
`temp[1][0]` and `temp[1][1]` of the source use `m[0][1]` and `m[2][1]` where the adjugate
has `m[1][0]` and `m[2][0]`. -/
theorem invertMatrix_not_inverse :
    invertMatrix_det symM = 6 ∧
    (invertMatrix symM).map (fun r => (r.mul symM).data 1 1) = some (4 / 3) ∧
    (invertMatrix symM).map (fun r => (symM.mul r).data 1 1) = some (4 / 3) ∧
    (Mat33.one : Mat33 ℚ).data 1 1 = 1 := by
  decide!

section BuildLemmas

variable {K : Type} [Field K]

theorem writeTransformation_frame (matrix : Matrix4f K) (transform : Vec6 K)
    (q : K × K × K × K) :
    (writeTransformation matrix transform q).data 0 3 = matrix.data 0 3 ∧
    (writeTransformation matrix transform q).data 1 3 = matrix.data 1 3 ∧
    (writeTransformation matrix transform q).data 2 3 = matrix.data 2 3 ∧
    (writeTransformation matrix transform q).data 3 0 = 0 ∧
    (writeTransformation matrix transform q).data 3 1 = 0 ∧
    (writeTransformation matrix transform q).data 3 2 = 0 ∧
    (writeTransformation matrix transform q).data 3 3 = 1 := by
  simp [writeTransformation, Matrix4f.set]

theorem writeTransformation_diag (matrix : Matrix4f K) (transform : Vec6 K)
    (q : K × K × K × K) :
    (writeTransformation matrix transform q).data 0 0 =
      1 - (2 * q.2.1 * q.2.1 + 2 * q.2.2.1 * q.2.2.1) ∧
    (writeTransformation matrix transform q).data 1 1 =
      1 - (2 * q.1 * q.1 + 2 * q.2.2.1 * q.2.2.1) ∧
    (writeTransformation matrix transform q).data 2 2 =
      1 - (2 * q.1 * q.1 + 2 * q.2.1 * q.2.1) := by
  simp [writeTransformation, Matrix4f.set]

end BuildLemmas

theorem composeQuaternions_zeroPose :
    composeQuaternions Real.cos Real.sin zeroPose = (0, 1, 0, 0) := by
  simp [composeQuaternions, zeroPose]

/-- C5 (the composed quaternion is not `q_x*q_y*q_z`): for the zero pose, whatever the
prior content of `matrix`, the 4-tuple `(r2_x, r2_y, r2_z, r2_w)` is `(0, 1, 0, 0)` and
the diagonal of the upper-left 3×3 block written by `buildTransformationMatrix` is
`(-1, 1, -1)` (a half turn about the Y axis), not the diagonal `(1, 1, 1)` of the identity
rotation. -/
theorem buildTransformationMatrix_zero_pose (matrix : Matrix4f ℝ) :
    composeQuaternions Real.cos Real.sin zeroPose = (0, 1, 0, 0) ∧
    (buildTransformationMatrix Real.cos Real.sin matrix zeroPose).data 0 0 = -1 ∧
    (buildTransformationMatrix Real.cos Real.sin matrix zeroPose).data 1 1 = 1 ∧
    (buildTransformationMatrix Real.cos Real.sin matrix zeroPose).data 2 2 = -1 := by
  obtain ⟨h0, h1, h2⟩ := writeTransformation_diag matrix zeroPose
    (composeQuaternions Real.cos Real.sin zeroPose)
  rw [composeQuaternions_zeroPose] at h0 h1 h2
  refine ⟨composeQuaternions_zeroPose, ?_, ?_, ?_⟩
  · rw [buildTransformationMatrix, composeQuaternions_zeroPose, h0]; norm_num
  · rw [buildTransformationMatrix, composeQuaternions_zeroPose, h1]; norm_num
  · rw [buildTransformationMatrix, composeQuaternions_zeroPose, h2]; norm_num

/-- C6 (the translation is never stored): for the pose `(1,2,3,0,0,0)` and the zero matrix
as prior content, the result has `data[0][3] = data[1][3] = data[2][3] = 0` (the prior
content), not `(tx,ty,tz) = (1,2,3)`; the bottom row is `(0,0,0,1)`.  The source stores
`transform[0..2]` into `data[0][0..2]`, which the rotation entries then overwrite. -/
theorem buildTransformationMatrix_translation_not_stored :
    (buildTransformationMatrix Real.cos Real.sin zeroMatrix4f shiftPose).data 0 3 = 0 ∧
    (buildTransformationMatrix Real.cos Real.sin zeroMatrix4f shiftPose).data 1 3 = 0 ∧
    (buildTransformationMatrix Real.cos Real.sin zeroMatrix4f shiftPose).data 2 3 = 0 ∧
    shiftPose 0 = 1 ∧ shiftPose 1 = 2 ∧ shiftPose 2 = 3 ∧
    (buildTransformationMatrix Real.cos Real.sin zeroMatrix4f shiftPose).data 3 0 = 0 ∧
    (buildTransformationMatrix Real.cos Real.sin zeroMatrix4f shiftPose).data 3 1 = 0 ∧
    (buildTransformationMatrix Real.cos Real.sin zeroMatrix4f shiftPose).data 3 2 = 0 ∧
    (buildTransformationMatrix Real.cos Real.sin zeroMatrix4f shiftPose).data 3 3 = 1 := by
  obtain ⟨h0, h1, h2, h3, h4, h5, h6⟩ := writeTransformation_frame zeroMatrix4f shiftPose
    (composeQuaternions Real.cos Real.sin shiftPose)
  refine ⟨h0, h1, h2, ?_, ?_, ?_, h3, h4, h5, h6⟩ <;> simp [shiftPose]

/-! ## Claims on the voxel grid -/

/-- C7: `linearizeAddr` returns `x + nx*(y + ny*z)`; for in-range coordinates the index
lies in `[0, nx*ny*nz)`, and two in-range triples with the same index are equal. -/
theorem linearizeAddr_index (voxelDimension : Fin 3 → ℤ) (x y z x' y' z' : ℤ)
    (hx : 0 ≤ x ∧ x < voxelDimension 0) (hy : 0 ≤ y ∧ y < voxelDimension 1)
    (hz : 0 ≤ z ∧ z < voxelDimension 2)
    (hx' : 0 ≤ x' ∧ x' < voxelDimension 0) (hy' : 0 ≤ y' ∧ y' < voxelDimension 1)
    (_hz' : 0 ≤ z' ∧ z' < voxelDimension 2) :
    linearizeAddr voxelDimension x y z = x + voxelDimension 0 * (y + voxelDimension 1 * z) ∧
    0 ≤ linearizeAddr voxelDimension x y z ∧
    linearizeAddr voxelDimension x y z <
      voxelDimension 0 * voxelDimension 1 * voxelDimension 2 ∧
    (linearizeAddr voxelDimension x y z = linearizeAddr voxelDimension x' y' z' →
      x = x' ∧ y = y' ∧ z = z') :=
  ⟨rfl, linearizeAddr_nonneg _ _ _ _ hx hy hz, linearizeAddr_lt _ _ _ _ hx hy hz,
    linearizeAddr_inj _ _ _ _ _ _ _ hx hy hx' hy'⟩

/-- Instance of `linearizeAddr_index` on a `2 × 3 × 4` grid. -/
theorem linearizeAddr_index_witness :
    linearizeAddr ![2, 3, 4] 1 2 3 = 1 + (![2, 3, 4] : Fin 3 → ℤ) 0 * (2 + ![2, 3, 4] 1 * 3) ∧
    0 ≤ linearizeAddr ![2, 3, 4] 1 2 3 ∧
    linearizeAddr ![2, 3, 4] 1 2 3 <
      (![2, 3, 4] : Fin 3 → ℤ) 0 * ![2, 3, 4] 1 * ![2, 3, 4] 2 ∧
    (linearizeAddr ![2, 3, 4] 1 2 3 = linearizeAddr ![2, 3, 4] 0 1 2 →
      (1 : ℤ) = 0 ∧ (2 : ℤ) = 1 ∧ (3 : ℤ) = 2) :=
  linearizeAddr_index ![2, 3, 4] 1 2 3 0 1 2 (by decide) (by decide) (by decide)
    (by decide) (by decide) (by decide)

section OpenMPLemmas
variable {K : Type} [LinearOrderedField K]

end OpenMPLemmas

section OpenMPIterations
variable {K : Type}

end OpenMPIterations

section OpenMPSpec
variable {K : Type} [LinearOrderedField K] [FloorRing K]

end OpenMPSpec
section GridClaims

variable {K : Type} [LinearOrderedField K] [FloorRing K]

/-- C8: for a non-empty target cloud the min/max scan of `initCompute` succeeds, and the
corners it leaves in `minVoxel` / `maxVoxel` bound every target point on each axis
`k ∈ {0,1,2}`. -/
theorem initCompute_grid_bounding (res : K) (target : List (PointXYZI K))
    (h : target ≠ []) :
    ∃ g, initCompute_grid_OpenCl res target = some g ∧
      ∀ p ∈ target, ∀ k : Fin 4, k.val < 3 →
        g.minVoxel.data k ≤ p.data k ∧ p.data k ≤ g.maxVoxel.data k := by
  obtain ⟨s, hs, hk⟩ := minMaxScan_spec target h
  refine ⟨⟨s.1, s.2, computeVoxelDimension res s.1 s.2⟩, by simp [initCompute_grid_OpenCl, hs], ?_⟩
  intro p hp k hk3
  exact ⟨(hk k hk3).1.2 p hp, (hk k hk3).2.2 p hp⟩

/-- In exact arithmetic, for `resolution_ > 0` and a non-empty target cloud, the dimensions
set by `initCompute` are `floor((max[k] - min[k]) / resolution_) + 1`, and the cell index
`linearizeCoord(p)` of every target point `p` lies in
`[0, voxelDimension[0] * voxelDimension[1] * voxelDimension[2])`, the size of the cell
array. -/
theorem initCompute_linearizeCoord_in_range (res : K) (hres : 0 < res)
    (target : List (PointXYZI K)) (h : target ≠ []) :
    ∃ g, initCompute_grid_OpenCl res target = some g ∧
      (∀ k : Fin 3, g.voxelDimension k =
        ⌊(g.maxVoxel.data k.castSucc - g.minVoxel.data k.castSucc) / res⌋ + 1) ∧
      ∀ p ∈ target,
        0 ≤ linearizeCoord g.minVoxel res g.voxelDimension (p.data 0) (p.data 1) (p.data 2) ∧
        linearizeCoord g.minVoxel res g.voxelDimension (p.data 0) (p.data 1) (p.data 2) <
          g.voxelDimension 0 * g.voxelDimension 1 * g.voxelDimension 2 := by
  obtain ⟨s, hs, hk⟩ := minMaxScan_spec target h
  obtain ⟨p0, hp0⟩ := List.exists_mem_of_ne_nil target h
  have hb : ∀ p ∈ target, ∀ k : Fin 4, k.val < 3 →
      s.1.data k ≤ p.data k ∧ p.data k ≤ s.2.data k :=
    fun p hp k hk3 => ⟨(hk k hk3).1.2 p hp, (hk k hk3).2.2 p hp⟩
  refine ⟨⟨s.1, s.2, computeVoxelDimension res s.1 s.2⟩,
    by simp [initCompute_grid_OpenCl, hs], ?_, ?_⟩
  · intro k
    have hk3 : k.castSucc.val < 3 := k.isLt
    exact computeVoxelDimension_eq res hres s.1 s.2 k
      (le_trans (hb p0 hp0 _ hk3).1 (hb p0 hp0 _ hk3).2)
  · intro p hp
    exact linearizeCoord_range res hres s.1 s.2 p (hb p hp)

end GridClaims

/-- Instance of `initCompute_grid_bounding` on the cloud `cloud2`. -/
theorem initCompute_grid_bounding_witness :
    ∃ g, initCompute_grid_OpenCl (resolution_ : ℚ) cloud2 = some g ∧
      ∀ p ∈ cloud2, ∀ k : Fin 4, k.val < 3 →
        g.minVoxel.data k ≤ p.data k ∧ p.data k ≤ g.maxVoxel.data k :=
  initCompute_grid_bounding resolution_ cloud2 (by simp [cloud2])

/-- Instance of `initCompute_linearizeCoord_in_range` on the cloud `cloud2` with
`resolution_ = 1`. -/
theorem initCompute_linearizeCoord_in_range_witness :
    ∃ g, initCompute_grid_OpenCl (resolution_ : ℚ) cloud2 = some g ∧
      (∀ k : Fin 3, g.voxelDimension k =
        ⌊(g.maxVoxel.data k.castSucc - g.minVoxel.data k.castSucc) / resolution_⌋ + 1) ∧
      ∀ p ∈ cloud2,
        0 ≤ linearizeCoord g.minVoxel resolution_ g.voxelDimension
          (p.data 0) (p.data 1) (p.data 2) ∧
        linearizeCoord g.minVoxel resolution_ g.voxelDimension
          (p.data 0) (p.data 1) (p.data 2) <
          g.voxelDimension 0 * g.voxelDimension 1 * g.voxelDimension 2 :=
  initCompute_linearizeCoord_in_range resolution_ (by simp [resolution_]) cloud2
    (by simp [cloud2])

/-! ## Claims on `updateDerivatives` and the line-search helpers -/

section DerivativeClaims

variable {K : Type} [LinearOrderedField K]

/-- In exact arithmetic, whenever the guarded value `gauss_d2_ * exp(-gauss_d2_ * xCx / 2)`
is greater than 1 or negative (or fails the self-comparison `e_x_cov_x != e_x_cov_x`, the NaN test
of the source), `updateDerivatives` returns the score increment 0 and leaves
`score_gradient` and `hessian` exactly as they were, whatever `compute_hessian` is. -/
theorem updateDerivatives_guard (exp : K → K) (gauss_d1_ gauss_d2_ : K)
    (point_gradient_ : Mat36 K) (point_hessian_ : Mat186 K) (score_gradient : Vec6 K)
    (hessian : Mat66 K) (x_trans : Vec3 K) (c_inv : Mat33 K) (compute_hessian : Bool)
    (h : gauss_d2_ * exp (-gauss_d2_ * xCx x_trans c_inv / 2) > 1 ∨
         gauss_d2_ * exp (-gauss_d2_ * xCx x_trans c_inv / 2) < 0 ∨
         gauss_d2_ * exp (-gauss_d2_ * xCx x_trans c_inv / 2) ≠
           gauss_d2_ * exp (-gauss_d2_ * xCx x_trans c_inv / 2)) :
    updateDerivatives exp gauss_d1_ gauss_d2_ point_gradient_ point_hessian_ score_gradient
      hessian x_trans c_inv compute_hessian = (0, score_gradient, hessian) := by
  unfold updateDerivatives
  simp only
  rw [if_pos h]

/-- C18: `updateIntervalMT` returns `true` exactly when `f_t <= f_l` and
`g_t * (a_l - a_t) = 0`, and then leaves the six endpoint values unchanged; in case U1
only the upper endpoint is replaced by the trial, in case U2 only the lower endpoint is
replaced by the trial, in case U3 the upper endpoint becomes the old lower endpoint and
the lower endpoint becomes the trial. -/
theorem updateIntervalMT_cases (I : IntervalMT K) (a_t f_t g_t : K) :
    ((updateIntervalMT I a_t f_t g_t).1 = true ↔
      (f_t ≤ I.f_l ∧ g_t * (I.a_l - a_t) = 0)) ∧
    ((updateIntervalMT I a_t f_t g_t).1 = true → (updateIntervalMT I a_t f_t g_t).2 = I) ∧
    (f_t > I.f_l → updateIntervalMT I a_t f_t g_t =
      (false, { a_l := I.a_l, f_l := I.f_l, g_l := I.g_l,
                a_u := a_t, f_u := f_t, g_u := g_t })) ∧
    (f_t ≤ I.f_l → g_t * (I.a_l - a_t) > 0 → updateIntervalMT I a_t f_t g_t =
      (false, { a_l := a_t, f_l := f_t, g_l := g_t,
                a_u := I.a_u, f_u := I.f_u, g_u := I.g_u })) ∧
    (f_t ≤ I.f_l → g_t * (I.a_l - a_t) < 0 → updateIntervalMT I a_t f_t g_t =
      (false, { a_l := a_t, f_l := f_t, g_l := g_t,
                a_u := I.a_l, f_u := I.f_l, g_u := I.g_l })) := by
  unfold updateIntervalMT
  refine ⟨?_, ?_, ?_, ?_, ?_⟩
  · constructor
    · intro h
      split_ifs at h with h1 h2 h3
      exact ⟨not_lt.1 h1, le_antisymm (not_lt.1 h2) (not_lt.1 h3)⟩
    · rintro ⟨h1, h2⟩
      rw [if_neg (not_lt.2 h1), if_neg (by rw [h2]; exact lt_irrefl 0),
        if_neg (by rw [h2]; exact lt_irrefl 0)]
  · intro h
    split_ifs at h ⊢ with h1 h2 h3
    simp_all
  · intro h
    rw [if_pos h]
  · intro h1 h2
    rw [if_neg (not_lt.2 h1), if_pos h2]
  · intro h1 h2
    rw [if_neg (not_lt.2 h1), if_neg (not_lt.2 (le_of_lt h2)), if_pos h2]

/-- C19: in case 3 of `trialValueSelectionMT` (`f_t <= f_l`, `g_t * g_l >= 0`,
`|g_t| <= |g_l|`) the returned step is at most `a_t + 0.66 * (a_u - a_t)` when
`a_t > a_l` and at least that value otherwise; the same holds for the end of case 3
(`trialValueCase3`) with arbitrary cubic and secant candidates `a_c`, `a_s`. -/
theorem trialValueSelectionMT_case3_clamp (sqrt : K → K)
    (a_l f_l g_l a_u f_u g_u a_t f_t g_t : K)
    (h1 : f_t ≤ f_l) (h2 : g_t * g_l ≥ 0) (h3 : |g_t| ≤ |g_l|) :
    (∀ a_c a_s : K,
      (a_t > a_l → trialValueCase3 a_l a_u a_t a_c a_s ≤ a_t + 66 / 100 * (a_u - a_t)) ∧
      (¬ a_t > a_l → trialValueCase3 a_l a_u a_t a_c a_s ≥ a_t + 66 / 100 * (a_u - a_t))) ∧
    (a_t > a_l →
      trialValueSelectionMT sqrt a_l f_l g_l a_u f_u g_u a_t f_t g_t ≤
        a_t + 66 / 100 * (a_u - a_t)) ∧
    (¬ a_t > a_l →
      trialValueSelectionMT sqrt a_l f_l g_l a_u f_u g_u a_t f_t g_t ≥
        a_t + 66 / 100 * (a_u - a_t)) := by
  have key : ∀ a_c a_s : K,
      (a_t > a_l → trialValueCase3 a_l a_u a_t a_c a_s ≤ a_t + 66 / 100 * (a_u - a_t)) ∧
      (¬ a_t > a_l → trialValueCase3 a_l a_u a_t a_c a_s ≥ a_t + 66 / 100 * (a_u - a_t)) := by
    intro a_c a_s
    unfold trialValueCase3
    constructor
    · intro h
      simp only [if_pos h]
      exact min_le_left _ _
    · intro h
      simp only [if_neg h]
      exact le_max_left _ _
  have hsel : ∀ v : K, trialValueSelectionMT sqrt a_l f_l g_l a_u f_u g_u a_t f_t g_t =
      trialValueCase3 a_l a_u a_t
        (a_l + (a_t - a_l) *
          (sqrt ((3 * (f_t - f_l) / (a_t - a_l) - g_t - g_l) *
              (3 * (f_t - f_l) / (a_t - a_l) - g_t - g_l) - g_t * g_l) - g_l -
            (3 * (f_t - f_l) / (a_t - a_l) - g_t - g_l)) /
          (g_t - g_l + 2 * sqrt ((3 * (f_t - f_l) / (a_t - a_l) - g_t - g_l) *
              (3 * (f_t - f_l) / (a_t - a_l) - g_t - g_l) - g_t * g_l)))
        (a_l - (a_l - a_t) / (g_l - g_t) * g_l) := by
    intro _
    unfold trialValueSelectionMT
    rw [if_neg (not_lt.2 h1), if_neg (not_lt.2 h2), if_pos h3]
  refine ⟨key, ?_, ?_⟩
  · intro h
    rw [hsel 0]
    exact (key _ _).1 h
  · intro h
    rw [hsel 0]
    exact (key _ _).2 h

end DerivativeClaims

/-- Instance of `updateDerivatives_guard` over the reals: for `x_trans = 0` the guarded
value is `gauss_d2_ * exp 0 = 2 > 1`. -/
theorem updateDerivatives_guard_witness :
    updateDerivatives Real.exp 1 2 ⟨fun _ _ => 1⟩ ⟨fun _ _ => 1⟩ (fun _ => 5) ⟨fun _ _ => 7⟩
      (fun _ => 0) ⟨fun _ _ => 1⟩ true = (0, (fun _ => 5), ⟨fun _ _ => 7⟩) :=
  updateDerivatives_guard Real.exp 1 2 ⟨fun _ _ => 1⟩ ⟨fun _ _ => 1⟩ (fun _ => 5)
    ⟨fun _ _ => 7⟩ (fun _ => 0) ⟨fun _ _ => 1⟩ true
    (Or.inl (by simp [xCx]))

section NanLemmas

variable {K : Type} [LinearOrderedField K]

theorem Fp.nan_mul (a : Fp K) : (Fp.nan : Fp K) * a = Fp.nan := by
  cases a <;> rfl

theorem Fp.mul_nan (a : Fp K) : a * (Fp.nan : Fp K) = Fp.nan := by
  cases a <;> rfl

theorem Fp.nan_add (a : Fp K) : (Fp.nan : Fp K) + a = Fp.nan := by
  cases a <;> rfl

theorem Fp.add_nan (a : Fp K) : a + (Fp.nan : Fp K) = Fp.nan := by
  cases a <;> rfl

theorem Fp.nan_div (a : Fp K) : (Fp.nan : Fp K) / a = Fp.nan := by
  cases a <;> rfl

theorem Fp.ne_self (a : Fp K) : Fp.ne a a = true ↔ a = Fp.nan := by
  cases a <;> simp [Fp.ne]

/-- The guard `e > 1 || e < 0 || e != e` holds exactly for the numbers above 1, the
numbers below 0, the two infinities and NaN. -/
theorem Fp.guard_iff (e : Fp K) :
    (Fp.gt e (Fp.num 1) || Fp.lt e (Fp.num 0) || Fp.ne e e) = true ↔
      ((∃ v, e = Fp.num v ∧ (v > 1 ∨ v < 0)) ∨ e = Fp.pinf ∨ e = Fp.ninf ∨ e = Fp.nan) := by
  cases e with
  | num v => simp [Fp.gt, Fp.lt, Fp.ne]
  | pinf => simp [Fp.gt, Fp.lt, Fp.ne]
  | ninf => simp [Fp.gt, Fp.lt, Fp.ne]
  | nan => simp [Fp.gt, Fp.lt, Fp.ne]

end NanLemmas

section NanAssignments

variable {K : Type}

theorem Mat66_set_num (h : Mat66 K) (i j : Fin 6) (v : K) :
    (⟨fun r c => Fp.num (h.data r c)⟩ : Mat66 (Fp K)).set i j (Fp.num v) =
      ⟨fun r c => Fp.num ((h.set i j v).data r c)⟩ := by
  simp only [Mat66.set, Mat66.mk.injEq]
  funext r c
  split <;> rfl

theorem Vec6_set_num (b : Vec6 K) (i : Fin 6) (v : K) :
    Vec6.set (fun r => Fp.num (b r)) i (Fp.num v) = fun r => Fp.num (Vec6.set b i v r) := by
  funext r
  simp only [Vec6.set]
  split <;> rfl

end NanAssignments

section NanRefinement

variable {K : Type} [LinearOrderedField K]

theorem Fp.num_add (a b : K) : Fp.num a + Fp.num b = Fp.num (a + b) := rfl

theorem Fp.num_mul (a b : K) : Fp.num a * Fp.num b = Fp.num (a * b) := rfl

theorem Fp.num_div (a b : K) (hb : b ≠ 0) : Fp.num a / Fp.num b = Fp.num (a / b) := by
  show Fp.div (Fp.num a) (Fp.num b) = Fp.num (a / b)
  simp [Fp.div, hb]

theorem Fp.neg_num (a : K) : -Fp.num a = Fp.num (-a) := rfl

theorem dot_product_nan_num (a b : Vec3 K) :
    dot_product_nan (fun i => Fp.num (a i)) (fun i => Fp.num (b i)) =
      Fp.num (dot_product a b) := by
  simp only [dot_product_nan, dot_product, Fp.num_add, Fp.num_mul]

theorem matVec3_nan_num (c : Mat33 K) (v : Vec3 K) :
    matVec3_nan ⟨fun i j => Fp.num (c.data i j)⟩ (fun i => Fp.num (v i)) =
      fun i => Fp.num (matVec3 c v i) := by
  funext row
  have h3 : List.finRange 3 = [0, 1, 2] := by decide
  simp only [matVec3_nan, matVec3, h3, List.foldl_cons, List.foldl_nil, Fp.num_add, Fp.num_mul]

theorem xCx_nan_num (x : Vec3 K) (c : Mat33 K) :
    xCx_nan (fun i => Fp.num (x i)) ⟨fun i j => Fp.num (c.data i j)⟩ = Fp.num (xCx x c) := by
  simp only [xCx_nan, xCx, Fp.num_add, Fp.num_mul]

theorem updateHessianEntry_nan_num (d2 : K) (pg : Mat36 K) (ph : Mat186 K) (x : Vec3 K)
    (c : Mat33 K) (e : K) (cov : Vec3 K) (i : Fin 6) (h : Mat66 K) (j : Fin 6) :
    updateHessianEntry_nan (Fp.num d2) ⟨fun r k => Fp.num (pg.data r k)⟩
        ⟨fun r k => Fp.num (ph.data r k)⟩ (fun r => Fp.num (x r))
        ⟨fun r k => Fp.num (c.data r k)⟩ (Fp.num e) (fun r => Fp.num (cov r)) i
        ⟨fun r k => Fp.num (h.data r k)⟩ j =
      ⟨fun r k => Fp.num ((updateHessianEntry d2 pg ph x c e cov i h j).data r k)⟩ := by
  simp only [updateHessianEntry_nan, updateHessianEntry, Fp.num_add, matVec3_nan_num,
    dot_product_nan_num, Fp.neg_num, Fp.num_mul, Mat66_set_num]

theorem updateHessianFold_nan_num (d2 : K) (pg : Mat36 K) (ph : Mat186 K) (x : Vec3 K)
    (c : Mat33 K) (e : K) (cov : Vec3 K) (i : Fin 6) (l : List (Fin 6)) (h : Mat66 K) :
    l.foldl (updateHessianEntry_nan (Fp.num d2) ⟨fun r k => Fp.num (pg.data r k)⟩
        ⟨fun r k => Fp.num (ph.data r k)⟩ (fun r => Fp.num (x r))
        ⟨fun r k => Fp.num (c.data r k)⟩ (Fp.num e) (fun r => Fp.num (cov r)) i)
        ⟨fun r k => Fp.num (h.data r k)⟩ =
      ⟨fun r k => Fp.num ((l.foldl (updateHessianEntry d2 pg ph x c e cov i) h).data r k)⟩ := by
  induction l generalizing h with
  | nil => rfl
  | cons j l ih => simp only [List.foldl_cons, updateHessianEntry_nan_num, ih]

theorem updateDerivativesRow_nan_num (d2 : K) (pg : Mat36 K) (ph : Mat186 K) (x : Vec3 K)
    (c : Mat33 K) (ch : Bool) (e : K) (s : Vec6 K × Mat66 K) (i : Fin 6) :
    updateDerivativesRow_nan (Fp.num d2) ⟨fun r k => Fp.num (pg.data r k)⟩
        ⟨fun r k => Fp.num (ph.data r k)⟩ (fun r => Fp.num (x r))
        ⟨fun r k => Fp.num (c.data r k)⟩ ch (Fp.num e)
        (fun r => Fp.num (s.1 r), ⟨fun r k => Fp.num (s.2.data r k)⟩) i =
      (fun r => Fp.num ((updateDerivativesRow d2 pg ph x c ch e s i).1 r),
        ⟨fun r k => Fp.num ((updateDerivativesRow d2 pg ph x c ch e s i).2.data r k)⟩) := by
  have hcov := matVec3_nan_num c (fun col => pg.data col i)
  simp only [updateDerivativesRow_nan, updateDerivativesRow, hcov, dot_product_nan_num,
    Fp.num_mul, Fp.num_add, Vec6_set_num, updateHessianFold_nan_num]
  cases ch <;> simp

theorem updateDerivativesFold_nan_num (d2 : K) (pg : Mat36 K) (ph : Mat186 K) (x : Vec3 K)
    (c : Mat33 K) (ch : Bool) (e : K) (l : List (Fin 6)) (s : Vec6 K × Mat66 K) :
    l.foldl (updateDerivativesRow_nan (Fp.num d2) ⟨fun r k => Fp.num (pg.data r k)⟩
        ⟨fun r k => Fp.num (ph.data r k)⟩ (fun r => Fp.num (x r))
        ⟨fun r k => Fp.num (c.data r k)⟩ ch (Fp.num e))
        (fun r => Fp.num (s.1 r), ⟨fun r k => Fp.num (s.2.data r k)⟩) =
      (fun r => Fp.num ((l.foldl (updateDerivativesRow d2 pg ph x c ch e) s).1 r),
        ⟨fun r k =>
          Fp.num ((l.foldl (updateDerivativesRow d2 pg ph x c ch e) s).2.data r k)⟩) := by
  induction l generalizing s with
  | nil => rfl
  | cons j l ih => simp only [List.foldl_cons, updateDerivativesRow_nan_num, ih]

/-- On numbers (no NaN among the arguments and the members) `updateDerivatives_nan`
computes what `updateDerivatives` computes. -/
theorem updateDerivatives_nan_num (exp : K → K) (d1 d2 : K) (pg : Mat36 K) (ph : Mat186 K)
    (sg : Vec6 K) (h : Mat66 K) (x : Vec3 K) (c : Mat33 K) (ch : Bool) :
    updateDerivatives_nan (Fp.apply exp) (Fp.num d1) (Fp.num d2)
        ⟨fun r k => Fp.num (pg.data r k)⟩
        ⟨fun r k => Fp.num (ph.data r k)⟩ (fun r => Fp.num (sg r))
        ⟨fun r k => Fp.num (h.data r k)⟩ (fun r => Fp.num (x r))
        ⟨fun r k => Fp.num (c.data r k)⟩ ch =
      (Fp.num (updateDerivatives exp d1 d2 pg ph sg h x c ch).1,
        fun r => Fp.num ((updateDerivatives exp d1 d2 pg ph sg h x c ch).2.1 r),
        ⟨fun r k => Fp.num ((updateDerivatives exp d1 d2 pg ph sg h x c ch).2.2.data r k)⟩) := by
  have h2 : ∀ a : K, Fp.num a / Fp.num 2 = Fp.num (a / 2) :=
    fun a => Fp.num_div a 2 two_ne_zero
  simp only [updateDerivatives_nan, updateDerivatives, xCx_nan_num, Fp.neg_num, Fp.num_mul,
    h2, Fp.apply, Fp.gt, Fp.lt, Fp.ne, updateDerivativesFold_nan_num]
  by_cases hg : d2 * exp (-d2 * xCx x c / 2) > 1 ∨ d2 * exp (-d2 * xCx x c / 2) < 0 ∨
      d2 * exp (-d2 * xCx x c / 2) ≠ d2 * exp (-d2 * xCx x c / 2)
  · have hb : (decide (d2 * exp (-d2 * xCx x c / 2) > 1) ||
        decide (d2 * exp (-d2 * xCx x c / 2) < 0) ||
        decide (d2 * exp (-d2 * xCx x c / 2) ≠ d2 * exp (-d2 * xCx x c / 2))) = true := by
      simpa [or_assoc] using hg
    rw [if_pos hb, if_pos hg]
  · have hb : ¬ ((decide (d2 * exp (-d2 * xCx x c / 2) > 1) ||
        decide (d2 * exp (-d2 * xCx x c / 2) < 0) ||
        decide (d2 * exp (-d2 * xCx x c / 2) ≠ d2 * exp (-d2 * xCx x c / 2))) = true) := by
      simpa [or_assoc] using hg
    rw [if_neg hb, if_neg hg]
    have hf := updateDerivativesFold_nan_num d2 pg ph x c ch
      (d2 * exp (-d2 * xCx x c / 2) * d1) (List.finRange 6) (sg, h)
    simp only at hf
    rw [hf]

end NanRefinement

section NanClaims

variable {K : Type} [LinearOrderedField K]

/-- C17: whenever the value `e = gauss_d2_ * exp(-gauss_d2_ * xCx / 2)` is a number
greater than 1, `+infinity`, a negative number, `-infinity` or NaN, `updateDerivatives`
returns the score increment 0 and leaves `score_gradient` and `hessian` exactly as they
were, whatever `compute_hessian` is and whatever `exp`, the members, `score_gradient` and
`hessian` hold (infinities and NaN included); the third test of the guard,
`e_x_cov_x != e_x_cov_x`, holds exactly when `e` is NaN; and the guard holds for no
other value of `e`. -/
theorem updateDerivatives_nan_guard (exp : Fp K → Fp K) (gauss_d1_ gauss_d2_ : Fp K)
    (point_gradient_ : Mat36 (Fp K)) (point_hessian_ : Mat186 (Fp K))
    (score_gradient : Vec6 (Fp K)) (hessian : Mat66 (Fp K)) (x_trans : Vec3 (Fp K))
    (c_inv : Mat33 (Fp K)) (compute_hessian : Bool)
    (h : (∃ v, gauss_d2_ * exp (-gauss_d2_ * xCx_nan x_trans c_inv / Fp.num 2) = Fp.num v ∧
            (v > 1 ∨ v < 0)) ∨
         gauss_d2_ * exp (-gauss_d2_ * xCx_nan x_trans c_inv / Fp.num 2) = Fp.pinf ∨
         gauss_d2_ * exp (-gauss_d2_ * xCx_nan x_trans c_inv / Fp.num 2) = Fp.ninf ∨
         gauss_d2_ * exp (-gauss_d2_ * xCx_nan x_trans c_inv / Fp.num 2) = Fp.nan) :
    updateDerivatives_nan exp gauss_d1_ gauss_d2_ point_gradient_ point_hessian_ score_gradient
      hessian x_trans c_inv compute_hessian = (Fp.num 0, score_gradient, hessian) ∧
    (Fp.ne (gauss_d2_ * exp (-gauss_d2_ * xCx_nan x_trans c_inv / Fp.num 2))
        (gauss_d2_ * exp (-gauss_d2_ * xCx_nan x_trans c_inv / Fp.num 2)) = true ↔
      gauss_d2_ * exp (-gauss_d2_ * xCx_nan x_trans c_inv / Fp.num 2) = Fp.nan) ∧
    ∀ e : Fp K, (Fp.gt e (Fp.num 1) || Fp.lt e (Fp.num 0) || Fp.ne e e) = true →
      (∃ v, e = Fp.num v ∧ (v > 1 ∨ v < 0)) ∨ e = Fp.pinf ∨ e = Fp.ninf ∨ e = Fp.nan := by
  refine ⟨?_, Fp.ne_self _, fun e => (Fp.guard_iff e).1⟩
  unfold updateDerivatives_nan
  simp only
  rw [if_pos ((Fp.guard_iff _).2 h)]

end NanClaims

/-- Instance of `updateDerivatives_nan_guard` over the reals, `score_gradient` holding 5
and `hessian` holding 7 before and after the call.  First with a NaN input: the entry
`c_inv[0][0]` is NaN (as an inverse covariance computed from a singular matrix can be),
so `xCx` and the guarded value are NaN.  Then with an overflow: `exp` returns `+infinity`,
so the guarded value is `2 * infinity = +infinity`. -/
theorem updateDerivatives_nan_guard_witness :
    updateDerivatives_nan (Fp.apply Real.exp) (Fp.num 1) (Fp.num 2) ⟨fun _ _ => Fp.num 1⟩
        ⟨fun _ _ => Fp.num 1⟩ (fun _ => Fp.num 5) ⟨fun _ _ => Fp.num 7⟩ (fun _ => Fp.num 1)
        ⟨fun i j => if i = 0 ∧ j = 0 then Fp.nan else Fp.num 1⟩ true =
      (Fp.num 0, (fun _ => Fp.num 5), ⟨fun _ _ => Fp.num 7⟩) ∧
    (Fp.num 2 : Fp ℝ) * Fp.apply Real.exp (-(Fp.num 2) * xCx_nan (fun _ => Fp.num 1)
        ⟨fun i j => if i = 0 ∧ j = 0 then Fp.nan else Fp.num 1⟩ / Fp.num 2) = Fp.nan ∧
    updateDerivatives_nan (fun _ => Fp.pinf) (Fp.num 1) (Fp.num 2) ⟨fun _ _ => Fp.num 1⟩
        ⟨fun _ _ => Fp.num 1⟩ (fun _ => Fp.num 5) ⟨fun _ _ => Fp.num 7⟩ (fun _ => Fp.num 1)
        (⟨fun _ _ => Fp.num 1⟩ : Mat33 (Fp ℝ)) false =
      (Fp.num 0, (fun _ => Fp.num 5), ⟨fun _ _ => Fp.num 7⟩) := by
  have hnan : (Fp.num 2 : Fp ℝ) * Fp.apply Real.exp (-(Fp.num 2) * xCx_nan (fun _ => Fp.num 1)
      ⟨fun i j => if i = 0 ∧ j = 0 then Fp.nan else Fp.num 1⟩ / Fp.num 2) = Fp.nan := by
    simp only [xCx_nan, and_self, if_true, Fp.nan_mul, Fp.nan_add, Fp.mul_nan, Fp.nan_div]
    rfl
  have hinf : (Fp.num 2 : Fp ℝ) * (fun _ => Fp.pinf) (-(Fp.num 2) * xCx_nan (fun _ => Fp.num 1)
      (⟨fun _ _ => Fp.num 1⟩ : Mat33 (Fp ℝ)) / Fp.num 2) = Fp.pinf := by
    show Fp.mul (Fp.num 2) Fp.pinf = Fp.pinf
    simp [Fp.mul, Fp.sign, Fp.infinity]
  exact ⟨(updateDerivatives_nan_guard (Fp.apply Real.exp) (Fp.num 1) (Fp.num 2)
      ⟨fun _ _ => Fp.num 1⟩ ⟨fun _ _ => Fp.num 1⟩ (fun _ => Fp.num 5) ⟨fun _ _ => Fp.num 7⟩
      (fun _ => Fp.num 1) ⟨fun i j => if i = 0 ∧ j = 0 then Fp.nan else Fp.num 1⟩ true
      (Or.inr (Or.inr (Or.inr hnan)))).1, hnan,
    (updateDerivatives_nan_guard (fun _ => Fp.pinf) (Fp.num 1) (Fp.num 2)
      ⟨fun _ _ => Fp.num 1⟩ ⟨fun _ _ => Fp.num 1⟩ (fun _ => Fp.num 5) ⟨fun _ _ => Fp.num 7⟩
      (fun _ => Fp.num 1) ⟨fun _ _ => Fp.num 1⟩ false (Or.inr (Or.inl hinf))).1⟩

/-- Instance of `trialValueSelectionMT_case3_clamp` with `f_t = f_l`, `g_t = 1`,
`g_l = 2`, `a_l = 0`, `a_t = 1`, `a_u = 2`. -/
theorem trialValueSelectionMT_case3_clamp_witness :
    (∀ a_c a_s : ℚ,
      ((1 : ℚ) > 0 → trialValueCase3 0 2 1 a_c a_s ≤ 1 + 66 / 100 * (2 - 1)) ∧
      (¬ (1 : ℚ) > 0 → trialValueCase3 0 2 1 a_c a_s ≥ 1 + 66 / 100 * (2 - 1))) ∧
    ((1 : ℚ) > 0 →
      trialValueSelectionMT Rat.sqrt 0 0 2 2 0 0 1 0 1 ≤ 1 + 66 / 100 * (2 - 1)) ∧
    (¬ (1 : ℚ) > 0 →
      trialValueSelectionMT Rat.sqrt 0 0 2 2 0 0 1 0 1 ≥ 1 + 66 / 100 * (2 - 1)) :=
  trialValueSelectionMT_case3_clamp Rat.sqrt 0 0 2 2 0 0 1 0 1 (le_refl 0) (by norm_num)
    (by norm_num [abs_of_pos])

section StepLengthClaims

variable {K : Type} [LinearOrderedField K] {σ : Type}

/-- C20: when `d_phi_0 = -(score_gradient . step_dir)` is exactly 0, `computeStepLengthMT`
returns 0 and leaves `step_dir`, `score`, `score_gradient`, `hessian`, the transformed
cloud, `final_transformation_` and the other class members unchanged; when `d_phi_0 > 0`
the whole search (where every trial pose is formed, the first one being
`x + (-step_dir) * a_t`) runs on the negated `step_dir` with `d_phi_0` negated. -/
theorem computeStepLengthMT_direction (env : LineSearchEnv K σ) (x : Vec6 K)
    (step_init step_max step_min : K) (s : LineSearchState K σ) :
    (-(dot_product6 s.score_gradient s.step_dir) = 0 →
      computeStepLengthMT env x step_init step_max step_min s = (0, s)) ∧
    (-(dot_product6 s.score_gradient s.step_dir) > 0 →
      computeStepLengthMT env x step_init step_max step_min s =
        searchStepLength env x step_init step_max step_min (-s.score)
          (-(-(dot_product6 s.score_gradient s.step_dir)))
          { s with step_dir := fun i => -s.step_dir i } ∧
      ∀ a_t i, trialPose x (fun i => -s.step_dir i) a_t i = x i - s.step_dir i * a_t) := by
  refine ⟨?_, ?_⟩
  · intro h
    unfold computeStepLengthMT
    simp only [h, ge_iff_le, le_refl, if_true]
  · intro h
    refine ⟨?_, ?_⟩
    · unfold computeStepLengthMT
      simp only [ge_iff_le, if_pos (le_of_lt h), if_neg (ne_of_gt h), mul_neg, mul_one]
    · intro a_t i
      simp only [trialPose]
      ring

end StepLengthClaims

/-! ## Lemmas on the voxel grid build -/

section InitialCellLemmas

variable {K : Type} [LinearOrderedField K]

theorem initialCell_invCovariance (r c : Fin 3) :
    (initialCell : Voxel K).invCovariance.data r c = if r.val + c.val = 2 then 1 else 0 := by
  fin_cases r <;> fin_cases c <;> simp [initialCell, Mat33.set]

end InitialCellLemmas

section BuildLemmas2

variable {K : Type} [LinearOrderedField K] [FloorRing K]

theorem assignedPoints_cons (mn : PointXYZI K) (res : K) (dims : Fin 3 → ℤ)
    (p : PointXYZI K) (l : List (PointXYZI K)) (i : ℤ) :
    assignedPoints mn res dims (p :: l) i =
      if linearizeCoord mn res dims (p.data 0) (p.data 1) (p.data 2) = i
      then p :: assignedPoints mn res dims l i else assignedPoints mn res dims l i := by
  unfold assignedPoints
  by_cases h : linearizeCoord mn res dims (p.data 0) (p.data 1) (p.data 2) = i
  · simp [List.filter_cons, h]
  · simp [List.filter_cons, h]

/-- Closed form of the first pass: every cell gains the count, the coordinate sums and
the sums of products of the points assigned to it. -/
theorem firstPass_spec (mn : PointXYZI K) (res : K) (dims : Fin 3 → ℤ) (size : ℤ)
    (l : List (PointXYZI K)) (cells : ℤ → Voxel K)
    (h : ∀ p ∈ l, 0 ≤ linearizeCoord mn res dims (p.data 0) (p.data 1) (p.data 2) ∧
      linearizeCoord mn res dims (p.data 0) (p.data 1) (p.data 2) < size) :
    ∃ cells', l.foldlM (firstPassPoint mn res dims size) cells = some cells' ∧
      ∀ i,
        (cells' i).numberPoints =
          (cells i).numberPoints + ((assignedPoints mn res dims l i).length : ℤ) ∧
        (∀ k, (cells' i).mean k = (cells i).mean k +
          ((assignedPoints mn res dims l i).map (fun p => p.data k.castSucc)).sum) ∧
        (∀ r c, (cells' i).invCovariance.data r c = (cells i).invCovariance.data r c +
          ((assignedPoints mn res dims l i).map
            (fun p => p.data r.castSucc * p.data c.castSucc)).sum) := by
  induction l generalizing cells with
  | nil =>
    refine ⟨cells, rfl, ?_⟩
    intro i
    simp [assignedPoints]
  | cons p l ih =>
    have hp := h p (List.mem_cons_self _ _)
    obtain ⟨cells', hfold, hspec⟩ := ih
      (fun i => if i = linearizeCoord mn res dims (p.data 0) (p.data 1) (p.data 2) then
          { mean := fun k => (cells (linearizeCoord mn res dims (p.data 0) (p.data 1)
                (p.data 2))).mean k + p.data k.castSucc
            numberPoints := (cells (linearizeCoord mn res dims (p.data 0) (p.data 1)
                (p.data 2))).numberPoints + 1
            invCovariance :=
              ⟨fun row col => (cells (linearizeCoord mn res dims (p.data 0) (p.data 1)
                (p.data 2))).invCovariance.data row col +
                  p.data row.castSucc * p.data col.castSucc⟩ }
        else cells i)
      (fun q hq => h q (List.mem_cons_of_mem _ hq))
    refine ⟨cells', ?_, ?_⟩
    · rw [List.foldlM_cons]
      simp only [firstPassPoint, hp, and_self, if_true]
      exact hfold
    · intro i
      obtain ⟨h1, h2, h3⟩ := hspec i
      rw [assignedPoints_cons]
      by_cases hi : linearizeCoord mn res dims (p.data 0) (p.data 1) (p.data 2) = i
      · subst hi
        refine ⟨?_, ?_, ?_⟩
        · rw [h1]
          simp
          ring
        · intro k
          rw [h2 k]
          simp
          ring
        · intro r c
          rw [h3 r c]
          simp
          ring
      · have hi' : ¬ i = linearizeCoord mn res dims (p.data 0) (p.data 1) (p.data 2) :=
          fun e => hi e.symm
        refine ⟨?_, ?_, ?_⟩
        · rw [h1]
          simp [hi, hi']
        · intro k
          rw [h2 k]
          simp [hi, hi']
        · intro r c
          rw [h3 r c]
          simp [hi, hi']


/-- The first pass succeeds on every non-empty cloud when `resolution_ > 0`, and leaves in
every cell the count, the coordinate sums and the anti-diagonal pattern plus the sums of
products of the points assigned to the cell. -/
theorem initCompute_firstPass_spec (res : K) (hres : 0 < res) (target : List (PointXYZI K))
    (h : target ≠ []) :
    ∃ s, initCompute_firstPass_OpenCl res target = some s ∧
      initCompute_grid_OpenCl res target = some s.1 ∧
      s.2.1 = s.1.voxelDimension 0 * s.1.voxelDimension 1 * s.1.voxelDimension 2 ∧
      s.1.voxelDimension = computeVoxelDimension res s.1.minVoxel s.1.maxVoxel ∧
      (∀ p ∈ target, ∀ k : Fin 4, k.val < 3 →
        s.1.minVoxel.data k ≤ p.data k ∧ p.data k ≤ s.1.maxVoxel.data k) ∧
      ∀ i,
        (s.2.2 i).numberPoints =
          ((assignedPoints s.1.minVoxel res s.1.voxelDimension target i).length : ℤ) ∧
        (∀ k, (s.2.2 i).mean k =
          ((assignedPoints s.1.minVoxel res s.1.voxelDimension target i).map
            (fun p => p.data k.castSucc)).sum) ∧
        (∀ r c, (s.2.2 i).invCovariance.data r c = (if r.val + c.val = 2 then 1 else 0) +
          ((assignedPoints s.1.minVoxel res s.1.voxelDimension target i).map
            (fun p => p.data r.castSucc * p.data c.castSucc)).sum) := by
  obtain ⟨sc, hsc, hk⟩ := minMaxScan_spec target h
  have hb : ∀ p ∈ target, ∀ k : Fin 4, k.val < 3 →
      sc.1.data k ≤ p.data k ∧ p.data k ≤ sc.2.data k :=
    fun p hp k hk3 => ⟨(hk k hk3).1.2 p hp, (hk k hk3).2.2 p hp⟩
  obtain ⟨cells', hfold, hspec⟩ := firstPass_spec sc.1 res (computeVoxelDimension res sc.1 sc.2)
    (computeVoxelDimension res sc.1 sc.2 0 * computeVoxelDimension res sc.1 sc.2 1 *
      computeVoxelDimension res sc.1 sc.2 2) target (fun _ => initialCell)
    (fun p hp => linearizeCoord_range res hres sc.1 sc.2 p (hb p hp))
  refine ⟨(⟨sc.1, sc.2, computeVoxelDimension res sc.1 sc.2⟩,
    computeVoxelDimension res sc.1 sc.2 0 * computeVoxelDimension res sc.1 sc.2 1 *
      computeVoxelDimension res sc.1 sc.2 2, cells'), ?_, ?_, rfl, rfl, hb, ?_⟩
  · simp [initCompute_firstPass_OpenCl, initCompute_grid_OpenCl, hsc, hfold]
  · simp [initCompute_grid_OpenCl, hsc]
  · intro i
    obtain ⟨h1, h2, h3⟩ := hspec i
    refine ⟨?_, ?_, ?_⟩
    · rw [h1]
      simp [initialCell]
    · intro k
      rw [h2 k]
      simp [initialCell]
    · intro r c
      rw [h3 r c, initialCell_invCovariance]

end BuildLemmas2

/-! ## Claims on the voxel grid build -/

section BuildClaims

variable {K : Type} [LinearOrderedField K] [FloorRing K]

/-- C11: for `resolution_ > 0` and a non-empty target cloud the build succeeds; in every
cell `numberPoints` is the number of target points whose `linearizeCoord` is that cell,
and in every cell with `numberPoints > 0` the mean is the sum of the coordinates of
exactly those points divided by `numberPoints`. -/
theorem initCompute_cell_mean (res : K) (hres : 0 < res) (target : List (PointXYZI K))
    (h : target ≠ []) :
    ∃ b, initCompute_OpenCl res target = some b ∧
      ∀ i,
        (b.cells i).numberPoints =
          ((assignedPoints b.bounds.minVoxel res b.bounds.voxelDimension target i).length : ℤ) ∧
        ((b.cells i).numberPoints > 0 →
          (b.cells i).mean = some (fun k =>
            ((assignedPoints b.bounds.minVoxel res b.bounds.voxelDimension target i).map
              (fun p => p.data k.castSucc)).sum / ((b.cells i).numberPoints : K))) := by
  obtain ⟨s, hs, _, _, _, _, hcells⟩ := initCompute_firstPass_spec res hres target h
  refine ⟨{ bounds := s.1, size := s.2.1, cells := fun i => secondPassCell s.2.1 (s.2.2 i) },
    by simp [initCompute_OpenCl, hs], ?_⟩
  intro i
  obtain ⟨h1, h2, _⟩ := hcells i
  refine ⟨h1, ?_⟩
  intro hpos
  have hne : (s.2.2 i).numberPoints ≠ 0 := ne_of_gt hpos
  simp only [secondPassCell, finalMean, if_neg hne]
  congr 1
  funext k
  rw [h2 k]

end BuildClaims

/-- Instance of `initCompute_cell_mean` on the cloud `cloud2` with `resolution_ = 1`. -/
theorem initCompute_cell_mean_witness :
    ∃ b, initCompute_OpenCl (resolution_ : ℚ) cloud2 = some b ∧
      ∀ i,
        (b.cells i).numberPoints =
          ((assignedPoints b.bounds.minVoxel resolution_ b.bounds.voxelDimension
            cloud2 i).length : ℤ) ∧
        ((b.cells i).numberPoints > 0 →
          (b.cells i).mean = some (fun k =>
            ((assignedPoints b.bounds.minVoxel resolution_ b.bounds.voxelDimension cloud2 i).map
              (fun p => p.data k.castSucc)).sum / ((b.cells i).numberPoints : ℚ))) :=
  initCompute_cell_mean resolution_ (by simp [resolution_]) cloud2 (by simp [cloud2])

/-- C12 (the accumulator does not start at zero): for `cloud2` and `resolution_ = 1` the
grid has 36 cells and cell 8 holds the single point `(1,2,3)`.  The matrix handed to
`invertMatrix` for that cell has entries `[1][1] = 1645/12` and `[0][2] = 1855/18`, where
the claimed expression gives `1225/9` and `1225/12`; the entry `[0][0] = 1225/36` agrees.
The cell initialisation stores ones at `[2][0]`, `[1][1]`, `[0][2]` and the first pass
adds the products `p[row]*p[col]` on top of them. -/
theorem initCompute_covariance_keeps_sentinel :
    (initCompute_firstPass_OpenCl (resolution_ : ℚ) cloud2).map (fun s =>
      (s.2.1, (s.2.2 8).numberPoints,
        (assignedPoints s.1.minVoxel resolution_ s.1.voxelDimension cloud2 8).map
          (fun p => List.ofFn p.data))) = some (36, 1, [[1, 2, 3, 0]]) ∧
    (initCompute_firstPass_OpenCl (resolution_ : ℚ) cloud2).map (fun s =>
      (covarianceBeforeInversion s.2.1 (s.2.2 8)).map
        (fun m => [m.data 1 1, m.data 0 2, m.data 0 0])) =
      some (some [1645 / 12, 1855 / 18, 1225 / 36]) ∧
    (initCompute_firstPass_OpenCl (resolution_ : ℚ) cloud2).map (fun s =>
      [specCovarianceEntry s.2.1
          (assignedPoints s.1.minVoxel resolution_ s.1.voxelDimension cloud2 8) 1 1,
        specCovarianceEntry s.2.1
          (assignedPoints s.1.minVoxel resolution_ s.1.voxelDimension cloud2 8) 0 2,
        specCovarianceEntry s.2.1
          (assignedPoints s.1.minVoxel resolution_ s.1.voxelDimension cloud2 8) 0 0]) =
      some [1225 / 9, 1225 / 12, 1225 / 36] := by
  decide!

/-- C13 (the second pass also runs on empty cells): for `cloud2` and `resolution_ = 1`,
cell 0 receives no point.  After the first pass it holds `numberPoints = 0`, mean
`(0,0,0)` and the anti-diagonal pattern; the second pass then executes
`mean[k] /= numberPoints` (0/0) and rescales the matrix by `(size - 1) / numberPoints`
before `invertMatrix`, so after the build neither the mean nor `invCovariance` of the cell
has a value. -/
theorem initCompute_empty_cell_overwritten :
    (initCompute_firstPass_OpenCl (resolution_ : ℚ) cloud2).map (fun s =>
      ((s.2.2 0).numberPoints, List.ofFn (s.2.2 0).mean,
        List.ofFn (fun r => List.ofFn ((s.2.2 0).invCovariance.data r)))) =
      some (0, [0, 0, 0], [[0, 0, 1], [0, 1, 0], [1, 0, 0]]) ∧
    (initCompute_OpenCl (resolution_ : ℚ) cloud2).map (fun b =>
      ((b.cells 0).numberPoints, (b.cells 0).mean.isSome, (b.cells 0).invCovariance.isSome)) =
      some (0, false, false) := by
  decide!

/-! ## Lemmas on `voxelRadiusSearch` -/

section LoopLemmas

variable {K : Type} [LinearOrderedField K]

theorem forValues_of_gt (fuel : ℕ) (x hi step : K) (h : hi < x) :
    forValues fuel x hi step = some [] := by
  cases fuel <;> simp [forValues, not_le.2 h]

/-- A counting loop with a positive step ends: with enough fuel it yields its values, all
of them between the start and the bound. -/
theorem forValues_some (step : K) (hstep : 0 < step) :
    ∀ (m : ℕ) (x hi : K), hi - x < m * step → ∀ fuel, m ≤ fuel →
      ∃ l, forValues fuel x hi step = some l ∧ ∀ v ∈ l, x ≤ v ∧ v ≤ hi := by
  intro m
  induction m with
  | zero =>
    intro x hi h fuel _
    have hx : hi < x := by
      simp only [Nat.cast_zero, zero_mul] at h
      linarith
    exact ⟨[], forValues_of_gt fuel x hi step hx, by simp⟩
  | succ m ih =>
    intro x hi h fuel hfuel
    by_cases hx : x ≤ hi
    · obtain ⟨f, rfl⟩ : ∃ f, fuel = f + 1 := ⟨fuel - 1, by omega⟩
      have h' : hi - (x + step) < m * step := by
        push_cast at h
        linarith
      obtain ⟨l, hl, hmem⟩ := ih (x + step) hi h' f (by omega)
      refine ⟨x :: l, by simp [forValues, hx, hl], ?_⟩
      intro v hv
      rcases List.mem_cons.1 hv with e | hv'
      · rw [e]
        exact ⟨le_rfl, hx⟩
      · exact ⟨by linarith [(hmem v hv').1], (hmem v hv').2⟩
    · exact ⟨[], forValues_of_gt fuel x hi step (not_le.1 hx), by simp⟩

/-- With `radius = resolution_` each loop of the search takes exactly three values. -/
theorem forValues_radius_eq_step (r : K) (hr : 0 < r) (q : K) (fuel : ℕ) (hfuel : 3 ≤ fuel) :
    forValues fuel (q - r) (q + r) r = some [q - r, q - r + r, q - r + r + r] := by
  obtain ⟨f, rfl⟩ : ∃ f, fuel = f + 3 := ⟨fuel - 3, by omega⟩
  have h0 : q - r ≤ q + r := by linarith
  have h1 : q - r + r ≤ q + r := by linarith
  have h2 : q - r + r + r ≤ q + r := by linarith
  have h3 : q + r < q - r + r + r + r := by linarith
  simp only [forValues, if_pos h0, if_pos h1, if_pos h2, forValues_of_gt f _ _ r h3,
    Option.map_some']

end LoopLemmas

section SearchLemmas

variable {K : Type} [LinearOrderedField K] [FloorRing K]

theorem forValues_terminates (step : K) (hstep : 0 < step) (x hi : K) :
    ∃ n : ℕ, ∀ fuel, n ≤ fuel →
      ∃ l, forValues fuel x hi step = some l ∧ ∀ v ∈ l, x ≤ v ∧ v ≤ hi := by
  obtain ⟨m, hm⟩ := exists_nat_gt ((hi - x) / step)
  refine ⟨m, forValues_some step hstep m x hi ?_⟩
  exact (div_lt_iff₀ hstep).1 hm

/-- A candidate position that is not skipped has its cell index inside the cell array. -/
theorem candidate_index_in_range (res : K) (hres : 0 < res) (g : GridBounds K)
    (hg : g.voxelDimension = computeVoxelDimension res g.minVoxel g.maxVoxel)
    (c : K × K × K) (hc : ¬ outsideGrid g c) :
    0 ≤ linearizeCoord g.minVoxel res g.voxelDimension c.1 c.2.1 c.2.2 ∧
    linearizeCoord g.minVoxel res g.voxelDimension c.1 c.2.1 c.2.2 <
      g.voxelDimension 0 * g.voxelDimension 1 * g.voxelDimension 2 := by
  simp only [outsideGrid, not_or, not_lt] at hc
  obtain ⟨a0, b0, a1, b1, a2, b2⟩ := hc
  have hp : ∀ k : Fin 4, k.val < 3 →
      g.minVoxel.data k ≤ (⟨![c.1, c.2.1, c.2.2, 0]⟩ : PointXYZI K).data k ∧
      (⟨![c.1, c.2.1, c.2.2, 0]⟩ : PointXYZI K).data k ≤ g.maxVoxel.data k := by
    intro k hk
    fin_cases k
    · exact ⟨a0, b0⟩
    · exact ⟨a1, b1⟩
    · exact ⟨a2, b2⟩
    · simp at hk
  have := linearizeCoord_range res hres g.minVoxel g.maxVoxel ⟨![c.1, c.2.1, c.2.2, 0]⟩ hp
  rw [hg]
  simpa using this

/-- Closed form of the search loop over a list of candidates whose indices are all
readable: the accepted candidates are appended in visiting order. -/
theorem radiusSearch_fold (res : K) (g : GridBounds K) (size : ℤ) (grid : ℤ → BuiltVoxel K)
    (point : PointXYZI K) (radius : K) (cs : List (K × K × K))
    (hcs : ∀ c ∈ cs, ¬ outsideGrid g c →
      0 ≤ linearizeCoord g.minVoxel res g.voxelDimension c.1 c.2.1 c.2.2 ∧
      linearizeCoord g.minVoxel res g.voxelDimension c.1 c.2.1 c.2.2 < size)
    (st : RadiusSearchResult) :
    ∃ r, cs.foldlM (radiusSearchStep res g size grid point radius) st = some r ∧
      r.indices = st.indices ++
        ((cs.filter (fun c => decide (¬ outsideGrid g c ∧
            withinRadius (grid (linearizeCoord g.minVoxel res g.voxelDimension
              c.1 c.2.1 c.2.2)).mean point radius))).map
          (fun c => linearizeCoord g.minVoxel res g.voxelDimension c.1 c.2.1 c.2.2)) ∧
      r.result = st.result + (r.indices.length - st.indices.length : ℤ) := by
  induction cs generalizing st with
  | nil => exact ⟨st, rfl, by simp, by simp⟩
  | cons c cs ih =>
    have hrest : ∀ c' ∈ cs, ¬ outsideGrid g c' →
        0 ≤ linearizeCoord g.minVoxel res g.voxelDimension c'.1 c'.2.1 c'.2.2 ∧
        linearizeCoord g.minVoxel res g.voxelDimension c'.1 c'.2.1 c'.2.2 < size :=
      fun c' hc' => hcs c' (List.mem_cons_of_mem _ hc')
    by_cases ho : outsideGrid g c
    · obtain ⟨r, hr, hi, hn⟩ := ih hrest st
      refine ⟨r, ?_, ?_, hn⟩
      · rw [List.foldlM_cons]
        simp only [radiusSearchStep, if_pos ho]
        exact hr
      · rw [hi]
        simp [List.filter_cons, ho]
    · have hin := hcs c (List.mem_cons_self _ _) ho
      by_cases hw : withinRadius (grid (linearizeCoord g.minVoxel res g.voxelDimension
          c.1 c.2.1 c.2.2)).mean point radius
      · obtain ⟨r, hr, hi, hn⟩ := ih hrest
          { result := st.result + 1,
            indices := st.indices ++
              [linearizeCoord g.minVoxel res g.voxelDimension c.1 c.2.1 c.2.2] }
        refine ⟨r, ?_, ?_, ?_⟩
        · rw [List.foldlM_cons]
          simp only [radiusSearchStep, if_neg ho, hin, and_self, if_true, if_pos hw]
          exact hr
        · rw [hi]
          simp [List.filter_cons, ho, hw]
        · rw [hn]
          simp only [List.length_append, List.length_singleton]
          push_cast
          ring
      · obtain ⟨r, hr, hi, hn⟩ := ih hrest st
        refine ⟨r, ?_, ?_, hn⟩
        · rw [List.foldlM_cons]
          simp only [radiusSearchStep, if_neg ho, hin, and_self, if_true, if_neg hw]
          exact hr
        · rw [hi]
          simp [List.filter_cons, ho, hw]

end SearchLemmas

section SearchLemmas2

variable {K : Type} [LinearOrderedField K] [FloorRing K]

theorem radiusSearchCandidates_terminates (res : K) (hres : 0 < res) (point : PointXYZI K)
    (radius : K) :
    ∃ n : ℕ, ∀ fuel, n ≤ fuel → ∃ cs, radiusSearchCandidates fuel res point radius = some cs := by
  obtain ⟨n0, h0⟩ := forValues_terminates res hres (point.data 0 - radius) (point.data 0 + radius)
  obtain ⟨n1, h1⟩ := forValues_terminates res hres (point.data 1 - radius) (point.data 1 + radius)
  obtain ⟨n2, h2⟩ := forValues_terminates res hres (point.data 2 - radius) (point.data 2 + radius)
  refine ⟨max n0 (max n1 n2), ?_⟩
  intro fuel hfuel
  obtain ⟨xs, hxs, _⟩ := h0 fuel (le_trans (le_max_left _ _) hfuel)
  obtain ⟨ys, hys, _⟩ := h1 fuel
    (le_trans (le_trans (le_max_left _ _) (le_max_right _ _)) hfuel)
  obtain ⟨zs, hzs, _⟩ := h2 fuel
    (le_trans (le_trans (le_max_right _ _) (le_max_right _ _)) hfuel)
  exact ⟨List.product xs (List.product ys zs), by simp [radiusSearchCandidates, hxs, hys, hzs]⟩

end SearchLemmas2

section RadiusLemmas

variable {K : Type} [LinearOrderedField K]

theorem withinRadius_iff (mean : Option (Vec3 K)) (point : PointXYZI K) (radius : K) :
    withinRadius mean point radius ↔
      ∃ c, mean = some c ∧ 0 < radius ∧
        (c 0 - point.data 0) * (c 0 - point.data 0) +
          (c 1 - point.data 1) * (c 1 - point.data 1) +
          (c 2 - point.data 2) * (c 2 - point.data 2) < radius * radius := by
  cases mean with
  | none => simp [withinRadius]
  | some c => simp [withinRadius]

end RadiusLemmas

/-! ## Claims on `voxelRadiusSearch` -/

section SearchClaims

variable {K : Type} [LinearOrderedField K] [FloorRing K]

/-- In exact arithmetic, for `resolution_ > 0` and grid dimensions computed from the
corners (as `initCompute` leaves them), for every content of the cells, every query point
and every radius: every candidate position that is not skipped has its cell index in
`[0, number of cells)`; the search ends and returns (no read outside the cell array); the
returned count equals the length of the returned list; and every returned cell has an
index in range and a mean at Euclidean distance strictly less than the radius from the
query point (`0 < radius` and squared distance below `radius * radius`). -/
theorem voxelRadiusSearch_safe (res : K) (hres : 0 < res) (g : GridBounds K)
    (hg : g.voxelDimension = computeVoxelDimension res g.minVoxel g.maxVoxel)
    (grid : ℤ → BuiltVoxel K) (point : PointXYZI K) (radius : K) :
    (∀ c : K × K × K, ¬ outsideGrid g c →
      0 ≤ linearizeCoord g.minVoxel res g.voxelDimension c.1 c.2.1 c.2.2 ∧
      linearizeCoord g.minVoxel res g.voxelDimension c.1 c.2.1 c.2.2 <
        g.voxelDimension 0 * g.voxelDimension 1 * g.voxelDimension 2) ∧
    ∃ n : ℕ, ∀ fuel, n ≤ fuel →
      ∃ r, voxelRadiusSearch fuel res g
          (g.voxelDimension 0 * g.voxelDimension 1 * g.voxelDimension 2) grid point radius =
          some r ∧
        r.result = (r.indices.length : ℤ) ∧
        ∀ idx ∈ r.indices,
          (0 ≤ idx ∧ idx < g.voxelDimension 0 * g.voxelDimension 1 * g.voxelDimension 2) ∧
          ∃ c, (grid idx).mean = some c ∧ 0 < radius ∧
            (c 0 - point.data 0) * (c 0 - point.data 0) +
              (c 1 - point.data 1) * (c 1 - point.data 1) +
              (c 2 - point.data 2) * (c 2 - point.data 2) < radius * radius := by
  refine ⟨fun c hc => candidate_index_in_range res hres g hg c hc, ?_⟩
  obtain ⟨n, hn⟩ := radiusSearchCandidates_terminates res hres point radius
  refine ⟨n, ?_⟩
  intro fuel hfuel
  obtain ⟨cs, hcs⟩ := hn fuel hfuel
  obtain ⟨r, hr, hi, hres'⟩ := radiusSearch_fold res g
    (g.voxelDimension 0 * g.voxelDimension 1 * g.voxelDimension 2) grid point radius cs
    (fun c _ hc => candidate_index_in_range res hres g hg c hc) { result := 0, indices := [] }
  refine ⟨r, by simp [voxelRadiusSearch, hcs, hr], ?_, ?_⟩
  · rw [hres']
    simp
  · intro idx hidx
    rw [hi] at hidx
    simp only [List.nil_append, List.mem_map, List.mem_filter, decide_eq_true_eq] at hidx
    obtain ⟨c, ⟨_, hout, hw⟩, rfl⟩ := hidx
    exact ⟨candidate_index_in_range res hres g hg c hout, (withinRadius_iff _ _ _).1 hw⟩

end SearchClaims

section CandidateLoopLemmas

variable {K : Type} [LinearOrderedField K]

theorem three_values_nodup (a r : K) (hr : 0 < r) : [a, a + r, a + r + r].Nodup := by
  have h1 : a ≠ a + r := by intro e; linarith
  have h2 : a ≠ a + r + r := by intro e; linarith
  have h3 : a + r ≠ a + r + r := by intro e; linarith
  simp [h1, h2, h3]

theorem radiusSearchCandidates_radius_eq_step (res : K) (hres : 0 < res) (point : PointXYZI K)
    (fuel : ℕ) (hfuel : 3 ≤ fuel) :
    radiusSearchCandidates fuel res point res =
      some (List.product
        [point.data 0 - res, point.data 0 - res + res, point.data 0 - res + res + res]
        (List.product
          [point.data 1 - res, point.data 1 - res + res, point.data 1 - res + res + res]
          [point.data 2 - res, point.data 2 - res + res, point.data 2 - res + res + res])) := by
  simp only [radiusSearchCandidates, forValues_radius_eq_step res hres _ fuel hfuel,
    Option.some_bind, Option.map_some']

end CandidateLoopLemmas

section CandidateLemmas

variable {K : Type} [LinearOrderedField K] [FloorRing K]

theorem axisIndex_shift (res : K) (hres : 0 < res) (mn x : K) (h : mn ≤ x) :
    toInt ((x + res - mn) / res) = toInt ((x - mn) / res) + 1 := by
  have h0 : 0 ≤ (x - mn) / res := div_nonneg (sub_nonneg.2 h) (le_of_lt hres)
  have e : (x + res - mn) / res = (x - mn) / res + 1 := by
    field_simp
    ring
  rw [e, toInt_of_nonneg _ h0, toInt_of_nonneg _ (add_nonneg h0 zero_le_one),
    Int.floor_add_one]

/-- Two of the three values of one loop of the search that are not below the corner and
have the same cell coordinate are equal. -/
theorem axisIndex_inj (res : K) (hres : 0 < res) (mn a x y : K)
    (hx : x ∈ [a, a + res, a + res + res]) (hy : y ∈ [a, a + res, a + res + res])
    (hmx : mn ≤ x) (hmy : mn ≤ y)
    (h : toInt ((x - mn) / res) = toInt ((y - mn) / res)) : x = y := by
  have key : ∀ u v : K, mn ≤ u → u < v → toInt ((u - mn) / res) ≤ toInt ((v - mn) / res) := by
    intro u v hu huv
    have h0 : 0 ≤ (u - mn) / res := div_nonneg (sub_nonneg.2 hu) (le_of_lt hres)
    have h1 : (u - mn) / res ≤ (v - mn) / res :=
      div_le_div_of_nonneg_right (by linarith) (le_of_lt hres)
    rw [toInt_of_nonneg _ h0, toInt_of_nonneg _ (le_trans h0 h1)]
    exact Int.floor_le_floor h1
  have step : ∀ u v : K, mn ≤ u → u + res ≤ v →
      toInt ((u - mn) / res) < toInt ((v - mn) / res) := by
    intro u v hu huv
    have h1 := axisIndex_shift res hres mn u hu
    by_cases e : u + res = v
    · rw [← e, h1]
      exact Int.lt_add_one_iff.2 le_rfl
    · have h2 := key (u + res) v (by linarith) (lt_of_le_of_ne huv e)
      rw [h1] at h2
      exact Int.lt_of_lt_of_le (Int.lt_add_one_iff.2 le_rfl) h2
  rcases lt_trichotomy x y with hlt | heq | hgt
  · exfalso
    have hxy : x + res ≤ y := by
      simp only [List.mem_cons, List.mem_singleton, List.not_mem_nil, or_false] at hx hy
      rcases hx with rfl | rfl | rfl <;> rcases hy with rfl | rfl | rfl <;> linarith
    exact absurd h (ne_of_lt (step x y hmx hxy))
  · exact heq
  · exfalso
    have hxy : y + res ≤ x := by
      simp only [List.mem_cons, List.mem_singleton, List.not_mem_nil, or_false] at hx hy
      rcases hx with rfl | rfl | rfl <;> rcases hy with rfl | rfl | rfl <;> linarith
    exact absurd h.symm (ne_of_lt (step y x hmy hxy))

/-- The per-axis cell coordinates of a candidate that is not skipped are in range. -/
theorem candidate_axes_in_range (res : K) (hres : 0 < res) (g : GridBounds K)
    (hg : g.voxelDimension = computeVoxelDimension res g.minVoxel g.maxVoxel)
    (c : K × K × K) (hc : ¬ outsideGrid g c) :
    (0 ≤ toInt ((c.1 - g.minVoxel.data 0) / res) ∧
      toInt ((c.1 - g.minVoxel.data 0) / res) < g.voxelDimension 0) ∧
    (0 ≤ toInt ((c.2.1 - g.minVoxel.data 1) / res) ∧
      toInt ((c.2.1 - g.minVoxel.data 1) / res) < g.voxelDimension 1) ∧
    (0 ≤ toInt ((c.2.2 - g.minVoxel.data 2) / res) ∧
      toInt ((c.2.2 - g.minVoxel.data 2) / res) < g.voxelDimension 2) := by
  simp only [outsideGrid, not_or, not_lt] at hc
  obtain ⟨a0, b0, a1, b1, a2, b2⟩ := hc
  have d0 := computeVoxelDimension_eq res hres g.minVoxel g.maxVoxel 0 (le_trans a0 b0)
  have d1 := computeVoxelDimension_eq res hres g.minVoxel g.maxVoxel 1 (le_trans a1 b1)
  have d2 := computeVoxelDimension_eq res hres g.minVoxel g.maxVoxel 2 (le_trans a2 b2)
  have r0 := axisIndex_range res hres _ _ _ a0 b0
  have r1 := axisIndex_range res hres _ _ _ a1 b1
  have r2 := axisIndex_range res hres _ _ _ a2 b2
  simp only [Fin.castSucc_zero, Fin.castSucc_one] at d0 d1
  have c2 : (2 : Fin 3).castSucc = (2 : Fin 4) := rfl
  rw [c2] at d2
  rw [hg, d0, d1, d2]
  exact ⟨r0, r1, r2⟩

end CandidateLemmas

section SearchClaims2

variable {K : Type} [LinearOrderedField K] [FloorRing K]

/-- Two of the 27 candidate positions that are not skipped and have the same cell index
are equal. -/
theorem candidates_index_inj (res : K) (hres : 0 < res) (g : GridBounds K)
    (hg : g.voxelDimension = computeVoxelDimension res g.minVoxel g.maxVoxel)
    (point : PointXYZI K) (c c' : K × K × K)
    (hc : c ∈ List.product
        [point.data 0 - res, point.data 0 - res + res, point.data 0 - res + res + res]
        (List.product
          [point.data 1 - res, point.data 1 - res + res, point.data 1 - res + res + res]
          [point.data 2 - res, point.data 2 - res + res, point.data 2 - res + res + res]))
    (hc' : c' ∈ List.product
        [point.data 0 - res, point.data 0 - res + res, point.data 0 - res + res + res]
        (List.product
          [point.data 1 - res, point.data 1 - res + res, point.data 1 - res + res + res]
          [point.data 2 - res, point.data 2 - res + res, point.data 2 - res + res + res]))
    (ho : ¬ outsideGrid g c) (ho' : ¬ outsideGrid g c')
    (h : linearizeCoord g.minVoxel res g.voxelDimension c.1 c.2.1 c.2.2 =
      linearizeCoord g.minVoxel res g.voxelDimension c'.1 c'.2.1 c'.2.2) : c = c' := by
  obtain ⟨x, y, z⟩ := c
  obtain ⟨x', y', z'⟩ := c'
  obtain ⟨hx, hyz⟩ := List.mem_product.1 hc
  obtain ⟨hy, hz⟩ := List.mem_product.1 hyz
  obtain ⟨hx', hyz'⟩ := List.mem_product.1 hc'
  obtain ⟨hy', hz'⟩ := List.mem_product.1 hyz'
  obtain ⟨r0, r1, _⟩ := candidate_axes_in_range res hres g hg (x, y, z) ho
  obtain ⟨r0', r1', _⟩ := candidate_axes_in_range res hres g hg (x', y', z') ho'
  unfold linearizeCoord at h
  obtain ⟨e0, e1, e2⟩ := linearizeAddr_inj g.voxelDimension _ _ _ _ _ _ r0 r1 r0' r1' h
  simp only [outsideGrid, not_or, not_lt] at ho ho'
  obtain ⟨a0, _, a1, _, a2, _⟩ := ho
  obtain ⟨a0', _, a1', _, a2', _⟩ := ho'
  have ex := axisIndex_inj res hres _ _ x x' hx hx' a0 a0' e0
  have ey := axisIndex_inj res hres _ _ y y' hy hy' a1 a1' e1
  have ez := axisIndex_inj res hres _ _ z z' hz hz' a2 a2' e2
  rw [ex, ey, ez]

/-- C16: for `radius = resolution_ > 0` and grid dimensions computed from the corners, the
search (given fuel for three iterations per loop) examines exactly 27 candidate
positions; the candidates that are not skipped map to pairwise distinct cell indices;
hence the result holds at most 27 cells and no cell index occurs twice in it. -/
theorem voxelRadiusSearch_at_most_27 (res : K) (hres : 0 < res) (g : GridBounds K)
    (hg : g.voxelDimension = computeVoxelDimension res g.minVoxel g.maxVoxel)
    (grid : ℤ → BuiltVoxel K) (point : PointXYZI K) (fuel : ℕ) (hfuel : 3 ≤ fuel) :
    ∃ cs, radiusSearchCandidates fuel res point res = some cs ∧ cs.length = 27 ∧
      (∀ c ∈ cs, ∀ c' ∈ cs, ¬ outsideGrid g c → ¬ outsideGrid g c' →
        linearizeCoord g.minVoxel res g.voxelDimension c.1 c.2.1 c.2.2 =
          linearizeCoord g.minVoxel res g.voxelDimension c'.1 c'.2.1 c'.2.2 → c = c') ∧
      ∃ r, voxelRadiusSearch fuel res g
          (g.voxelDimension 0 * g.voxelDimension 1 * g.voxelDimension 2) grid point res =
          some r ∧
        r.result ≤ 27 ∧ r.indices.length ≤ 27 ∧ r.indices.Nodup := by
  have hcs := radiusSearchCandidates_radius_eq_step res hres point fuel hfuel
  have hlen27 : (List.product
      [point.data 0 - res, point.data 0 - res + res, point.data 0 - res + res + res]
      (List.product
        [point.data 1 - res, point.data 1 - res + res, point.data 1 - res + res + res]
        [point.data 2 - res, point.data 2 - res + res, point.data 2 - res + res + res])).length
      = 27 := by
    rfl
  refine ⟨_, hcs, hlen27, ?_, ?_⟩
  · intro c hc c' hc' ho ho' h
    exact candidates_index_inj res hres g hg point c c' hc hc' ho ho' h
  · obtain ⟨r, hr, hi, hn⟩ := radiusSearch_fold res g
      (g.voxelDimension 0 * g.voxelDimension 1 * g.voxelDimension 2) grid point res
      (List.product
        [point.data 0 - res, point.data 0 - res + res, point.data 0 - res + res + res]
        (List.product
          [point.data 1 - res, point.data 1 - res + res, point.data 1 - res + res + res]
          [point.data 2 - res, point.data 2 - res + res, point.data 2 - res + res + res]))
      (fun c _ hc => candidate_index_in_range res hres g hg c hc) { result := 0, indices := [] }
    have hlen : r.indices.length ≤ 27 := by
      rw [hi, List.nil_append, List.length_map]
      exact le_trans (List.length_filter_le _ _) (le_of_eq hlen27)
    have hsearch : voxelRadiusSearch fuel res g
        (g.voxelDimension 0 * g.voxelDimension 1 * g.voxelDimension 2) grid point res =
        some r := by
      simp only [voxelRadiusSearch, hcs, Option.some_bind]
      exact hr
    refine ⟨r, hsearch, ?_, hlen, ?_⟩
    · rw [hn]
      simp only [List.length_nil, Nat.cast_zero, sub_zero, zero_add]
      exact_mod_cast hlen
    · rw [hi, List.nil_append]
      refine List.Nodup.map_on ?_ (List.Nodup.filter _ ?_)
      · intro c hc c' hc' h
        have m := List.mem_filter.1 hc
        have m' := List.mem_filter.1 hc'
        have a := (of_decide_eq_true m.2).1
        have a' := (of_decide_eq_true m'.2).1
        exact candidates_index_inj res hres g hg point c c' m.1 m'.1 a a' h
      · exact List.Nodup.product (three_values_nodup _ _ hres)
          (List.Nodup.product (three_values_nodup _ _ hres) (three_values_nodup _ _ hres))

end SearchClaims2

section FloatLemmas

variable {K : Type} [LinearOrderedField K]

/-- With exact rounding the single-precision loop is the exact loop. -/
theorem forValues_float_id (fuel : ℕ) (x hi step : K) :
    forValues_float id fuel x hi step = forValues fuel x hi step := by
  induction fuel generalizing x with
  | zero => rfl
  | succ n ih => simp [forValues_float, forValues, ih]

/-- A loop `for (float x = lo; x <= hi; x += step)` whose rounded addition gives back `x`
at a value `x ≤ hi` does not end. -/
theorem forValues_float_stuck (fl : K → K) (x hi step : K) (hx : x ≤ hi)
    (hfix : fl (x + step) = x) (fuel : ℕ) :
    forValues_float fl fuel x hi step = none := by
  induction fuel with
  | zero => simp [forValues_float, hx]
  | succ n ih => simp [forValues_float, hx, hfix, ih]

/-- With exact rounding the single-precision candidates are the exact candidates. -/
theorem radiusSearchCandidates_float_id (fuel : ℕ) (res : K) (point : PointXYZI K)
    (radius : K) :
    radiusSearchCandidates_float id fuel res point radius =
      radiusSearchCandidates fuel res point radius := by
  simp [radiusSearchCandidates_float, radiusSearchCandidates, forValues_float_id]

end FloatLemmas

section FloatLemmas2

variable {K : Type} [LinearOrderedField K] [FloorRing K]

/-- With exact rounding the single-precision index is the exact index. -/
theorem linearizeCoord_float_id (minVoxel : PointXYZI K) (res : K) (dim : Fin 3 → ℤ)
    (x y z : K) :
    linearizeCoord_float id minVoxel res dim x y z = linearizeCoord minVoxel res dim x y z :=
  rfl

/-- With exact rounding the single-precision dimensions are the exact dimensions. -/
theorem computeVoxelDimension_float_id (res : K) (minVoxel maxVoxel : PointXYZI K) :
    computeVoxelDimension_float id res minVoxel maxVoxel =
      computeVoxelDimension res minVoxel maxVoxel :=
  rfl

end FloatLemmas2

section FloatSafeRange

variable {K : Type} [LinearOrderedField K] [FloorRing K]

/-- One axis of the cell index in single precision, for a rounding `fl` that is monotone
and exact on the integers from 0 to `2^24` (as rounding to the nearest `float` is): for a
coordinate between the corners the index is at least 0 and below the dimension of the
axis, provided the rounded extent `(max - min) / resolution_` is below `2^24`. -/
theorem axisIndex_float_range (fl : K → K) (hmono : Monotone fl)
    (hint : ∀ n : ℤ, 0 ≤ n → n ≤ 2 ^ 24 → fl (n : K) = n) (res : K) (hres : 0 < res)
    (mn mx x : K) (h1 : mn ≤ x) (h2 : x ≤ mx) (hext : fl (fl (mx - mn) / res) < 2 ^ 24) :
    0 ≤ toInt (fl (fl (x - mn) / res)) ∧
    toInt (fl (fl (x - mn) / res)) < toInt (fl (fl (fl (mx - mn) / res) + 1)) := by
  have f0 : fl 0 = 0 := by
    have := hint 0 (le_refl 0) (by norm_num)
    simpa using this
  have hx0 : 0 ≤ fl (x - mn) := by
    rw [← f0]
    exact hmono (sub_nonneg.2 h1)
  have hA0 : 0 ≤ fl (fl (x - mn) / res) := by
    rw [← f0]
    exact hmono (div_nonneg hx0 hres.le)
  have hAE : fl (fl (x - mn) / res) ≤ fl (fl (mx - mn) / res) :=
    hmono (div_le_div_of_nonneg_right (hmono (by linarith)) hres.le)
  have hE0 : 0 ≤ fl (fl (mx - mn) / res) := le_trans hA0 hAE
  have hn0 : (0 : ℤ) ≤ ⌊fl (fl (mx - mn) / res)⌋ + 1 := by
    have := Int.floor_nonneg.2 hE0
    omega
  have hn24 : ⌊fl (fl (mx - mn) / res)⌋ + 1 ≤ (2 : ℤ) ^ 24 := by
    have : ⌊fl (fl (mx - mn) / res)⌋ < (2 : ℤ) ^ 24 := by
      rw [Int.floor_lt]
      push_cast
      norm_num at hext ⊢
      exact hext
    omega
  have hfn := hint _ hn0 hn24
  have hle : ((⌊fl (fl (mx - mn) / res)⌋ + 1 : ℤ) : K) ≤ fl (fl (mx - mn) / res) + 1 := by
    push_cast
    linarith [Int.floor_le (fl (fl (mx - mn) / res))]
  have hD : ((⌊fl (fl (mx - mn) / res)⌋ + 1 : ℤ) : K) ≤ fl (fl (fl (mx - mn) / res) + 1) := by
    rw [← hfn]
    exact hmono hle
  have hD0 : 0 ≤ fl (fl (fl (mx - mn) / res) + 1) :=
    le_trans (by exact_mod_cast hn0) hD
  rw [toInt_of_nonneg _ hA0, toInt_of_nonneg _ hD0]
  refine ⟨Int.floor_nonneg.2 hA0, ?_⟩
  have h3 : ⌊fl (fl (x - mn) / res)⌋ ≤ ⌊fl (fl (mx - mn) / res)⌋ := Int.floor_le_floor hAE
  have h4 : ⌊fl (fl (mx - mn) / res)⌋ + 1 ≤ ⌊fl (fl (fl (mx - mn) / res) + 1)⌋ :=
    Int.le_floor.2 hD
  omega

/-- In single precision, for a rounding `fl` that is monotone and exact on the integers
from 0 to `2^24`, `resolution_ > 0` and a rounded extent below `2^24` on every axis: the
cell index of every position that lies between the corners (every target point, and
every candidate position that the search does not skip) is within
`[0, voxelDimension[0] * voxelDimension[1] * voxelDimension[2])`. -/
theorem linearizeCoord_float_range (fl : K → K) (hmono : Monotone fl)
    (hint : ∀ n : ℤ, 0 ≤ n → n ≤ 2 ^ 24 → fl (n : K) = n) (res : K) (hres : 0 < res)
    (mn mx : PointXYZI K)
    (hext : ∀ k : Fin 4, k.val < 3 → fl (fl (mx.data k - mn.data k) / res) < 2 ^ 24)
    (x y z : K) (hx : mn.data 0 ≤ x ∧ x ≤ mx.data 0) (hy : mn.data 1 ≤ y ∧ y ≤ mx.data 1)
    (hz : mn.data 2 ≤ z ∧ z ≤ mx.data 2) :
    0 ≤ linearizeCoord_float fl mn res (computeVoxelDimension_float fl res mn mx) x y z ∧
    linearizeCoord_float fl mn res (computeVoxelDimension_float fl res mn mx) x y z <
      computeVoxelDimension_float fl res mn mx 0 * computeVoxelDimension_float fl res mn mx 1 *
        computeVoxelDimension_float fl res mn mx 2 := by
  have r0 := axisIndex_float_range fl hmono hint res hres _ _ x hx.1 hx.2 (hext 0 (by decide))
  have r1 := axisIndex_float_range fl hmono hint res hres _ _ y hy.1 hy.2 (hext 1 (by decide))
  have r2 := axisIndex_float_range fl hmono hint res hres _ _ z hz.1 hz.2 (hext 2 (by decide))
  unfold linearizeCoord_float
  exact ⟨linearizeAddr_nonneg _ _ _ _ r0 r1 r2, linearizeAddr_lt _ _ _ _ r0 r1 r2⟩

end FloatSafeRange

/-- The single-precision search loop at the query coordinate `16777216` with radius and
step 1 does not end: the loop variable reaches `16777216`, which is not above the bound
`16777216 + 1` rounded to `16777216`, and `16777216 + 1` rounds back to `16777216`. -/
theorem forValues_float_far (fuel : ℕ) :
    forValues_float roundFloat fuel (roundFloat (16777216 - 1 : ℚ))
      (roundFloat (16777216 + 1 : ℚ)) 1 = none := by
  have h0 : roundFloat (16777216 - 1 : ℚ) = 16777215 := by decide!
  have h1 : roundFloat (16777216 + 1 : ℚ) = 16777216 := by decide!
  have h2 : roundFloat (16777215 + 1 : ℚ) = 16777216 := by decide!
  rw [h0, h1]
  cases fuel with
  | zero => decide!
  | succ n =>
    have hs := forValues_float_stuck roundFloat (16777216 : ℚ) 16777216 1 (le_refl _) h1 n
    have hle : (16777215 : ℚ) ≤ 16777216 := by norm_num
    simp only [forValues_float, if_pos hle, h2, hs, Option.map_none']

/-- C10 fails in single precision: for the cloud `(0,0,0)`, `(16777216,0,0)` and
`resolution_ = 1` the sum `16777216 + 1` in
`voxelDimension[0] = (maxVoxel.data[0] - minVoxel.data[0]) / resolution_ + 1` rounds to
`16777216`, so the dimensions are `16777216 × 1 × 1`, `target_cells_` has `16777216`
cells, and the first pass computes `voxelIndex = 16777216` for the second point, one past
the last cell.  In exact arithmetic the dimension is `16777217` and the same index is in
range. -/
theorem initCompute_firstPass_index_out_of_range :
    (initCompute_grid_OpenCl_float roundFloat 1 cloudWide).map (fun g =>
      (List.ofFn g.voxelDimension,
        g.voxelDimension 0 * g.voxelDimension 1 * g.voxelDimension 2,
        firstPassIndices_float roundFloat 1 g cloudWide)) =
      some ([16777216, 1, 1], 16777216, [0, 16777216]) ∧
    roundFloat (roundFloat (roundFloat (16777216 - 0 : ℚ) / 1) + 1) = 16777216 ∧
    roundFloat (roundFloat (16777216 - 0 : ℚ) / 1) = 16777216 ∧
    (initCompute_grid_OpenCl (1 : ℚ) cloudWide).map (fun g =>
      (List.ofFn g.voxelDimension,
        g.voxelDimension 0 * g.voxelDimension 1 * g.voxelDimension 2,
        cloudWide.map (fun p => linearizeCoord g.minVoxel 1 g.voxelDimension
          (p.data 0) (p.data 1) (p.data 2)))) =
      some ([16777217, 1, 1], 16777217, [0, 16777216]) := by
  decide!

/-- C14 fails in single precision.  (a) For the cloud `(-8388608,0,0)`, `(8388608,0,0)`,
`(0,1,0)` and `resolution_ = 1`, `initCompute` leaves the corners `boundsCentred` with
dimensions `16777216 × 2 × 1` (the sum `16777216 + 1` rounds to `16777216`), hence
`33554432` cells, and its first pass stays inside the cell array (indices `0`,
`16777216`, `25165824`).  The search at the query point `(8388608,1,0)` with radius 1
visits 27 candidates, four of which pass the bounds test, and reads the cells `16777215`,
`33554431`, `16777216` and `33554432`: the last index, that of the candidate at the max
corner, is the number of cells.  (b) At the query point `(16777216,0,0)` with radius and
`resolution_` 1 the loop over `x` does not end, for any number of iterations allowed: the
search returns nothing. -/
theorem voxelRadiusSearch_float_unsafe :
    (initCompute_grid_OpenCl_float roundFloat 1 cloudCentred).map (fun g =>
      (List.ofFn g.minVoxel.data, List.ofFn g.maxVoxel.data, List.ofFn g.voxelDimension,
        g.voxelDimension 0 * g.voxelDimension 1 * g.voxelDimension 2,
        firstPassIndices_float roundFloat 1 g cloudCentred)) =
      some (List.ofFn boundsCentred.minVoxel.data, List.ofFn boundsCentred.maxVoxel.data,
        List.ofFn boundsCentred.voxelDimension, 33554432, [0, 16777216, 25165824]) ∧
    (radiusSearchCandidates_float roundFloat 3 1 queryCorner 1).map (fun cs => cs.length) =
      some 27 ∧
    radiusSearchReads_float roundFloat 3 1 boundsCentred queryCorner 1 =
      some [16777215, 33554431, 16777216, 33554432] ∧
    (∀ fuel, radiusSearchCandidates_float roundFloat fuel 1 queryFar 1 = none) ∧
    (∀ fuel, radiusSearchReads_float roundFloat fuel 1 boundsCentred queryFar 1 = none) := by
  have hfar : ∀ fuel, radiusSearchCandidates_float roundFloat fuel 1 queryFar 1 = none := by
    intro fuel
    have h := forValues_float_far fuel
    have e : queryFar.data 0 = 16777216 := rfl
    simp only [radiusSearchCandidates_float, e, h, Option.none_bind]
  refine ⟨by decide!, by decide!, by decide!, hfar, ?_⟩
  intro fuel
  simp only [radiusSearchReads_float, hfar fuel, Option.map_none']

/-- In single precision the loop `for (float x = q - r; x <= q + r; x += resolution_)` can
end before `q + r`: for `q = 0.22842853f` and `r = resolution_ = 1` it visits two values
only, because the third, `1.2284286`, exceeds the rounded bound `1.2284285`; in exact
arithmetic it visits three. -/
theorem forValues_float_early_end :
    forValues_float roundFloat 5 (roundFloat (queryNear.data 0 - 1))
      (roundFloat (queryNear.data 0 + 1)) 1 =
      some [-12944821 / 16777216, 3832395 / 16777216] ∧
    roundFloat (3832395 / 16777216 + 1 : ℚ) = 5152403 / 4194304 ∧
    roundFloat (queryNear.data 0 + 1) = 10304805 / 8388608 ∧
    (forValues 5 (queryNear.data 0 - 1) (queryNear.data 0 + 1) 1).map (fun l => l.length) =
      some 3 := by
  decide!

/-- The counterexample `voxelRadiusSearch_skips_outside_candidate` in single precision:
for the cloud `(0,0,0)`, `(3/2,0,0)`, `resolution_ = 1` and the query point whose first
coordinate is the `float` nearest to `9/10`, the dimensions are `2 × 1 × 1`, the loop over
`x` visits `-0.10000002`, `0.9` and `1.9` (rounded), of which only the second lies between
the corners, and the search reads cell 0 only: cell 1 is not read and so not returned. -/
theorem voxelRadiusSearch_float_skips_outside_candidate :
    (initCompute_grid_OpenCl_float roundFloat 1 cloudX).map (fun g =>
      (List.ofFn g.minVoxel.data, List.ofFn g.maxVoxel.data, List.ofFn g.voxelDimension)) =
      some ([0, 0, 0, 0], [3 / 2, 0, 0, 0], [2, 1, 1]) ∧
    roundFloat (9 / 10 : ℚ) = 15099494 / 16777216 ∧
    forValues_float roundFloat 3 (roundFloat (roundFloat (9 / 10 : ℚ) - 1))
        (roundFloat (roundFloat (9 / 10 : ℚ) + 1)) 1 =
      some [-1677722 / 16777216, 15099494 / 16777216, 15938355 / 8388608] ∧
    (initCompute_grid_OpenCl_float roundFloat 1 cloudX).bind (fun g =>
      radiusSearchReads_float roundFloat 3 1 g ⟨![roundFloat (9 / 10), 0, 0, 0]⟩ 1) =
      some [0] := by
  decide!

theorem boundsCloud3_dimension :
    boundsCloud3.voxelDimension =
      computeVoxelDimension 1 boundsCloud3.minVoxel boundsCloud3.maxVoxel := by
  funext i
  fin_cases i <;> decide!

/-- Instance of `voxelRadiusSearch_at_most_27`: the grid built for `cloud3` with
`resolution_ = 1` (corners `(0,0,0)` and `(2,2,2)`, `3 × 3 × 3` cells) and the query point
`(1,1,1)`.  All 27 candidates pass the bounds test and map to the 27 cell indices
`0, ..., 26`, each once; the search returns the one cell, 13, whose mean `(6/5,1,1)` is
within the radius. -/
theorem voxelRadiusSearch_at_most_27_witness :
    (∃ cs, radiusSearchCandidates 3 (1 : ℚ) query3 1 = some cs ∧ cs.length = 27 ∧
      (∀ c ∈ cs, ∀ c' ∈ cs, ¬ outsideGrid boundsCloud3 c → ¬ outsideGrid boundsCloud3 c' →
        linearizeCoord boundsCloud3.minVoxel 1 boundsCloud3.voxelDimension c.1 c.2.1 c.2.2 =
          linearizeCoord boundsCloud3.minVoxel 1 boundsCloud3.voxelDimension c'.1 c'.2.1 c'.2.2 →
        c = c') ∧
      ∃ r, voxelRadiusSearch 3 1 boundsCloud3
          (boundsCloud3.voxelDimension 0 * boundsCloud3.voxelDimension 1 *
            boundsCloud3.voxelDimension 2) builtCloud3.cells query3 1 = some r ∧
        r.result ≤ 27 ∧ r.indices.length ≤ 27 ∧ r.indices.Nodup) ∧
    (radiusSearchCandidates 3 (1 : ℚ) query3 1).map (fun cs => cs.map (fun c =>
      (decide (outsideGrid boundsCloud3 c),
        linearizeCoord boundsCloud3.minVoxel 1 boundsCloud3.voxelDimension c.1 c.2.1 c.2.2))) =
      some [(false, 0), (false, 9), (false, 18), (false, 3), (false, 12), (false, 21),
        (false, 6), (false, 15), (false, 24), (false, 1), (false, 10), (false, 19),
        (false, 4), (false, 13), (false, 22), (false, 7), (false, 16), (false, 25),
        (false, 2), (false, 11), (false, 20), (false, 5), (false, 14), (false, 23),
        (false, 8), (false, 17), (false, 26)] ∧
    (voxelRadiusSearch 3 1 boundsCloud3
        (boundsCloud3.voxelDimension 0 * boundsCloud3.voxelDimension 1 *
          boundsCloud3.voxelDimension 2) builtCloud3.cells query3 1).map
      (fun r => (r.result, r.indices)) = some (1, [13]) :=
  ⟨voxelRadiusSearch_at_most_27 1 (by norm_num) boundsCloud3 boundsCloud3_dimension
      builtCloud3.cells query3 3 (le_refl 3), by decide!, by decide!⟩

/-! ## Lemmas on the cells reached by the search -/

section AverageLemmas

variable {K : Type} [LinearOrderedField K]

end AverageLemmas

section ReachLemmas

variable {K : Type} [LinearOrderedField K] [FloorRing K]

end ReachLemmas

section CompleteClaims

variable {K : Type} [LinearOrderedField K] [FloorRing K]

end CompleteClaims

section FixedStepLemmas

variable {K : Type} [LinearOrderedField K] {σ : Type}

theorem stepLoop_of_converged (env : LineSearchEnv K σ) (x : Vec6 K)
    (phi_0 d_phi_0 mu nu step_max step_min : K) (n : ℕ) (l : StepLoop K)
    (s : LineSearchState K σ) (h : l.interval_converged = true) :
    stepLoop env x phi_0 d_phi_0 mu nu step_max step_min n l s = (l, s) := by
  cases n <;> simp [stepLoop, h]

/-- With `step_min < step_max` the flag `interval_converged` starts as true: the search
forms one trial pose, evaluates it with `compute_hessian = true`, skips the loop and the
call of `computeHessian`, and returns the clamped initial step. -/
theorem searchStepLength_fixed_step (env : LineSearchEnv K σ) (x : Vec6 K)
    (step_init step_max step_min phi_0 d_phi_0 : K) (s : LineSearchState K σ)
    (h : step_min < step_max) :
    searchStepLength env x step_init step_max step_min phi_0 d_phi_0 s =
      (max (min step_init step_max) step_min,
        evaluateTrial env (trialPose x s.step_dir (max (min step_init step_max) step_min))
          true s) := by
  have hc : decide (step_max - step_min > 0) = true := by simpa using h
  simp only [searchStepLength, hc]
  rw [stepLoop_of_converged _ _ _ _ _ _ _ _ _ _ _ rfl]
  simp

/-- A call of `computeStepLengthMT` with `step_min < step_max` in a descent direction
(`d_phi_0 < 0`) returns the clamped initial step after one trial evaluation. -/
theorem computeStepLengthMT_of_descent (env : LineSearchEnv K σ) (x : Vec6 K)
    (step_init step_max step_min : K) (s : LineSearchState K σ) (hstep : step_min < step_max)
    (h : -(dot_product6 s.score_gradient s.step_dir) < 0) :
    computeStepLengthMT env x step_init step_max step_min s =
      (max (min step_init step_max) step_min,
        evaluateTrial env (trialPose x s.step_dir (max (min step_init step_max) step_min))
          true s) := by
  unfold computeStepLengthMT
  simp only [ge_iff_le, if_neg (not_le.2 h)]
  exact searchStepLength_fixed_step env x _ _ _ _ _ s hstep

end FixedStepLemmas

section ConversionLemmas

variable {K : Type} [LinearOrderedField K] {σ : Type}

/-- In the loop body of `computeStepLengthMT`, when the interval is open and the new trial
satisfies `psi_t <= 0 && d_psi_t >= 0`, the interval handed to `updateIntervalMT` is
`convertPsiToPhi` of the current one. -/
theorem stepLoopBody_closing (env : LineSearchEnv K σ) (x : Vec6 K)
    (phi_0 d_phi_0 mu step_max step_min : K) (l : StepLoop K) (s : LineSearchState K σ)
    (ho : l.open_interval = true) :
    let a_t := max (min (trialValueSelectionMT env.sqrt l.I.a_l l.I.f_l l.I.g_l l.I.a_u l.I.f_u
      l.I.g_u l.a_t l.psi_t l.d_psi_t) step_max) step_min
    let s1 := evaluateTrial env (trialPose x s.step_dir a_t) false s
    let phi_t := -s1.score
    let d_phi_t := -(dot_product6 s1.score_gradient s1.step_dir)
    let psi_t := auxilaryFunction_PsiMT a_t phi_t phi_0 d_phi_0 mu
    let d_psi_t := auxilaryFunction_dPsiMT d_phi_t d_phi_0 mu
    psi_t ≤ 0 ∧ d_psi_t ≥ 0 →
      (stepLoopBody env x phi_0 d_phi_0 mu step_max step_min l s).1.I =
        (updateIntervalMT (convertPsiToPhi l.I phi_0 d_phi_0 mu) a_t phi_t d_phi_t).2 ∧
      (stepLoopBody env x phi_0 d_phi_0 mu step_max step_min l s).1.open_interval = false := by
  intro a_t s1 phi_t d_phi_t psi_t d_psi_t h
  have hd : decide (psi_t ≤ 0 ∧ d_psi_t ≥ 0) = true := by simpa using h
  simp only [stepLoopBody, ho, if_true, Bool.true_and]
  simp only [a_t, s1, phi_t, d_phi_t, psi_t, d_psi_t] at hd
  simp only [hd, if_true, convertPsiToPhi]
  simp

end ConversionLemmas

section ConversionClaims

variable {K : Type} [LinearOrderedField K]

end ConversionClaims

section FixedStepClaims

variable {K : Type} [LinearOrderedField K] {σ : Type}

/-- C30: when `step_min < step_max`, a call of `computeStepLengthMT` whose `d_phi_0` is not
zero returns `max(min(step_init, step_max), step_min)` after exactly one evaluation of a
trial pose (with `compute_hessian = true`), on `step_dir` negated when `d_phi_0 > 0`: the
refinement loop is not entered.  The result does not depend on `computeHessian`, which is
not called.  With the arguments of the driver (`step_init = 1`, `step_max = step_size_`,
`step_min = transformation_epsilon_ / 2`) the returned step is `1/10` or `0`. -/
theorem computeStepLengthMT_fixed_step (env : LineSearchEnv K σ) (x : Vec6 K)
    (step_init step_max step_min : K) (s : LineSearchState K σ) (hstep : step_min < step_max) :
    (-(dot_product6 s.score_gradient s.step_dir) < 0 →
      computeStepLengthMT env x step_init step_max step_min s =
        (max (min step_init step_max) step_min,
          evaluateTrial env (trialPose x s.step_dir (max (min step_init step_max) step_min))
            true s)) ∧
    (-(dot_product6 s.score_gradient s.step_dir) > 0 →
      computeStepLengthMT env x step_init step_max step_min s =
        (max (min step_init step_max) step_min,
          evaluateTrial env
            (trialPose x (fun i => s.step_dir i * -1) (max (min step_init step_max) step_min))
            true { s with step_dir := fun i => s.step_dir i * -1 })) ∧
    (∀ h : Mat66 K → List (PointXYZI K) → Vec6 K → σ → Mat66 K × σ,
      computeStepLengthMT { env with computeHessian := h } x step_init step_max step_min s =
        computeStepLengthMT env x step_init step_max step_min s) ∧
    ((computeStepLengthMT env x 1 step_size_ (transformation_epsilon_ / 2) s).1 = 1 / 10 ∨
      (computeStepLengthMT env x 1 step_size_ (transformation_epsilon_ / 2) s).1 = 0) := by
  have hd : (transformation_epsilon_ / 2 : K) < step_size_ := by
    simp only [transformation_epsilon_, step_size_]
    norm_num
  have hv : max (min (1 : K) step_size_) (transformation_epsilon_ / 2) = 1 / 10 := by
    simp only [transformation_epsilon_, step_size_]
    rw [min_eq_right (by norm_num), max_eq_left (by norm_num)]
  refine ⟨?_, ?_, ?_, ?_⟩
  · intro h
    unfold computeStepLengthMT
    simp only [ge_iff_le, if_neg (not_le.2 h)]
    exact searchStepLength_fixed_step env x _ _ _ _ _ s hstep
  · intro h
    unfold computeStepLengthMT
    simp only [ge_iff_le, if_pos (le_of_lt h), if_neg (ne_of_gt h)]
    exact searchStepLength_fixed_step env x _ _ _ _ _ _ hstep
  · intro h
    unfold computeStepLengthMT
    simp only [searchStepLength_fixed_step _ _ _ _ _ _ _ _ hstep]
    rfl
  · unfold computeStepLengthMT
    simp only [searchStepLength_fixed_step _ _ _ _ _ _ _ _ hd, hv]
    split_ifs <;> simp

end FixedStepClaims

/-- Instance of `computeStepLengthMT_fixed_step`: the objective `quarticObjective` with
the library functions of the reals, the state `quarticStart.s` with `step_dir`
`(10,0,0,0,0,0)`, and the arguments of the driver. -/
theorem computeStepLengthMT_fixed_step_witness :
    (1 / 20 : ℝ) < 1 / 10 ∧
    computeStepLengthMT (quarticEnv Real.cos Real.sin Real.sqrt) (fun _ => 0) 1 (1 / 10)
        (1 / 20)
        { (quarticStart : TransformationLoop ℝ Unit).s with
          step_dir := fun i => if i = 0 then 10 else 0 } =
      (max (min 1 (1 / 10)) (1 / 20),
        evaluateTrial (quarticEnv Real.cos Real.sin Real.sqrt)
          (trialPose (fun _ => 0) (fun i => if i = 0 then 10 else 0)
            (max (min 1 (1 / 10)) (1 / 20)))
          true
          { (quarticStart : TransformationLoop ℝ Unit).s with
            step_dir := fun i => if i = 0 then 10 else 0 }) :=
  ⟨by norm_num,
    (computeStepLengthMT_fixed_step (quarticEnv Real.cos Real.sin Real.sqrt) (fun _ => 0) 1
      (1 / 10) (1 / 20)
      { (quarticStart : TransformationLoop ℝ Unit).s with
        step_dir := fun i => if i = 0 then 10 else 0 } (by norm_num)).1
      (by simp [quarticStart, dot_product6])⟩

/-- C21 (an accepted step can lower the score): one pass of the loop body of
`computeTransformation` for the objective `p0 - p0^2/20 - 2 p0^4`, from the pose 0 where
the score is 0, the gradient `(1,0,0,0,0,0)` and the Hessian entry `[0][0]` is `-1/10`.
`solve` returns the Newton step `(10,0,0,0,0,0)`, a descent direction of `-score`;
`computeStepLengthMT` is called with `step_init = 1`, `step_max = 0.1`, `step_min = 0.05`
and returns the step `1/10` after a single trial, because `(step_max - step_min) > 0` sets
`interval_converged` before the sufficient-decrease test is ever made.  The pose moves to
`p0 = 1`, where the score is `-21/20 < 0`.  This holds whatever `cos`, `sin`, `sqrt`
are. -/
theorem computeStepLengthMT_accepts_lower_score (cos sin sqrt : ℚ → ℚ) :
    (quarticStart : TransformationLoop ℚ Unit).s.score = 0 ∧
    (solve_OpenCl (quarticStart : TransformationLoop ℚ Unit).s.step_dir quarticStart.s.hessian
      (fun i => -quarticStart.s.score_gradient i)).map (fun v => List.ofFn v) =
      some [10, 0, 0, 0, 0, 0] ∧
    (computeTransformation_iteration sqrt cos sin solve_OpenCl
      (computeStepLengthMT (quarticEnv cos sin sqrt)) false 0 quarticStart).map
      (fun r => (r.1.s.score, List.ofFn r.1.p, List.ofFn r.1.s.step_dir, r.2)) =
      some (-21 / 20, [1, 0, 0, 0, 0, 0], [1, 0, 0, 0, 0, 0], false) := by
  have hsolve : (solve_OpenCl (quarticStart : TransformationLoop ℚ Unit).s.step_dir
      quarticStart.s.hessian (fun i => -quarticStart.s.score_gradient i)).map
      (fun v => List.ofFn v) = some [10, 0, 0, 0, 0, 0] := by decide!
  refine ⟨rfl, hsolve, ?_⟩
  cases hdp : solve_OpenCl (quarticStart : TransformationLoop ℚ Unit).s.step_dir
      quarticStart.s.hessian (fun i => -quarticStart.s.score_gradient i) with
  | none =>
    rw [hdp] at hsolve
    simp at hsolve
  | some dp =>
    rw [hdp] at hsolve
    simp only [Option.map_some', Option.some.injEq] at hsolve
    have hv : ∀ i : Fin 6, dp i = if i = 0 then 10 else 0 := by
      intro i
      have := congrArg (fun l => l.get? i.val) hsolve
      fin_cases i <;> simpa [List.ofFn_succ] using this
    have hdesc : -(dot_product6 (quarticStart : TransformationLoop ℚ Unit).s.score_gradient
        (fun i => dp i / 1)) < 0 := by
      simp [dot_product6, quarticStart, hv]
    have hls := computeStepLengthMT_of_descent (quarticEnv cos sin sqrt)
      (quarticStart : TransformationLoop ℚ Unit).p 1 step_size_ (transformation_epsilon_ / 2)
      { (quarticStart : TransformationLoop ℚ Unit).s with step_dir := fun i => dp i / 1 }
      (by simp only [transformation_epsilon_, step_size_]; norm_num) hdesc
    have hval : max (min (1 : ℚ) step_size_) (transformation_epsilon_ / 2) = 1 / 10 := by
      simp only [transformation_epsilon_, step_size_]
      rw [min_eq_right (by norm_num), max_eq_left (by norm_num)]
    simp only [computeTransformation_iteration, hdp, Option.map_some', one_ne_zero, ne_eq,
      not_true_eq_false, or_self, if_false, hls, hval]
    simp only [evaluateTrial, quarticEnv, quarticObjective, trialPose, quarticStart,
      Option.some.injEq, Prod.mk.injEq]
    refine ⟨?_, ?_, ?_, trivial⟩
    · simp [hv]
      norm_num
    · simp [List.ofFn_succ, hv]
      decide
    · simp [List.ofFn_succ, hv]
      decide

/-! ## Lemmas on the Hessian update -/

section HessianLemmas

variable {K : Type} [LinearOrderedField K]

theorem matVec3_apply (c : Mat33 K) (v : Vec3 K) (r : Fin 3) :
    matVec3 c v r = c.data r 0 * v 0 + c.data r 1 * v 1 + c.data r 2 * v 2 := by
  have h3 : List.finRange 3 = [0, 1, 2] := by decide
  simp [matVec3, h3]

/-- The value added to `hessian.data[i][j]` by the statement under the comment
"Update hessian, Equation 6.13" in `updateDerivatives` and `updateHessian`. -/
theorem updateHessianEntry_data (d2 : K) (pg : Mat36 K) (ph : Mat186 K) (x : Vec3 K)
    (c : Mat33 K) (e : K) (cov : Vec3 K) (i : Fin 6) (H : Mat66 K) (j a b : Fin 6) :
    (updateHessianEntry d2 pg ph x c e cov i H j).data a b =
      if a = i ∧ b = j then
        H.data i j + e * (-d2 * dot_product x cov *
          dot_product x (matVec3 c (fun r => pg.data r j + ph.data (hessianRow i r) j)) +
          dot_product (fun r => pg.data r j) cov)
      else H.data a b := by
  simp only [updateHessianEntry, Mat66.set]

theorem hessianEntries_fold (d2 : K) (pg : Mat36 K) (ph : Mat186 K) (x : Vec3 K)
    (c : Mat33 K) (e : K) (cov : Vec3 K) (i : Fin 6) (l : List (Fin 6)) (hl : l.Nodup)
    (H : Mat66 K) (a b : Fin 6) :
    (l.foldl (updateHessianEntry d2 pg ph x c e cov i) H).data a b =
      if a = i ∧ b ∈ l then
        H.data a b + e * (-d2 * dot_product x cov *
          dot_product x (matVec3 c (fun r => pg.data r b + ph.data (hessianRow i r) b)) +
          dot_product (fun r => pg.data r b) cov)
      else H.data a b := by
  induction l generalizing H with
  | nil => simp
  | cons j l ih =>
    obtain ⟨hj, hl⟩ := List.nodup_cons.1 hl
    rw [List.foldl_cons, ih hl, updateHessianEntry_data]
    by_cases ha : a = i
    · by_cases hb : b = j
      · subst ha hb
        simp [hj]
      · by_cases hm : b ∈ l
        · simp [ha, hb, hm]
        · simp [ha, hb, hm]
    · simp [ha]

theorem derivativesRows_fold (d2 : K) (pg : Mat36 K) (ph : Mat186 K) (x : Vec3 K)
    (c : Mat33 K) (e : K) (l : List (Fin 6)) (hl : l.Nodup) (s : Vec6 K × Mat66 K)
    (a b : Fin 6) :
    (l.foldl (updateDerivativesRow d2 pg ph x c true e) s).2.data a b =
      if a ∈ l then
        s.2.data a b + e * (-d2 * dot_product x (matVec3 c (fun col => pg.data col a)) *
          dot_product x (matVec3 c (fun r => pg.data r b + ph.data (hessianRow a r) b)) +
          dot_product (fun r => pg.data r b) (matVec3 c (fun col => pg.data col a)))
      else s.2.data a b := by
  induction l generalizing s with
  | nil => simp
  | cons i l ih =>
    obtain ⟨hi, hl⟩ := List.nodup_cons.1 hl
    rw [List.foldl_cons, ih hl]
    simp only [updateDerivativesRow, if_true]
    rw [hessianEntries_fold _ _ _ _ _ _ _ _ _ (List.nodup_finRange 6)]
    by_cases ha : a = i
    · subst ha
      simp [hi]
    · by_cases hm : a ∈ l
      · simp [ha, hm]
      · simp [ha, hm]

/-- When the guard of `updateDerivatives` lets the contribution pass, the call with
`compute_hessian = true` adds to every `hessian[i][j]` the value
`e * (-d2 * (x . C g_i) * (x . C (g_j + h_ij)) + g_j . C g_i)`. -/
theorem updateDerivatives_hessian_entry (exp : K → K) (d1 d2 : K) (pg : Mat36 K)
    (ph : Mat186 K) (g : Vec6 K) (H : Mat66 K) (x : Vec3 K) (c : Mat33 K)
    (hguard : ¬ (d2 * exp (-d2 * xCx x c / 2) > 1 ∨ d2 * exp (-d2 * xCx x c / 2) < 0 ∨
      d2 * exp (-d2 * xCx x c / 2) ≠ d2 * exp (-d2 * xCx x c / 2))) (i j : Fin 6) :
    (updateDerivatives exp d1 d2 pg ph g H x c true).2.2.data i j =
      H.data i j + d2 * exp (-d2 * xCx x c / 2) * d1 *
        (-d2 * dot_product x (matVec3 c (fun col => pg.data col i)) *
          dot_product x (matVec3 c (fun r => pg.data r j + ph.data (hessianRow i r) j)) +
          dot_product (fun r => pg.data r j) (matVec3 c (fun col => pg.data col i))) := by
  unfold updateDerivatives
  simp only
  rw [if_neg hguard]
  simp only
  rw [derivativesRows_fold _ _ _ _ _ _ _ (List.nodup_finRange 6)]
  simp

/-- The same for `updateHessian`. -/
theorem updateHessian_entry (exp : K → K) (d1 d2 : K) (pg : Mat36 K)
    (ph : Mat186 K) (H : Mat66 K) (x : Vec3 K) (c : Mat33 K)
    (hguard : ¬ (d2 * exp (-d2 * xCx x c / 2) > 1 ∨ d2 * exp (-d2 * xCx x c / 2) < 0 ∨
      d2 * exp (-d2 * xCx x c / 2) ≠ d2 * exp (-d2 * xCx x c / 2))) (i j : Fin 6) :
    (updateHessian exp d1 d2 pg ph H x c).data i j =
      H.data i j + d2 * exp (-d2 * xCx x c / 2) * d1 *
        (-d2 * dot_product x (matVec3 c (fun col => pg.data col i)) *
          dot_product x (matVec3 c (fun r => pg.data r j + ph.data (hessianRow i r) j)) +
          dot_product (fun r => pg.data r j) (matVec3 c (fun col => pg.data col i))) := by
  have key : ∀ (l : List (Fin 6)), l.Nodup → ∀ (H0 : Mat66 K) (a b : Fin 6),
      (l.foldl (fun hessian i =>
        (List.finRange 6).foldl
          (updateHessianEntry d2 pg ph x c (d2 * exp (-d2 * xCx x c / 2) * d1)
            (matVec3 c (fun col => pg.data col i)) i) hessian) H0).data a b =
      if a ∈ l then
        H0.data a b + d2 * exp (-d2 * xCx x c / 2) * d1 *
          (-d2 * dot_product x (matVec3 c (fun col => pg.data col a)) *
            dot_product x (matVec3 c (fun r => pg.data r b + ph.data (hessianRow a r) b)) +
            dot_product (fun r => pg.data r b) (matVec3 c (fun col => pg.data col a)))
      else H0.data a b := by
    intro l hl
    induction l with
    | nil => simp
    | cons i l ih =>
      intro H0 a b
      obtain ⟨hi, hl⟩ := List.nodup_cons.1 hl
      rw [List.foldl_cons, ih hl]
      rw [hessianEntries_fold _ _ _ _ _ _ _ _ _ (List.nodup_finRange 6)]
      by_cases ha : a = i
      · subst ha
        simp [hi]
      · by_cases hm : a ∈ l
        · simp [ha, hm]
        · simp [ha, hm]
  unfold updateHessian
  simp only
  rw [if_neg hguard]
  rw [key _ (List.nodup_finRange 6)]
  simp

end HessianLemmas

/-- C29 (the statement under "Update hessian, Equation 6.13" is not Equation 6.13): for
`gauss_d1_ = gauss_d2_ = 1`, `x_trans = (0,1,0)`, `c_inv` the identity, a
`point_gradient_` whose column 3 is `(0,1,0)` and a `point_hessian_` whose block at rows
9..11, column 3 is `(0,1,0)`, the contribution passes the guard
(`e_x_cov_x = exp(-1/2)`), and `updateDerivatives` as well as `updateHessian` add
`-exp(-1/2)` to `hessian[3][3]`, where Equation 6.13 gives `+exp(-1/2)`: the code adds the
block `h_ij` to `g_j` before the product with `-d2 * (x^T C g_i)`, so the term
`x^T C h_ij` is multiplied by `-d2 * (x^T C g_i)` instead of being added. -/
theorem updateDerivatives_hessian_not_equation_6_13 :
    (updateDerivatives Real.exp 1 1 gradientExample hessianExample (fun _ => 0)
      ⟨fun _ _ => 0⟩ ![0, 1, 0] Mat33.one true).2.2.data 3 3 = -Real.exp (-(1 / 2)) ∧
    (updateHessian Real.exp 1 1 gradientExample hessianExample ⟨fun _ _ => 0⟩ ![0, 1, 0]
      Mat33.one).data 3 3 = -Real.exp (-(1 / 2)) ∧
    specHessianIncrement Real.exp 1 1 gradientExample hessianExample ![0, 1, 0] Mat33.one 3 3 =
      Real.exp (-(1 / 2)) ∧
    -Real.exp (-(1 / 2)) ≠ Real.exp (-(1 / 2)) := by
  have hx : xCx (![0, 1, 0] : Vec3 ℝ) Mat33.one = 1 := by
    simp [xCx, Mat33.one]
  have hguard : ¬ ((1 : ℝ) * Real.exp (-1 * xCx (![0, 1, 0] : Vec3 ℝ) Mat33.one / 2) > 1 ∨
      (1 : ℝ) * Real.exp (-1 * xCx (![0, 1, 0] : Vec3 ℝ) Mat33.one / 2) < 0 ∨
      (1 : ℝ) * Real.exp (-1 * xCx (![0, 1, 0] : Vec3 ℝ) Mat33.one / 2) ≠
        (1 : ℝ) * Real.exp (-1 * xCx (![0, 1, 0] : Vec3 ℝ) Mat33.one / 2)) := by
    rw [hx]
    have h1 : Real.exp (-1 * 1 / 2) ≤ 1 := Real.exp_le_one_iff.2 (by norm_num)
    have h2 : 0 < Real.exp (-1 * 1 / 2) := Real.exp_pos _
    simp only [one_mul, gt_iff_lt, ne_eq, not_true_eq_false, or_false, not_or, not_lt]
    exact ⟨h1, le_of_lt h2⟩
  have he : (-1 * 1 / 2 : ℝ) = -(1 / 2) := by norm_num
  have r0 : hessianRow 3 0 = 9 := by decide
  have r1 : hessianRow 3 1 = 10 := by decide
  have r2 : hessianRow 3 2 = 11 := by decide
  have v3 : ((3 : Fin 6) : ℕ) = 3 := rfl
  refine ⟨?_, ?_, ?_, ?_⟩
  · rw [updateDerivatives_hessian_entry _ _ _ _ _ _ _ _ _ hguard, hx, he]
    simp [dot_product, matVec3_apply, gradientExample, hessianExample, Mat33.one, r0, r1, r2,
      v3]
  · rw [updateHessian_entry _ _ _ _ _ _ _ _ hguard, hx, he]
    simp [dot_product, matVec3_apply, gradientExample, hessianExample, Mat33.one, r0, r1, r2,
      v3]
  · simp [specHessianIncrement, dot_product, matVec3_apply, gradientExample, hessianExample,
      Mat33.one, r0, r1, r2, v3]
    norm_num
  · have h2 : 0 < Real.exp (-(1 / 2)) := Real.exp_pos _
    intro h
    linarith

/-! ## Lemmas on the output comparison -/

section ComparatorLemmas

variable {K : Type} [LinearOrderedField K]

theorem foldl_max_ge_init (l : List K) (m : K) : m ≤ l.foldl max m := by
  induction l generalizing m with
  | nil => simp
  | cons d l ih => exact le_trans (le_max_left m d) (ih (max m d))

theorem foldl_max_ge_mem (l : List K) (m : K) : ∀ d ∈ l, d ≤ l.foldl max m := by
  induction l generalizing m with
  | nil => simp
  | cons d l ih =>
    intro d' hd'
    rcases List.mem_cons.1 hd' with h | h
    · rw [h]
      exact le_trans (le_max_right m d) (foldl_max_ge_init l (max m d))
    · exact ih (max m d) d' h

theorem foldl_max_mem_or_init (l : List K) (m : K) : l.foldl max m = m ∨ l.foldl max m ∈ l := by
  induction l generalizing m with
  | nil => simp
  | cons d l ih =>
    rcases ih (max m d) with h | h
    · rcases max_choice m d with h' | h'
      · left
        rw [List.foldl_cons, h, h']
      · right
        rw [List.foldl_cons, h, h']
        exact List.mem_cons_self _ _
    · right
      exact List.mem_cons_of_mem _ h

theorem checkEntry_eq_max (reference result : Matrix4f K) (m : K) (hw : Fin 4 × Fin 4) :
    checkEntry reference result m hw = max m |reference.data hw.1 hw.2 - result.data hw.1 hw.2| := by
  unfold checkEntry
  split_ifs with h
  · exact (max_eq_right (le_of_lt h)).symm
  · exact (max_eq_left (not_lt.1 h)).symm

theorem checkEntries_fold (reference result : Matrix4f K) (l : List (Fin 4 × Fin 4)) (m : K) :
    l.foldl (checkEntry reference result) m =
      (l.map (fun hw => |reference.data hw.1 hw.2 - result.data hw.1 hw.2|)).foldl max m := by
  induction l generalizing m with
  | nil => rfl
  | cons hw l ih => simp only [List.foldl_cons, List.map_cons, checkEntry_eq_max, ih]

/-- The state after `check_next_outputs`: `max_delta` is the running maximum over the
absolute differences of all entries of all cases, `error_so_far` is set when it was set or
some case has differing `converged` flags. -/
theorem check_next_outputs_spec (cases : List (CallbackResult K × CallbackResult K))
    (s : CheckState K) :
    (check_next_outputs s cases).max_delta = (allDeltas cases).foldl max s.max_delta ∧
    ((check_next_outputs s cases).error_so_far = true ↔
      s.error_so_far = true ∨ ∃ c ∈ cases, c.2.converged ≠ c.1.converged) := by
  induction cases generalizing s with
  | nil => simp [check_next_outputs, allDeltas]
  | cons c cases ih =>
    have h := ih (checkCase s c)
    unfold check_next_outputs at h ⊢
    rw [List.foldl_cons]
    refine ⟨?_, ?_⟩
    · rw [h.1]
      simp only [checkCase, checkEntries_fold, allDeltas, List.flatMap_cons, List.foldl_append]
    · rw [h.2]
      simp only [checkCase, List.mem_cons, exists_eq_or_imp]
      by_cases hc : c.2.converged = c.1.converged
      · simp [hc]
      · simp [hc]

theorem check_batches_fold (batches : List (List (CallbackResult K × CallbackResult K)))
    (s : CheckState K) :
    batches.foldl check_next_outputs s = check_next_outputs s batches.flatten := by
  induction batches generalizing s with
  | nil => rfl
  | cons b batches ih =>
    rw [List.foldl_cons, ih]
    simp [check_next_outputs, List.foldl_append]

theorem allDeltas_nonneg (cases : List (CallbackResult K × CallbackResult K)) :
    ∀ d ∈ allDeltas cases, 0 ≤ d := by
  intro d hd
  simp only [allDeltas, List.mem_flatMap, List.mem_map] at hd
  obtain ⟨c, _, hw, _, rfl⟩ := hd
  exact abs_nonneg _

end ComparatorLemmas

section ComparatorClaims

variable {K : Type} [LinearOrderedField K]

/-- C27: after `init()` and any sequence of calls of `check_next_outputs` (one per batch
of test cases), `max_delta` is the maximum of `|reference - result|` over the 16 entries
of all cases (an upper bound of all of them that is one of them, and 0 when there is no
case), and `check_output` returns true exactly when `max_delta <= 2.0` and the `converged`
flag of every result equals that of its reference. -/
theorem check_output_spec (batches : List (List (CallbackResult K × CallbackResult K))) :
    (∀ d ∈ allDeltas batches.flatten,
      d ≤ (batches.foldl check_next_outputs checkInit).max_delta) ∧
    (allDeltas batches.flatten = [] →
      (batches.foldl check_next_outputs checkInit).max_delta = 0) ∧
    (allDeltas batches.flatten ≠ [] →
      (batches.foldl check_next_outputs checkInit).max_delta ∈ allDeltas batches.flatten) ∧
    (check_output (batches.foldl check_next_outputs checkInit) = true ↔
      (batches.foldl check_next_outputs checkInit).max_delta ≤ 2 ∧
        ∀ c ∈ batches.flatten, c.2.converged = c.1.converged) := by
  obtain ⟨hm, he⟩ := check_next_outputs_spec batches.flatten (checkInit : CheckState K)
  rw [check_batches_fold]
  have hub := foldl_max_ge_mem (allDeltas batches.flatten) (checkInit : CheckState K).max_delta
  rw [← hm] at hub
  refine ⟨hub, ?_, ?_, ?_⟩
  · intro h
    rw [hm, h]
    rfl
  · intro h
    rcases foldl_max_mem_or_init (allDeltas batches.flatten)
      (checkInit : CheckState K).max_delta with h0 | h0
    · obtain ⟨d, hd⟩ := List.exists_mem_of_ne_nil _ h
      have h1 := hub d hd
      have h2 := allDeltas_nonneg _ d hd
      rw [hm, h0] at h1
      have hz : d = 0 := le_antisymm h1 h2
      rw [hm, h0]
      rw [hz] at hd
      exact hd
    · rw [hm]
      exact h0
  · have he' : (check_next_outputs checkInit batches.flatten).error_so_far = true ↔
        ∃ c ∈ batches.flatten, c.2.converged ≠ c.1.converged := by
      rw [he]
      simp [checkInit]
    unfold check_output
    by_cases hd : (check_next_outputs checkInit batches.flatten).max_delta > MAX_EPS_OpenCl
    · have hd' : ¬ (check_next_outputs checkInit batches.flatten).max_delta ≤ 2 := by
        simpa [MAX_EPS_OpenCl] using hd
      simp [hd, hd']
    · have hd' : (check_next_outputs checkInit batches.flatten).max_delta ≤ 2 := by
        simpa [MAX_EPS_OpenCl] using hd
      by_cases hE : (check_next_outputs checkInit batches.flatten).error_so_far = true
      · have := he'.1 hE
        obtain ⟨c, hc, hne⟩ := this
        simp only [hd, hE, or_true, if_true, hd', true_and]
        constructor
        · intro h
          cases h
        · intro h
          exact absurd (h c hc) hne
      · have hall : ∀ c ∈ batches.flatten, c.2.converged = c.1.converged := by
          intro c hc
          by_contra hne
          exact hE (he'.2 ⟨c, hc, hne⟩)
        have hno : ¬ ((check_next_outputs checkInit batches.flatten).max_delta >
            MAX_EPS_OpenCl ∨
            (check_next_outputs checkInit batches.flatten).error_so_far = true) := by
          intro h
          rcases h with h | h
          · exact hd h
          · exact hE h
        rw [if_neg hno]
        exact ⟨fun _ => ⟨hd', hall⟩, fun _ => rfl⟩

end ComparatorClaims

/-! ## Claims on the driver -/

section PoseClaims

variable {K : Type} [LinearOrderedField K]

/-- C24: the pose vector `p` with which `computeTransformation` enters its loop has
`p[0..2]` read at the flat row-major offsets 4, 8 and 12 of the guess, that is
`(guess[1][0], guess[2][0], guess[3][0])`; for a guess with bottom row `(0,0,0,1)`,
`p[2] = 0`; and `p` does not change when the translation column `guess[0][3]`,
`guess[1][3]`, `guess[2][3]` is replaced by any other values. -/
theorem computeTransformation_pose_seed (lib : DriverLib K) (env : LineSearchEnv K (Members K))
    (output : List (PointXYZI K)) (guess : Matrix4f K) (st : NdtState K) :
    ((computeTransformation_init lib env output guess st).p 0 = guess.flat 4 ∧
      (computeTransformation_init lib env output guess st).p 1 = guess.flat 8 ∧
      (computeTransformation_init lib env output guess st).p 2 = guess.flat 12) ∧
    (guess.flat 4 = guess.data 1 0 ∧ guess.flat 8 = guess.data 2 0 ∧
      guess.flat 12 = guess.data 3 0) ∧
    ((guess.data 3 0 = 0 ∧ guess.data 3 1 = 0 ∧ guess.data 3 2 = 0 ∧ guess.data 3 3 = 1) →
      (computeTransformation_init lib env output guess st).p 2 = 0) ∧
    (∀ a b c : K,
      (computeTransformation_init lib env output (((guess.set 0 3 a).set 1 3 b).set 2 3 c)
        st).p = (computeTransformation_init lib env output guess st).p) := by
  have hp : ∀ g : Matrix4f K, (computeTransformation_init lib env output g st).p =
      initialPose lib.atan2 env.sqrt env.sin env.cos g := fun _ => rfl
  have hflat : guess.flat 4 = guess.data 1 0 ∧ guess.flat 8 = guess.data 2 0 ∧
      guess.flat 12 = guess.data 3 0 := ⟨rfl, rfl, rfl⟩
  refine ⟨⟨?_, ?_, ?_⟩, hflat, ?_, ?_⟩
  · rw [hp]
    rfl
  · rw [hp]
    rfl
  · rw [hp]
    rfl
  · intro h
    rw [hp]
    show guess.flat 12 = 0
    rw [hflat.2.2]
    exact h.1
  · intro a b c
    rw [hp, hp]
    funext i
    fin_cases i <;>
      simp [initialPose, eulerAngles, Matrix4f.pastRowEnd, Matrix4f.flat, Matrix4f.set]

end PoseClaims

/-! ## Lemmas on the loop of `computeTransformation` -/

section DriverLoopLemmas

variable {K : Type} [LinearOrderedField K] {σ : Type}

theorem solve_OpenCl_atomic_returns (result : Vec6 K) (A : Mat66 K) (b : Vec6 K) :
    ∃ x, solve_OpenCl_atomic result A b = some x :=
  solve_returns_of_ne_zero _ (by simp [MAX_TRANSLATION_EPS]) result A b

theorem solve_OpenCl_returns (result : Vec6 K) (A : Mat66 K) (b : Vec6 K) :
    ∃ x, solve_OpenCl result A b = some x :=
  solve_returns_of_ne_zero _ (by simp [MAX_EPS_OpenCl]) result A b

theorem convergenceTest_iff (nr_iterations_ max_iterations_ : ℤ) (delta_p_norm : K) :
    convergenceTest nr_iterations_ max_iterations_ delta_p_norm = true ↔
      nr_iterations_ > max_iterations_ ∨
        (nr_iterations_ ≠ 0 ∧ |delta_p_norm| < transformation_epsilon_) := by
  simp [convergenceTest]

/-- One pass of the loop body: since `delta_p_norm` has been set to 1, the `return` is not
taken; the counter is incremented, and `converged_` is set when the test holds for the
counter before the increment and the step returned by the line search. -/
theorem computeTransformation_iteration_spec (sqrt cos sin : K → K)
    (solve : Vec6 K → Mat66 K → Vec6 K → Option (Vec6 K))
    (lineSearch : Vec6 K → K → K → K → LineSearchState K σ → K × LineSearchState K σ)
    (recordIntermediate : Bool) (max_iterations_ : ℤ) (st : TransformationLoop K σ)
    (dp : Vec6 K)
    (hdp : solve st.s.step_dir st.s.hessian (fun i => -st.s.score_gradient i) = some dp) :
    ∃ r, computeTransformation_iteration sqrt cos sin solve lineSearch recordIntermediate
        max_iterations_ st = some (r, false) ∧
      r.nr_iterations_ = st.nr_iterations_ + 1 ∧
      r.converged_ =
        (convergenceTest st.nr_iterations_ max_iterations_
          (lineSearch st.p 1 step_size_ (transformation_epsilon_ / 2)
            { st.s with step_dir := fun i => dp i / 1 }).1 || st.converged_) ∧
      r.s =
        { (lineSearch st.p 1 step_size_ (transformation_epsilon_ / 2)
            { st.s with step_dir := fun i => dp i / 1 }).2 with
          step_dir := fun i =>
            (lineSearch st.p 1 step_size_ (transformation_epsilon_ / 2)
              { st.s with step_dir := fun i => dp i / 1 }).2.step_dir i *
            (lineSearch st.p 1 step_size_ (transformation_epsilon_ / 2)
              { st.s with step_dir := fun i => dp i / 1 }).1 } := by
  simp only [computeTransformation_iteration, hdp, Option.map_some', one_ne_zero, ne_eq,
    not_true_eq_false, or_self, if_false]
  refine ⟨_, rfl, rfl, ?_, rfl⟩
  simp only
  cases convergenceTest st.nr_iterations_ max_iterations_
    (lineSearch st.p 1 step_size_ (transformation_epsilon_ / 2)
      { st.s with step_dir := fun i => dp i / 1 }).1 <;> simp

/-- The loop of the OpenCl-atomic variant (`max_iterations_ = 30`) ends: from a state
whose counter is between 0 and 32 (at most 31 while `converged_` is false), with fuel for
the passes still possible, it returns a state with `converged_` set and a counter of at
most 32. -/
theorem computeTransformation_loop_atomic (sqrt cos sin : K → K)
    (lineSearch : Vec6 K → K → K → K → LineSearchState K σ → K × LineSearchState K σ)
    (fuel : ℕ) (st : TransformationLoop K σ) (h0 : 0 ≤ st.nr_iterations_)
    (h32 : st.nr_iterations_ ≤ 32) (h31 : st.converged_ = false → st.nr_iterations_ ≤ 31)
    (hfuel : 32 ≤ (fuel : ℤ) + st.nr_iterations_) :
    ∃ r, computeTransformation_loop sqrt cos sin solve_OpenCl_atomic lineSearch true
        max_iterations_OpenCl_atomic fuel st = some r ∧
      r.converged_ = true ∧ r.nr_iterations_ ≤ 32 := by
  induction fuel generalizing st with
  | zero =>
    cases hc : st.converged_ with
    | true => exact ⟨st, by simp [computeTransformation_loop, hc], hc, h32⟩
    | false =>
      have := h31 hc
      simp at hfuel
      omega
  | succ fuel ih =>
    cases hc : st.converged_ with
    | true => exact ⟨st, by simp [computeTransformation_loop, hc], hc, h32⟩
    | false =>
      have h31' := h31 hc
      obtain ⟨dp, hdp⟩ := solve_OpenCl_atomic_returns st.s.step_dir st.s.hessian
        (fun i => -st.s.score_gradient i)
      obtain ⟨r, hr, hn, hcv, _⟩ := computeTransformation_iteration_spec sqrt cos sin
        solve_OpenCl_atomic lineSearch true max_iterations_OpenCl_atomic st dp hdp
      have hnext : r.converged_ = false → r.nr_iterations_ ≤ 31 := by
        intro hrc
        rw [hcv, hc, Bool.or_false] at hrc
        have hnot : ¬ (st.nr_iterations_ > max_iterations_OpenCl_atomic) := by
          intro hgt
          rw [(@convergenceTest_iff K _ st.nr_iterations_ max_iterations_OpenCl_atomic _).2
            (Or.inl hgt)] at hrc
          cases hrc
        simp only [max_iterations_OpenCl_atomic, gt_iff_lt, not_lt] at hnot
        omega
      obtain ⟨r', hr', hc', hn'⟩ := ih r (by omega) (by omega) hnext
        (by push_cast at hfuel ⊢; omega)
      refine ⟨r', ?_, hc', hn'⟩
      simp only [computeTransformation_loop, hc, Bool.false_eq_true, if_false, hr,
        Option.some_bind]
      exact hr'

end DriverLoopLemmas

section DriverLoopClaims

variable {K : Type} [LinearOrderedField K] {σ : Type}

/-- C22: in the OpenCl-atomic variant (`max_iterations_ = 30`), whatever the line search
returns: every pass of the loop body entered with `converged_` false and a counter
`nr_iterations_ >= 0` increments the counter and leaves `converged_` set if and only if
`nr_iterations_ > 30` or (`nr_iterations_ > 0` and `|alpha| < transformation_epsilon_`),
for the counter before the increment and the step `alpha` returned by the line search;
and the loop entered with counter 0 ends after at most 32 passes (fuel 32 suffices) with
`converged_` set. -/
theorem computeTransformation_atomic_terminates (sqrt cos sin : K → K)
    (lineSearch : Vec6 K → K → K → K → LineSearchState K σ → K × LineSearchState K σ)
    (st : TransformationLoop K σ) (h0 : st.nr_iterations_ = 0) (fuel : ℕ) (hfuel : 32 ≤ fuel) :
    (∀ l : TransformationLoop K σ, l.converged_ = false → 0 ≤ l.nr_iterations_ →
      ∃ dp r,
        solve_OpenCl_atomic l.s.step_dir l.s.hessian (fun i => -l.s.score_gradient i) =
          some dp ∧
        computeTransformation_iteration sqrt cos sin solve_OpenCl_atomic lineSearch true
          max_iterations_OpenCl_atomic l = some (r, false) ∧
        r.nr_iterations_ = l.nr_iterations_ + 1 ∧
        (r.converged_ = true ↔
          l.nr_iterations_ > 30 ∨
            (l.nr_iterations_ > 0 ∧
              |(lineSearch l.p 1 step_size_ (transformation_epsilon_ / 2)
                { l.s with step_dir := fun i => dp i / 1 }).1| < 1 / 10))) ∧
    ∃ r, computeTransformation_loop sqrt cos sin solve_OpenCl_atomic lineSearch true
        max_iterations_OpenCl_atomic fuel st = some r ∧
      r.converged_ = true ∧ r.nr_iterations_ ≤ 32 := by
  refine ⟨?_, ?_⟩
  · intro l hl hn
    obtain ⟨dp, hdp⟩ := solve_OpenCl_atomic_returns l.s.step_dir l.s.hessian
      (fun i => -l.s.score_gradient i)
    obtain ⟨r, hr, hn', hcv, _⟩ := computeTransformation_iteration_spec sqrt cos sin
      solve_OpenCl_atomic lineSearch true max_iterations_OpenCl_atomic l dp hdp
    refine ⟨dp, r, hdp, hr, hn', ?_⟩
    rw [hcv, hl, Bool.or_false, convergenceTest_iff]
    simp only [max_iterations_OpenCl_atomic, transformation_epsilon_]
    constructor
    · rintro (h | ⟨h1, h2⟩)
      · exact Or.inl h
      · exact Or.inr ⟨lt_of_le_of_ne hn (Ne.symm h1), h2⟩
    · rintro (h | ⟨h1, h2⟩)
      · exact Or.inl h
      · exact Or.inr ⟨ne_of_gt h1, h2⟩
  · exact computeTransformation_loop_atomic sqrt cos sin lineSearch fuel st (by omega)
      (by omega) (fun _ => by omega) (by rw [h0]; exact_mod_cast (by omega : 32 ≤ fuel + 0))

end DriverLoopClaims

/-! ## Lemmas on a registration that starts at a stationary pose -/

section ZeroGradientLemmas

variable {K : Type} [LinearOrderedField K] {σ : Type}

theorem computeStepLengthMT_zero_gradient (env : LineSearchEnv K σ) (x : Vec6 K)
    (step_init step_max step_min : K) (s : LineSearchState K σ)
    (h : s.score_gradient = fun _ => 0) :
    computeStepLengthMT env x step_init step_max step_min s = (0, s) := by
  have hd : -(dot_product6 s.score_gradient s.step_dir) = 0 := by
    rw [h]
    simp [dot_product6]
  unfold computeStepLengthMT
  simp only [hd, ge_iff_le, le_refl, if_true]

/-- A pass of the loop body of `computeTransformation` (OpenCl variant) entered with a zero
`score_gradient`: the line search returns 0 at once, so `score`, `score_gradient`,
`final_transformation_` and the members read by the callees stay as they are. -/
theorem computeTransformation_iteration_zero_gradient (env : LineSearchEnv K σ)
    (max_iterations_ : ℤ) (st : TransformationLoop K σ)
    (h : st.s.score_gradient = fun _ => 0) :
    ∃ r, computeTransformation_iteration env.sqrt env.cos env.sin solve_OpenCl
        (computeStepLengthMT env) false max_iterations_ st = some (r, false) ∧
      r.nr_iterations_ = st.nr_iterations_ + 1 ∧
      r.converged_ = (convergenceTest st.nr_iterations_ max_iterations_ (0 : K) ||
        st.converged_) ∧
      r.s.score_gradient = (fun _ => 0) ∧
      r.s.score = st.s.score ∧
      r.s.final_transformation_ = st.s.final_transformation_ ∧
      r.s.members = st.s.members := by
  obtain ⟨dp, hdp⟩ := solve_OpenCl_returns st.s.step_dir st.s.hessian
    (fun i => -st.s.score_gradient i)
  obtain ⟨r, hr, hn, hcv, hs⟩ := computeTransformation_iteration_spec env.sqrt env.cos env.sin
    solve_OpenCl (computeStepLengthMT env) false max_iterations_ st dp hdp
  have hz := computeStepLengthMT_zero_gradient env st.p 1 step_size_
    (transformation_epsilon_ / 2) { st.s with step_dir := fun i => dp i / 1 } h
  rw [hz] at hcv hs
  refine ⟨r, hr, hn, hcv, ?_, ?_, ?_, ?_⟩
  · rw [hs]
    exact h
  · rw [hs]
  · rw [hs]
  · rw [hs]

/-- The loop of `computeTransformation` (OpenCl variant) entered at pass 0 with a zero
`score_gradient` ends after at most two passes, with `converged_` set and
`final_transformation_` untouched. -/
theorem computeTransformation_loop_zero_gradient (env : LineSearchEnv K σ)
    (max_iterations_ : ℤ) (fuel : ℕ) (hfuel : 2 ≤ fuel) (st : TransformationLoop K σ)
    (h : st.s.score_gradient = fun _ => 0) (hn : st.nr_iterations_ = 0)
    (hc : st.converged_ = false) :
    ∃ r, computeTransformation_loop env.sqrt env.cos env.sin solve_OpenCl
        (computeStepLengthMT env) false max_iterations_ fuel st = some r ∧
      r.converged_ = true ∧
      r.s.score = st.s.score ∧
      r.s.final_transformation_ = st.s.final_transformation_ ∧
      r.s.members = st.s.members := by
  obtain ⟨fuel1, rfl⟩ : ∃ k, fuel = k + 1 := ⟨fuel - 1, by omega⟩
  obtain ⟨fuel2, rfl⟩ : ∃ k, fuel1 = k + 1 := ⟨fuel1 - 1, by omega⟩
  obtain ⟨r1, hr1, hn1, hc1, hg1, hs1, hf1, hm1⟩ :=
    computeTransformation_iteration_zero_gradient env max_iterations_ st h
  have hloop1 : computeTransformation_loop env.sqrt env.cos env.sin solve_OpenCl
      (computeStepLengthMT env) false max_iterations_ (fuel2 + 1 + 1) st =
      computeTransformation_loop env.sqrt env.cos env.sin solve_OpenCl
        (computeStepLengthMT env) false max_iterations_ (fuel2 + 1) r1 := by
    rw [computeTransformation_loop]
    simp only [hc, Bool.false_eq_true, if_false, hr1, Option.some_bind]
  rw [hloop1]
  cases hcv1 : r1.converged_ with
  | true =>
    refine ⟨r1, ?_, hcv1, hs1, hf1, hm1⟩
    rw [computeTransformation_loop]
    simp only [hcv1, if_true]
  | false =>
    obtain ⟨r2, hr2, hn2, hc2, _, hs2, hf2, hm2⟩ :=
      computeTransformation_iteration_zero_gradient env max_iterations_ r1 hg1
    have htest : convergenceTest r1.nr_iterations_ max_iterations_ (0 : K) = true := by
      rw [convergenceTest_iff]
      right
      refine ⟨by rw [hn1, hn]; norm_num, ?_⟩
      simp [transformation_epsilon_]
    rw [htest, Bool.true_or] at hc2
    refine ⟨r2, ?_, hc2, by rw [hs2, hs1], by rw [hf2, hf1], by rw [hm2, hm1]⟩
    rw [computeTransformation_loop]
    simp only [hcv1, Bool.false_eq_true, if_false, hr2, Option.some_bind]
    cases fuel2 with
    | zero => simp [computeTransformation_loop, hc2]
    | succ k => simp [computeTransformation_loop, hc2]

end ZeroGradientLemmas

section RegistrationLemmas

variable {K : Type} [LinearOrderedField K] [FloorRing K]

/-- A registration whose first evaluation of the derivatives gives a zero gradient: the
call returns with `converged_` set, `final_transformation_` equal to the guess, and
`trans_probability_` the quotient of the first score by the number of source points. -/
theorem partial_points_callback_stationary (lib : DriverLib K)
    (mkEnv : List (PointXYZI K) → LineSearchEnv K (Members K)) (fuel : ℕ) (hfuel : 2 ≤ fuel)
    (st : NdtState K) (input_cloud : List (PointXYZI K)) (init_guess : Matrix4f K)
    (target_cloud : List (PointXYZI K)) (g : BuiltGrid K)
    (hg : initCompute_OpenCl resolution_ target_cloud = some g)
    (hgrad : (computeTransformation_init lib { mkEnv input_cloud with input_ := input_cloud }
      (copyForAlign input_cloud) init_guess
      (resetForAlign (enterCallback st input_cloud target_cloud) g)).s.score_gradient =
        fun _ => 0)
    (hdef : (computeTransformation_init lib { mkEnv input_cloud with input_ := input_cloud }
      (copyForAlign input_cloud) init_guess
      (resetForAlign (enterCallback st input_cloud target_cloud) g)).s.members.undefinedRead =
        false) :
    ∃ r st', partial_points_callback lib mkEnv fuel st input_cloud init_guess target_cloud =
        some (r, st') ∧
      r.converged = true ∧ r.final_transformation = init_guess ∧ r.fitness_score = none ∧
      st'.converged_ = true ∧ st'.final_transformation_ = init_guess ∧
      st'.trans_probability_ = scoreOverSize
        (computeTransformation_init lib { mkEnv input_cloud with input_ := input_cloud }
          (copyForAlign input_cloud) init_guess
          (resetForAlign (enterCallback st input_cloud target_cloud) g)).s.score input_cloud ∧
      st'.max_iterations_ = st.max_iterations_ := by
  obtain ⟨l, hl, hc, hs, hf, hm⟩ := computeTransformation_loop_zero_gradient
    { mkEnv input_cloud with input_ := input_cloud }
    (resetForAlign (enterCallback st input_cloud target_cloud) g).max_iterations_ fuel hfuel
    (computeTransformation_init lib { mkEnv input_cloud with input_ := input_cloud }
      (copyForAlign input_cloud) init_guess
      (resetForAlign (enterCallback st input_cloud target_cloud) g)) hgrad rfl rfl
  have hu : l.s.members.undefinedRead = false := by rw [hm, hdef]
  have hfin : l.s.final_transformation_ = init_guess := by
    rw [hf]
    rfl
  have hal : ndt_align lib { mkEnv input_cloud with input_ := input_cloud } fuel init_guess
      (enterCallback st input_cloud target_cloud) =
      some { resetForAlign (enterCallback st input_cloud target_cloud) g with
        final_transformation_ := l.s.final_transformation_
        transformation_ := l.transformation_
        previous_transformation_ := l.previous_transformation_
        converged_ := l.converged_
        nr_iterations_ := l.nr_iterations_
        trans_probability_ := scoreOverSize l.s.score input_cloud
        members := l.s.members } := by
    have ht : (enterCallback st input_cloud target_cloud).target_ = target_cloud := rfl
    have hi : (enterCallback st input_cloud target_cloud).input_ = input_cloud := rfl
    simp only [ndt_align, ht, hi, hg, Option.some_bind, computeTransformation]
    rw [hl]
    rfl
  have hppc : partial_points_callback lib mkEnv fuel st input_cloud init_guess target_cloud =
      some ({ final_transformation := l.s.final_transformation_
              converged := l.converged_
              intermediate_transformations := none
              fitness_score := none },
        { resetForAlign (enterCallback st input_cloud target_cloud) g with
          final_transformation_ := l.s.final_transformation_
          transformation_ := l.transformation_
          previous_transformation_ := l.previous_transformation_
          converged_ := l.converged_
          nr_iterations_ := l.nr_iterations_
          trans_probability_ := scoreOverSize l.s.score input_cloud
          members := l.s.members }) := by
    simp only [partial_points_callback, hal, Option.some_bind, hu, Bool.false_eq_true, if_false]
  exact ⟨_, _, hppc, hc, hfin, rfl, hc, hfin, by simp only [hs], rfl⟩

end RegistrationLemmas

/-! ## Lemmas on `computeDerivatives` for source points without neighbouring cells -/

section NoNeighbourLemmas

variable {K : Type} [LinearOrderedField K] [FloorRing K]

/-- A query point whose search box lies beyond `maxVoxel` on the x axis has no neighbour:
every candidate position is skipped, and the search (radius `resolution_`, fuel for three
passes per loop) returns the empty result. -/
theorem voxelRadiusSearch_beyond (res : K) (hres : 0 < res) (g : GridBounds K) (size : ℤ)
    (grid : ℤ → BuiltVoxel K) (point : PointXYZI K) (fuel : ℕ) (hfuel : 3 ≤ fuel)
    (hfar : point.data 0 - res > g.maxVoxel.data 0) :
    voxelRadiusSearch fuel res g size grid point res = some { result := 0, indices := [] } := by
  have hcs := radiusSearchCandidates_radius_eq_step res hres point fuel hfuel
  have hout : ∀ c ∈ List.product
      [point.data 0 - res, point.data 0 - res + res, point.data 0 - res + res + res]
      (List.product
        [point.data 1 - res, point.data 1 - res + res, point.data 1 - res + res + res]
        [point.data 2 - res, point.data 2 - res + res, point.data 2 - res + res + res]),
      outsideGrid g c := by
    intro c hc
    obtain ⟨x, y, z⟩ := c
    obtain ⟨hx, _⟩ := List.mem_product.1 hc
    have hge : point.data 0 - res ≤ x := by
      simp only [List.mem_cons, List.mem_singleton, List.not_mem_nil, or_false] at hx
      rcases hx with e | e | e <;> rw [e] <;> linarith
    right
    left
    exact lt_of_lt_of_le hfar hge
  obtain ⟨r, hr, hi, hn⟩ := radiusSearch_fold res g size grid point res _
    (fun c hc hno => absurd (hout c hc) hno) { result := 0, indices := [] }
  have hfilter : (List.product
      [point.data 0 - res, point.data 0 - res + res, point.data 0 - res + res + res]
      (List.product
        [point.data 1 - res, point.data 1 - res + res, point.data 1 - res + res + res]
        [point.data 2 - res, point.data 2 - res + res, point.data 2 - res + res + res])).filter
      (fun c => decide (¬ outsideGrid g c ∧
        withinRadius (grid (linearizeCoord g.minVoxel res g.voxelDimension
          c.1 c.2.1 c.2.2)).mean point res)) = [] := by
    rw [List.filter_eq_nil_iff]
    intro c hc
    simp only [decide_eq_true_eq, not_and]
    intro hno
    exact absurd (hout c hc) hno
  rw [hfilter] at hi
  simp only [List.map_nil, List.append_nil] at hi
  have hres0 : r.result = 0 := by
    rw [hn, hi]
    simp
  have hreq : r = { result := 0, indices := [] } := by
    cases r
    simp only at hi hres0
    rw [hi, hres0]
  simp only [voxelRadiusSearch, hcs, Option.some_bind]
  rw [hr, hreq]

/-- The loop over the source points of `computeDerivatives` leaves its state as it is when
no point has a neighbouring cell. -/
theorem derivativesPoints_beyond (exp : K → K) (fuel : ℕ) (hfuel : 3 ≤ fuel)
    (compute_hessian : Bool) (l : List (PointXYZI K × PointXYZI K))
    (acc : K × Vec6 K × Mat66 K × Members K)
    (hfar : ∀ pt ∈ l, pt.2.data 0 - resolution_ > acc.2.2.2.grid.bounds.maxVoxel.data 0) :
    l.foldl (derivativesPoint exp fuel compute_hessian) acc = acc := by
  induction l with
  | nil => rfl
  | cons pt l ih =>
    have h1 : derivativesPoint exp fuel compute_hessian acc pt = acc := by
      unfold derivativesPoint
      simp only
      rw [voxelRadiusSearch_beyond resolution_ (by simp [resolution_]) _ _ _ _ fuel hfuel
        (hfar pt (List.mem_cons_self _ _))]
      rfl
    rw [List.foldl_cons, h1]
    exact ih (fun pt' h' => hfar pt' (List.mem_cons_of_mem _ h'))

/-- `computeDerivatives` for a transformed cloud none of whose points has a neighbouring
cell: score 0, zero gradient, zero Hessian; the angular derivative members are
rewritten, `undefinedRead` keeps its value. -/
theorem computeDerivatives_beyond (cos sin exp : K → K) (fuel : ℕ) (hfuel : 3 ≤ fuel)
    (input_ : List (PointXYZI K)) (score_gradient : Vec6 K) (hessian : Mat66 K)
    (trans_cloud : List (PointXYZI K)) (p : Vec6 K) (compute_hessian : Bool) (m : Members K)
    (hfar : ∀ pt ∈ trans_cloud, pt.data 0 - resolution_ > m.grid.bounds.maxVoxel.data 0) :
    computeDerivatives cos sin exp fuel input_ score_gradient hessian trans_cloud p
        compute_hessian m =
      (0, fun _ => 0, ⟨fun _ _ => 0⟩,
        { m with ang := computeAngleDerivatives cos sin p true m.ang }) := by
  unfold computeDerivatives
  simp only
  rw [derivativesPoints_beyond exp fuel hfuel compute_hessian]
  intro pt hpt
  exact hfar pt.2 (List.of_mem_zip hpt).2

/-- For `resolution_ > 0` and a non-empty target, `initCompute` returns a grid whose
corners and dimensions are those of the grid-sizing part. -/
theorem initCompute_OpenCl_bounds (res : K) (hres : 0 < res) (target : List (PointXYZI K))
    (h : target ≠ []) :
    ∃ g, initCompute_OpenCl res target = some g ∧
      initCompute_grid_OpenCl res target = some g.bounds := by
  obtain ⟨s, hs, hsg, _⟩ := initCompute_firstPass_spec res hres target h
  refine ⟨{ bounds := s.1, size := s.2.1, cells := fun i => secondPassCell s.2.1 (s.2.2 i) },
    ?_, hsg⟩
  simp only [initCompute_OpenCl, hs, Option.map_some']

end NoNeighbourLemmas

section NoNeighbourRegistration

variable {K : Type} [LinearOrderedField K] [FloorRing K]

/-- The prelude of `computeTransformation` (callees as compiled in
`OpenCl/ndt_mapping/kernel.cpp`) when no source point, transformed by the guess, has a
neighbouring cell: score 0, zero gradient, no undefined read. -/
theorem computeTransformation_init_beyond (lib : DriverLib K) (cos sin sqrt : K → K)
    (fuel : ℕ) (hfuel : 3 ≤ fuel) (uninit : K) (st : NdtState K)
    (input_cloud : List (PointXYZI K)) (init_guess : Matrix4f K)
    (target_cloud : List (PointXYZI K)) (g : BuiltGrid K)
    (hfar : ∀ pt ∈ transformPointCloud uninit (copyForAlign input_cloud) init_guess,
      pt.data 0 - resolution_ > g.bounds.maxVoxel.data 0) :
    (computeTransformation_init lib
      { ndtEnv cos sin sqrt lib.exp fuel uninit input_cloud with input_ := input_cloud }
      (copyForAlign input_cloud) init_guess
      (resetForAlign (enterCallback st input_cloud target_cloud) g)).s.score_gradient =
        (fun _ => 0) ∧
    (computeTransformation_init lib
      { ndtEnv cos sin sqrt lib.exp fuel uninit input_cloud with input_ := input_cloud }
      (copyForAlign input_cloud) init_guess
      (resetForAlign (enterCallback st input_cloud target_cloud) g)).s.members.undefinedRead =
        false ∧
    (computeTransformation_init lib
      { ndtEnv cos sin sqrt lib.exp fuel uninit input_cloud with input_ := input_cloud }
      (copyForAlign input_cloud) init_guess
      (resetForAlign (enterCallback st input_cloud target_cloud) g)).s.score = 0 := by
  have hcd : ∀ (sg : Vec6 K) (h : Mat66 K) (p : Vec6 K) (m : Members K), m.grid = g →
      computeDerivatives cos sin lib.exp fuel input_cloud sg h
        (transformPointCloud uninit (copyForAlign input_cloud) init_guess) p true m =
      (0, fun _ => 0, ⟨fun _ _ => 0⟩,
        { m with ang := computeAngleDerivatives cos sin p true m.ang }) := by
    intro sg h p m hm
    exact computeDerivatives_beyond cos sin lib.exp fuel hfuel input_cloud sg h _ p true m
      (by rw [hm]; exact hfar)
  refine ⟨?_, ?_, ?_⟩
  · dsimp only [computeTransformation_init, ndtEnv]
    rw [hcd _ _ _ _ rfl]
  · dsimp only [computeTransformation_init, ndtEnv]
    rw [hcd _ _ _ _ rfl]
    rfl
  · dsimp only [computeTransformation_init, ndtEnv]
    rw [hcd _ _ _ _ rfl]

/-- A registration (callees as compiled in `OpenCl/ndt_mapping/kernel.cpp`) in which no
source point, transformed by the guess, has a neighbouring cell: the call returns with
`converged_` set, `final_transformation_` equal to the guess and `trans_probability_`
equal to `0 / input_->size()`.  An empty source cloud is a case of this. -/
theorem partial_points_callback_no_neighbour (lib : DriverLib K) (cos sin sqrt : K → K)
    (fuel : ℕ) (hfuel : 3 ≤ fuel) (uninit : K) (st : NdtState K)
    (input_cloud : List (PointXYZI K)) (init_guess : Matrix4f K)
    (target_cloud : List (PointXYZI K)) (g : BuiltGrid K)
    (hg : initCompute_OpenCl resolution_ target_cloud = some g)
    (hfar : ∀ pt ∈ transformPointCloud uninit (copyForAlign input_cloud) init_guess,
      pt.data 0 - resolution_ > g.bounds.maxVoxel.data 0) :
    ∃ r st', partial_points_callback lib (ndtEnv cos sin sqrt lib.exp fuel uninit) fuel st
        input_cloud init_guess target_cloud = some (r, st') ∧
      r.converged = true ∧ r.final_transformation = init_guess ∧ r.fitness_score = none ∧
      st'.converged_ = true ∧ st'.final_transformation_ = init_guess ∧
      st'.trans_probability_ = scoreOverSize 0 input_cloud ∧
      st'.max_iterations_ = st.max_iterations_ := by
  obtain ⟨hgrad, hdef, hscore⟩ := computeTransformation_init_beyond lib cos sin sqrt fuel
    hfuel uninit st input_cloud init_guess target_cloud g hfar
  obtain ⟨r, st', h, h1, h2, h3, h4, h5, h6, h7⟩ := partial_points_callback_stationary lib
    (ndtEnv cos sin sqrt lib.exp fuel uninit) fuel (by omega) st input_cloud init_guess
    target_cloud g hg hgrad hdef
  exact ⟨r, st', h, h1, h2, h3, h4, h5, by rw [h6, hscore], h7⟩

end NoNeighbourRegistration

section StaleAngles

variable {K : Type} [LinearOrderedField K]

/-- With `compute_hessian` set, `computeAngleDerivatives` assigns every one of the 8
`j_ang` and 15 `h_ang` vectors: the result does not depend on their prior contents. -/
theorem computeAngleDerivatives_stale (cos sin : K → K) (p : Vec6 K)
    (a a' : AngularDerivatives K) :
    computeAngleDerivatives cos sin p true a = computeAngleDerivatives cos sin p true a' := by
  simp [computeAngleDerivatives]

end StaleAngles

section StaleState

variable {K : Type} [LinearOrderedField K] [FloorRing K]

/-- The members after `partial_points_callback` and its result depend on the members
before the call through `max_iterations_` only: every other member of the model is
assigned before it is read. -/
theorem partial_points_callback_stale (lib : DriverLib K) (cos sin sqrt : K → K) (fuel : ℕ)
    (uninit : K) (st st0 : NdtState K) (h : st.max_iterations_ = st0.max_iterations_)
    (input_cloud : List (PointXYZI K)) (init_guess : Matrix4f K)
    (target_cloud : List (PointXYZI K)) :
    partial_points_callback lib (ndtEnv cos sin sqrt lib.exp fuel uninit) fuel st
        input_cloud init_guess target_cloud =
      partial_points_callback lib (ndtEnv cos sin sqrt lib.exp fuel uninit) fuel st0
        input_cloud init_guess target_cloud := by
  obtain ⟨f, t, pr, c, n, tp, mx, inp, tg, ⟨d1, d2, pg, ph, ang, grid, u⟩⟩ := st
  obtain ⟨f0, t0, pr0, c0, n0, tp0, mx0, inp0, tg0, ⟨d10, d20, pg0, ph0, ang0, grid0, u0⟩⟩ := st0
  simp only at h
  subst h
  simp only [partial_points_callback, ndt_align, enterCallback, resetForAlign,
    computeTransformation, computeTransformation_init, ndtEnv, computeDerivatives]
  rw [computeAngleDerivatives_stale cos sin _ ang ang0]

/-- A call of `partial_points_callback` leaves `max_iterations_` as it is. -/
theorem partial_points_callback_max_iterations (lib : DriverLib K)
    (mkEnv : List (PointXYZI K) → LineSearchEnv K (Members K)) (fuel : ℕ) (st : NdtState K)
    (input_cloud : List (PointXYZI K)) (init_guess : Matrix4f K)
    (target_cloud : List (PointXYZI K)) (r : CallbackResult K) (st' : NdtState K)
    (h : partial_points_callback lib mkEnv fuel st input_cloud init_guess target_cloud =
      some (r, st')) :
    st'.max_iterations_ = st.max_iterations_ := by
  simp only [partial_points_callback, ndt_align, computeTransformation, Option.bind_eq_some,
    Option.map_eq_some'] at h
  obtain ⟨s1, ⟨g, _, l, _, rfl⟩, h2⟩ := h
  split at h2
  · exact absurd h2 (by simp)
  · simp only [Option.some.injEq, Prod.mk.injEq] at h2
    rw [← h2.2]
    rfl

/-- The test cases of a run leave `max_iterations_` as it is. -/
theorem runCases_max_iterations (lib : DriverLib K) (cos sin sqrt : K → K) (fuel : ℕ)
    (cases : List (TestCase K)) (st0 st : NdtState K)
    (h : runCases lib cos sin sqrt fuel st0 cases = some st) :
    st.max_iterations_ = st0.max_iterations_ := by
  induction cases generalizing st0 with
  | nil =>
    simp only [runCases, List.foldlM, pure, Option.some.injEq] at h
    rw [h]
  | cons c cs ih =>
    simp only [runCases, List.foldlM, bind, Option.bind_eq_some, Option.map_eq_some'] at h
    obtain ⟨s1, ⟨⟨r, s1'⟩, hppc, rfl⟩, hrest⟩ := h
    rw [ih s1' hrest]
    exact partial_points_callback_max_iterations lib _ fuel st0 _ _ _ r s1' hppc

end StaleState

section RegistrationClaims

variable {K : Type} [LinearOrderedField K] [FloorRing K]

/-- The single-point target cloud at the origin has its upper corner at the origin. -/
theorem initCompute_OpenCl_origin (g : BuiltGrid ℝ)
    (hg : initCompute_OpenCl resolution_ [(⟨![0, 0, 0, 0]⟩ : PointXYZI ℝ)] = some g) :
    g.bounds.maxVoxel.data 0 = 0 := by
  obtain ⟨g', hg', hb⟩ := initCompute_OpenCl_bounds (resolution_ : ℝ)
    (by simp [resolution_]) [(⟨![0, 0, 0, 0]⟩ : PointXYZI ℝ)] (by simp)
  rw [hg] at hg'
  simp only [Option.some.injEq] at hg'
  subst hg'
  simp only [initCompute_grid_OpenCl, minMaxScan, List.foldl_nil, Option.map_some',
    Option.some.injEq] at hb
  rw [← hb]
  rfl

/-- A registration of the one-point source cloud `(10, 0, 0)` against the one-point target
cloud at the origin, with the identity as guess, started from any members. -/
theorem partial_points_callback_far_source (st : NdtState ℝ) :
    ∃ r st', partial_points_callback
        (⟨fun y x => Complex.arg ⟨x, y⟩, Real.exp, Real.log, fun x y => x ^ y⟩ : DriverLib ℝ)
        (ndtEnv Real.cos Real.sin Real.sqrt Real.exp 3 0) 3 st
        [⟨![10, 0, 0, 0]⟩] Matrix4f_Identity [⟨![0, 0, 0, 0]⟩] = some (r, st') ∧
      r.converged = true ∧ r.final_transformation = Matrix4f_Identity ∧
      r.fitness_score = none ∧ st'.trans_probability_ = some 0 := by
  obtain ⟨g, hg, _⟩ := initCompute_OpenCl_bounds (resolution_ : ℝ)
    (by simp [resolution_]) [(⟨![0, 0, 0, 0]⟩ : PointXYZI ℝ)] (by simp)
  have hmax := initCompute_OpenCl_origin g hg
  obtain ⟨r, st', h, h1, h2, h3, _, _, h6, _⟩ := partial_points_callback_no_neighbour
    (⟨fun y x => Complex.arg ⟨x, y⟩, Real.exp, Real.log, fun x y => x ^ y⟩ : DriverLib ℝ)
    Real.cos Real.sin Real.sqrt 3 (le_refl 3) 0 st [⟨![10, 0, 0, 0]⟩] Matrix4f_Identity
    [⟨![0, 0, 0, 0]⟩] g hg
    (by
      intro pt hpt
      simp only [copyForAlign, transformPointCloud, List.map_cons, List.map_nil,
        List.mem_singleton] at hpt
      rw [hmax, hpt]
      simp [Matrix4f_Identity, PointXYZI.set, resolution_])
  refine ⟨r, st', h, h1, h2, h3, ?_⟩
  rw [h6]
  simp [scoreOverSize]

/-- A registration of the empty source cloud against the one-point target cloud at the
origin, with the identity as guess, started from any members. -/
theorem partial_points_callback_empty_source (st : NdtState ℝ) :
    ∃ r st', partial_points_callback
        (⟨fun y x => Complex.arg ⟨x, y⟩, Real.exp, Real.log, fun x y => x ^ y⟩ : DriverLib ℝ)
        (ndtEnv Real.cos Real.sin Real.sqrt Real.exp 3 0) 3 st
        [] Matrix4f_Identity [⟨![0, 0, 0, 0]⟩] = some (r, st') ∧
      r.converged = true ∧ r.final_transformation = Matrix4f_Identity := by
  obtain ⟨g, hg, _⟩ := initCompute_OpenCl_bounds (resolution_ : ℝ)
    (by simp [resolution_]) [(⟨![0, 0, 0, 0]⟩ : PointXYZI ℝ)] (by simp)
  obtain ⟨r, st', h, h1, h2, _⟩ := partial_points_callback_no_neighbour
    (⟨fun y x => Complex.arg ⟨x, y⟩, Real.exp, Real.log, fun x y => x ^ y⟩ : DriverLib ℝ)
    Real.cos Real.sin Real.sqrt 3 (le_refl 3) 0 st [] Matrix4f_Identity
    [⟨![0, 0, 0, 0]⟩] g hg (by simp [copyForAlign, transformPointCloud])
  exact ⟨r, st', h, h1, h2⟩

/-- Evidence for C22: the loop of the OpenCl-atomic variant, run on the quartic objective
from the pose 0 with fuel 32. -/
theorem computeTransformation_atomic_terminates_witness :
    (quarticStart : TransformationLoop ℝ Unit).nr_iterations_ = 0 ∧
    ∃ r, computeTransformation_loop Real.sqrt Real.cos Real.sin solve_OpenCl_atomic
        (computeStepLengthMT (quarticEnv Real.cos Real.sin Real.sqrt)) true
        max_iterations_OpenCl_atomic 32 (quarticStart : TransformationLoop ℝ Unit) = some r ∧
      r.converged_ = true ∧ r.nr_iterations_ ≤ 32 :=
  ⟨rfl, (computeTransformation_atomic_terminates Real.sqrt Real.cos Real.sin
    (computeStepLengthMT (quarticEnv Real.cos Real.sin Real.sqrt)) quarticStart rfl 32
    (le_refl 32)).2⟩

/-- C23: a registration (OpenCl variant, any `computeDerivatives` and `computeHessian`)
whose gradient at the initial pose is zero returns `converged = true` and
`final_transformation` equal to the initial guess (two passes of the loop suffice; the
run is assumed to read no undefined value in the prelude).  With the callees of
`kernel.cpp` this holds in particular for the empty source cloud, for every non-empty
target cloud and every guess. -/
theorem registration_zero_gradient (lib : DriverLib K)
    (mkEnv : List (PointXYZI K) → LineSearchEnv K (Members K)) (fuel : ℕ) (hfuel : 3 ≤ fuel)
    (st : NdtState K) (input_cloud : List (PointXYZI K)) (init_guess : Matrix4f K)
    (target_cloud : List (PointXYZI K)) (g : BuiltGrid K)
    (hg : initCompute_OpenCl resolution_ target_cloud = some g)
    (hgrad : (computeTransformation_init lib { mkEnv input_cloud with input_ := input_cloud }
      (copyForAlign input_cloud) init_guess
      (resetForAlign (enterCallback st input_cloud target_cloud) g)).s.score_gradient =
        fun _ => 0)
    (hdef : (computeTransformation_init lib { mkEnv input_cloud with input_ := input_cloud }
      (copyForAlign input_cloud) init_guess
      (resetForAlign (enterCallback st input_cloud target_cloud) g)).s.members.undefinedRead =
        false) :
    (∃ r st', partial_points_callback lib mkEnv fuel st input_cloud init_guess target_cloud =
        some (r, st') ∧
      r.converged = true ∧ r.final_transformation = init_guess) ∧
    ∀ (cos sin sqrt : K → K) (uninit : K) (guess : Matrix4f K),
      ∃ r st', partial_points_callback lib (ndtEnv cos sin sqrt lib.exp fuel uninit) fuel st
          [] guess target_cloud = some (r, st') ∧
        r.converged = true ∧ r.final_transformation = guess := by
  constructor
  · obtain ⟨r, st', h, h1, h2, _⟩ := partial_points_callback_stationary lib mkEnv fuel
      (by omega) st input_cloud init_guess target_cloud g hg hgrad hdef
    exact ⟨r, st', h, h1, h2⟩
  · intro cos sin sqrt uninit guess
    obtain ⟨r, st', h, h1, h2, _⟩ := partial_points_callback_no_neighbour lib cos sin sqrt
      fuel hfuel uninit st [] guess target_cloud g hg
      (by simp [copyForAlign, transformPointCloud])
    exact ⟨r, st', h, h1, h2⟩

/-- Evidence for C23: the one-point source cloud `(10, 0, 0)`, which has no neighbouring
cell in the grid of the one-point target cloud at the origin, registered with the identity
as guess from the zero-initialised object. -/
theorem registration_zero_gradient_witness :
    ∃ r st', partial_points_callback
        (⟨fun y x => Complex.arg ⟨x, y⟩, Real.exp, Real.log, fun x y => x ^ y⟩ : DriverLib ℝ)
        (ndtEnv Real.cos Real.sin Real.sqrt Real.exp 3 0) 3 staticObject
        [⟨![10, 0, 0, 0]⟩] Matrix4f_Identity [⟨![0, 0, 0, 0]⟩] = some (r, st') ∧
      r.converged = true ∧ r.final_transformation = Matrix4f_Identity := by
  obtain ⟨g, hg, _⟩ := initCompute_OpenCl_bounds (resolution_ : ℝ)
    (by simp [resolution_]) [(⟨![0, 0, 0, 0]⟩ : PointXYZI ℝ)] (by simp)
  have hmax := initCompute_OpenCl_origin g hg
  obtain ⟨hgrad, hdef, _⟩ := computeTransformation_init_beyond
    (⟨fun y x => Complex.arg ⟨x, y⟩, Real.exp, Real.log, fun x y => x ^ y⟩ : DriverLib ℝ)
    Real.cos Real.sin Real.sqrt 3 (le_refl 3) 0 staticObject [⟨![10, 0, 0, 0]⟩]
    Matrix4f_Identity [⟨![0, 0, 0, 0]⟩] g
    (by
      intro pt hpt
      simp only [copyForAlign, transformPointCloud, List.map_cons, List.map_nil,
        List.mem_singleton] at hpt
      rw [hmax, hpt]
      simp [Matrix4f_Identity, PointXYZI.set, resolution_])
  exact (registration_zero_gradient _ _ 3 (le_refl 3) staticObject _ _ _ g hg hgrad hdef).1

/-- C25, counterexample: for the one-point source cloud `(10, 0, 0)`, the one-point target
cloud at the origin and the identity as guess, the final score divided by the number of
source points is `0 / 1 = 0` and is held by the member `trans_probability_`; the field
`fitness_score` of the returned result is not assigned. -/
theorem partial_points_callback_fitness_score_unassigned :
    (partial_points_callback
        (⟨fun y x => Complex.arg ⟨x, y⟩, Real.exp, Real.log, fun x y => x ^ y⟩ : DriverLib ℝ)
        (ndtEnv Real.cos Real.sin Real.sqrt Real.exp 3 0) 3 staticObject
        [⟨![10, 0, 0, 0]⟩] Matrix4f_Identity [⟨![0, 0, 0, 0]⟩]).map
      (fun r => (r.1.fitness_score, r.2.trans_probability_)) = some (none, some 0) := by
  obtain ⟨r, st', h, _, _, h3, h4⟩ := partial_points_callback_far_source staticObject
  rw [h, Option.map_some', h3, h4]

/-- C25, amended: whenever `partial_points_callback` (OpenCl variant) returns, the result
has `final_transformation` and `converged` copied from the members
`final_transformation_` and `converged_`; `fitness_score` and
`intermediate_transformations` are not assigned; the score at the end of the loop of
`computeTransformation` divided by the number of source points is stored in the member
`trans_probability_`. -/
theorem partial_points_callback_result (lib : DriverLib K)
    (mkEnv : List (PointXYZI K) → LineSearchEnv K (Members K)) (fuel : ℕ) (st : NdtState K)
    (input_cloud : List (PointXYZI K)) (init_guess : Matrix4f K)
    (target_cloud : List (PointXYZI K)) (r : CallbackResult K) (st' : NdtState K)
    (h : partial_points_callback lib mkEnv fuel st input_cloud init_guess target_cloud =
      some (r, st')) :
    r.final_transformation = st'.final_transformation_ ∧ r.converged = st'.converged_ ∧
    r.fitness_score = none ∧ r.intermediate_transformations = none ∧
    ∃ g l, initCompute_OpenCl resolution_ target_cloud = some g ∧
      computeTransformation_loop (mkEnv input_cloud).sqrt (mkEnv input_cloud).cos
        (mkEnv input_cloud).sin solve_OpenCl
        (computeStepLengthMT { mkEnv input_cloud with input_ := input_cloud }) false
        st.max_iterations_ fuel
        (computeTransformation_init lib { mkEnv input_cloud with input_ := input_cloud }
          (copyForAlign input_cloud) init_guess
          (resetForAlign (enterCallback st input_cloud target_cloud) g)) = some l ∧
      st'.trans_probability_ = scoreOverSize l.s.score input_cloud := by
  simp only [partial_points_callback, ndt_align, computeTransformation, Option.bind_eq_some,
    Option.map_eq_some'] at h
  obtain ⟨s1, ⟨g, hg, l, hl, rfl⟩, h2⟩ := h
  split at h2
  · exact absurd h2 (by simp)
  · simp only [Option.some.injEq, Prod.mk.injEq] at h2
    obtain ⟨rfl, rfl⟩ := h2
    exact ⟨rfl, rfl, rfl, rfl, g, l, hg, hl, rfl⟩

/-- Evidence for the amended C25: the registration of the one-point source cloud
`(10, 0, 0)` against the one-point target cloud at the origin returns. -/
theorem partial_points_callback_result_witness :
    ∃ r st', partial_points_callback
        (⟨fun y x => Complex.arg ⟨x, y⟩, Real.exp, Real.log, fun x y => x ^ y⟩ : DriverLib ℝ)
        (ndtEnv Real.cos Real.sin Real.sqrt Real.exp 3 0) 3 staticObject
        [⟨![10, 0, 0, 0]⟩] Matrix4f_Identity [⟨![0, 0, 0, 0]⟩] = some (r, st') ∧
      r.final_transformation = st'.final_transformation_ ∧ r.converged = st'.converged_ ∧
      r.fitness_score = none ∧ r.intermediate_transformations = none := by
  obtain ⟨r, st', h, _⟩ := partial_points_callback_far_source staticObject
  obtain ⟨h1, h2, h3, h4, _⟩ := partial_points_callback_result _ _ 3 staticObject _ _ _ r st' h
  exact ⟨r, st', h, h1, h2, h3, h4⟩

/-- C26: in a run of the OpenCl variant, the result of `partial_points_callback` for a
test case (the uninitialised locals taken with the same value) is the same after any
sequence of earlier test cases as on the object the run started from; and it is the same
for any two objects that agree on `max_iterations_`, whatever their other members hold.
`max_iterations_` is read by `computeTransformation` and assigned by no test case. -/
theorem partial_points_callback_no_carried_state (lib : DriverLib K) (cos sin sqrt : K → K)
    (fuel : ℕ) (st0 : NdtState K) (earlier : List (TestCase K)) (st : NdtState K)
    (h : runCases lib cos sin sqrt fuel st0 earlier = some st) (c : TestCase K) :
    (partial_points_callback lib (ndtEnv cos sin sqrt lib.exp fuel c.uninit) fuel st
        c.input_cloud c.init_guess c.target_cloud).map (fun r => r.1) =
      (partial_points_callback lib (ndtEnv cos sin sqrt lib.exp fuel c.uninit) fuel st0
        c.input_cloud c.init_guess c.target_cloud).map (fun r => r.1) ∧
    ∀ st1 st2 : NdtState K, st1.max_iterations_ = st2.max_iterations_ →
      (partial_points_callback lib (ndtEnv cos sin sqrt lib.exp fuel c.uninit) fuel st1
        c.input_cloud c.init_guess c.target_cloud).map (fun r => r.1) =
      (partial_points_callback lib (ndtEnv cos sin sqrt lib.exp fuel c.uninit) fuel st2
        c.input_cloud c.init_guess c.target_cloud).map (fun r => r.1) := by
  constructor
  · rw [partial_points_callback_stale lib cos sin sqrt fuel c.uninit st st0
      (runCases_max_iterations lib cos sin sqrt fuel earlier st0 st h)]
  · intro st1 st2 h12
    rw [partial_points_callback_stale lib cos sin sqrt fuel c.uninit st1 st2 h12]

/-- Evidence for C26: a run whose first test case registers the empty source cloud and
whose second registers the one-point source cloud `(10, 0, 0)`, both against the one-point
target cloud at the origin; the first case returns, and the second gives the same result
after it as on the zero-initialised object. -/
theorem partial_points_callback_no_carried_state_witness :
    ∃ st, runCases
        (⟨fun y x => Complex.arg ⟨x, y⟩, Real.exp, Real.log, fun x y => x ^ y⟩ : DriverLib ℝ)
        Real.cos Real.sin Real.sqrt 3 staticObject
        [⟨0, [], Matrix4f_Identity, [⟨![0, 0, 0, 0]⟩]⟩] = some st ∧
      (partial_points_callback
        (⟨fun y x => Complex.arg ⟨x, y⟩, Real.exp, Real.log, fun x y => x ^ y⟩ : DriverLib ℝ)
        (ndtEnv Real.cos Real.sin Real.sqrt Real.exp 3 0) 3 st
        [⟨![10, 0, 0, 0]⟩] Matrix4f_Identity [⟨![0, 0, 0, 0]⟩]).map (fun r => r.1) =
      (partial_points_callback
        (⟨fun y x => Complex.arg ⟨x, y⟩, Real.exp, Real.log, fun x y => x ^ y⟩ : DriverLib ℝ)
        (ndtEnv Real.cos Real.sin Real.sqrt Real.exp 3 0) 3 staticObject
        [⟨![10, 0, 0, 0]⟩] Matrix4f_Identity [⟨![0, 0, 0, 0]⟩]).map (fun r => r.1) := by
  obtain ⟨r, st', h, _⟩ := partial_points_callback_empty_source staticObject
  have hrun : runCases
      (⟨fun y x => Complex.arg ⟨x, y⟩, Real.exp, Real.log, fun x y => x ^ y⟩ : DriverLib ℝ)
      Real.cos Real.sin Real.sqrt 3 staticObject
      [⟨0, [], Matrix4f_Identity, [⟨![0, 0, 0, 0]⟩]⟩] = some st' := by
    simp only [runCases, List.foldlM, bind, pure, h, Option.map_some', Option.some_bind]
  exact ⟨st', hrun, (partial_points_callback_no_carried_state _ Real.cos Real.sin Real.sqrt 3
    staticObject _ st' hrun ⟨0, [⟨![10, 0, 0, 0]⟩], Matrix4f_Identity, [⟨![0, 0, 0, 0]⟩]⟩).1⟩

end RegistrationClaims

/-! ## Claim on `findComputeDevice` -/

theorem stringCompare_eq_zero (a b : String) : stringCompare a b = 0 ↔ a = b := by
  unfold stringCompare
  split
  · simp [*]
  · split <;> simp [*]

/-- C40 (the selection is inverted): `findComputeDevice` uses the GPU selector if and only
if `deviceType` is "CPU"; for "GPU", for "HOST" and for every other string it uses the
host selector.  `compare` returns 0 for equal strings, so each `if (deviceType.compare(..))`
holds for the strings that differ from the literal. -/
theorem findComputeDevice_selects_gpu_for_CPU :
    findComputeDevice "GPU" = DeviceSelector.host_selector ∧
    findComputeDevice "CPU" = DeviceSelector.gpu_selector ∧
    findComputeDevice "HOST" = DeviceSelector.host_selector ∧
    ∀ deviceType : String,
      findComputeDevice deviceType = DeviceSelector.gpu_selector ↔ deviceType = "CPU" := by
  have key : ∀ deviceType : String,
      findComputeDevice deviceType = DeviceSelector.gpu_selector ↔ deviceType = "CPU" := by
    intro s
    unfold findComputeDevice
    by_cases h : s = "CPU"
    · subst h
      have h1 : stringCompare "CPU" "CPU" = 0 := (stringCompare_eq_zero _ _).2 rfl
      have h2 : stringCompare "CPU" "GPU" ≠ 0 := by
        rw [Ne, stringCompare_eq_zero]
        decide
      simp [h1, h2]
    · have h1 : stringCompare s "CPU" ≠ 0 := by
        rw [Ne, stringCompare_eq_zero]
        exact h
      simp [h1, h]
  refine ⟨?_, (key _).2 rfl, ?_, key⟩
  · cases h : findComputeDevice "GPU" with
    | host_selector => rfl
    | gpu_selector => exact absurd ((key _).1 h) (by decide)
  · cases h : findComputeDevice "HOST" with
    | host_selector => rfl
    | gpu_selector => exact absurd ((key _).1 h) (by decide)

/-! ## Claims on `invertMatrix` (symmetric input) and on the rotation block -/

section InvertSymmetric

variable {K : Type} [Field K] [DecidableEq K]

/-- For a symmetric matrix with nonzero determinant, the product of the matrix with the
matrix written back by `invertMatrix` has entry `[1][1]` equal to
`1 + m[1][1] * m[0][2] * (m[2][0] - m[2][1]) / det`. -/
theorem invertMatrix_symmetric_entry (m : Mat33 K) (hsym : ∀ i j, m.data i j = m.data j i)
    (hdet : invertMatrix_det m ≠ 0) :
    (invertMatrix m).map (fun r => (m.mul r).data 1 1) =
      some (1 + m.data 1 1 * m.data 0 2 * (m.data 2 0 - m.data 2 1) / invertMatrix_det m) := by
  have h10 := hsym 1 0
  have h20 := hsym 2 0
  have h21 := hsym 2 1
  simp only [invertMatrix, if_neg hdet, Option.map_some', Option.some.injEq, Mat33.mul,
    invertMatrix_temp]
  simp only [Matrix.cons_val_zero, Matrix.cons_val_one, Matrix.head_cons, Matrix.cons_val_two,
    Matrix.tail_cons]
  have hd : invertMatrix_det m =
      m.data 0 0 * (m.data 2 2 * m.data 1 1 - m.data 2 1 * m.data 1 2) -
      m.data 1 0 * (m.data 2 2 * m.data 0 1 - m.data 2 1 * m.data 0 2) +
      m.data 2 0 * (m.data 1 2 * m.data 0 1 - m.data 1 1 * m.data 0 2) := rfl
  field_simp
  rw [hd, h10, h20, h21]
  ring

end InvertSymmetric

/-- C33 (the written matrix is not the inverse on symmetric input): `covM` is symmetric
with determinant 4, and for the matrix `r` written back by `invertMatrix` the products
`covM * r` and `r * covM` have entry `[1][1]` equal to `3/2`, not 1.  For every
symmetric matrix with nonzero determinant the entry `[1][1]` of the product is
`1 + m[1][1] * m[0][2] * (m[2][0] - m[2][1]) / det`: `temp[1][1]` of the source uses
`m[2][1]` where the adjugate has `m[2][0]`, which symmetry does not repair. -/
theorem invertMatrix_symmetric_not_inverse :
    (∀ i j, covM.data i j = covM.data j i) ∧
    invertMatrix_det covM = 4 ∧
    (invertMatrix covM).map (fun r => (covM.mul r).data 1 1) = some (3 / 2) ∧
    (invertMatrix covM).map (fun r => (r.mul covM).data 1 1) = some (3 / 2) ∧
    (Mat33.one : Mat33 ℚ).data 1 1 = 1 ∧
    ∀ m : Mat33 ℚ, (∀ i j, m.data i j = m.data j i) → invertMatrix_det m ≠ 0 →
      (invertMatrix m).map (fun r => (m.mul r).data 1 1) =
        some (1 + m.data 1 1 * m.data 0 2 * (m.data 2 0 - m.data 2 1) /
          invertMatrix_det m) := by
  refine ⟨by decide!, by decide!, by decide!, by decide!, by decide!, ?_⟩
  intro m hsym hdet
  exact invertMatrix_symmetric_entry m hsym hdet

/-! ## Claim relating `updateHessian` to `updateDerivatives` -/

section HessianAgreement

variable {K : Type} [LinearOrderedField K]

/-- The Hessian component of the row loop of `updateDerivatives` (with `compute_hessian`
set) is the row loop of `updateHessian`. -/
theorem derivativesRows_hessian (d2 : K) (pg : Mat36 K) (ph : Mat186 K) (x : Vec3 K)
    (c : Mat33 K) (e : K) (l : List (Fin 6)) (s : Vec6 K × Mat66 K) :
    (l.foldl (updateDerivativesRow d2 pg ph x c true e) s).2 =
      l.foldl (fun hessian i =>
        (List.finRange 6).foldl
          (updateHessianEntry d2 pg ph x c e (matVec3 c (fun col => pg.data col i)) i)
          hessian) s.2 := by
  induction l generalizing s with
  | nil => rfl
  | cons i l ih =>
    rw [List.foldl_cons, List.foldl_cons, ih]
    rfl

/-- C34: for every `hessian`, `x_trans`, `c_inv`, `gauss_d1_`, `gauss_d2_`,
`point_gradient_`, `point_hessian_` (and every `exp` and every `score_gradient`), the
Hessian left by `updateHessian` is the Hessian left by `updateDerivatives` called with
`compute_hessian = true`; when the guard `e_x_cov_x > 1 || e_x_cov_x < 0 || e_x_cov_x !=
e_x_cov_x` holds, both leave `hessian` as it was. -/
theorem updateHessian_eq_updateDerivatives (exp : K → K) (gauss_d1_ gauss_d2_ : K)
    (point_gradient_ : Mat36 K) (point_hessian_ : Mat186 K) (score_gradient : Vec6 K)
    (hessian : Mat66 K) (x_trans : Vec3 K) (c_inv : Mat33 K) :
    updateHessian exp gauss_d1_ gauss_d2_ point_gradient_ point_hessian_ hessian x_trans
        c_inv =
      (updateDerivatives exp gauss_d1_ gauss_d2_ point_gradient_ point_hessian_
        score_gradient hessian x_trans c_inv true).2.2 ∧
    ((gauss_d2_ * exp (-gauss_d2_ * xCx x_trans c_inv / 2) > 1 ∨
        gauss_d2_ * exp (-gauss_d2_ * xCx x_trans c_inv / 2) < 0) →
      updateHessian exp gauss_d1_ gauss_d2_ point_gradient_ point_hessian_ hessian x_trans
        c_inv = hessian) := by
  constructor
  · unfold updateHessian updateDerivatives
    simp only
    by_cases hguard : gauss_d2_ * exp (-gauss_d2_ * xCx x_trans c_inv / 2) > 1 ∨
        gauss_d2_ * exp (-gauss_d2_ * xCx x_trans c_inv / 2) < 0 ∨
        gauss_d2_ * exp (-gauss_d2_ * xCx x_trans c_inv / 2) ≠
          gauss_d2_ * exp (-gauss_d2_ * xCx x_trans c_inv / 2)
    · rw [if_pos hguard, if_pos hguard]
    · rw [if_neg hguard, if_neg hguard]
      simp only
      rw [derivativesRows_hessian]
  · intro h
    unfold updateHessian
    simp only
    rw [if_pos]
    rcases h with h | h
    · exact Or.inl h
    · exact Or.inr (Or.inl h)

end HessianAgreement

/-! ## Claim on the rotation block written by `buildTransformationMatrix` -/

section RotationBlock

variable {K : Type} [Field K]

/-- The nine entries of the upper-left block written by `writeTransformation`. -/
theorem writeTransformation_block (matrix : Matrix4f K) (transform : Vec6 K) (x y z w : K) :
    (writeTransformation matrix transform (x, y, z, w)).rotationBlock =
      !![1 - (2 * y * y + 2 * z * z), 2 * y * x - 2 * z * w, 2 * z * x + 2 * y * w;
        2 * y * x + 2 * z * w, 1 - (2 * x * x + 2 * z * z), 2 * z * y - 2 * x * w;
        2 * z * x - 2 * y * w, 2 * z * y + 2 * x * w, 1 - (2 * x * x + 2 * y * y)] := by
  have c0 : Fin.castSucc (0 : Fin 3) = (0 : Fin 4) := rfl
  have c1 : Fin.castSucc (1 : Fin 3) = (1 : Fin 4) := rfl
  have c2 : Fin.castSucc (2 : Fin 3) = (2 : Fin 4) := rfl
  ext i j
  fin_cases i <;> fin_cases j <;>
    simp [Matrix4f.rotationBlock, writeTransformation, Matrix4f.set, c0, c1, c2]

/-- The block written for a 4-tuple of unit norm is orthogonal with determinant 1. -/
theorem writeTransformation_block_rotation (matrix : Matrix4f K) (transform : Vec6 K)
    (x y z w : K) (h : x * x + y * y + z * z + w * w = 1) :
    (writeTransformation matrix transform (x, y, z, w)).rotationBlock *
        Matrix.transpose (writeTransformation matrix transform (x, y, z, w)).rotationBlock = 1 ∧
      Matrix.det (writeTransformation matrix transform (x, y, z, w)).rotationBlock = 1 := by
  rw [writeTransformation_block]
  constructor
  · ext i j
    simp only [Matrix.mul_apply, Matrix.transpose_apply, Fin.sum_univ_three]
    fin_cases i <;> fin_cases j <;> simp [Matrix.one_apply]
    · linear_combination (4 * (y * y + z * z)) * h
    · linear_combination (-4 * x * y) * h
    · linear_combination (-4 * x * z) * h
    · linear_combination (-4 * x * y) * h
    · linear_combination (4 * (x * x + z * z)) * h
    · linear_combination (-4 * y * z) * h
    · linear_combination (-4 * x * z) * h
    · linear_combination (-4 * y * z) * h
    · linear_combination (4 * (x * x + y * y)) * h
  · rw [Matrix.det_fin_three]
    simp
    linear_combination (4 * (x * x + y * y + z * z)) * h

/-- The 4-tuple composed by `composeQuaternions` has unit norm when `cos^2 + sin^2 = 1`
at the three half angles. -/
theorem composeQuaternions_norm (cos sin : K → K) (transform : Vec6 K)
    (h : ∀ a, cos a * cos a + sin a * sin a = 1) :
    (composeQuaternions cos sin transform).1 * (composeQuaternions cos sin transform).1 +
      (composeQuaternions cos sin transform).2.1 * (composeQuaternions cos sin transform).2.1 +
      (composeQuaternions cos sin transform).2.2.1 *
        (composeQuaternions cos sin transform).2.2.1 +
      (composeQuaternions cos sin transform).2.2.2 *
        (composeQuaternions cos sin transform).2.2.2 = 1 := by
  have h1 := h (1 / 2 * transform 3)
  have h2 := h (1 / 2 * transform 4)
  have h3 := h (1 / 2 * transform 5)
  simp only [composeQuaternions]
  linear_combination
    ((cos (1 / 2 * transform 4) * cos (1 / 2 * transform 4) +
        sin (1 / 2 * transform 4) * sin (1 / 2 * transform 4)) *
      (cos (1 / 2 * transform 5) * cos (1 / 2 * transform 5) +
        sin (1 / 2 * transform 5) * sin (1 / 2 * transform 5))) * h1 +
    (cos (1 / 2 * transform 5) * cos (1 / 2 * transform 5) +
        sin (1 / 2 * transform 5) * sin (1 / 2 * transform 5)) * h2 + h3

end RotationBlock

/-- C32: over the reals, for every pose and every prior content of `matrix`, the 4-tuple
`(r2_x, r2_y, r2_z, r2_w)` composed by `buildTransformationMatrix` has unit norm, and the
upper-left 3×3 block `R` of the result satisfies `R * R^T = I` and `det R = 1`. -/
theorem buildTransformationMatrix_rotation (matrix : Matrix4f ℝ) (transform : Vec6 ℝ) :
    (composeQuaternions Real.cos Real.sin transform).1 ^ 2 +
      (composeQuaternions Real.cos Real.sin transform).2.1 ^ 2 +
      (composeQuaternions Real.cos Real.sin transform).2.2.1 ^ 2 +
      (composeQuaternions Real.cos Real.sin transform).2.2.2 ^ 2 = 1 ∧
    (buildTransformationMatrix Real.cos Real.sin matrix transform).rotationBlock *
        Matrix.transpose
          (buildTransformationMatrix Real.cos Real.sin matrix transform).rotationBlock = 1 ∧
    Matrix.det (buildTransformationMatrix Real.cos Real.sin matrix transform).rotationBlock =
      1 := by
  have hn := composeQuaternions_norm Real.cos Real.sin transform (fun a => by
    have := Real.cos_sq_add_sin_sq a
    nlinarith [this])
  refine ⟨by nlinarith [hn], ?_⟩
  have hq : composeQuaternions Real.cos Real.sin transform =
      ((composeQuaternions Real.cos Real.sin transform).1,
        (composeQuaternions Real.cos Real.sin transform).2.1,
        (composeQuaternions Real.cos Real.sin transform).2.2.1,
        (composeQuaternions Real.cos Real.sin transform).2.2.2) := rfl
  unfold buildTransformationMatrix
  rw [hq]
  exact writeTransformation_block_rotation matrix transform _ _ _ _ hn

/-! ## Claim on the translation column of the registration result -/

section FrozenColumn

variable {K : Type} [LinearOrderedField K] {σ : Type}

/-- No assignment of `buildTransformationMatrix` has `matrix.data[i][3]`, `i < 3`, as its
target. -/
theorem buildTransformationMatrix_column3 (cos sin : K → K) (matrix : Matrix4f K)
    (transform : Vec6 K) (i : Fin 4) (hi : i ≠ 3) :
    (buildTransformationMatrix cos sin matrix transform).data i 3 = matrix.data i 3 := by
  obtain ⟨h0, h1, h2, _⟩ := writeTransformation_frame matrix transform
    (composeQuaternions cos sin transform)
  unfold buildTransformationMatrix
  fin_cases i
  · exact h0
  · exact h1
  · exact h2
  · exact absurd rfl hi

theorem evaluateTrial_column3 (env : LineSearchEnv K σ) (x_t : Vec6 K) (compute_hessian : Bool)
    (s : LineSearchState K σ) (i : Fin 4) (hi : i ≠ 3) :
    (evaluateTrial env x_t compute_hessian s).final_transformation_.data i 3 =
      s.final_transformation_.data i 3 :=
  buildTransformationMatrix_column3 env.cos env.sin s.final_transformation_ x_t i hi

theorem stepLoopBody_column3 (env : LineSearchEnv K σ) (x : Vec6 K)
    (phi_0 d_phi_0 mu step_max step_min : K) (l : StepLoop K) (s : LineSearchState K σ)
    (i : Fin 4) (hi : i ≠ 3) :
    (stepLoopBody env x phi_0 d_phi_0 mu step_max step_min l s).2.final_transformation_.data
        i 3 = s.final_transformation_.data i 3 := by
  unfold stepLoopBody
  exact evaluateTrial_column3 env _ false s i hi

theorem stepLoop_column3 (env : LineSearchEnv K σ) (x : Vec6 K)
    (phi_0 d_phi_0 mu nu step_max step_min : K) (n : ℕ) (l : StepLoop K)
    (s : LineSearchState K σ) (i : Fin 4) (hi : i ≠ 3) :
    (stepLoop env x phi_0 d_phi_0 mu nu step_max step_min n l s).2.final_transformation_.data
        i 3 = s.final_transformation_.data i 3 := by
  induction n generalizing l s with
  | zero => rfl
  | succ n ih =>
    unfold stepLoop
    split
    · simp only
      rw [ih, stepLoopBody_column3 env x phi_0 d_phi_0 mu step_max step_min l s i hi]
    · rfl

theorem searchStepLength_column3 (env : LineSearchEnv K σ) (x : Vec6 K)
    (step_init step_max step_min phi_0 d_phi_0 : K) (s : LineSearchState K σ)
    (i : Fin 4) (hi : i ≠ 3) :
    (searchStepLength env x step_init step_max step_min phi_0 d_phi_0
        s).2.final_transformation_.data i 3 = s.final_transformation_.data i 3 := by
  unfold searchStepLength
  simp only
  split
  · simp only
    rw [stepLoop_column3 _ _ _ _ _ _ _ _ _ _ _ i hi, evaluateTrial_column3 _ _ _ _ i hi]
  · rw [stepLoop_column3 _ _ _ _ _ _ _ _ _ _ _ i hi, evaluateTrial_column3 _ _ _ _ i hi]

/-- `computeStepLengthMT` leaves `final_transformation_.data[i][3]`, `i < 3`, as it is. -/
theorem computeStepLengthMT_column3 (env : LineSearchEnv K σ) (x : Vec6 K)
    (step_init step_max step_min : K) (s : LineSearchState K σ) (i : Fin 4) (hi : i ≠ 3) :
    (computeStepLengthMT env x step_init step_max step_min s).2.final_transformation_.data
        i 3 = s.final_transformation_.data i 3 := by
  unfold computeStepLengthMT
  simp only
  split
  · split
    · rfl
    · rw [searchStepLength_column3 _ _ _ _ _ _ _ _ i hi]
  · rw [searchStepLength_column3 _ _ _ _ _ _ _ _ i hi]

theorem computeTransformation_iteration_column3 (env : LineSearchEnv K σ) (sqrt cos sin : K → K)
    (solve : Vec6 K → Mat66 K → Vec6 K → Option (Vec6 K)) (recordIntermediate : Bool)
    (max_iterations_ : ℤ) (st : TransformationLoop K σ) (r : TransformationLoop K σ × Bool)
    (h : computeTransformation_iteration sqrt cos sin solve (computeStepLengthMT env)
      recordIntermediate max_iterations_ st = some r) (i : Fin 4) (hi : i ≠ 3) :
    r.1.s.final_transformation_.data i 3 = st.s.final_transformation_.data i 3 := by
  simp only [computeTransformation_iteration, Option.map_eq_some'] at h
  obtain ⟨dp, _, rfl⟩ := h
  split
  · rfl
  · exact computeStepLengthMT_column3 env _ _ _ _ _ i hi

/-- The loop of `computeTransformation` leaves `final_transformation_.data[i][3]`,
`i < 3`, as it is, for every `solve`, every objective and both variants of the body. -/
theorem computeTransformation_loop_column3 (env : LineSearchEnv K σ) (sqrt cos sin : K → K)
    (solve : Vec6 K → Mat66 K → Vec6 K → Option (Vec6 K)) (recordIntermediate : Bool)
    (max_iterations_ : ℤ) (fuel : ℕ) (st r : TransformationLoop K σ)
    (h : computeTransformation_loop sqrt cos sin solve (computeStepLengthMT env)
      recordIntermediate max_iterations_ fuel st = some r) (i : Fin 4) (hi : i ≠ 3) :
    r.s.final_transformation_.data i 3 = st.s.final_transformation_.data i 3 := by
  induction fuel generalizing st with
  | zero =>
    unfold computeTransformation_loop at h
    split at h
    · simp only [Option.some.injEq] at h
      rw [← h]
    · exact absurd h (by simp)
  | succ fuel ih =>
    unfold computeTransformation_loop at h
    split at h
    · simp only [Option.some.injEq] at h
      rw [← h]
    · simp only [Option.bind_eq_some] at h
      obtain ⟨r1, h1, h2⟩ := h
      have h3 := computeTransformation_iteration_column3 env sqrt cos sin solve
        recordIntermediate max_iterations_ st r1 h1 i hi
      split at h2
      · simp only [Option.some.injEq] at h2
        rw [← h2, h3]
      · rw [ih r1.1 h2, h3]

end FrozenColumn

section LoopReturns

variable {K : Type} [LinearOrderedField K] {σ : Type}

/-- The loop of `computeTransformation` ends for every `max_iterations_`, every line
search and every `solve` that returns: from a state with a counter `≥ 0` that is at most
`max (max_iterations_ + 1) 0` while `converged_` is false, with fuel for the passes still
possible, it returns. -/
theorem computeTransformation_loop_returns (sqrt cos sin : K → K)
    (solve : Vec6 K → Mat66 K → Vec6 K → Option (Vec6 K))
    (hsolve : ∀ r A b, ∃ x, solve r A b = some x)
    (lineSearch : Vec6 K → K → K → K → LineSearchState K σ → K × LineSearchState K σ)
    (recordIntermediate : Bool) (max_iterations_ : ℤ)
    (fuel : ℕ) (st : TransformationLoop K σ) (h0 : 0 ≤ st.nr_iterations_)
    (hinv : st.converged_ = false → st.nr_iterations_ ≤ max (max_iterations_ + 1) 0)
    (hfuel : max (max_iterations_ + 1) 0 + 1 ≤ (fuel : ℤ) + st.nr_iterations_) :
    ∃ r, computeTransformation_loop sqrt cos sin solve lineSearch recordIntermediate
        max_iterations_ fuel st = some r := by
  induction fuel generalizing st with
  | zero =>
    cases hc : st.converged_ with
    | true => exact ⟨st, by simp [computeTransformation_loop, hc]⟩
    | false =>
      have := hinv hc
      simp at hfuel
      omega
  | succ fuel ih =>
    cases hc : st.converged_ with
    | true => exact ⟨st, by simp [computeTransformation_loop, hc]⟩
    | false =>
      obtain ⟨dp, hdp⟩ := hsolve st.s.step_dir st.s.hessian (fun i => -st.s.score_gradient i)
      obtain ⟨r, hr, hn, hcv, _⟩ := computeTransformation_iteration_spec sqrt cos sin
        solve lineSearch recordIntermediate max_iterations_ st dp hdp
      have hnext : r.converged_ = false → r.nr_iterations_ ≤ max (max_iterations_ + 1) 0 := by
        intro hrc
        rw [hcv, hc, Bool.or_false] at hrc
        have hnot : ¬ (st.nr_iterations_ > max_iterations_) := by
          intro hgt
          rw [(@convergenceTest_iff K _ st.nr_iterations_ max_iterations_ _).2
            (Or.inl hgt)] at hrc
          cases hrc
        have := le_max_left (max_iterations_ + 1) 0
        omega
      obtain ⟨r', hr'⟩ := ih r (by omega) hnext (by push_cast at hfuel ⊢; omega)
      refine ⟨r', ?_⟩
      simp only [computeTransformation_loop, hc, Bool.false_eq_true, if_false, hr,
        Option.some_bind]
      exact hr'

end LoopReturns

section FrozenColumnClaim

variable {K : Type} [LinearOrderedField K] [FloorRing K]

/-- C31: the registration of the OpenCl variant, for every `computeDerivatives` and
`computeHessian`, every source, target and guess and every prior content of the members.
(a) Whenever `partial_points_callback` returns, the entries `[0][3]`, `[1][3]`, `[2][3]`
of the returned `final_transformation` are those of the initial guess.  (b) For a
non-empty target cloud and fuel for `max (max_iterations_ + 1) 0 + 1` passes of the loop,
`ndt_align` returns with these three entries of `final_transformation_` equal to those of
the guess, and `partial_points_callback` returns that matrix unless the run has read a
value that is not defined.  (c) `computeTransformation` copies the guess to
`final_transformation_`, and the only writer after that, `buildTransformationMatrix`,
assigns no entry of column 3 in rows 0..2. -/
theorem partial_points_callback_translation_frozen (lib : DriverLib K)
    (mkEnv : List (PointXYZI K) → LineSearchEnv K (Members K)) (fuel : ℕ) (st : NdtState K)
    (input_cloud : List (PointXYZI K)) (init_guess : Matrix4f K)
    (target_cloud : List (PointXYZI K)) :
    (∀ (r : CallbackResult K) (st' : NdtState K),
      partial_points_callback lib mkEnv fuel st input_cloud init_guess target_cloud =
        some (r, st') →
      r.final_transformation.data 0 3 = init_guess.data 0 3 ∧
      r.final_transformation.data 1 3 = init_guess.data 1 3 ∧
      r.final_transformation.data 2 3 = init_guess.data 2 3) ∧
    (target_cloud ≠ [] → max (st.max_iterations_ + 1) 0 + 1 ≤ (fuel : ℤ) →
      ∃ st1, ndt_align lib { mkEnv input_cloud with input_ := input_cloud } fuel init_guess
          (enterCallback st input_cloud target_cloud) = some st1 ∧
        st1.final_transformation_.data 0 3 = init_guess.data 0 3 ∧
        st1.final_transformation_.data 1 3 = init_guess.data 1 3 ∧
        st1.final_transformation_.data 2 3 = init_guess.data 2 3 ∧
        (st1.members.undefinedRead = false →
          ∃ r, partial_points_callback lib mkEnv fuel st input_cloud init_guess target_cloud =
              some (r, st1) ∧
            r.final_transformation = st1.final_transformation_)) ∧
    ∀ (cos sin : K → K) (matrix : Matrix4f K) (transform : Vec6 K),
      (buildTransformationMatrix cos sin matrix transform).data 0 3 = matrix.data 0 3 ∧
      (buildTransformationMatrix cos sin matrix transform).data 1 3 = matrix.data 1 3 ∧
      (buildTransformationMatrix cos sin matrix transform).data 2 3 = matrix.data 2 3 := by
  refine ⟨?_, ?_, ?_⟩
  · intro r st' h
    simp only [partial_points_callback, ndt_align, computeTransformation, Option.bind_eq_some,
      Option.map_eq_some'] at h
    obtain ⟨s1, ⟨g, _, l, hl, rfl⟩, h2⟩ := h
    split at h2
    · exact absurd h2 (by simp)
    · simp only [Option.some.injEq, Prod.mk.injEq] at h2
      obtain ⟨rfl, _⟩ := h2
      have key : ∀ i : Fin 4, i ≠ 3 →
          l.s.final_transformation_.data i 3 = init_guess.data i 3 := fun i hi =>
        computeTransformation_loop_column3 _ _ _ _ solve_OpenCl false _ fuel _ l hl i hi
      exact ⟨key 0 (by decide), key 1 (by decide), key 2 (by decide)⟩
  · intro ht hfuel
    obtain ⟨s, hs, _⟩ := initCompute_firstPass_spec (resolution_ : K)
      (by simp [resolution_]) target_cloud ht
    have hb : initCompute_OpenCl (resolution_ : K) target_cloud =
        some { bounds := s.1, size := s.2.1,
               cells := fun i => secondPassCell s.2.1 (s.2.2 i) } := by
      simp [initCompute_OpenCl, hs]
    obtain ⟨l, hl⟩ := computeTransformation_loop_returns
      (mkEnv input_cloud).sqrt (mkEnv input_cloud).cos (mkEnv input_cloud).sin solve_OpenCl
      solve_OpenCl_returns
      (computeStepLengthMT { mkEnv input_cloud with input_ := input_cloud }) false
      st.max_iterations_ fuel
      (computeTransformation_init lib { mkEnv input_cloud with input_ := input_cloud }
        (copyForAlign input_cloud) init_guess
        (resetForAlign (enterCallback st input_cloud target_cloud)
          { bounds := s.1, size := s.2.1,
            cells := fun i => secondPassCell s.2.1 (s.2.2 i) }))
      (le_refl 0) (fun _ => le_max_right _ _) (by simpa using hfuel)
    have key : ∀ i : Fin 4, i ≠ 3 →
        l.s.final_transformation_.data i 3 = init_guess.data i 3 := fun i hi =>
      computeTransformation_loop_column3 _ _ _ _ solve_OpenCl false _ fuel _ l hl i hi
    have hal : ∃ st1, ndt_align lib { mkEnv input_cloud with input_ := input_cloud } fuel
        init_guess (enterCallback st input_cloud target_cloud) = some st1 ∧
        st1.final_transformation_ = l.s.final_transformation_ := by
      have hl' : ∃ st1, computeTransformation lib
          { mkEnv input_cloud with input_ := input_cloud } fuel
          (copyForAlign (enterCallback st input_cloud target_cloud).input_) init_guess
          (resetForAlign (enterCallback st input_cloud target_cloud)
            { bounds := s.1, size := s.2.1,
              cells := fun i => secondPassCell s.2.1 (s.2.2 i) }) = some st1 ∧
          st1.final_transformation_ = l.s.final_transformation_ := by
        unfold computeTransformation
        erw [hl]
        exact ⟨_, rfl, rfl⟩
      obtain ⟨st1, h1, h2⟩ := hl'
      unfold ndt_align
      rw [show (enterCallback st input_cloud target_cloud).target_ = target_cloud from rfl, hb,
        Option.some_bind, h1]
      exact ⟨st1, rfl, h2⟩
    obtain ⟨st1, hal1, hfin⟩ := hal
    refine ⟨st1, hal1, ?_, ?_, ?_, ?_⟩
    · rw [hfin]; exact key 0 (by decide)
    · rw [hfin]; exact key 1 (by decide)
    · rw [hfin]; exact key 2 (by decide)
    · intro hu
      simp only [partial_points_callback, hal1, Option.some_bind]
      rw [if_neg (by simp [hu])]
      exact ⟨_, rfl, rfl⟩
  · intro cos sin matrix transform
    exact ⟨buildTransformationMatrix_column3 cos sin matrix transform 0 (by decide),
      buildTransformationMatrix_column3 cos sin matrix transform 1 (by decide),
      buildTransformationMatrix_column3 cos sin matrix transform 2 (by decide)⟩

end FrozenColumnClaim

/-! ## A registration run that rewrites the matrix, and the claim on `eulerAngles` -/

/-- The registration of `cloudSource` against `cloudCluster` with the guess
`smallShiftGuess`, started from `staticObject`, with the stand-ins for the library
functions: the source point has a neighbour cell, the gradient is not zero, the line
search evaluates a trial pose and `buildTransformationMatrix` rewrites
`final_transformation_`; the run returns after two passes of the loop with `converged`
set, the rotation block rewritten (`[0][0] = -1`, where the guess has 1) and the
translation column of the guess, `(1/10, 0, 0)`. -/
theorem registrationExample_run :
    (partial_points_callback rationalLib
        (ndtEnv rationalCos rationalId rationalId rationalLib.exp 3 0) 5 staticObject
        cloudSource smallShiftGuess cloudCluster).map
      (fun r => (r.1.converged,
        List.ofFn (fun i => List.ofFn (r.1.final_transformation.data i)),
        r.2.nr_iterations_)) =
      some (true, [[-1, 0, 0, 1 / 10], [0, 1, 0, 0], [0, 0, -1, 0], [0, 0, 0, 1]], 2) := by
  decide!

/-- Instance of `partial_points_callback_translation_frozen` on a run in which the line
search rewrites `final_transformation_` (`registrationExample_run`): the call returns, the
entry `[0][0]` of the result is `-1` where the guess has 1, and the translation column of
the result is that of the guess, `(1/10, 0, 0)`. -/
theorem partial_points_callback_translation_frozen_witness :
    ∃ r st', partial_points_callback rationalLib
        (ndtEnv rationalCos rationalId rationalId rationalLib.exp 3 0) 5 staticObject
        cloudSource smallShiftGuess cloudCluster = some (r, st') ∧
      (r.final_transformation.data 0 3 = smallShiftGuess.data 0 3 ∧
        r.final_transformation.data 1 3 = smallShiftGuess.data 1 3 ∧
        r.final_transformation.data 2 3 = smallShiftGuess.data 2 3) ∧
      r.final_transformation.data 0 0 = -1 ∧ smallShiftGuess.data 0 0 = 1 ∧
      smallShiftGuess.data 0 3 = 1 / 10 := by
  have hrun := registrationExample_run
  cases h : partial_points_callback rationalLib
      (ndtEnv rationalCos rationalId rationalId rationalLib.exp 3 0) 5 staticObject
      cloudSource smallShiftGuess cloudCluster with
  | none =>
    rw [h] at hrun
    simp at hrun
  | some p =>
    rw [h] at hrun
    simp only [Option.map_some', Option.some.injEq, Prod.mk.injEq] at hrun
    have h00 : p.1.final_transformation.data 0 0 = -1 := by
      have := congrArg (fun l => (l.getD 0 []).getD 0 0) hrun.2.1
      simpa using this
    exact ⟨p.1, p.2, rfl,
      (partial_points_callback_translation_frozen rationalLib
        (ndtEnv rationalCos rationalId rationalId rationalLib.exp 3 0) 5 staticObject
        cloudSource smallShiftGuess cloudCluster).1 p.1 p.2 h,
      h00, by decide!, by decide!⟩

section EulerAngles

variable {K : Type} [LinearOrderedField K]

/-- For every input matrix for which the value `a` returned by
`atan2(trans[1][2], trans[2][2])` lies in `(-PI, PI]` (`PI` the constant of the program),
the first returned angle is `-(a - PI)` when `a > 0` and `-a` otherwise (the branch
`res[0] += PI` adds nothing to the result: it is never taken) and lies in `[0, PI)`; and
for the identity matrix the result is `(0, 0, 0)` when `atan2(0, 1) = 0`, `sqrt(1) = 1`,
`sin(0) = 0` and `cos(0) = 1`. -/
theorem eulerAngles_first_angle (atan2 : K → K → K) (sqrt sin cos : K → K)
    (trans : Matrix4f K)
    (hlo : -PI < atan2 (trans.data 1 2) (trans.data 2 2))
    (hhi : atan2 (trans.data 1 2) (trans.data 2 2) ≤ PI) :
    eulerAngles atan2 sqrt sin cos trans 0 =
      -(if atan2 (trans.data 1 2) (trans.data 2 2) > 0 then
          atan2 (trans.data 1 2) (trans.data 2 2) - PI
        else atan2 (trans.data 1 2) (trans.data 2 2)) ∧
    0 ≤ eulerAngles atan2 sqrt sin cos trans 0 ∧
    eulerAngles atan2 sqrt sin cos trans 0 < PI ∧
    (atan2 0 1 = 0 → sqrt 1 = 1 → sin 0 = 0 → cos 0 = 1 →
      eulerAngles atan2 sqrt sin cos Matrix4f_Identity = fun _ => 0) := by
  have h0 : eulerAngles atan2 sqrt sin cos trans 0 =
      -(if atan2 (trans.data 1 2) (trans.data 2 2) > 0 then
          atan2 (trans.data 1 2) (trans.data 2 2) - PI
        else atan2 (trans.data 1 2) (trans.data 2 2)) := by
    unfold eulerAngles
    by_cases h : atan2 (trans.data 1 2) (trans.data 2 2) > 0
    · simp [h]
    · simp [h]
  refine ⟨h0, ?_, ?_, ?_⟩
  · rw [h0]
    split
    · linarith
    · linarith
  · rw [h0]
    split
    · linarith
    · linarith
  · intro ha hs hsin hcos
    have e12 : (Matrix4f_Identity : Matrix4f K).data 1 2 = 0 := by simp [Matrix4f_Identity]
    have e22 : (Matrix4f_Identity : Matrix4f K).data 2 2 = 1 := by simp [Matrix4f_Identity]
    have e00 : (Matrix4f_Identity : Matrix4f K).data 0 0 = 1 := by simp [Matrix4f_Identity]
    have e01 : (Matrix4f_Identity : Matrix4f K).data 0 1 = 0 := by simp [Matrix4f_Identity]
    have e02 : (Matrix4f_Identity : Matrix4f K).data 0 2 = 0 := by simp [Matrix4f_Identity]
    have e20 : (Matrix4f_Identity : Matrix4f K).data 2 0 = 0 := by simp [Matrix4f_Identity]
    have e10 : (Matrix4f_Identity : Matrix4f K).data 1 0 = 0 := by simp [Matrix4f_Identity]
    have e11 : (Matrix4f_Identity : Matrix4f K).data 1 1 = 1 := by simp [Matrix4f_Identity]
    have e21 : (Matrix4f_Identity : Matrix4f K).data 2 1 = 0 := by simp [Matrix4f_Identity]
    unfold eulerAngles
    simp only [e12, e22, e00, e01, e02, e20, e10, e11, e21, ha, lt_irrefl, gt_iff_lt,
      if_false, mul_one, mul_zero, add_zero, hs, neg_zero, hsin, hcos, sub_zero, sub_self]
    funext i
    fin_cases i <;> simp

end EulerAngles

/-- Instance of `eulerAngles_first_angle`: the identity matrix with the library functions
of the reals. -/
theorem eulerAngles_first_angle_witness :
    eulerAngles (fun y x => Complex.arg ⟨x, y⟩) Real.sqrt Real.sin Real.cos
        (Matrix4f_Identity : Matrix4f ℝ) = (fun _ => 0) ∧
    (0 : ℝ) ≤ eulerAngles (fun y x => Complex.arg ⟨x, y⟩) Real.sqrt Real.sin Real.cos
        (Matrix4f_Identity : Matrix4f ℝ) 0 := by
  have e12 : (Matrix4f_Identity : Matrix4f ℝ).data 1 2 = 0 := by simp [Matrix4f_Identity]
  have e22 : (Matrix4f_Identity : Matrix4f ℝ).data 2 2 = 1 := by simp [Matrix4f_Identity]
  have ha : Complex.arg ⟨1, 0⟩ = 0 := by
    have : (⟨1, 0⟩ : ℂ) = 1 := rfl
    rw [this, Complex.arg_one]
  have hP : (0 : ℝ) < PI := by
    unfold PI
    norm_num
  have h := eulerAngles_first_angle (fun y x => Complex.arg ⟨x, y⟩) Real.sqrt Real.sin
    Real.cos (Matrix4f_Identity : Matrix4f ℝ)
    (by simp only [e12, e22, ha]; linarith) (by simp only [e12, e22, ha]; linarith)
  exact ⟨h.2.2.2 ha Real.sqrt_one Real.sin_zero Real.cos_zero, h.2.1⟩

section EulerAnglesFloat

variable {K : Type} [LinearOrderedField K]

/-- C35 fails: for the half turn about the x axis, `trans = diag(1, -1, -1, 1)`, the call
`atan2(trans[1][2], trans[2][2])` is `atan2(0, -1)` on `float` arguments, whose value is
the `float` nearest to pi, `13176795 / 4194304 = 3.14159274...`, above the constant `PI`
of the program.  The branch `res[0] -= PI` leaves `13176795 / 4194304 - PI > 0` and the
first returned angle is its negative, about `-8.74e-8`: below 0, outside `[0, pi)`. -/
theorem eulerAngles_half_turn_negative (atan2 : K → K → K) (sqrt sin cos : K → K)
    (hatan : atan2 0 (-1) = 13176795 / 4194304) :
    eulerAngles atan2 sqrt sin cos halfTurnX 0 = PI - 13176795 / 4194304 ∧
    eulerAngles atan2 sqrt sin cos halfTurnX 0 < 0 ∧
    -(1 / 10000000) < eulerAngles atan2 sqrt sin cos halfTurnX 0 := by
  have e12 : (halfTurnX : Matrix4f K).data 1 2 = 0 := by simp [halfTurnX]
  have e22 : (halfTurnX : Matrix4f K).data 2 2 = -1 := by simp [halfTurnX]
  have hpos : (0 : K) < 13176795 / 4194304 := by norm_num
  have h0 : eulerAngles atan2 sqrt sin cos halfTurnX 0 = PI - 13176795 / 4194304 := by
    unfold eulerAngles
    simp only [e12, e22, hatan, gt_iff_lt, hpos, if_true]
    simp
  refine ⟨h0, ?_, ?_⟩
  · rw [h0]
    unfold PI
    norm_num
  · rw [h0]
    unfold PI
    norm_num

end EulerAnglesFloat

/-- Instance of `eulerAngles_half_turn_negative`: an `atan2` that returns the `float`
nearest to pi. -/
theorem eulerAngles_half_turn_negative_witness :
    eulerAngles (fun _ _ => (13176795 / 4194304 : ℚ)) id id id halfTurnX 0 =
      PI - 13176795 / 4194304 ∧
    eulerAngles (fun _ _ => (13176795 / 4194304 : ℚ)) id id id halfTurnX 0 < 0 ∧
    -(1 / 10000000) < eulerAngles (fun _ _ => (13176795 / 4194304 : ℚ)) id id id halfTurnX 0 :=
  eulerAngles_half_turn_negative (fun _ _ => (13176795 / 4194304 : ℚ)) id id id rfl

section ComparatorLemmas

variable {K : Type} [LinearOrderedField K]

theorem compareTranslation_skip (T : K) (reference result : Matrix4f K) (s : CheckState K)
    (h : Fin 4) (hd : |result.data h 3 - reference.data h 3| ≤ s.max_delta) :
    compareTranslation T reference result s h = s := by
  have hn : (List.finRange 4).foldl (fun (s : CheckState K) w =>
      if isnan (result.data h w) ≠ isnan (reference.data h w) then
        { s with error_so_far := true }
      else s) s = s := by
    simp [List.finRange_succ_eq_map, isnan]
  unfold compareTranslation
  simp only [hn]
  rw [if_neg (not_lt.2 hd)]

theorem compareTranslation_fold_skip (T : K) (reference result : Matrix4f K)
    (s : CheckState K) (l : List (Fin 4))
    (hd : ∀ h ∈ l, |result.data h 3 - reference.data h 3| ≤ s.max_delta) :
    l.foldl (compareTranslation T reference result) s = s := by
  induction l with
  | nil => rfl
  | cons h l ih =>
    rw [List.foldl_cons, compareTranslation_skip T reference result s h
      (hd h (List.mem_cons_self _ _))]
    exact ih (fun h' hh => hd h' (List.mem_cons_of_mem _ hh))

theorem comparePoint_skip (E : K) (refPoint resPoint : PointXYZI K) (s : CheckState K)
    (w : Fin 4) (hd : |resPoint.data w - refPoint.data w| ≤ s.max_delta) :
    comparePoint E refPoint resPoint s w = s := by
  unfold comparePoint
  simp only
  rw [if_neg (not_lt.2 hd)]

theorem comparePoint_fold_skip (E : K) (refPoint resPoint : PointXYZI K) (s : CheckState K)
    (l : List (Fin 4)) (hd : ∀ w ∈ l, |resPoint.data w - refPoint.data w| ≤ s.max_delta) :
    l.foldl (comparePoint E refPoint resPoint) s = s := by
  induction l with
  | nil => rfl
  | cons w l ih =>
    rw [List.foldl_cons, comparePoint_skip E refPoint resPoint s w
      (hd w (List.mem_cons_self _ _))]
    exact ih (fun w' hw => hd w' (List.mem_cons_of_mem _ hw))

theorem comparePoint_raise (E : K) (refPoint resPoint : PointXYZI K) (s : CheckState K)
    (w : Fin 4) (hd : |resPoint.data w - refPoint.data w| > s.max_delta)
    (hE : |resPoint.data w - refPoint.data w| ≤ E) :
    comparePoint E refPoint resPoint s w =
      { s with max_delta := |resPoint.data w - refPoint.data w| } := by
  unfold comparePoint
  simp only
  rw [if_pos hd, if_neg (not_lt.2 hE)]

theorem transformOrigin_data (origin : PointXYZI K) (m : Matrix4f K) (h : Fin 4) :
    (transformOrigin origin m).data h =
      m.data h 0 * origin.data 0 + m.data h 1 * origin.data 1 + m.data h 2 * origin.data 2 +
        m.data h 3 * origin.data 3 := by
  have hfin : List.finRange 4 = [0, 1, 2, 3] := by decide
  simp [transformOrigin, hfin]

/-- For thresholds `0 <= T < E`: a first case whose transformed test point deviates by
exactly `E` (entry `[0][0]` off by `E / 0.724`) followed by a second case whose
translation entry `[0][3]` deviates by `(T + E) / 2 > T` leaves `error_so_far` false. -/
theorem check_next_outputs_framework_masked (T E : K) (hT : 0 ≤ T) (hTE : T < E) :
    check_next_outputs_framework T E checkInit
      [(convergedResult Matrix4f_Identity,
          convergedResult ((Matrix4f_Identity : Matrix4f K).set 0 0 (1 + E / (724 / 1000)))),
        (convergedResult Matrix4f_Identity,
          convergedResult ((Matrix4f_Identity : Matrix4f K).set 0 3 ((T + E) / 2)))] =
      { max_delta := E, error_so_far := false } := by
  have hE : 0 < E := lt_of_le_of_lt hT hTE
  have hfin : List.finRange 4 = [0, 1, 2, 3] := by decide
  have hval : (1 + E / (724 / 1000)) * (724 / 1000) - 724 / 1000 = E := by
    field_simp
  -- first case
  have c1 : checkCase_framework T E checkInit
      (convergedResult Matrix4f_Identity,
        convergedResult ((Matrix4f_Identity : Matrix4f K).set 0 0 (1 + E / (724 / 1000)))) =
      { max_delta := E, error_so_far := false } := by
    unfold checkCase_framework
    simp only [convergedResult, ne_eq, not_true_eq_false, if_false]
    rw [compareTranslation_fold_skip]
    · rw [hfin, List.foldl_cons, comparePoint_raise, comparePoint_fold_skip]
      · simp [transformOrigin_data, Matrix4f.set, Matrix4f_Identity, framework_origin,
          checkInit, hval, abs_of_pos hE]
      · intro w hw
        simp only [List.mem_cons, List.mem_singleton, List.not_mem_nil, or_false] at hw
        rcases hw with rfl | rfl | rfl <;>
          simp [transformOrigin_data, Matrix4f.set, Matrix4f_Identity, framework_origin,
            checkInit]
      · simp [transformOrigin_data, Matrix4f.set, Matrix4f_Identity, framework_origin,
          checkInit, hval, abs_of_pos hE, hE, hE.ne']
      · simp [transformOrigin_data, Matrix4f.set, Matrix4f_Identity, framework_origin,
          checkInit, hval, abs_of_pos hE]
    · intro h _
      fin_cases h <;> simp [Matrix4f.set, Matrix4f_Identity, checkInit]
  have hm : |(T + E) / 2| ≤ E := by
    rw [abs_of_nonneg (by linarith)]
    linarith
  have c2 : checkCase_framework T E { max_delta := E, error_so_far := false }
      (convergedResult Matrix4f_Identity,
        convergedResult ((Matrix4f_Identity : Matrix4f K).set 0 3 ((T + E) / 2))) =
      { max_delta := E, error_so_far := false } := by
    unfold checkCase_framework
    simp only [convergedResult, ne_eq, not_true_eq_false, if_false]
    rw [compareTranslation_fold_skip, comparePoint_fold_skip]
    · intro w _
      fin_cases w <;>
        simp [transformOrigin_data, Matrix4f.set, Matrix4f_Identity, framework_origin, hm,
          hE.le]
    · intro h _
      fin_cases h <;> simp [Matrix4f.set, Matrix4f_Identity, hm, hE.le]
  simp only [check_next_outputs_framework, List.foldl_cons, List.foldl_nil, c1, c2]

end ComparatorLemmas

/-! ## Claim on the comparator of `framework.cpp` -/

/-- C36 (a threshold violation can pass unseen): with `MAX_TRANSLATION_EPS = 0.001` and
`MAX_EPS = 2.0`, two test cases with identity references.  In the first the result differs
in entry `[0][0]` by 1, so the transformed test point deviates by `0.724 <= MAX_EPS`:
`max_delta` becomes `0.724`, no error.  In the second the translation entry `[0][3]`
deviates by `1/2 > MAX_TRANSLATION_EPS`, but `1/2 <= max_delta`, so the threshold test,
nested in `if (delta > max_delta)`, is not reached: `error_so_far` stays false and
`check_output` returns true.  The second case alone sets `error_so_far`, and so does the
comparator of `ndt_mapping.cpp` on both cases.  The same happens for every pair of
thresholds `0 <= T < E` in place of the two macros. -/
theorem check_next_outputs_framework_masks_deviation :
    maskingCases.map (fun c =>
      |c.2.final_transformation.data 0 3 - c.1.final_transformation.data 0 3|) =
        [0, 1 / 2] ∧
    (MAX_TRANSLATION_EPS : ℚ) < 1 / 2 ∧
    (check_next_outputs_framework MAX_TRANSLATION_EPS MAX_EPS_OpenCl_atomic checkInit
      maskingCases).error_so_far = false ∧
    (check_next_outputs_framework MAX_TRANSLATION_EPS MAX_EPS_OpenCl_atomic checkInit
      maskingCases).max_delta = 724 / 1000 ∧
    check_output_framework (check_next_outputs_framework MAX_TRANSLATION_EPS
      MAX_EPS_OpenCl_atomic checkInit maskingCases) = true ∧
    (check_next_outputs_framework MAX_TRANSLATION_EPS MAX_EPS_OpenCl_atomic checkInit
      (maskingCases.drop 1)).error_so_far = true ∧
    (maskingCases.foldl (checkCase_ndt_mapping MAX_TRANSLATION_EPS)
      checkInit).error_so_far = true ∧
    ∀ T E : ℚ, 0 ≤ T → T < E →
      T < (T + E) / 2 ∧
      (check_next_outputs_framework T E checkInit
        [(convergedResult Matrix4f_Identity,
            convergedResult ((Matrix4f_Identity : Matrix4f ℚ).set 0 0 (1 + E / (724 / 1000)))),
          (convergedResult Matrix4f_Identity,
            convergedResult ((Matrix4f_Identity : Matrix4f ℚ).set 0 3 ((T + E) / 2)))]
        ).error_so_far = false := by
  refine ⟨by decide!, by decide!, by decide!, by decide!, by decide!, by decide!, by decide!,
    ?_⟩
  intro T E hT hTE
  refine ⟨by linarith, ?_⟩
  rw [check_next_outputs_framework_masked T E hT hTE]

/-! ## Claims on `pack_minmaxf` and `unpack_minmaxf` -/

theorem not32_sign : not32 (1 <<< 31) = 2 ^ 31 - 1 := by decide

theorem and_not32_sign (v : ℕ) : v &&& not32 (1 <<< 31) = v % 2 ^ 31 := by
  rw [not32_sign, Nat.and_pow_two_sub_one_eq_mod]

theorem or_sign (m : ℕ) (h : m < 2 ^ 31) : m ||| (1 <<< 31) = m + 2 ^ 31 := by
  have h1 := Nat.mul_add_lt_is_or h 1
  rw [Nat.mul_one] at h1
  have h2 : (1 : ℕ) <<< 31 = 2 ^ 31 := by decide
  rw [h2, Nat.or_comm, ← h1, Nat.add_comm]

theorem xor_one_ones : (2 ^ 32 - 1) ^^^ 1 = 2 ^ 32 - 2 := by decide

/-- On a pattern without the sign bit, `pack_minmaxf` returns the pattern. -/
theorem pack_minmaxf_nonneg (v : ℕ) (h : v < 2 ^ 31) : pack_minmaxf v = v := by
  have hs : sar31 v = 0 := by
    unfold sar31
    rw [if_pos (by omega)]
  simp only [pack_minmaxf, hs, mul32, add32, Nat.mul_zero, Nat.zero_xor, Nat.mul_one]
  omega

theorem wrap_neg_mul_ones (m : ℕ) (h : m < 2 ^ 31) :
    ((2 ^ 32 - m) % 2 ^ 32 * (2 ^ 32 - 1)) % 2 ^ 32 = m := by
  omega

theorem wrap_mul_minus_two (m : ℕ) (h : m < 2 ^ 31) :
    ((2 ^ 31 + m) * (2 ^ 32 - 2)) % 2 ^ 32 = (2 ^ 32 - 2 * m) % 2 ^ 32 := by
  omega

theorem wrap_add_neg (m : ℕ) (h : m < 2 ^ 31) :
    (m + (2 ^ 32 - 2 * m) % 2 ^ 32) % 2 ^ 32 = (2 ^ 32 - m) % 2 ^ 32 := by
  omega

/-- On a pattern with the sign bit and low bits `m`, `pack_minmaxf` returns `-m`. -/
theorem pack_minmaxf_neg (v : ℕ) (h1 : 2 ^ 31 ≤ v) (h2 : v < 2 ^ 32) :
    pack_minmaxf v = (2 ^ 32 - (v - 2 ^ 31)) % 2 ^ 32 := by
  obtain ⟨m, rfl⟩ : ∃ m, v = 2 ^ 31 + m := ⟨v - 2 ^ 31, by omega⟩
  have hm : m < 2 ^ 31 := by omega
  have hs : sar31 (2 ^ 31 + m) = 2 ^ 32 - 1 := by
    unfold sar31
    rw [if_neg (by omega)]
  have e0 : (2 ^ 31 + m) % 2 ^ 31 = m := by omega
  have e1 : m % 2 ^ 32 = m := by omega
  have e2 : 2 ^ 31 + m - 2 ^ 31 = m := by omega
  simp only [pack_minmaxf, hs, and_not32_sign, xor_one_ones, mul32, add32, neg32, e0, e1, e2]
  rw [wrap_neg_mul_ones m hm, wrap_mul_minus_two m hm, wrap_add_neg m hm]

theorem fcomppack_nonneg (v : ℕ) (h : v < 2 ^ 31) : fcomppack v = v := by
  have hs : sar31 v = 0 := by
    unfold sar31
    rw [if_pos (by omega)]
  simp [fcomppack, hs]

theorem fcomppack_neg (v : ℕ) (h1 : 2 ^ 31 ≤ v) (h2 : v < 2 ^ 32) :
    fcomppack v = (2 ^ 32 - (v - 2 ^ 31)) % 2 ^ 32 := by
  have hs : sar31 v = 2 ^ 32 - 1 := by
    unfold sar31
    rw [if_neg (by omega)]
  simp only [fcomppack, hs, and_not32_sign, neg32]
  rw [if_pos (by decide)]
  omega

theorem unpack_minmaxf_nonneg (p : ℕ) (h : p < 2 ^ 31) : unpack_minmaxf p = p := by
  have hs : sar31 p = 0 := by
    unfold sar31
    rw [if_pos (by omega)]
  simp only [unpack_minmaxf, hs, mul32, add32, Nat.mul_zero, Nat.zero_xor, Nat.mul_one]
  omega

/-- On the pattern of `-m`, `0 < m < 2^31`, `unpack_minmaxf` returns the sign bit with the
low bits `m`. -/
theorem unpack_minmaxf_neg (m : ℕ) (h1 : 0 < m) (h2 : m < 2 ^ 31) :
    unpack_minmaxf (2 ^ 32 - m) = 2 ^ 31 + m := by
  have hs : sar31 (2 ^ 32 - m) = 2 ^ 32 - 1 := by
    unfold sar31
    rw [if_neg (by omega)]
  have hn : neg32 (2 ^ 32 - m) = m := by
    unfold neg32
    omega
  simp only [unpack_minmaxf, hs, hn, or_sign m h2, xor_one_ones, mul32, add32]
  omega

/-- C37, counterexample: the bit pattern `0x80000000` (negative zero) is packed to 0, as
is the pattern 0, and `unpack_minmaxf` returns the pattern 0 for it; the pair `fcomppack`,
`fcompunpack` does the same. -/
theorem unpack_pack_minmaxf_negative_zero :
    pack_minmaxf (2 ^ 31) = 0 ∧ pack_minmaxf 0 = 0 ∧ unpack_minmaxf (pack_minmaxf (2 ^ 31)) = 0 ∧
    unpack_minmaxf (pack_minmaxf (2 ^ 31)) ≠ 2 ^ 31 ∧
    fcompunpack (fcomppack (2 ^ 31)) = 0 := by
  decide

/-- C37, amended: for every 32-bit pattern `v` other than `0x80000000`, with wrap-around
`int` arithmetic, `unpack_minmaxf(pack_minmaxf(v))` is the pattern `v`. -/
theorem unpack_pack_minmaxf (v : ℕ) (hv : v < 2 ^ 32) (hz : v ≠ 2 ^ 31) :
    unpack_minmaxf (pack_minmaxf v) = v := by
  by_cases h : v < 2 ^ 31
  · rw [pack_minmaxf_nonneg v h, unpack_minmaxf_nonneg v h]
  · rw [pack_minmaxf_neg v (by omega) hv]
    have hm : (2 ^ 32 - (v - 2 ^ 31)) % 2 ^ 32 = 2 ^ 32 - (v - 2 ^ 31) := by omega
    rw [hm, unpack_minmaxf_neg (v - 2 ^ 31) (by omega) (by omega)]
    omega

/-- Evidence for the amended C37: the pattern `0xBF800000` of `-1.0f`. -/
theorem unpack_pack_minmaxf_witness :
    unpack_minmaxf (pack_minmaxf 3212836864) = 3212836864 :=
  unpack_pack_minmaxf 3212836864 (by decide) (by decide)

/-! ## Claim on the order of packed values -/

theorem floatMagnitude_zero : floatMagnitude 0 = 0 := by decide

/-- The magnitude is strictly increasing in the low 31 bits. -/
theorem floatMagnitude_lt (m m' : ℕ) (h : m < m') : floatMagnitude m < floatMagnitude m' := by
  have hf : m % 2 ^ 23 < 2 ^ 23 := Nat.mod_lt _ (by decide)
  have hf' : m' % 2 ^ 23 < 2 ^ 23 := Nat.mod_lt _ (by decide)
  have hcase : m / 2 ^ 23 < m' / 2 ^ 23 ∨
      (m / 2 ^ 23 = m' / 2 ^ 23 ∧ m % 2 ^ 23 < m' % 2 ^ 23) := by omega
  unfold floatMagnitude
  rcases hcase with he | ⟨he, hlt⟩
  · have he' : m' / 2 ^ 23 ≠ 0 := by omega
    rw [if_neg he']
    have hpos : 1 ≤ 2 ^ (m' / 2 ^ 23 - 1) := Nat.one_le_two_pow
    have hlow : 2 ^ 23 * 2 ^ (m' / 2 ^ 23 - 1) ≤
        (2 ^ 23 + m' % 2 ^ 23) * 2 ^ (m' / 2 ^ 23 - 1) :=
      Nat.mul_le_mul_right _ (Nat.le_add_right _ _)
    by_cases h0 : m / 2 ^ 23 = 0
    · rw [if_pos h0]
      calc m % 2 ^ 23 < 2 ^ 23 := hf
        _ = 2 ^ 23 * 1 := (Nat.mul_one _).symm
        _ ≤ 2 ^ 23 * 2 ^ (m' / 2 ^ 23 - 1) := Nat.mul_le_mul_left _ hpos
        _ ≤ _ := hlow
    · rw [if_neg h0]
      have hexp : 2 ^ (m / 2 ^ 23 - 1) * 2 ≤ 2 ^ (m' / 2 ^ 23 - 1) := by
        rw [← Nat.pow_succ]
        exact Nat.pow_le_pow_right (by decide) (by omega)
      have hp : 0 < 2 ^ (m / 2 ^ 23 - 1) := Nat.two_pow_pos _
      calc (2 ^ 23 + m % 2 ^ 23) * 2 ^ (m / 2 ^ 23 - 1)
          < (2 ^ 23 + 2 ^ 23) * 2 ^ (m / 2 ^ 23 - 1) :=
            Nat.mul_lt_mul_of_pos_right (by omega) hp
        _ = 2 ^ 23 * (2 ^ (m / 2 ^ 23 - 1) * 2) := by ring
        _ ≤ 2 ^ 23 * 2 ^ (m' / 2 ^ 23 - 1) := Nat.mul_le_mul_left _ hexp
        _ ≤ _ := hlow
  · rw [← he]
    by_cases h0 : m / 2 ^ 23 = 0
    · rw [if_pos h0, if_pos h0]
      exact hlt
    · rw [if_neg h0, if_neg h0]
      exact Nat.mul_lt_mul_of_pos_right (by omega) (Nat.two_pow_pos _)

theorem floatMagnitude_lt_iff (m m' : ℕ) : floatMagnitude m < floatMagnitude m' ↔ m < m' := by
  constructor
  · intro h
    by_contra hn
    rcases Nat.eq_or_lt_of_le (Nat.le_of_not_lt hn) with he | hl
    · rw [he] at h
      exact lt_irrefl _ h
    · exact lt_asymm h (floatMagnitude_lt m' m hl)
  · exact floatMagnitude_lt m m'

theorem floatMagnitude_eq_zero_iff (m : ℕ) : floatMagnitude m = 0 ↔ m = 0 := by
  constructor
  · intro h
    by_contra hn
    have := floatMagnitude_lt 0 m (Nat.pos_of_ne_zero hn)
    rw [floatMagnitude_zero, h] at this
    exact lt_irrefl _ this
  · rintro rfl
    exact floatMagnitude_zero

theorem toInt32_pack_nonneg (v : ℕ) (h : v < 2 ^ 31) : toInt32 (pack_minmaxf v) = v := by
  rw [pack_minmaxf_nonneg v h]
  unfold toInt32
  have : v % 2 ^ 32 = v := by omega
  rw [this, if_pos h]

theorem toInt32_pack_neg (v : ℕ) (h1 : 2 ^ 31 ≤ v) (h2 : v < 2 ^ 32) :
    toInt32 (pack_minmaxf v) = -((v - 2 ^ 31 : ℕ) : ℤ) := by
  rw [pack_minmaxf_neg v h1 h2]
  unfold toInt32
  split <;> omega

theorem floatValue_nonneg (v : ℕ) (h : v < 2 ^ 31) :
    floatValue v = (floatMagnitude v : ℚ) / 2 ^ 149 := by
  unfold floatValue
  have e1 : v % 2 ^ 32 = v := by omega
  have e2 : v % 2 ^ 31 = v := by omega
  rw [e1, e2, if_pos h]

theorem floatValue_neg (v : ℕ) (h1 : 2 ^ 31 ≤ v) (h2 : v < 2 ^ 32) :
    floatValue v = -((floatMagnitude (v - 2 ^ 31) : ℚ) / 2 ^ 149) := by
  unfold floatValue
  have e1 : v % 2 ^ 32 = v := by omega
  have e2 : v % 2 ^ 31 = v - 2 ^ 31 := by omega
  rw [e1, e2, if_neg (by omega)]

/-- The float order on two patterns is the `int` order on their packed values. -/
theorem floatValue_lt_iff (a b : ℕ) (ha : a < 2 ^ 32) (hb : b < 2 ^ 32) :
    floatValue a < floatValue b ↔ toInt32 (pack_minmaxf a) < toInt32 (pack_minmaxf b) := by
  have hc : (0 : ℚ) < 2 ^ 149 := by positivity
  by_cases sa : a < 2 ^ 31 <;> by_cases sb : b < 2 ^ 31
  · rw [floatValue_nonneg a sa, floatValue_nonneg b sb, toInt32_pack_nonneg a sa,
      toInt32_pack_nonneg b sb, div_lt_div_iff_of_pos_right hc, Nat.cast_lt, floatMagnitude_lt_iff,
      Nat.cast_lt]
  · rw [floatValue_nonneg a sa, floatValue_neg b (by omega) hb, toInt32_pack_nonneg a sa,
      toInt32_pack_neg b (by omega) hb]
    constructor
    · intro h
      have h1 : (0 : ℚ) ≤ (floatMagnitude a : ℚ) / 2 ^ 149 := div_nonneg (Nat.cast_nonneg _) hc.le
      have h2 : (0 : ℚ) ≤ (floatMagnitude (b - 2 ^ 31) : ℚ) / 2 ^ 149 := div_nonneg (Nat.cast_nonneg _) hc.le
      linarith
    · intro h
      omega
  · rw [floatValue_neg a (by omega) ha, floatValue_nonneg b sb, toInt32_pack_neg a (by omega) ha,
      toInt32_pack_nonneg b sb]
    constructor
    · intro h
      by_contra hn
      have h1 : a - 2 ^ 31 = 0 := by omega
      have h2 : b = 0 := by omega
      rw [h1, h2, floatMagnitude_zero] at h
      simp at h
    · intro h
      have hne : a - 2 ^ 31 ≠ 0 ∨ b ≠ 0 := by omega
      have h1 : (0 : ℚ) ≤ (floatMagnitude (a - 2 ^ 31) : ℚ) / 2 ^ 149 := div_nonneg (Nat.cast_nonneg _) hc.le
      have h2 : (0 : ℚ) ≤ (floatMagnitude b : ℚ) / 2 ^ 149 := div_nonneg (Nat.cast_nonneg _) hc.le
      rcases hne with hne | hne
      · have : 0 < floatMagnitude (a - 2 ^ 31) :=
          Nat.pos_of_ne_zero (fun h0 => hne ((floatMagnitude_eq_zero_iff _).1 h0))
        have : (0 : ℚ) < (floatMagnitude (a - 2 ^ 31) : ℚ) / 2 ^ 149 := div_pos (Nat.cast_pos.2 this) hc
        linarith
      · have : 0 < floatMagnitude b :=
          Nat.pos_of_ne_zero (fun h0 => hne ((floatMagnitude_eq_zero_iff _).1 h0))
        have : (0 : ℚ) < (floatMagnitude b : ℚ) / 2 ^ 149 := div_pos (Nat.cast_pos.2 this) hc
        linarith
  · rw [floatValue_neg a (by omega) ha, floatValue_neg b (by omega) hb,
      toInt32_pack_neg a (by omega) ha, toInt32_pack_neg b (by omega) hb, neg_lt_neg_iff,
      div_lt_div_iff_of_pos_right hc, Nat.cast_lt, floatMagnitude_lt_iff, neg_lt_neg_iff, Nat.cast_lt]

/-- Packing and unpacking keeps the value (the two zeros have the same value). -/
theorem floatValue_unpack_pack (v : ℕ) (hv : v < 2 ^ 32) :
    floatValue (unpack_minmaxf (pack_minmaxf v)) = floatValue v := by
  by_cases hz : v = 2 ^ 31
  · subst hz
    decide!
  · rw [unpack_pack_minmaxf v hv hz]

/-- C38: for every two 32-bit patterns `a`, `b` (in particular those of finite floats)
whose values satisfy `a < b`, `pack_minmaxf(a) < pack_minmaxf(b)` as `int`;
`pack_minmaxf` agrees with `fcomppack` on every pattern; and the value of the unpacked
`int` minimum (maximum) of two packed values is the minimum (maximum) of the two float
values. -/
theorem pack_minmaxf_order (a b : ℕ) (ha : a < 2 ^ 32) (hb : b < 2 ^ 32)
    (hab : floatValue a < floatValue b) :
    toInt32 (pack_minmaxf a) < toInt32 (pack_minmaxf b) ∧
    (∀ v, v < 2 ^ 32 → pack_minmaxf v = fcomppack v) ∧
    (∀ x y, x < 2 ^ 32 → y < 2 ^ 32 →
      floatValue (unpack_minmaxf
        (if toInt32 (pack_minmaxf x) ≤ toInt32 (pack_minmaxf y) then pack_minmaxf x
          else pack_minmaxf y)) = min (floatValue x) (floatValue y) ∧
      floatValue (unpack_minmaxf
        (if toInt32 (pack_minmaxf x) ≤ toInt32 (pack_minmaxf y) then pack_minmaxf y
          else pack_minmaxf x)) = max (floatValue x) (floatValue y)) := by
  refine ⟨(floatValue_lt_iff a b ha hb).1 hab, ?_, ?_⟩
  · intro v hv
    by_cases h : v < 2 ^ 31
    · rw [pack_minmaxf_nonneg v h, fcomppack_nonneg v h]
    · rw [pack_minmaxf_neg v (by omega) hv, fcomppack_neg v (by omega) hv]
  · intro x y hx hy
    by_cases h : toInt32 (pack_minmaxf x) ≤ toInt32 (pack_minmaxf y)
    · have hle : floatValue x ≤ floatValue y :=
        not_lt.1 (fun hlt => not_lt.2 h ((floatValue_lt_iff y x hy hx).1 hlt))
      rw [if_pos h, if_pos h, floatValue_unpack_pack x hx, floatValue_unpack_pack y hy,
        min_eq_left hle, max_eq_right hle]
      exact ⟨rfl, rfl⟩
    · have hlt : floatValue y < floatValue x :=
        (floatValue_lt_iff y x hy hx).2 (not_le.1 h)
      rw [if_neg h, if_neg h, floatValue_unpack_pack x hx, floatValue_unpack_pack y hy,
        min_eq_right hlt.le, max_eq_left hlt.le]
      exact ⟨rfl, rfl⟩

/-- Evidence for C38: the patterns `0xBF800000` of `-1.0f` and `0x3F000000` of `0.5f`,
whose values are `-1` and `1/2`. -/
theorem pack_minmaxf_order_witness :
    floatValue 3212836864 = -1 ∧ floatValue 1056964608 = 1 / 2 ∧
    toInt32 (pack_minmaxf 3212836864) < toInt32 (pack_minmaxf 1056964608) := by
  have h1 : floatValue 3212836864 = -1 := by
    rw [floatValue_neg _ (by decide) (by decide)]
    have : floatMagnitude (3212836864 - 2 ^ 31) = 2 ^ 149 := by decide
    rw [this]
    norm_num
  have h2 : floatValue 1056964608 = 1 / 2 := by
    rw [floatValue_nonneg _ (by decide)]
    have : floatMagnitude 1056964608 = 2 ^ 148 := by decide
    rw [this]
    norm_num
  exact ⟨h1, h2, (pack_minmaxf_order 3212836864 1056964608 (by decide) (by decide)
    (by rw [h1, h2]; norm_num)).1⟩

/-! ## Claim on the merge of arriving pixels in `cloud2Image` -/

section Points2ImageLemmas

variable {K : Type} [LinearOrderedField K]

/-- Two arrivals with columns inside the image and the same pixel index are in the same
row. -/
theorem pixelIndex_row (height width : ℤ) (a b : PixelData K) (ha : ValidPixel height width a)
    (hb : ValidPixel height width b) (h : pixelIndex width a = pixelIndex width b) :
    a.position 1 = b.position 1 := by
  unfold pixelIndex at h
  exact (mixed_radix_inj width (a.position 0) (a.position 1) (b.position 0) (b.position 1)
    ⟨ha.1, ha.2.1⟩ ⟨hb.1, hb.2.1⟩ (by linarith)).2

/-- The summary is kept when the pixel `a` is added to the arrivals and the image is
changed at the index of `a` to the least depth and the intensity that belongs to it. -/
theorem mergeSummary_step (height width : ℤ) (R R' : PointsImage K) (S : List (PixelData K))
    (a : PixelData K) (D I : K) (hInv : MergeSummary height width R S)
    (ha : ValidPixel height width a)
    (hdist : R'.distance = Function.update R.distance (pixelIndex width a) D)
    (hint : R'.intensity = Function.update R.intensity (pixelIndex width a) I)
    (hmin : R'.min_height = Function.update R.min_height (pixelIndex width a) (-(5 / 4)))
    (hmax : R'.max_height = Function.update R.max_height (pixelIndex width a) 0)
    (hmaxy : R'.max_y = max R.max_y (a.position 1))
    (hminy : R'.min_y = min R.min_y (a.position 1))
    (hh : R'.image_height = R.image_height) (hw : R'.image_width = R.image_width)
    (hnew : (∀ b ∈ S, pixelIndex width b ≠ pixelIndex width a) →
      D = a.depth * 100 ∧ I = a.intensity)
    (hold : (∃ b ∈ S, pixelIndex width b = pixelIndex width a) →
      D = min (R.distance (pixelIndex width a)) (a.depth * 100) ∧
      I = if a.depth * 100 < R.distance (pixelIndex width a) then a.intensity
          else if a.depth * 100 = R.distance (pixelIndex width a) then
            max (R.intensity (pixelIndex width a)) a.intensity
          else R.intensity (pixelIndex width a)) :
    MergeSummary height width R' (a :: S) := by
  obtain ⟨h1, h2, h3, h4, h5, h6, h7⟩ := hInv
  refine ⟨?_, ?_, ?_, ?_, ?_, ?_, ?_⟩
  · intro i hi
    have hne : i ≠ pixelIndex width a := fun e => hi a (List.mem_cons_self _ _) e.symm
    rw [hdist, hint, hmin, hmax, Function.update_noteq hne, Function.update_noteq hne,
      Function.update_noteq hne, Function.update_noteq hne]
    exact h1 i (fun b hb => hi b (List.mem_cons_of_mem _ hb))
  · intro i hi
    by_cases hi0 : i = pixelIndex width a
    · subst hi0
      rw [hdist, hint, hmin, hmax, Function.update_same, Function.update_same,
        Function.update_same, Function.update_same]
      refine ⟨?_, ?_, rfl, rfl⟩
      · by_cases ht : ∃ b ∈ S, pixelIndex width b = pixelIndex width a
        · obtain ⟨hD, hI⟩ := hold ht
          obtain ⟨⟨b0, hb0, e0, ed0, ei0⟩, _, _⟩ := h2 _ ht
          rcases lt_trichotomy (a.depth * 100) (R.distance (pixelIndex width a)) with
            hlt | heq | hgt
          · refine ⟨a, List.mem_cons_self _ _, rfl, ?_, ?_⟩
            · rw [hD, min_eq_right hlt.le]
            · rw [hI, if_pos hlt]
          · by_cases hm : R.intensity (pixelIndex width a) ≤ a.intensity
            · refine ⟨a, List.mem_cons_self _ _, rfl, ?_, ?_⟩
              · rw [hD, heq, min_self]
              · rw [hI, if_neg (by rw [heq]; exact lt_irrefl _), if_pos heq, max_eq_right hm]
            · refine ⟨b0, List.mem_cons_of_mem _ hb0, e0, ?_, ?_⟩
              · rw [hD, ← heq, min_self, ed0, heq]
              · rw [hI, if_neg (by rw [heq]; exact lt_irrefl _), if_pos heq,
                  max_eq_left (le_of_not_le hm), ei0]
          · refine ⟨b0, List.mem_cons_of_mem _ hb0, e0, ?_, ?_⟩
            · rw [hD, min_eq_left hgt.le, ed0]
            · rw [hI, if_neg (not_lt.2 hgt.le), if_neg (ne_of_gt hgt), ei0]
        · have ht' : ∀ b ∈ S, pixelIndex width b ≠ pixelIndex width a :=
            fun b hb e => ht ⟨b, hb, e⟩
          obtain ⟨hD, hI⟩ := hnew ht'
          exact ⟨a, List.mem_cons_self _ _, rfl, hD.symm, hI.symm⟩
      · intro x hx ex
        rcases List.mem_cons.1 hx with rfl | hxS
        · by_cases ht : ∃ b ∈ S, pixelIndex width b = pixelIndex width x
          · obtain ⟨hD, hI⟩ := hold ht
            refine ⟨by rw [hD]; exact min_le_right _ _, ?_⟩
            intro hxe
            rw [hI]
            split
            · exact le_refl _
            · split
              · exact le_max_right _ _
              · rename_i hn1 hn2
                rw [hD] at hxe
                have hle : R.distance (pixelIndex width x) ≤ x.depth * 100 :=
                  le_of_not_lt hn1
                rw [min_eq_left hle] at hxe
                exact absurd hxe hn2
          · have ht' : ∀ b ∈ S, pixelIndex width b ≠ pixelIndex width x :=
              fun b hb e => ht ⟨b, hb, e⟩
            obtain ⟨hD, hI⟩ := hnew ht'
            exact ⟨hD.le, fun _ => hI.symm.le⟩
        · have ht : ∃ b ∈ S, pixelIndex width b = pixelIndex width a := ⟨x, hxS, ex⟩
          obtain ⟨hD, hI⟩ := hold ht
          obtain ⟨_, hall, _⟩ := h2 _ ht
          obtain ⟨hx1, hx2⟩ := hall x hxS ex
          refine ⟨by rw [hD]; exact le_trans (min_le_left _ _) hx1, ?_⟩
          intro hxe
          rw [hD] at hxe
          rw [hI]
          split
          · rename_i hlt
            rw [min_eq_right hlt.le] at hxe
            exact absurd (lt_of_lt_of_le hlt hx1) (by rw [hxe]; exact lt_irrefl _)
          · rename_i hn1
            have hle : R.distance (pixelIndex width a) ≤ a.depth * 100 := le_of_not_lt hn1
            rw [min_eq_left hle] at hxe
            split
            · exact le_trans (hx2 hxe) (le_max_left _ _)
            · exact hx2 hxe
    · have hmem : ∃ b ∈ S, pixelIndex width b = i := by
        obtain ⟨x, hx, ex⟩ := hi
        rcases List.mem_cons.1 hx with rfl | hxS
        · exact absurd ex.symm hi0
        · exact ⟨x, hxS, ex⟩
      rw [hdist, hint, hmin, hmax, Function.update_noteq hi0, Function.update_noteq hi0,
        Function.update_noteq hi0, Function.update_noteq hi0]
      obtain ⟨⟨b0, hb0, e0, ed0, ei0⟩, hall, hmn, hmx⟩ := h2 i hmem
      refine ⟨⟨b0, List.mem_cons_of_mem _ hb0, e0, ed0, ei0⟩, ?_, hmn, hmx⟩
      intro x hx ex
      rcases List.mem_cons.1 hx with rfl | hxS
      · exact absurd ex.symm hi0
      · exact hall x hxS ex
  · intro x hx
    rw [hmaxy, hminy]
    rcases List.mem_cons.1 hx with rfl | hxS
    · exact ⟨le_max_right _ _, min_le_right _ _⟩
    · exact ⟨le_trans (h3 x hxS).1 (le_max_left _ _), le_trans (min_le_left _ _) (h3 x hxS).2⟩
  · intro _
    rw [hmaxy, hminy]
    by_cases hS : S = []
    · obtain ⟨e1, e2⟩ := h5 hS
      refine ⟨⟨a, List.mem_cons_self _ _, ?_⟩, ⟨a, List.mem_cons_self _ _, ?_⟩⟩
      · rw [e1]
        exact max_eq_right (by linarith [ha.2.2.1])
      · rw [e2]
        exact min_eq_right (by linarith [ha.2.2.2.1])
    · obtain ⟨⟨b1, hb1, e1⟩, ⟨b2, hb2, e2⟩⟩ := h4 hS
      constructor
      · rcases le_total R.max_y (a.position 1) with hle | hle
        · exact ⟨a, List.mem_cons_self _ _, max_eq_right hle⟩
        · exact ⟨b1, List.mem_cons_of_mem _ hb1, by rw [max_eq_left hle, e1]⟩
      · rcases le_total R.min_y (a.position 1) with hle | hle
        · exact ⟨b2, List.mem_cons_of_mem _ hb2, by rw [min_eq_left hle, e2]⟩
        · exact ⟨a, List.mem_cons_self _ _, min_eq_right hle⟩
  · intro h
    exact absurd h (List.cons_ne_nil _ _)
  · rw [hh, h6]
  · rw [hw, h7]

end Points2ImageLemmas

section Points2ImageCode

variable {K : Type} [LinearOrderedField K]

/-- One pass of the loop body keeps the summary. -/
theorem processArrivingPixel_summary (height width : ℤ) (R : PointsImage K)
    (S : List (PixelData K)) (a : PixelData K) (hInv : MergeSummary height width R S)
    (hS : ∀ b ∈ S, ValidPixel height width b) (ha : ValidPixel height width a) :
    MergeSummary height width (processArrivingPixel width R a) (a :: S) := by
  have hpos : a.position 0 > -1 := by linarith [ha.1]
  have hd : 0 < a.depth * 100 := by linarith [ha.2.2.2.2]
  have hidx : a.position 1 * width + a.position 0 = pixelIndex width a := rfl
  by_cases ht : ∃ b ∈ S, pixelIndex width b = pixelIndex width a
  · obtain ⟨⟨b0, hb0, e0, ed0, ei0⟩, hall, hmn, hmx⟩ := hInv.2.1 _ ht
    have hc : 0 < R.distance (pixelIndex width a) := by
      rw [← ed0]
      linarith [(hS b0 hb0).2.2.2.2]
    have hrow : b0.position 1 = a.position 1 :=
      pixelIndex_row height width b0 a (hS b0 hb0) ha e0
    have hrows := hInv.2.2.1 b0 hb0
    rw [hrow] at hrows
    by_cases hacc : a.depth * 100 ≤ R.distance (pixelIndex width a)
    · -- the arrival is accepted
      refine mergeSummary_step height width R _ S a (a.depth * 100)
        (if a.depth * 100 < R.distance (pixelIndex width a) then a.intensity
          else max (R.intensity (pixelIndex width a)) a.intensity)
        hInv ha ?_ ?_ ?_ ?_ ?_ ?_ ?_ ?_ ?_ ?_
      · unfold processArrivingPixel
        simp only [hidx, if_pos hpos, if_pos (Or.inr hacc : R.distance (pixelIndex width a) = 0 ∨
          a.depth * 100 ≤ R.distance (pixelIndex width a))]
      · unfold processArrivingPixel
        simp only [hidx, if_pos hpos, if_pos (Or.inr hacc : R.distance (pixelIndex width a) = 0 ∨
          a.depth * 100 ≤ R.distance (pixelIndex width a))]
        rcases lt_or_eq_of_le hacc with hlt | heq
        · rw [if_pos (Or.inr (Or.inl hlt)), if_pos hlt]
        · have hnlt : ¬ a.depth * 100 < R.distance (pixelIndex width a) := by
            rw [heq]
            exact lt_irrefl _
          rw [if_neg hnlt]
          by_cases hi : a.intensity > R.intensity (pixelIndex width a)
          · rw [if_pos (Or.inl ⟨heq.symm, hi⟩), max_eq_right hi.le]
          · have hno : ¬ ((R.distance (pixelIndex width a) = a.depth * 100 ∧
                a.intensity > R.intensity (pixelIndex width a)) ∨
                a.depth * 100 < R.distance (pixelIndex width a) ∨
                R.distance (pixelIndex width a) = 0) := by
              rintro (⟨_, h⟩ | h | h)
              · exact hi h
              · exact hnlt h
              · exact ne_of_gt hc h
            rw [if_neg hno, max_eq_left (le_of_not_lt hi), Function.update_eq_self]
      · unfold processArrivingPixel
        simp only [hidx, if_pos hpos, if_pos (Or.inr hacc : R.distance (pixelIndex width a) = 0 ∨
          a.depth * 100 ≤ R.distance (pixelIndex width a))]
      · unfold processArrivingPixel
        simp only [hidx, if_pos hpos, if_pos (Or.inr hacc : R.distance (pixelIndex width a) = 0 ∨
          a.depth * 100 ≤ R.distance (pixelIndex width a))]
      · unfold processArrivingPixel
        simp only [hidx, if_pos hpos, if_pos (Or.inr hacc : R.distance (pixelIndex width a) = 0 ∨
          a.depth * 100 ≤ R.distance (pixelIndex width a))]
        rw [if_neg (not_lt.2 hrows.1), max_eq_left hrows.1]
      · unfold processArrivingPixel
        simp only [hidx, if_pos hpos, if_pos (Or.inr hacc : R.distance (pixelIndex width a) = 0 ∨
          a.depth * 100 ≤ R.distance (pixelIndex width a))]
        rw [if_neg (not_lt.2 hrows.2), min_eq_left hrows.2]
      · unfold processArrivingPixel
        simp only [hidx, if_pos hpos, if_pos (Or.inr hacc : R.distance (pixelIndex width a) = 0 ∨
          a.depth * 100 ≤ R.distance (pixelIndex width a))]
      · unfold processArrivingPixel
        simp only [hidx, if_pos hpos, if_pos (Or.inr hacc : R.distance (pixelIndex width a) = 0 ∨
          a.depth * 100 ≤ R.distance (pixelIndex width a))]
      · intro hn
        obtain ⟨b, hb, e⟩ := ht
        exact absurd e (hn b hb)
      · intro _
        refine ⟨(min_eq_right hacc).symm, ?_⟩
        rcases lt_or_eq_of_le hacc with hlt | heq
        · rw [if_pos hlt, if_pos hlt]
        · have hnlt : ¬ a.depth * 100 < R.distance (pixelIndex width a) := by
            rw [heq]
            exact lt_irrefl _
          rw [if_neg hnlt, if_neg hnlt, if_pos heq]
    · -- the arrival is farther than the pixel: nothing is written
      have hrej : processArrivingPixel width R a = R := by
        unfold processArrivingPixel
        simp only [hidx, if_pos hpos]
        rw [if_neg]
        rintro (h | h)
        · exact ne_of_gt hc h
        · exact hacc h
      rw [hrej]
      refine mergeSummary_step height width R R S a (R.distance (pixelIndex width a))
        (R.intensity (pixelIndex width a)) hInv ha (Function.update_eq_self _ _).symm
        (Function.update_eq_self _ _).symm ?_ ?_ (max_eq_left hrows.1).symm
        (min_eq_left hrows.2).symm rfl rfl ?_ ?_
      · rw [← hmn, Function.update_eq_self]
      · rw [← hmx, Function.update_eq_self]
      · intro hn
        obtain ⟨b, hb, e⟩ := ht
        exact absurd e (hn b hb)
      · intro _
        have hgt : R.distance (pixelIndex width a) < a.depth * 100 := not_le.1 hacc
        refine ⟨(min_eq_left hgt.le).symm, ?_⟩
        rw [if_neg (not_lt.2 hgt.le), if_neg (ne_of_gt hgt)]
  · -- first arrival at the pixel
    have ht' : ∀ b ∈ S, pixelIndex width b ≠ pixelIndex width a := fun b hb e => ht ⟨b, hb, e⟩
    have hz : R.distance (pixelIndex width a) = 0 := (hInv.1 _ ht').1
    refine mergeSummary_step height width R _ S a (a.depth * 100) a.intensity hInv ha
      ?_ ?_ ?_ ?_ ?_ ?_ ?_ ?_ ?_ ?_
    · unfold processArrivingPixel
      simp only [hidx, if_pos hpos, if_pos (Or.inl hz : R.distance (pixelIndex width a) = 0 ∨
        a.depth * 100 ≤ R.distance (pixelIndex width a))]
    · unfold processArrivingPixel
      simp only [hidx, if_pos hpos, if_pos (Or.inl hz : R.distance (pixelIndex width a) = 0 ∨
        a.depth * 100 ≤ R.distance (pixelIndex width a))]
      rw [if_pos (Or.inr (Or.inr hz))]
    · unfold processArrivingPixel
      simp only [hidx, if_pos hpos, if_pos (Or.inl hz : R.distance (pixelIndex width a) = 0 ∨
        a.depth * 100 ≤ R.distance (pixelIndex width a))]
    · unfold processArrivingPixel
      simp only [hidx, if_pos hpos, if_pos (Or.inl hz : R.distance (pixelIndex width a) = 0 ∨
        a.depth * 100 ≤ R.distance (pixelIndex width a))]
    · unfold processArrivingPixel
      simp only [hidx, if_pos hpos, if_pos (Or.inl hz : R.distance (pixelIndex width a) = 0 ∨
        a.depth * 100 ≤ R.distance (pixelIndex width a))]
      split
      · rename_i h
        exact (max_eq_right h.le).symm
      · rename_i h
        exact (max_eq_left (not_lt.1 h)).symm
    · unfold processArrivingPixel
      simp only [hidx, if_pos hpos, if_pos (Or.inl hz : R.distance (pixelIndex width a) = 0 ∨
        a.depth * 100 ≤ R.distance (pixelIndex width a))]
      split
      · rename_i h
        exact (min_eq_right h.le).symm
      · rename_i h
        exact (min_eq_left (not_lt.1 h)).symm
    · unfold processArrivingPixel
      simp only [hidx, if_pos hpos, if_pos (Or.inl hz : R.distance (pixelIndex width a) = 0 ∨
        a.depth * 100 ≤ R.distance (pixelIndex width a))]
    · unfold processArrivingPixel
      simp only [hidx, if_pos hpos, if_pos (Or.inl hz : R.distance (pixelIndex width a) = 0 ∨
        a.depth * 100 ≤ R.distance (pixelIndex width a))]
    · intro _
      exact ⟨rfl, rfl⟩
    · intro h
      exact absurd h ht

/-- The loop keeps the summary: after the arrivals `l`, the image summarises the arrivals
processed before together with `l`. -/
theorem processArrivingPixels_summary (height width : ℤ) (l : List (PixelData K))
    (R : PointsImage K) (S : List (PixelData K)) (hInv : MergeSummary height width R S)
    (hS : ∀ b ∈ S, ValidPixel height width b) (hl : ∀ b ∈ l, ValidPixel height width b) :
    MergeSummary height width (processArrivingPixels width R l) (l.reverse ++ S) := by
  induction l generalizing R S with
  | nil => exact hInv
  | cons a l ih =>
    have h := ih (processArrivingPixel width R a) (a :: S)
      (processArrivingPixel_summary height width R S a hInv hS
        (hl a (List.mem_cons_self _ _)))
      (fun b hb => by
        rcases List.mem_cons.1 hb with rfl | hb
        · exact hl _ (List.mem_cons_self _ _)
        · exact hS b hb)
      (fun b hb => hl b (List.mem_cons_of_mem _ hb))
    rw [List.reverse_cons, List.append_assoc]
    exact h

theorem initialImage_summary (height width : ℤ) :
    MergeSummary height width (initialImage height width : PointsImage K) [] := by
  refine ⟨fun i _ => ⟨rfl, rfl, rfl, rfl⟩, ?_, ?_, ?_, fun _ => ⟨rfl, rfl⟩, rfl, rfl⟩
  · rintro i ⟨a, ha, _⟩
    exact absurd ha (List.not_mem_nil _)
  · intro a ha
    exact absurd ha (List.not_mem_nil _)
  · intro h
    exact absurd rfl h

end Points2ImageCode

section Points2ImageClaim

variable {K : Type} [LinearOrderedField K]

/-- The summary depends on the arrivals only through membership. -/
theorem mergeSummary_congr (height width : ℤ) (R : PointsImage K) (S S' : List (PixelData K))
    (h : MergeSummary height width R S) (hmem : ∀ a, a ∈ S ↔ a ∈ S') :
    MergeSummary height width R S' := by
  have hnil : S = [] ↔ S' = [] := by
    constructor
    · intro e
      apply List.eq_nil_iff_forall_not_mem.2
      intro a ha
      rw [← hmem, e] at ha
      exact List.not_mem_nil _ ha
    · intro e
      apply List.eq_nil_iff_forall_not_mem.2
      intro a ha
      rw [hmem, e] at ha
      exact List.not_mem_nil _ ha
  obtain ⟨h1, h2, h3, h4, h5, h6, h7⟩ := h
  refine ⟨?_, ?_, ?_, ?_, ?_, h6, h7⟩
  · intro i hi
    exact h1 i (fun a ha => hi a ((hmem a).1 ha))
  · rintro i ⟨a, ha, e⟩
    obtain ⟨⟨b, hb, hb'⟩, hall, hh⟩ := h2 i ⟨a, (hmem a).2 ha, e⟩
    exact ⟨⟨b, (hmem b).1 hb, hb'⟩, fun x hx => hall x ((hmem x).2 hx), hh⟩
  · intro a ha
    exact h3 a ((hmem a).2 ha)
  · intro hne
    obtain ⟨⟨b1, hb1, e1⟩, ⟨b2, hb2, e2⟩⟩ := h4 (fun e => hne (hnil.1 e))
    exact ⟨⟨b1, (hmem b1).1 hb1, e1⟩, ⟨b2, (hmem b2).1 hb2, e2⟩⟩
  · intro e
    exact h5 (hnil.2 e)

/-- Two images that summarise the same arrivals are equal. -/
theorem mergeSummary_unique (height width : ℤ) (R R' : PointsImage K) (S : List (PixelData K))
    (h : MergeSummary height width R S) (h' : MergeSummary height width R' S) : R = R' := by
  obtain ⟨h1, h2, h3, h4, h5, h6, h7⟩ := h
  obtain ⟨g1, g2, g3, g4, g5, g6, g7⟩ := h'
  have hdist : R.distance = R'.distance := by
    funext i
    by_cases ht : ∃ a ∈ S, pixelIndex width a = i
    · obtain ⟨⟨a, ha, ea, da, _⟩, hall, _⟩ := h2 i ht
      obtain ⟨⟨b, hb, eb, db, _⟩, gall, _⟩ := g2 i ht
      apply le_antisymm
      · rw [← db]
        exact (hall b hb eb).1
      · rw [← da]
        exact (gall a ha ea).1
    · have ht' : ∀ a ∈ S, pixelIndex width a ≠ i := fun a ha e => ht ⟨a, ha, e⟩
      rw [(h1 i ht').1, (g1 i ht').1]
  have hint : R.intensity = R'.intensity := by
    funext i
    by_cases ht : ∃ a ∈ S, pixelIndex width a = i
    · obtain ⟨⟨a, ha, ea, da, ia⟩, hall, _⟩ := h2 i ht
      obtain ⟨⟨b, hb, eb, db, ib⟩, gall, _⟩ := g2 i ht
      have hd : R.distance i = R'.distance i := congrFun hdist i
      apply le_antisymm
      · rw [← ia]
        exact (gall a ha ea).2 (by rw [da, hd])
      · rw [← ib]
        exact (hall b hb eb).2 (by rw [db, hd])
    · have ht' : ∀ a ∈ S, pixelIndex width a ≠ i := fun a ha e => ht ⟨a, ha, e⟩
      rw [(h1 i ht').2.1, (g1 i ht').2.1]
  have hmin : R.min_height = R'.min_height := by
    funext i
    by_cases ht : ∃ a ∈ S, pixelIndex width a = i
    · rw [(h2 i ht).2.2.1, (g2 i ht).2.2.1]
    · have ht' : ∀ a ∈ S, pixelIndex width a ≠ i := fun a ha e => ht ⟨a, ha, e⟩
      rw [(h1 i ht').2.2.1, (g1 i ht').2.2.1]
  have hmax : R.max_height = R'.max_height := by
    funext i
    by_cases ht : ∃ a ∈ S, pixelIndex width a = i
    · rw [(h2 i ht).2.2.2, (g2 i ht).2.2.2]
    · have ht' : ∀ a ∈ S, pixelIndex width a ≠ i := fun a ha e => ht ⟨a, ha, e⟩
      rw [(h1 i ht').2.2.2, (g1 i ht').2.2.2]
  have hy : R.max_y = R'.max_y ∧ R.min_y = R'.min_y := by
    by_cases hS : S = []
    · rw [(h5 hS).1, (h5 hS).2, (g5 hS).1, (g5 hS).2]
      exact ⟨rfl, rfl⟩
    · obtain ⟨⟨a1, ha1, e1⟩, ⟨a2, ha2, e2⟩⟩ := h4 hS
      obtain ⟨⟨b1, hb1, f1⟩, ⟨b2, hb2, f2⟩⟩ := g4 hS
      constructor
      · apply le_antisymm
        · rw [e1]
          exact (g3 a1 ha1).1
        · rw [f1]
          exact (h3 b1 hb1).1
      · apply le_antisymm
        · rw [f2]
          exact (h3 b2 hb2).2
        · rw [e2]
          exact (g3 a2 ha2).2
  cases R
  cases R'
  simp only at hdist hint hmin hmax hy h6 h7 g6 g7
  simp only [PointsImage.mk.injEq]
  exact ⟨hint, hdist, hmin, hmax, hy.1, hy.2, by rw [h6, g6], by rw [h7, g7]⟩

/-- C39: for every list of arriving pixels with positions inside the image and strictly
positive depths, after the merge loop (started from the cleared image): a pixel without
arrival holds distance 0; a pixel with arrivals holds the least `100*depth` among its
arrivals as distance and the greatest intensity among the arrivals attaining that depth;
`max_y` and `min_y` are the largest and smallest row among the arrivals (`-1` and `height`
when there is none); and every permutation of the arrivals gives the same image. -/
theorem cloud2Image_merge_order_independent (height width : ℤ)
    (arrivals : List (PixelData K)) (hvalid : ∀ a ∈ arrivals, ValidPixel height width a) :
    (∀ i, (∀ a ∈ arrivals, pixelIndex width a ≠ i) →
      (processArrivingPixels width (initialImage height width) arrivals).distance i = 0) ∧
    (∀ i, (∃ a ∈ arrivals, pixelIndex width a = i) →
      (∃ a ∈ arrivals, pixelIndex width a = i ∧
        a.depth * 100 =
          (processArrivingPixels width (initialImage height width) arrivals).distance i ∧
        a.intensity =
          (processArrivingPixels width (initialImage height width) arrivals).intensity i) ∧
      (∀ a ∈ arrivals, pixelIndex width a = i →
        (processArrivingPixels width (initialImage height width) arrivals).distance i ≤
            a.depth * 100 ∧
          (a.depth * 100 =
              (processArrivingPixels width (initialImage height width) arrivals).distance i →
            a.intensity ≤
              (processArrivingPixels width (initialImage height width) arrivals).intensity
                i))) ∧
    (∀ a ∈ arrivals,
      a.position 1 ≤ (processArrivingPixels width (initialImage height width) arrivals).max_y ∧
      (processArrivingPixels width (initialImage height width) arrivals).min_y ≤
        a.position 1) ∧
    (arrivals ≠ [] →
      (∃ a ∈ arrivals,
        (processArrivingPixels width (initialImage height width) arrivals).max_y =
          a.position 1) ∧
      (∃ a ∈ arrivals,
        (processArrivingPixels width (initialImage height width) arrivals).min_y =
          a.position 1)) ∧
    (arrivals = [] →
      (processArrivingPixels width (initialImage height width) arrivals).max_y = -1 ∧
      (processArrivingPixels width (initialImage height width) arrivals).min_y = height) ∧
    ∀ arrivals', arrivals.Perm arrivals' →
      processArrivingPixels width (initialImage height width) arrivals' =
        processArrivingPixels width (initialImage height width) arrivals := by
  have key : ∀ l : List (PixelData K), (∀ a ∈ l, ValidPixel height width a) →
      MergeSummary height width (processArrivingPixels width (initialImage height width) l)
        l := by
    intro l hl
    have h := processArrivingPixels_summary height width l (initialImage height width) []
      (initialImage_summary height width) (fun b hb => absurd hb (List.not_mem_nil _)) hl
    exact mergeSummary_congr height width _ _ l h (fun a => by simp)
  have hsum := key arrivals hvalid
  refine ⟨fun i hi => (hsum.1 i hi).1, fun i hi => ⟨(hsum.2.1 i hi).1, (hsum.2.1 i hi).2.1⟩,
    hsum.2.2.1, hsum.2.2.2.1, hsum.2.2.2.2.1, ?_⟩
  intro arrivals' hperm
  have hsum' := key arrivals' (fun a ha => hvalid a (hperm.mem_iff.2 ha))
  exact mergeSummary_unique height width _ _ arrivals
    (mergeSummary_congr height width _ _ arrivals hsum' (fun a => hperm.mem_iff.symm)) hsum

end Points2ImageClaim

/-- Evidence for C39: three arrivals in a 2×2 image, two of them at the pixel with index
1; that pixel ends with distance `100` and intensity 7 in the order given and in the
reversed order, and the rows span 0 to 1. -/
theorem cloud2Image_merge_order_independent_witness :
    (∀ a ∈ exampleArrivals, ValidPixel 2 2 a) ∧
    processArrivingPixels 2 (initialImage 2 2) exampleArrivals.reverse =
      processArrivingPixels 2 (initialImage 2 2) exampleArrivals ∧
    (processArrivingPixels 2 (initialImage 2 2) exampleArrivals).distance 1 = 100 ∧
    (processArrivingPixels 2 (initialImage 2 2) exampleArrivals).intensity 1 = 7 ∧
    (processArrivingPixels 2 (initialImage 2 2) exampleArrivals).max_y = 1 ∧
    (processArrivingPixels 2 (initialImage 2 2) exampleArrivals).min_y = 0 := by
  have hv : ∀ a ∈ exampleArrivals, ValidPixel 2 2 a := by
    intro a ha
    simp only [exampleArrivals, List.mem_cons, List.mem_singleton, List.not_mem_nil,
      or_false] at ha
    rcases ha with rfl | rfl | rfl <;> simp [ValidPixel]
  exact ⟨hv, (cloud2Image_merge_order_independent 2 2 exampleArrivals hv).2.2.2.2.2 _
    (List.reverse_perm _).symm, by decide!, by decide!, by decide!, by decide!⟩

end ndt_mapping
